import Mathlib

/-!
# Sequencer strip timing and proxy paths (`strip_time.cc`, `proxy.cc`): shallow embedding

The strips of a scene live in an arena (`Scene.strips`); a `Strip *` of the source is an
index into it (`StripId`), a null pointer is `none`.  Frame numbers are `int` in the source
and mathematical integers here (signed overflow is undefined behaviour in the source and is
outside the model).  Where the source routes a frame number through `float`
(`SEQ_time_start_frame_get`, `SEQ_time_content_end_frame_get`) the value is an integer that
the conversion keeps, so these functions return `Int`; genuinely fractional `float`
quantities (playback rates, sound offsets) are exact rationals.

Functions that recurse through the strip graph take a `fuel` argument bounding the call
depth and return `none` when it is exhausted.  Calls into the sound engine
(`BKE_sound_move_scene_sound`) write no strip field; they are collected as a list of
`SoundMove` records returned next to the scene.

The frame index of `SEQ_give_frame_index` is a `float` in the source and an exact rational
here.  Paths are strings; the fixed lengths of the character buffers of `proxy.cc` are not
modelled, and the path of the data file, a global in the source, is an argument.

The proxy build (`SEQ_proxy_rebuild`, `SEQ_proxy_rebuild_context`) acts on what lies outside
the sources: the renderer, the image writer, the file system, the movie readers and the
proxy builder.  The calls made are recorded as a trace of `ProxyEvent`s in a `ProxyWorld`
next to the set of existing files; the answers of the outside (whether a save succeeds,
whether a stop is requested after a frame, which readers a source opens, whether the builder
starts) are arguments (`save_ok`, `stop_requested`, `ProxyMedia`).  A dereference of a null
pointer in `SEQ_proxy_rebuild_context` is the result `none`.
-/

namespace Blender

/-! ## Data model -/

/-- Modelled from the spec: the strip `type` enumeration of `DNA_sequence_types.h`, which is
not among the sources.  Every effect type has the `SEQ_TYPE_EFFECT` bit set and no other
type has it, so the effect types are gathered under one constructor. -/
inductive StripType where
  | SEQ_TYPE_IMAGE
  | SEQ_TYPE_META
  | SEQ_TYPE_SCENE
  | SEQ_TYPE_MOVIE
  | SEQ_TYPE_SOUND_RAM
  | SEQ_TYPE_SOUND_HD
  | SEQ_TYPE_MOVIECLIP
  | SEQ_TYPE_MASK
  | SEQ_TYPE_EFFECT (kind : Nat)
  deriving DecidableEq, Repr

open StripType

/-- The test `seq->type & SEQ_TYPE_EFFECT`. -/
def StripType.is_effect : StripType → Bool
  | SEQ_TYPE_EFFECT _ => true
  | _ => false

/-- Index of a strip in the arena of its scene; stands for a `Strip *`. -/
abbrev StripId := Nat

/-- A retiming key: its position on the timeline, counted from the start of the strip
(0-based), the normalised content position it maps to, and the freeze-frame marker (the
content position is held over the span that follows the key). -/
structure SeqRetimingKey where
  strip_frame_index : Int
  retiming_factor : ℚ
  flag_freeze_frame : Bool := false
  deriving DecidableEq, Repr

/-- The sound data-block fields read by the timing code (`seq->sound`). -/
structure bSound where
  offset_time : ℚ
  deriving DecidableEq, Repr

/-- The proxy settings of a strip (`seq->data->proxy`): the custom directory and file name,
the two storage bits `SEQ_STORAGE_PROXY_CUSTOM_FILE`, `SEQ_STORAGE_PROXY_CUSTOM_DIR`, and the
build settings: the size and timecode flags, the bit `SEQ_PROXY_SKIP_EXISTING` of
`build_flags`, and the quality. -/
structure StripProxy where
  dirpath : String := ""
  filename : String := ""
  storage_custom_file : Bool := false
  storage_custom_dir : Bool := false
  build_size_flags : Nat := 0
  build_tc_flags : Nat := 0
  build_flags_skip_existing : Bool := false
  quality : Int := 0
  deriving DecidableEq, Repr

/-- The source description of a strip (`seq->data`): the directory of the source, the file
names of its elements (`stripdata`, one per image of an image sequence, a single one
otherwise) and the proxy settings, null when there are none. -/
structure StripData where
  dirpath : String := ""
  stripdata : List String := []
  proxy : Option StripProxy := none
  deriving DecidableEq, Repr

/-- A movie reader (`MovieReader *`) as far as `proxy.cc` looks at it: an identifier, and
the proxy sizes that exist for it (`MOV_get_existing_proxies`), one bit per size. -/
structure MovieReader where
  id : Nat
  existing_proxies : Nat := 0
  deriving DecidableEq, Repr

/-- The reader of one view of a movie strip (`StripAnim`); `anim` is null when the file could
not be opened. -/
structure StripAnim where
  anim : Option MovieReader
  deriving DecidableEq, Repr

/-- The view layouts of an image strip (`seq->views_format`). -/
inductive ViewsFormat where
  | R_IMF_VIEWS_INDIVIDUAL
  | R_IMF_VIEWS_STEREO_3D
  | R_IMF_VIEWS_MULTIVIEW
  deriving DecidableEq, Repr

/-- The fields of `Strip` read or written by `strip_time.cc` and by `proxy.cc`.  The flag
bits tested by the source are separate booleans. -/
structure Strip where
  type : StripType
  start : Int
  len : Int
  startofs : Int
  endofs : Int
  anim_startofs : Int
  anim_endofs : Int
  startdisp : Int
  enddisp : Int
  machine : Int
  seq1 : Option StripId
  seq2 : Option StripId
  seqbase : List StripId
  retiming_keys : List SeqRetimingKey
  media_playback_rate : ℚ
  strobe : ℚ
  sound : Option bSound
  sound_offset : ℚ
  scene_sound : Option Nat
  flag_auto_playback_rate : Bool
  flag_reverse_frames : Bool
  flag_single_frame_content : Bool
  flag_select : Bool
  data : StripData := {}
  flag_use_proxy : Bool := false
  views_format : ViewsFormat := ViewsFormat.R_IMF_VIEWS_INDIVIDUAL
  anims : List StripAnim := []
  deriving DecidableEq, Repr

/-- The strip read through an index that is not in the arena: every field zero or empty. -/
def Strip.null : Strip where
  type := SEQ_TYPE_IMAGE
  start := 0
  len := 0
  startofs := 0
  endofs := 0
  anim_startofs := 0
  anim_endofs := 0
  startdisp := 0
  enddisp := 0
  machine := 0
  seq1 := none
  seq2 := none
  seqbase := []
  retiming_keys := []
  media_playback_rate := 0
  strobe := 0
  sound := none
  sound_offset := 0
  scene_sound := none
  flag_auto_playback_rate := false
  flag_reverse_frames := false
  flag_single_frame_content := false
  flag_select := false

/-- The project-level proxy settings of the editing data (`scene->ed`): whether
`proxy_storage` is `SEQ_EDIT_PROXY_DIR_STORAGE`, and the project proxy directory. -/
structure Editing where
  proxy_storage_is_dir_storage : Bool := false
  proxy_dir : String := ""
  deriving DecidableEq, Repr

/-- The scene: render settings `r.frs_sec`, `r.frs_sec_base`, the constant `MAXFRAME` (a
macro of `DNA_scene_types.h`, not among the sources, carried as a parameter), the arena
of all strips, the frame range `r.sfra`, `r.efra` (with the values of a new scene unless
given), the editing data, the bit `R_MULTIVIEW` of `r.scemode` and the number of views of
the render settings (`BKE_scene_multiview_num_views_get`). -/
structure Scene where
  frs_sec : Int
  frs_sec_base : ℚ
  MAXFRAME : Int
  strips : List Strip
  sfra : Int := 1
  efra : Int := 250
  ed : Editing := {}
  multiview : Bool := false
  multiview_num_views : Nat := 1
  deriving DecidableEq, Repr

/-- Dereference of a strip pointer. -/
def Scene.strip (sc : Scene) (i : StripId) : Strip :=
  sc.strips.getD i Strip.null

/-- In-place update of the strip behind a pointer. -/
def Scene.modify (sc : Scene) (i : StripId) (f : Strip → Strip) : Scene :=
  { sc with strips := sc.strips.set i (f (sc.strip i)) }

/-- One recorded call of `BKE_sound_move_scene_sound`. -/
structure SoundMove where
  handle : Nat
  startframe : Int
  endframe : Int
  frameskip : Int
  audio_offset : ℚ
  deriving DecidableEq, Repr

/-- Conversion `float → int` of C++: truncation toward zero. -/
def float_to_int (q : ℚ) : Int :=
  if 0 ≤ q then Int.floor q else Int.ceil q

/-- Modelled from the spec: `round_fl_to_int` of `BLI_math_base`, absent from the sources
("a rounded sound offset"): rounding to the nearest integer, halves away from zero. -/
def round_fl_to_int (q : ℚ) : Int :=
  if 0 ≤ q then Int.floor (q + 1 / 2) else Int.ceil (q - 1 / 2)

/-- The macro `FPS`: the scene frame rate `frs_sec / frs_sec_base`. -/
def FPS (sc : Scene) : ℚ :=
  (sc.frs_sec : ℚ) / sc.frs_sec_base

/-! ## Collaborators absent from the sources -/

/-- Modelled from the spec: `SEQ_retiming_is_active` (retiming is inactive with no keys or
fewer than 2). -/
def SEQ_retiming_is_active (seq : Strip) : Bool :=
  decide (1 < seq.retiming_keys.length)

/-- Modelled from the spec: `SEQ_retiming_last_key_get`, the last key of the ordered key
sequence owned by the strip. -/
def SEQ_retiming_last_key_get (seq : Strip) : SeqRetimingKey :=
  seq.retiming_keys.getLastD { strip_frame_index := 0, retiming_factor := 0 }

/-- Modelled from the spec: `SEQ_transform_single_image_check`, true for a strip with a single
frame of content. -/
def SEQ_transform_single_image_check (seq : Strip) : Bool :=
  seq.flag_single_frame_content

/-- The inputs of a strip: the non-null ones among `seq1`, `seq2`. -/
def Strip.inputs (seq : Strip) : List StripId :=
  seq.seq1.toList ++ seq.seq2.toList

/-- Modelled from the spec: `seq_sequence_lookup_effects_by_seq`, the effect strips that
consume the given strip directly (one of their inputs `seq1`, `seq2` is the strip), in arena
order and without repetition. -/
def seq_sequence_lookup_effects_by_seq (sc : Scene) (seq : StripId) : List StripId :=
  (List.range sc.strips.length).filter fun e => decide (seq ∈ (sc.strip e).inputs)

/-- Modelled from the spec: `seq_sequence_lookup_meta_by_seq`, the direct parent meta of a
strip (the strip whose `seqbase` owns it), null for a top-level strip. -/
def seq_sequence_lookup_meta_by_seq (sc : Scene) (seq : StripId) : Option StripId :=
  (List.range sc.strips.length).find? fun m => decide (seq ∈ (sc.strip m).seqbase)

/-! ## Strip range model -/

def SEQ_time_media_playback_rate_factor_get (sc : Scene) (seq : Strip) : ℚ :=
  if seq.flag_auto_playback_rate = false then 1
  else if seq.media_playback_rate = 0 then 1
  else
    let scene_playback_rate : ℚ := (sc.frs_sec : ℚ) / sc.frs_sec_base
    seq.media_playback_rate / scene_playback_rate

def seq_time_strip_original_content_length_get (sc : Scene) (seq : Strip) : Int :=
  if seq.type = SEQ_TYPE_SOUND_RAM then seq.len
  else float_to_int ((seq.len : ℚ) / SEQ_time_media_playback_rate_factor_get sc seq)

def SEQ_time_start_frame_get (seq : Strip) : Int :=
  seq.start

def SEQ_time_get_rounded_sound_offset (sc : Scene) (seq : Strip) : Int :=
  match seq.sound with
  | some sound =>
    if seq.type = SEQ_TYPE_SOUND_RAM then
      round_fl_to_int ((sound.offset_time + seq.sound_offset) * FPS sc)
    else 0
  | none => 0

/-- Modelled from the spec: `SEQ_retiming_key_timeline_frame_get`, the timeline position of a
retiming key.  Keys are 0-based positions within the strip, so the position on the timeline
is the start of the strip plus the key position; it is shifted by the rounded sound offset,
which `SEQ_time_strip_length_get` takes off again. -/
def SEQ_retiming_key_timeline_frame_get (sc : Scene) (seq : Strip) (key : SeqRetimingKey) : Int :=
  SEQ_time_start_frame_get seq + SEQ_time_get_rounded_sound_offset sc seq + key.strip_frame_index

def SEQ_time_strip_length_get (sc : Scene) (seq : Strip) : Int :=
  if SEQ_retiming_is_active seq then
    let last_key_frame :=
      SEQ_retiming_key_timeline_frame_get sc seq (SEQ_retiming_last_key_get seq)
    let sound_offset := SEQ_time_get_rounded_sound_offset sc seq
    last_key_frame + 1 - SEQ_time_start_frame_get seq - sound_offset
  else
    float_to_int ((seq.len : ℚ) / SEQ_time_media_playback_rate_factor_get sc seq)

def SEQ_time_content_end_frame_get (sc : Scene) (seq : Strip) : Int :=
  SEQ_time_start_frame_get seq + SEQ_time_strip_length_get sc seq

def SEQ_time_left_handle_frame_get (_sc : Scene) (seq : Strip) : Int :=
  if seq.seq1.isSome || seq.seq2.isSome then seq.startdisp
  else seq.start + seq.startofs

def SEQ_time_right_handle_frame_get (sc : Scene) (seq : Strip) : Int :=
  if seq.seq1.isSome || seq.seq2.isSome then seq.enddisp
  else SEQ_time_content_end_frame_get sc seq - seq.endofs

/-! ## Range propagation -/

/-- The tail of `seq_time_effect_range_set`: swap of inverted bounds, then the stored
offsets, start and length are pinned to the derived span. -/
def effect_range_finish (seq : Strip) : Strip :=
  let seq : Strip :=
    if seq.startdisp > seq.enddisp then
      { seq with startdisp := seq.enddisp, enddisp := seq.startdisp }
    else seq
  let seq : Strip :=
    { seq with startofs := 0, endofs := 0, anim_startofs := 0, anim_endofs := 0 }
  let seq : Strip := { seq with start := seq.startdisp }
  { seq with len := seq.enddisp - seq.startdisp }

def seq_time_effect_range_set (sc : Scene) (seq : StripId) : Scene :=
  match (sc.strip seq).seq1, (sc.strip seq).seq2 with
  | none, none => sc
  | some s1, some s2 =>
    let sc := sc.modify seq fun s =>
      { s with startdisp := max (SEQ_time_left_handle_frame_get sc (sc.strip s1))
                                (SEQ_time_left_handle_frame_get sc (sc.strip s2)) }
    let sc := sc.modify seq fun s =>
      { s with enddisp := min (SEQ_time_right_handle_frame_get sc (sc.strip s1))
                              (SEQ_time_right_handle_frame_get sc (sc.strip s2)) }
    sc.modify seq effect_range_finish
  | some s1, none =>
    let sc := sc.modify seq fun s =>
      { s with startdisp := SEQ_time_right_handle_frame_get sc (sc.strip s1) }
    let sc := sc.modify seq fun s =>
      { s with enddisp := SEQ_time_left_handle_frame_get sc (sc.strip s1) }
    sc.modify seq effect_range_finish
  | none, some s2 =>
    let sc := sc.modify seq fun s =>
      { s with startdisp := SEQ_time_right_handle_frame_get sc (sc.strip s2) }
    let sc := sc.modify seq fun s =>
      { s with enddisp := SEQ_time_left_handle_frame_get sc (sc.strip s2) }
    sc.modify seq effect_range_finish

def seq_time_update_effects_strip_range : Nat → Scene → List StripId → Option Scene
  | 0, _, _ => none
  | fuel + 1, sc, effects =>
    let sc := effects.foldl seq_time_effect_range_set sc
    effects.foldlM
      (fun sc seq =>
        seq_time_update_effects_strip_range fuel sc (seq_sequence_lookup_effects_by_seq sc seq))
      sc

def metaseq_start (metaseq : Strip) : Int :=
  metaseq.start + metaseq.startofs

def metaseq_end (metaseq : Strip) : Int :=
  metaseq.start + metaseq.len - metaseq.endofs

/-- The body of the sound/scene branch of `seq_update_sound_bounds_recursive_impl`: the call
of `BKE_sound_move_scene_sound` issued for one strip with a bound scene sound. -/
def sound_bounds_of_strip (seq : Strip) (start end_ : Int) : List SoundMove :=
  match seq.scene_sound with
  | none => []
  | some handle =>
    let startofs : Int :=
      if seq.startofs + seq.start < start then start - seq.start else seq.startofs
    let endofs : Int :=
      if seq.start + seq.len - seq.endofs > end_ then seq.start + seq.len - end_
      else seq.endofs
    let offset_time : ℚ :=
      match seq.sound with
      | some sound => sound.offset_time + seq.sound_offset
      | none => 0
    [{ handle := handle
       startframe := seq.start + startofs
       endframe := seq.start + seq.len - endofs
       frameskip := startofs + seq.anim_startofs
       audio_offset := offset_time }]

def seq_update_sound_bounds_recursive_impl :
    Nat → Scene → StripId → Int → Int → Option (List SoundMove)
  | 0, _, _, _, _ => none
  | fuel + 1, sc, metaseq, start, end_ =>
    (sc.strip metaseq).seqbase.foldlM
      (fun moves child =>
        let seq := sc.strip child
        if seq.type = SEQ_TYPE_META then
          (seq_update_sound_bounds_recursive_impl fuel sc child
            (max start (metaseq_start seq)) (min end_ (metaseq_end seq))).map
            fun sub => moves ++ sub
        else if seq.type = SEQ_TYPE_SOUND_RAM ∨ seq.type = SEQ_TYPE_SCENE then
          some (moves ++ sound_bounds_of_strip seq start end_)
        else some moves)
      []

def seq_update_sound_bounds_recursive (fuel : Nat) (sc : Scene) (metaseq : StripId) :
    Option (List SoundMove) :=
  seq_update_sound_bounds_recursive_impl fuel sc metaseq
    (metaseq_start (sc.strip metaseq)) (metaseq_end (sc.strip metaseq))

/-- The loop of `SEQ_time_update_meta_strip_range` over the children: the pair
`(min, max)` of their handles, started from the sentinels `MAXFRAME * 2`, `-MAXFRAME * 2`. -/
def meta_children_bounds (sc : Scene) (children : List StripId) : Int × Int :=
  children.foldl
    (fun mm child =>
      (min (SEQ_time_left_handle_frame_get sc (sc.strip child)) mm.1,
       max (SEQ_time_right_handle_frame_get sc (sc.strip child)) mm.2))
    (sc.MAXFRAME * 2, -sc.MAXFRAME * 2)

/-- The assignments of `SEQ_time_update_meta_strip_range` to the fields of the meta strip, in
source order. -/
def meta_range_apply (sc : Scene) (strip_start strip_end min max : Int) (seq_meta : Strip) :
    Strip :=
  let s : Strip := { seq_meta with start := min + seq_meta.anim_startofs }
  let s : Strip := { s with len := max - min }
  let s : Strip := { s with len := s.len - s.anim_startofs }
  let s : Strip := { s with len := s.len - s.anim_endofs }
  let s : Strip := { s with startofs := strip_start - s.start }
  let s : Strip := { s with startdisp := strip_start }
  let s : Strip := { s with endofs := s.start + SEQ_time_strip_length_get sc s - strip_end }
  { s with enddisp := strip_end }

def SEQ_time_update_meta_strip_range :
    Nat → Scene → Option StripId → Option (Scene × List SoundMove)
  | 0, _, _ => none
  | _ + 1, sc, none => some (sc, [])
  | fuel + 1, sc, some seq_meta =>
    if (sc.strip seq_meta).seqbase = [] then some (sc, [])
    else
      let strip_start := SEQ_time_left_handle_frame_get sc (sc.strip seq_meta)
      let strip_end := SEQ_time_right_handle_frame_get sc (sc.strip seq_meta)
      let mm := meta_children_bounds sc (sc.strip seq_meta).seqbase
      let sc := sc.modify seq_meta (meta_range_apply sc strip_start strip_end mm.1 mm.2)
      (seq_update_sound_bounds_recursive fuel sc seq_meta).bind fun moves =>
      (seq_time_update_effects_strip_range fuel sc
        (seq_sequence_lookup_effects_by_seq sc seq_meta)).bind fun sc =>
      (SEQ_time_update_meta_strip_range fuel sc
        (seq_sequence_lookup_meta_by_seq sc seq_meta)).map fun r =>
      (r.1, moves ++ r.2)

/-- The common tail of the handle setters: effect cascade from the strip, then the meta
cascade from its parent. -/
def update_effects_and_meta (fuel : Nat) (sc : Scene) (seq : StripId) :
    Option (Scene × List SoundMove) :=
  (seq_time_update_effects_strip_range fuel sc
    (seq_sequence_lookup_effects_by_seq sc seq)).bind fun sc =>
  SEQ_time_update_meta_strip_range fuel sc (seq_sequence_lookup_meta_by_seq sc seq)

def SEQ_time_start_frame_set (fuel : Nat) (sc : Scene) (seq : StripId) (timeline_frame : Int) :
    Option (Scene × List SoundMove) :=
  let sc := sc.modify seq fun s => { s with start := timeline_frame }
  update_effects_and_meta fuel sc seq

def SEQ_time_left_handle_frame_set (fuel : Nat) (sc : Scene) (seq : StripId)
    (timeline_frame : Int) : Option (Scene × List SoundMove) :=
  let right_handle_orig_frame := SEQ_time_right_handle_frame_get sc (sc.strip seq)
  let timeline_frame :=
    if timeline_frame ≥ right_handle_orig_frame then right_handle_orig_frame - 1
    else timeline_frame
  let offset := timeline_frame - SEQ_time_start_frame_get (sc.strip seq)
  let r : Option (Scene × List SoundMove) :=
    if SEQ_transform_single_image_check (sc.strip seq) then
      (SEQ_time_start_frame_set fuel sc seq timeline_frame).map fun r =>
        (r.1.modify seq fun s => { s with endofs := s.endofs + offset }, r.2)
    else
      some (sc.modify seq fun s => { s with startofs := offset }, [])
  r.bind fun r =>
  let sc := r.1.modify seq fun s => { s with startdisp := timeline_frame }
  (update_effects_and_meta fuel sc seq).map fun r2 => (r2.1, r.2 ++ r2.2)

def SEQ_time_right_handle_frame_set (fuel : Nat) (sc : Scene) (seq : StripId)
    (timeline_frame : Int) : Option (Scene × List SoundMove) :=
  let left_handle_orig_frame := SEQ_time_left_handle_frame_get sc (sc.strip seq)
  let timeline_frame :=
    if timeline_frame ≤ left_handle_orig_frame then left_handle_orig_frame + 1
    else timeline_frame
  let sc := sc.modify seq fun s =>
    { s with endofs := SEQ_time_content_end_frame_get sc s - timeline_frame }
  let sc := sc.modify seq fun s => { s with enddisp := timeline_frame }
  update_effects_and_meta fuel sc seq

def seq_time_translate_handles (fuel : Nat) (sc : Scene) (seq : StripId) (offset : Int) :
    Option (Scene × List SoundMove) :=
  let sc := sc.modify seq fun s => { s with startofs := s.startofs + offset }
  let sc := sc.modify seq fun s => { s with endofs := s.endofs - offset }
  let sc := sc.modify seq fun s => { s with startdisp := s.startdisp + offset }
  let sc := sc.modify seq fun s => { s with enddisp := s.enddisp - offset }
  update_effects_and_meta fuel sc seq

def seq_time_slip_strip_ex :
    Nat → Scene → StripId → Int → ℚ → Bool → Option Scene
  | 0, _, _, _, _, _ => none
  | fuel + 1, sc, seq, delta, subframe_delta, recursed =>
    let sc :=
      if (sc.strip seq).type = SEQ_TYPE_SOUND_RAM ∧ subframe_delta ≠ 0 then
        sc.modify seq fun s => { s with sound_offset := s.sound_offset + subframe_delta / FPS sc }
      else sc
    if delta = 0 then some sc
    else if (sc.strip seq).seq1 ≠ none ∨ (sc.strip seq).seq2 ≠ none then some sc
    else if recursed = false ∧ (sc.strip seq).type.is_effect = true then some sc
    else if (sc.strip seq).type = SEQ_TYPE_META ∧ (sc.strip seq).seqbase = [] then some sc
    else
      let children : Option Scene :=
        if (sc.strip seq).type = SEQ_TYPE_META then
          (sc.strip seq).seqbase.foldlM
            (fun sc seq_child =>
              seq_time_slip_strip_ex fuel sc seq_child delta subframe_delta true)
            sc
        else some sc
      children.bind fun sc =>
      let sc := sc.modify seq fun s => { s with start := s.start + delta }
      let sc :=
        if recursed = false then
          let sc := sc.modify seq fun s => { s with startofs := s.startofs - delta }
          sc.modify seq fun s => { s with endofs := s.endofs + delta }
        else sc
      let sc := sc.modify seq fun s =>
        { s with startdisp := SEQ_time_left_handle_frame_get sc s }
      let sc := sc.modify seq fun s =>
        { s with enddisp := SEQ_time_right_handle_frame_get sc s }
      seq_time_update_effects_strip_range fuel sc (seq_sequence_lookup_effects_by_seq sc seq)

def SEQ_time_slip_strip (fuel : Nat) (sc : Scene) (seq : StripId) (delta : Int)
    (subframe_delta : ℚ) : Option Scene :=
  seq_time_slip_strip_ex fuel sc seq delta subframe_delta false

/-! ## Hypotheses on the strip graph -/

/-- The effect-input relation is acyclic: `rk` strictly increases from every input to the
effect that consumes it. -/
def EffectsAcyclic (sc : Scene) (rk : StripId → Nat) : Prop :=
  ∀ e, e < sc.strips.length → ∀ a ∈ (sc.strip e).inputs, rk a < rk e

/-- The meta hierarchy is a forest in which an effect lives in the same strip list as its
inputs: `lvl` is the nesting depth, one more for a child than for the meta that owns it and
the same for an effect and its inputs. -/
def Graded (sc : Scene) (lvl : StripId → Nat) : Prop :=
  (∀ m, m < sc.strips.length → ∀ c ∈ (sc.strip m).seqbase, lvl c = lvl m + 1) ∧
  (∀ e, e < sc.strips.length → ∀ a ∈ (sc.strip e).inputs, lvl a = lvl e)

/-- A strip that owns children is a meta strip, not an effect: it has no inputs. -/
def MetasHaveNoInputs (sc : Scene) : Prop :=
  ∀ m, m < sc.strips.length → (sc.strip m).seqbase ≠ [] → (sc.strip m).inputs = []

/-- Well-formedness of the strip graph of a scene, as its ownership rules give it. -/
structure WellFormed (sc : Scene) (rk lvl : StripId → Nat) : Prop where
  acyclic : EffectsAcyclic sc rk
  graded : Graded sc lvl
  metas : MetasHaveNoInputs sc

/-! ## Concrete scenes -/

/-- Two source strips on frames [0,10) and [5,15) and an effect of both. -/
def scene_overlapping_inputs : Scene where
  frs_sec := 24
  frs_sec_base := 1
  MAXFRAME := 1048574
  strips := [
    { Strip.null with type := SEQ_TYPE_MOVIE, start := 0, len := 10, enddisp := 10 },
    { Strip.null with type := SEQ_TYPE_MOVIE, start := 5, len := 10, startdisp := 5,
                      enddisp := 15 },
    { Strip.null with type := SEQ_TYPE_EFFECT 0, seq1 := some 0, seq2 := some 1 } ]

/-- Two source strips on frames [0,10) and [20,30), which do not overlap, and an effect of
both. -/
def scene_disjoint_inputs : Scene where
  frs_sec := 24
  frs_sec_base := 1
  MAXFRAME := 1048574
  strips := [
    { Strip.null with type := SEQ_TYPE_MOVIE, start := 0, len := 10, enddisp := 10 },
    { Strip.null with type := SEQ_TYPE_MOVIE, start := 20, len := 10, startdisp := 20,
                      enddisp := 30 },
    { Strip.null with type := SEQ_TYPE_EFFECT 0, seq1 := some 0, seq2 := some 1 } ]

/-- A movie strip of 10 frames starting at frame 0 whose first 2 frames are trimmed. -/
def strip_trimmed : Strip :=
  { Strip.null with type := SEQ_TYPE_MOVIE, start := 0, len := 10, startofs := 2,
                    startdisp := 2, enddisp := 10 }

/-! ## Notions used in the statements and proofs -/

/-- The display bounds that `seq_time_effect_range_set` derives from the inputs of an effect
strip before the swap, read off a scene in which the strip is not its own input; `none`
for a strip without inputs. -/
def effect_range_bounds (sc : Scene) (seq : Strip) : Option (Int × Int) :=
  match seq.seq1, seq.seq2 with
  | none, none => none
  | some s1, some s2 =>
    some (max (SEQ_time_left_handle_frame_get sc (sc.strip s1))
              (SEQ_time_left_handle_frame_get sc (sc.strip s2)),
          min (SEQ_time_right_handle_frame_get sc (sc.strip s1))
              (SEQ_time_right_handle_frame_get sc (sc.strip s2)))
  | some s1, none =>
    some (SEQ_time_right_handle_frame_get sc (sc.strip s1),
          SEQ_time_left_handle_frame_get sc (sc.strip s1))
  | none, some s2 =>
    some (SEQ_time_right_handle_frame_get sc (sc.strip s2),
          SEQ_time_left_handle_frame_get sc (sc.strip s2))

/-- The result of `seq_time_effect_range_set` on the effect strip itself, read off a scene in
which the strip is not its own input. -/
def effect_range_strip (sc : Scene) (seq : Strip) : Strip :=
  match effect_range_bounds sc seq with
  | none => seq
  | some b => effect_range_finish { seq with startdisp := b.1, enddisp := b.2 }

/-- The fields of a strip that neither the range propagation nor the handle setters write:
everything but the eight frame fields and the sound offset. -/
def Strip.static (s : Strip) : Strip :=
  { s with start := 0, len := 0, startofs := 0, endofs := 0, anim_startofs := 0,
           anim_endofs := 0, startdisp := 0, enddisp := 0, sound_offset := 0 }

/-- Two scenes with the same strip graph: same render settings, same number of strips, and
strips that differ in their frame fields and sound offsets only. -/
def SameShape (sc sc2 : Scene) : Prop :=
  sc2.frs_sec = sc.frs_sec ∧ sc2.frs_sec_base = sc.frs_sec_base ∧
  sc2.MAXFRAME = sc.MAXFRAME ∧ sc2.strips.length = sc.strips.length ∧
  ∀ i, (sc2.strip i).static = (sc.strip i).static

/-- Strip `f` consumes strip `s` through a chain of one or more effects. -/
inductive TransConsumes (sc : Scene) (s : StripId) : StripId → Prop where
  | direct (f : StripId) :
      f < sc.strips.length → s ∈ (sc.strip f).inputs → TransConsumes sc s f
  | step (g f : StripId) :
      TransConsumes sc s g → f < sc.strips.length → g ∈ (sc.strip f).inputs →
      TransConsumes sc s f

/-- The range of strip `f` is what `seq_time_effect_range_set` derives from its inputs. -/
def StripConsistent (sc : Scene) (f : StripId) : Prop :=
  effect_range_strip sc (sc.strip f) = sc.strip f

/-- A movie strip on [0,10), an effect of it, and a second effect of the first effect and the
movie strip; the ranges of both effects are stale. -/
def scene_effect_chain : Scene where
  frs_sec := 24
  frs_sec_base := 1
  MAXFRAME := 1048574
  strips := [
    { Strip.null with type := SEQ_TYPE_MOVIE, start := 0, len := 10, enddisp := 10 },
    { Strip.null with type := SEQ_TYPE_EFFECT 1, seq1 := some 0, startdisp := 3,
                      enddisp := 4 },
    { Strip.null with type := SEQ_TYPE_EFFECT 0, seq1 := some 1, seq2 := some 0,
                      startdisp := 7, enddisp := 9 } ]

/-- The writes of `SEQ_time_update_meta_strip_range` to the meta strip itself: its new fields
are computed from its handles and the handles of its children before the call. -/
def meta_range_step (sc : Scene) (seq_meta : StripId) : Scene :=
  sc.modify seq_meta
    (meta_range_apply sc
      (SEQ_time_left_handle_frame_get sc (sc.strip seq_meta))
      (SEQ_time_right_handle_frame_get sc (sc.strip seq_meta))
      (meta_children_bounds sc (sc.strip seq_meta).seqbase).1
      (meta_children_bounds sc (sc.strip seq_meta).seqbase).2)

/-- A top-level meta (strip 0) that owns a nested meta (strip 1), a movie strip (strip 2) and
an effect of the nested meta and the movie (strip 5); the nested meta owns two movie strips
(strips 3 and 4) on [5,25) and [10,40).  The stored range of the nested meta, [0,10), is
stale. -/
def scene_nested_meta : Scene where
  frs_sec := 24
  frs_sec_base := 1
  MAXFRAME := 1048574
  strips := [
    { Strip.null with type := SEQ_TYPE_META, start := 0, len := 50, enddisp := 50,
                      seqbase := [1, 2, 5] },
    { Strip.null with type := SEQ_TYPE_META, start := 0, len := 10, enddisp := 10,
                      seqbase := [3, 4] },
    { Strip.null with type := SEQ_TYPE_MOVIE, start := 20, len := 30, startdisp := 20,
                      enddisp := 50 },
    { Strip.null with type := SEQ_TYPE_MOVIE, start := 5, len := 20, startdisp := 5,
                      enddisp := 25 },
    { Strip.null with type := SEQ_TYPE_MOVIE, start := 10, len := 30, startdisp := 10,
                      enddisp := 40 },
    { Strip.null with type := SEQ_TYPE_EFFECT 0, seq1 := some 1, seq2 := some 2,
                      startdisp := 20, enddisp := 10 } ]

/-- Nesting depth of the strips of `scene_nested_meta`. -/
def lvl_nested_meta (i : StripId) : Nat :=
  if i = 0 then 0 else if i = 3 ∨ i = 4 then 2 else 1

/-- A meta (strip 0) that owns one movie strip (strip 1) placed on frames
[3000000, 3000010), beyond twice `MAXFRAME`. -/
def scene_far_child : Scene where
  frs_sec := 24
  frs_sec_base := 1
  MAXFRAME := 1048574
  strips := [
    { Strip.null with type := SEQ_TYPE_META, start := 3000000, len := 10,
                      startdisp := 3000000, enddisp := 3000010, seqbase := [1] },
    { Strip.null with type := SEQ_TYPE_MOVIE, start := 3000000, len := 10,
                      startdisp := 3000000, enddisp := 3000010 } ]

/-- One movie strip on frames [0,10) with display mirrors equal to its handles. -/
def scene_one_movie : Scene where
  frs_sec := 24
  frs_sec_base := 1
  MAXFRAME := 1048574
  strips := [
    { Strip.null with type := SEQ_TYPE_MOVIE, start := 0, len := 10, startdisp := 0,
                      enddisp := 10 } ]

/-- One single-image strip (one frame of content) held over frames [0,11), with display
mirrors equal to its handles. -/
def scene_single_image : Scene where
  frs_sec := 24
  frs_sec_base := 1
  MAXFRAME := 1048574
  strips := [
    { Strip.null with type := SEQ_TYPE_IMAGE, flag_single_frame_content := true, start := 0,
                      len := 1, endofs := -10, startdisp := 0, enddisp := 11 } ]

/-! ## Frame index of a timeline frame -/

/-- The helper `max_ff` of `BLI_math_base`. -/
def max_ff (a b : ℚ) : ℚ :=
  if a > b then a else b

/-- Modelled from the spec: `clamp_f` of `BLI_math_base`, absent from the sources (the clamp
to `[min, max]`): a value above `max` gives `max`, otherwise a value below `min` gives
`min`. -/
def clamp_f (value min max : ℚ) : ℚ :=
  if value > max then max else if value < min then min else value

/-- The C library function `fmodf`: the remainder of `x / y` with the quotient truncated
toward zero. -/
def fmodf (x y : ℚ) : ℚ :=
  x - (float_to_int (x / y) : ℚ) * y

/-- Modelled from the spec: the bracketing pair of keys for a frame index.  Two adjacent keys
that share one timeline position are a transition and are skipped; among the remaining
adjacent pairs the last one that starts at or before the frame index is taken, the first one
if none does. -/
def retiming_segment : List SeqRetimingKey → ℚ → Option (SeqRetimingKey × SeqRetimingKey)
  | k1 :: k2 :: rest, frame_index =>
    if k1.strip_frame_index = k2.strip_frame_index then
      retiming_segment (k2 :: rest) frame_index
    else
      match retiming_segment (k2 :: rest) frame_index with
      | some later =>
        if (later.1.strip_frame_index : ℚ) ≤ frame_index then some later else some (k1, k2)
      | none => some (k1, k2)
  | _, _ => none

/-- Modelled from the spec: `seq_retiming_evaluate`, the content position for a frame index
as a fraction of `frame_index_max` (the caller rescales it): linear interpolation between
the bracketing keys on an ordinary segment, the position of the starting key on a freeze
segment; without any segment, the position of the last key. -/
def seq_retiming_evaluate (seq : Strip) (frame_index : ℚ) : ℚ :=
  match retiming_segment seq.retiming_keys frame_index with
  | none => (SEQ_retiming_last_key_get seq).retiming_factor
  | some (start_key, end_key) =>
    if start_key.flag_freeze_frame then start_key.retiming_factor
    else
      let segment_length : ℚ := end_key.strip_frame_index - start_key.strip_frame_index
      let segment_frame_index : ℚ := frame_index - start_key.strip_frame_index
      start_key.retiming_factor
        + segment_frame_index / segment_length
          * (end_key.retiming_factor - start_key.retiming_factor)

/-- The local `end` of `SEQ_give_frame_index` at the test against `sta`: the last content
frame, or the right handle for an effect-type strip. -/
def frame_index_end (sc : Scene) (seq : Strip) : ℚ :=
  if seq.type.is_effect then (SEQ_time_right_handle_frame_get sc seq : ℚ)
  else (SEQ_time_content_end_frame_get sc seq : ℚ) - 1

/-- The local `frame_index_max` of `SEQ_give_frame_index`. -/
def frame_index_max (sc : Scene) (seq : Strip) : ℚ :=
  if seq.type.is_effect then
    (SEQ_time_right_handle_frame_get sc seq : ℚ) - (SEQ_time_start_frame_get seq : ℚ)
  else (seq.len : ℚ) - 1

def SEQ_give_frame_index (sc : Scene) (seq : Strip) (timeline_frame : ℚ) : ℚ :=
  let sta : ℚ := SEQ_time_start_frame_get seq
  let end_ : ℚ := frame_index_end sc seq
  let frame_index_max : ℚ := frame_index_max sc seq
  if end_ < sta then -1
  else if seq.type = SEQ_TYPE_IMAGE ∧ SEQ_transform_single_image_check seq = true then 0
  else
    let frame_index : ℚ :=
      if seq.flag_reverse_frames then end_ - timeline_frame else timeline_frame - sta
    let frame_index : ℚ := max_ff frame_index 0
    let frame_index : ℚ := frame_index * SEQ_time_media_playback_rate_factor_get sc seq
    let frame_index : ℚ :=
      if SEQ_retiming_is_active seq then seq_retiming_evaluate seq frame_index * frame_index_max
      else frame_index
    let frame_index : ℚ := clamp_f frame_index 0 frame_index_max
    if seq.strobe > 1 then frame_index - fmodf frame_index seq.strobe else frame_index

/-! ## Gap detection -/

/-- The rectangle `rctf`; its coordinates are `float` in the source and hold integers
here. -/
structure rctf where
  xmin : Int
  xmax : Int
  ymin : Int
  ymax : Int
  deriving DecidableEq, Repr

structure GapInfo where
  gap_start_frame : Int
  gap_length : Int
  gap_exists : Bool
  deriving DecidableEq, Repr

def SEQ_timeline_init_boundbox (sc : Scene) : rctf where
  xmin := sc.sfra
  xmax := sc.efra + 1
  ymin := 1
  ymax := 8

/-- The strip list is a `List StripId`; a null `seqbase` is `none`. -/
def SEQ_timeline_expand_boundbox (sc : Scene) (seqbase : Option (List StripId)) (rect : rctf) :
    rctf :=
  match seqbase with
  | none => rect
  | some strips =>
    strips.foldl
      (fun rect seq =>
        let rect : rctf :=
          if rect.xmin > SEQ_time_left_handle_frame_get sc (sc.strip seq) - 1 then
            { rect with xmin := SEQ_time_left_handle_frame_get sc (sc.strip seq) - 1 }
          else rect
        let rect : rctf :=
          if rect.xmax < SEQ_time_right_handle_frame_get sc (sc.strip seq) + 1 then
            { rect with xmax := SEQ_time_right_handle_frame_get sc (sc.strip seq) + 1 }
          else rect
        if rect.ymax < (sc.strip seq).machine + 1 then
          { rect with ymax := (sc.strip seq).machine + 1 }
        else rect)
      rect

def SEQ_timeline_boundbox (sc : Scene) (seqbase : Option (List StripId)) : rctf :=
  SEQ_timeline_expand_boundbox sc seqbase (SEQ_timeline_init_boundbox sc)

def SEQ_time_strip_intersects_frame (sc : Scene) (seq : Strip) (timeline_frame : Int) : Bool :=
  decide (SEQ_time_left_handle_frame_get sc seq ≤ timeline_frame) &&
    decide (SEQ_time_right_handle_frame_get sc seq > timeline_frame)

/-- Modelled from the spec: `SEQ_query_all_strips`, the strips of the given strip list (the
channel set that is scanned), each once. -/
def SEQ_query_all_strips (seqbase : List StripId) : List StripId :=
  seqbase.dedup

def strip_exists_at_frame (sc : Scene) (strips : List StripId) (timeline_frame : Int) : Bool :=
  strips.any fun seq => SEQ_time_strip_intersects_frame sc (sc.strip seq) timeline_frame

/-- The loop `for (; timeline_frame >= sfra; timeline_frame--)` of `seq_time_gap_info_get`
that stops at a covered frame; the first argument bounds the number of iterations and the
result is the final `timeline_frame`. -/
def gap_search_backward (sc : Scene) (strips : List StripId) (sfra : Int) : Nat → Int → Int
  | 0, timeline_frame => timeline_frame
  | n + 1, timeline_frame =>
    if timeline_frame ≥ sfra then
      if strip_exists_at_frame sc strips timeline_frame then timeline_frame
      else gap_search_backward sc strips sfra n (timeline_frame - 1)
    else timeline_frame

/-- The loops `for (; timeline_frame <= efra; timeline_frame++)` of `seq_time_gap_info_get`
that stop at the first frame whose coverage is `target`: the frame at which the loop breaks,
`none` when it runs to the end; the first argument bounds the number of iterations. -/
def gap_search_forward (sc : Scene) (strips : List StripId) (efra : Int) (target : Bool) :
    Nat → Int → Option Int
  | 0, _ => none
  | n + 1, timeline_frame =>
    if timeline_frame ≤ efra then
      if strip_exists_at_frame sc strips timeline_frame = target then some timeline_frame
      else gap_search_forward sc strips efra target n (timeline_frame + 1)
    else none

/-- The structure `r_gap_info` is passed in and returned: the fields that the source does not
assign keep the value they had. -/
def seq_time_gap_info_get (sc : Scene) (seqbase : List StripId) (initial_frame : Int)
    (r_gap_info : GapInfo) : GapInfo :=
  let rectf := SEQ_timeline_boundbox sc (some seqbase)
  let sfra : Int := rectf.xmin
  let efra : Int := rectf.xmax
  let r_gap_info : GapInfo := { r_gap_info with gap_exists := false }
  let strips := SEQ_query_all_strips seqbase
  /- First part: the start of the gap, and the frame from which the end is searched; `none`
  when the forward loop for the start ran past `efra`. -/
  let first : GapInfo × Option Int :=
    if strip_exists_at_frame sc strips initial_frame = false then
      let timeline_frame :=
        gap_search_backward sc strips sfra (initial_frame - sfra + 1).toNat initial_frame
      ({ r_gap_info with gap_start_frame := timeline_frame + 1 }, some initial_frame)
    else
      match gap_search_forward sc strips efra false (efra - initial_frame + 1).toNat
          initial_frame with
      | some timeline_frame =>
        ({ r_gap_info with gap_start_frame := timeline_frame }, some timeline_frame)
      | none => (r_gap_info, none)
  match first.2 with
  | none => first.1
  | some timeline_frame =>
    match gap_search_forward sc strips efra true (efra - timeline_frame + 1).toNat
        timeline_frame with
    | some gap_end_frame =>
      { first.1 with
        gap_length := gap_end_frame - first.1.gap_start_frame
        gap_exists := true }
    | none => first.1

/-- A movie strip at frame 0 with retiming keys at positions 0 and 10, which give it a
timeline length of 11 frames, and with no content frames (`len = 0`). -/
def strip_retimed_empty : Strip :=
  { Strip.null with
    type := SEQ_TYPE_MOVIE, start := 0, len := 0,
    retiming_keys := [{ strip_frame_index := 0, retiming_factor := 0 },
                      { strip_frame_index := 10, retiming_factor := 1 }],
    startdisp := 0, enddisp := 11 }

/-- A movie strip of 10 content frames that starts at frame 5. -/
def strip_movie_at_5 : Strip :=
  { Strip.null with type := SEQ_TYPE_MOVIE, start := 5, len := 10, startdisp := 5,
                    enddisp := 15 }

/-- A frame is covered by a strip list when one of its strips intersects the frame. -/
def Covered (sc : Scene) (seqbase : List StripId) (timeline_frame : Int) : Prop :=
  ∃ seq ∈ seqbase, SEQ_time_strip_intersects_frame sc (sc.strip seq) timeline_frame = true

/-- Two movie strips on one channel, on frames [0,10) and [20,30), in a scene whose frame
range is [1,250]. -/
def scene_two_strips_gap : Scene where
  frs_sec := 24
  frs_sec_base := 1
  MAXFRAME := 1048574
  sfra := 1
  efra := 250
  strips := [
    { Strip.null with type := SEQ_TYPE_MOVIE, start := 0, len := 10, machine := 1,
                      startdisp := 0, enddisp := 10 },
    { Strip.null with type := SEQ_TYPE_MOVIE, start := 20, len := 10, machine := 1,
                      startdisp := 20, enddisp := 30 } ]

/-- One movie strip on frames [10,20), in a scene whose frame range is [1,250]. -/
def scene_one_strip_late : Scene where
  frs_sec := 24
  frs_sec_base := 1
  MAXFRAME := 1048574
  sfra := 1
  efra := 250
  strips := [
    { Strip.null with type := SEQ_TYPE_MOVIE, start := 10, len := 10, machine := 1,
                      startdisp := 10, enddisp := 20 } ]

/-! ## Proxy path resolver -/

/-- The render sizes of `eSpaceSeq_Proxy_RenderSize` that `proxy.cc` tells apart, and the
remaining ones. -/
inductive eSpaceSeq_Proxy_RenderSize
  | SEQ_RENDER_SIZE_NONE
  | SEQ_RENDER_SIZE_SCENE
  | SEQ_RENDER_SIZE_PROXY_25
  | SEQ_RENDER_SIZE_PROXY_50
  | SEQ_RENDER_SIZE_PROXY_75
  | SEQ_RENDER_SIZE_PROXY_100
  | SEQ_RENDER_SIZE_FULL
  deriving DecidableEq, Repr

open eSpaceSeq_Proxy_RenderSize in
def SEQ_rendersize_to_scale_factor : eSpaceSeq_Proxy_RenderSize → ℚ
  | SEQ_RENDER_SIZE_PROXY_25 => 0.25
  | SEQ_RENDER_SIZE_PROXY_50 => 0.50
  | SEQ_RENDER_SIZE_PROXY_75 => 0.75
  | _ => 1.0

/-- Modelled from the spec: `BLI_path_join` for two components (the join of the directory and
the file name): the components with one separator between them. -/
def BLI_path_join (dirpath filename : String) : String :=
  if dirpath = "" then filename
  else if dirpath.data.getLast? = some '/' then dirpath ++ filename
  else dirpath ++ "/" ++ filename

/-- Modelled from the spec: `BLI_path_abs` ("resolve relative paths against the data file's
location"): a path that starts with `//` is relative to the directory of the data file
`basepath`; every other path is left as it is. -/
def BLI_path_abs (path basepath : String) : String :=
  match path.data with
  | '/' :: '/' :: rest =>
    String.mk ((basepath.data.reverse.dropWhile fun c => c ≠ '/').reverse ++ rest)
  | _ => path

/-- Modelled from the spec: the file name of `SEQ_render_give_stripelem`, the source element
of the strip shown at a timeline frame: an image strip has one element per content frame and
shows the one at the rounded frame index (none at the sentinel), every other strip has its
source in the first element. -/
def SEQ_render_give_stripelem (sc : Scene) (seq : Strip) (timeline_frame : Int) :
    Option String :=
  if seq.type = SEQ_TYPE_IMAGE then
    let frame_index := round_fl_to_int (SEQ_give_frame_index sc seq timeline_frame)
    if frame_index = -1 then none
    else seq.data.stripdata.get? (frame_index + seq.anim_startofs).toNat
  else seq.data.stripdata.head?

/-- The path of the data file, `BKE_main_blendfile_path_from_global()` in the source, is the
first argument; the result is the path written to `filepath`, `none` for the return value
`false`. -/
def seq_proxy_get_custom_file_filepath (blendfile_path : String) (seq : Strip)
    (view_id : Int) : Option String :=
  match seq.data.proxy with
  | none => none
  | some proxy =>
    let filepath_temp := BLI_path_join proxy.dirpath proxy.filename
    let filepath_temp := BLI_path_abs filepath_temp blendfile_path
    if view_id > 0 then
      let suffix := "_" ++ toString view_id
      some (filepath_temp ++ "_" ++ suffix)
    else some filepath_temp

/-- The path of the data file is the first argument; the result is the path written to
`filepath`, `none` for the return value `false` (and where the strip has no source element
to name the file after).  The lengths of the character buffers are not modelled. -/
def seq_proxy_get_filepath (blendfile_path : String) (sc : Scene) (seq : Strip)
    (timeline_frame : Int) (render_size : eSpaceSeq_Proxy_RenderSize) (view_id : Int) :
    Option String :=
  match seq.data.proxy with
  | none => none
  | some proxy =>
    let suffix : String := if view_id > 0 then "_" ++ toString view_id else ""
    let custom : Option String :=
      if proxy.storage_custom_file = true ∧ sc.ed.proxy_storage_is_dir_storage = false then
        seq_proxy_get_custom_file_filepath blendfile_path seq view_id
      else none
    match custom with
    | some filepath => some filepath
    | none =>
      let dirpath : String :=
        if sc.ed.proxy_storage_is_dir_storage then
          if sc.ed.proxy_dir = "" then "//BL_proxy" else sc.ed.proxy_dir
        else if proxy.storage_custom_dir then proxy.dirpath
        else seq.data.dirpath ++ "/" ++ "BL_proxy"
      let proxy_size_number : Int :=
        float_to_int (SEQ_rendersize_to_scale_factor render_size * 100)
      match SEQ_render_give_stripelem sc seq timeline_frame with
      | none => none
      | some filename =>
        let filepath :=
          dirpath ++ "/" ++ "images" ++ "/" ++ toString proxy_size_number ++ "/" ++ filename
            ++ "_proxy" ++ suffix ++ ".jpg"
        some (BLI_path_abs filepath blendfile_path)

/-- A movie strip with source `/media/clip.mov` and proxy settings without custom storage. -/
def strip_clip_proxy : Strip :=
  { Strip.null with
    type := SEQ_TYPE_MOVIE, start := 0, len := 10, startdisp := 0, enddisp := 10,
    data := { dirpath := "/media", stripdata := ["clip.mov"], proxy := some {} } }

/-- The movie strip with source `/media/clip.mov` whose proxy is the custom file
`/proxies/clip_small.avi`. -/
def strip_clip_custom_file : Strip :=
  { Strip.null with
    type := SEQ_TYPE_MOVIE, start := 0, len := 10, startdisp := 0, enddisp := 10,
    data := { dirpath := "/media", stripdata := ["clip.mov"],
              proxy := some { dirpath := "/proxies", filename := "clip_small.avi",
                              storage_custom_file := true } } }

/-- A scene whose project-level proxy storage is the project directory, left unset. -/
def scene_proxy_dir_storage : Scene where
  frs_sec := 24
  frs_sec_base := 1
  MAXFRAME := 1048574
  strips := [strip_clip_custom_file]
  ed := { proxy_storage_is_dir_storage := true }

/-- The first write of `seq_time_slip_strip_ex`: the sound offset of a sound strip. -/
def slip_sound_step (sc : Scene) (seq : StripId) (subframe_delta : ℚ) : Scene :=
  if (sc.strip seq).type = SEQ_TYPE_SOUND_RAM ∧ subframe_delta ≠ 0 then
    sc.modify seq fun s => { s with sound_offset := s.sound_offset + subframe_delta / FPS sc }
  else sc

/-- The writes of `seq_time_slip_strip_ex` to the strip itself once its children are done:
the start, the two offsets outside a recursion, and the display mirrors. -/
def slip_own_step (sc : Scene) (seq : StripId) (delta : Int) (recursed : Bool) : Scene :=
  let sc := sc.modify seq fun s => { s with start := s.start + delta }
  let sc :=
    if recursed = false then
      let sc := sc.modify seq fun s => { s with startofs := s.startofs - delta }
      sc.modify seq fun s => { s with endofs := s.endofs + delta }
    else sc
  let sc := sc.modify seq fun s =>
    { s with startdisp := SEQ_time_left_handle_frame_get sc s }
  sc.modify seq fun s =>
    { s with enddisp := SEQ_time_right_handle_frame_get sc s }

/-- A meta strip without children, in a scene of its own. -/
def scene_empty_meta : Scene where
  frs_sec := 24
  frs_sec_base := 1
  MAXFRAME := 1048574
  strips := [
    { Strip.null with type := SEQ_TYPE_META, start := 0, len := 10, startdisp := 0,
                      enddisp := 10 } ]

/-- The strip that `slip_own_step` leaves in the place of `s`. -/
def slip_own_strip (sc : Scene) (s : Strip) (delta : Int) (recursed : Bool) : Strip :=
  let s : Strip := { s with start := s.start + delta }
  let s : Strip :=
    if recursed = false then
      { s with startofs := s.startofs - delta, endofs := s.endofs + delta }
    else s
  let s : Strip := { s with startdisp := SEQ_time_left_handle_frame_get sc s }
  { s with enddisp := SEQ_time_right_handle_frame_get sc s }

/-- A movie strip of 11 content frames at frame 0 with the identity retiming curve: keys at
positions 0 and 10 that hold the content positions 0 and 10 (the factors 0 and 1 of
`frame_index_max = 10`). -/
def strip_retimed_identity : Strip :=
  { Strip.null with
    type := SEQ_TYPE_MOVIE, start := 0, len := 11,
    retiming_keys := [{ strip_frame_index := 0, retiming_factor := 0 },
                      { strip_frame_index := 10, retiming_factor := 1 }],
    startdisp := 0, enddisp := 11 }

/-- A movie strip whose trims exceed its content, so that its left handle (frame 8) lies
after its right handle (frame 5), and an effect strip with that strip as its only input. -/
def scene_inverted_input : Scene where
  frs_sec := 24
  frs_sec_base := 1
  MAXFRAME := 1048574
  strips := [
    { Strip.null with type := SEQ_TYPE_MOVIE, start := 0, len := 5, startofs := 8,
                      startdisp := 8, enddisp := 5 },
    { Strip.null with type := SEQ_TYPE_EFFECT 0, seq1 := some 0 } ]

/-- A movie strip on frames [0,10) and an effect strip with that strip as its only input. -/
def scene_one_input : Scene where
  frs_sec := 24
  frs_sec_base := 1
  MAXFRAME := 1048574
  strips := [
    { Strip.null with type := SEQ_TYPE_MOVIE, start := 0, len := 10, startdisp := 0,
                      enddisp := 10 },
    { Strip.null with type := SEQ_TYPE_EFFECT 0, seq1 := some 0 } ]

/-- The single-image strip of `scene_single_image` after a slip by -2 frames: held over
frames [0,11) with `start = -2` and `startofs = 2`. -/
def scene_single_image_slipped : Scene where
  frs_sec := 24
  frs_sec_base := 1
  MAXFRAME := 1048574
  strips := [
    { Strip.null with type := SEQ_TYPE_IMAGE, flag_single_frame_content := true, start := -2,
                      len := 1, startofs := 2, endofs := -12, startdisp := 0,
                      enddisp := 11 } ]

/-! ## Proxy build pipeline -/

/-- Modelled from the spec: the bits of `IMB_Proxy_Size`, which is not among the sources: one
bit for each of the size tiers 25, 50, 75 and 100. -/
def IMB_PROXY_25 : Nat := 1

/-- Modelled from the spec: see `IMB_PROXY_25`. -/
def IMB_PROXY_50 : Nat := 2

/-- Modelled from the spec: see `IMB_PROXY_25`. -/
def IMB_PROXY_75 : Nat := 4

/-- Modelled from the spec: see `IMB_PROXY_25`. -/
def IMB_PROXY_100 : Nat := 8

/-- Modelled from the spec: the cast `eSpaceSeq_Proxy_RenderSize(int)`; the values of the
enumeration are not among the sources.  The percentages 25, 50 and 75 are the proxy sizes of
that name; 100 is the full size, 99 the proxy size of 100%, 0 the scene size. -/
def eSpaceSeq_Proxy_RenderSize.of_int : Int → eSpaceSeq_Proxy_RenderSize
  | 0 => SEQ_RENDER_SIZE_SCENE
  | 25 => SEQ_RENDER_SIZE_PROXY_25
  | 50 => SEQ_RENDER_SIZE_PROXY_50
  | 75 => SEQ_RENDER_SIZE_PROXY_75
  | 99 => SEQ_RENDER_SIZE_PROXY_100
  | 100 => SEQ_RENDER_SIZE_FULL
  | _ => SEQ_RENDER_SIZE_NONE

/-- A handle of the external proxy builder of a movie (`MovieProxyBuilder *`). -/
structure MovieProxyBuilder where
  id : Nat
  deriving DecidableEq, Repr

/-- What the proxy build does to the world outside: the calls of the render capability
(`seq_render_strip`, made by `seq_proxy_build_frame` for a frame and a size), of the encode
capability (`IMB_saveiff` to a path), the writes of `worker_status->progress` (with the frame
that has just been processed), and the hand-over to the external builder of a movie
(`MOV_proxy_builder_process`). -/
inductive ProxyEvent where
  | render (timeline_frame : Int) (proxy_render_size : Int)
  | save (filepath : String)
  | progress (timeline_frame : Int) (value : ℚ)
  | builder_process (builder : MovieProxyBuilder)
  deriving DecidableEq, Repr

/-- The world of a proxy build: the paths of the files that exist (`BLI_exists`) and the
events so far, oldest first. -/
structure ProxyWorld where
  files : List String
  events : List ProxyEvent
  deriving DecidableEq, Repr

/-- The build context of `proxy.cc`.  The duplicated strip is held by value; `orig_seq` is
the strip it was made for. -/
structure SeqIndexBuildContext where
  proxy_builder : Option MovieProxyBuilder := none
  tc_flags : Nat
  size_flags : Nat
  quality : Int
  overwrite : Bool
  view_id : Nat
  seq : Strip
  orig_seq : StripId
  deriving DecidableEq, Repr

/-- The render context carries the scene and the view; `save_ok` says for which paths
`IMB_saveiff` succeeds.  A file that is written exists afterwards.  The image itself (its
scaling and its encoding) and the directories are not modelled. -/
def seq_proxy_build_frame (blendfile_path : String) (save_ok : String → Bool) (scene : Scene)
    (view_id : Int) (seq : Strip) (timeline_frame : Int) (proxy_render_size : Int)
    (overwrite : Bool) (w : ProxyWorld) : ProxyWorld :=
  match seq_proxy_get_filepath blendfile_path scene seq timeline_frame
      (eSpaceSeq_Proxy_RenderSize.of_int proxy_render_size) view_id with
  | none => w
  | some filepath =>
    if overwrite = false ∧ filepath ∈ w.files then w
    else
      let w : ProxyWorld :=
        { w with events := w.events ++ [ProxyEvent.render timeline_frame proxy_render_size] }
      let w : ProxyWorld := { w with events := w.events ++ [ProxyEvent.save filepath] }
      if save_ok filepath = true ∧ filepath ∉ w.files then
        { w with files := w.files ++ [filepath] }
      else w

/-- The frame loop of `SEQ_proxy_rebuild`, from `timeline_frame` on; the first argument
bounds the number of iterations.  `stop_requested t` is the value of
`worker_status->stop || G.is_break` that is read after frame `t`. -/
def proxy_rebuild_frames (blendfile_path : String) (save_ok : String → Bool)
    (stop_requested : Int → Bool) (scene : Scene) (context : SeqIndexBuildContext) :
    Nat → Int → ProxyWorld → ProxyWorld
  | 0, _, w => w
  | n + 1, timeline_frame, w =>
    if timeline_frame < SEQ_time_right_handle_frame_get scene context.seq then
      let w :=
        if context.size_flags &&& IMB_PROXY_25 ≠ 0 then
          seq_proxy_build_frame blendfile_path save_ok scene context.view_id context.seq
            timeline_frame 25 context.overwrite w
        else w
      let w :=
        if context.size_flags &&& IMB_PROXY_50 ≠ 0 then
          seq_proxy_build_frame blendfile_path save_ok scene context.view_id context.seq
            timeline_frame 50 context.overwrite w
        else w
      let w :=
        if context.size_flags &&& IMB_PROXY_75 ≠ 0 then
          seq_proxy_build_frame blendfile_path save_ok scene context.view_id context.seq
            timeline_frame 75 context.overwrite w
        else w
      let w :=
        if context.size_flags &&& IMB_PROXY_100 ≠ 0 then
          seq_proxy_build_frame blendfile_path save_ok scene context.view_id context.seq
            timeline_frame 100 context.overwrite w
        else w
      let w : ProxyWorld :=
        { w with events := w.events ++ [ProxyEvent.progress timeline_frame
            (((timeline_frame - SEQ_time_left_handle_frame_get scene context.seq : Int) : ℚ)
              / ((SEQ_time_right_handle_frame_get scene context.seq
                  - SEQ_time_left_handle_frame_get scene context.seq : Int) : ℚ))] }
      if stop_requested timeline_frame then w
      else
        proxy_rebuild_frames blendfile_path save_ok stop_requested scene context n
          (timeline_frame + 1) w
    else w

/-- The scene of the context is the argument `scene`. -/
def SEQ_proxy_rebuild (blendfile_path : String) (save_ok : String → Bool)
    (stop_requested : Int → Bool) (scene : Scene) (context : SeqIndexBuildContext)
    (w : ProxyWorld) : ProxyWorld :=
  if context.seq.type = SEQ_TYPE_MOVIE then
    match context.proxy_builder with
    | some builder => { w with events := w.events ++ [ProxyEvent.builder_process builder] }
    | none => w
  else if context.seq.flag_use_proxy = false then w
  else if (match context.seq.data.proxy with
      | some proxy => proxy.storage_custom_file
      | none => false) = true then w
  else
    proxy_rebuild_frames blendfile_path save_ok stop_requested scene context
      (SEQ_time_right_handle_frame_get scene context.seq
        - SEQ_time_left_handle_frame_get scene context.seq).toNat
      (SEQ_time_left_handle_frame_get scene context.seq) w

/-- The size tiers that the flags of a context enable, in the order 25, 50, 75, 100. -/
def enabled_tiers (size_flags : Nat) : List Int :=
  (if size_flags &&& IMB_PROXY_25 ≠ 0 then [25] else [])
    ++ (if size_flags &&& IMB_PROXY_50 ≠ 0 then [50] else [])
    ++ (if size_flags &&& IMB_PROXY_75 ≠ 0 then [75] else [])
    ++ (if size_flags &&& IMB_PROXY_100 ≠ 0 then [100] else [])

/-- The proxy build as the specification words it, for the first `n` frames of the range of
the duplicated strip: the frames one after the other from the left handle on, for each frame
the enabled tiers in the order 25, 50, 75, 100, then the progress report of the frame. -/
def proxy_rebuild_spec (blendfile_path : String) (save_ok : String → Bool) (scene : Scene)
    (context : SeqIndexBuildContext) (n : Nat) (w : ProxyWorld) : ProxyWorld :=
  (List.range n).foldl
    (fun w (k : Nat) =>
      let timeline_frame : Int := SEQ_time_left_handle_frame_get scene context.seq + (k : Int)
      let w := (enabled_tiers context.size_flags).foldl
        (fun w size =>
          seq_proxy_build_frame blendfile_path save_ok scene context.view_id context.seq
            timeline_frame size context.overwrite w)
        w
      { w with events := w.events ++ [ProxyEvent.progress timeline_frame
          (((timeline_frame - SEQ_time_left_handle_frame_get scene context.seq : Int) : ℚ)
            / ((SEQ_time_right_handle_frame_get scene context.seq
                - SEQ_time_left_handle_frame_get scene context.seq : Int) : ℚ))] })
    w

/-- The value of a progress report, for the events that are one. -/
def ProxyEvent.progress_value : ProxyEvent → Option ℚ
  | ProxyEvent.progress _ value => some value
  | _ => none

/-- One frame of the proxy build, as `proxy_rebuild_spec` words it: the enabled tiers in
order, then the progress report. -/
def proxy_rebuild_spec_frame (blendfile_path : String) (save_ok : String → Bool) (scene : Scene)
    (context : SeqIndexBuildContext) (timeline_frame : Int) (w : ProxyWorld) : ProxyWorld :=
  let w := (enabled_tiers context.size_flags).foldl
    (fun w size =>
      seq_proxy_build_frame blendfile_path save_ok scene context.view_id context.seq
        timeline_frame size context.overwrite w)
    w
  { w with events := w.events ++ [ProxyEvent.progress timeline_frame
      (((timeline_frame - SEQ_time_left_handle_frame_get scene context.seq : Int) : ℚ)
        / ((SEQ_time_right_handle_frame_get scene context.seq
            - SEQ_time_left_handle_frame_get scene context.seq : Int) : ℚ))] }

/-- An event is new to a set of files when it is not a render for, nor a save to, a
destination in the set: a render of a frame for a size whose resolved path is in the set, or
a save to a path in the set. -/
def ProxyEvent.avoids (blendfile_path : String) (scene : Scene) (view_id : Int) (seq : Strip)
    (files : List String) : ProxyEvent → Prop
  | ProxyEvent.render timeline_frame proxy_render_size =>
    ∀ p, seq_proxy_get_filepath blendfile_path scene seq timeline_frame
      (eSpaceSeq_Proxy_RenderSize.of_int proxy_render_size) view_id = some p → p ∉ files
  | ProxyEvent.save filepath => filepath ∉ files
  | _ => True

/-- An image strip of four images on frames [0,4) with proxies enabled for the size 25. -/
def strip_four_images : Strip :=
  { Strip.null with
    type := SEQ_TYPE_IMAGE, start := 0, len := 4, startdisp := 0, enddisp := 4,
    flag_use_proxy := true,
    data := { dirpath := "/media", stripdata := ["a.png", "b.png", "c.png", "d.png"],
              proxy := some { build_size_flags := 1, build_flags_skip_existing := true } } }

/-- The build context of `strip_four_images` for view 0, with overwrite disabled. -/
def context_four_images : SeqIndexBuildContext where
  tc_flags := 0
  size_flags := 1
  quality := 0
  overwrite := false
  view_id := 0
  seq := strip_four_images
  orig_seq := 0

/-- The build context of the strip with the custom proxy file `/proxies/clip_small.avi`,
as an image strip with proxies enabled for the size 25. -/
def context_custom_file : SeqIndexBuildContext where
  tc_flags := 0
  size_flags := 1
  quality := 0
  overwrite := false
  view_id := 0
  seq := { strip_clip_custom_file with type := SEQ_TYPE_IMAGE, flag_use_proxy := true }
  orig_seq := 0

/-! ## Proxy build contexts -/

/-- The variables of `MultiViewPrefixVars`: the view-independent part of the file name (the
field `prefix` of the source), empty when there is none, and the extension. -/
structure MultiViewPrefixVars where
  stem : String := ""
  ext : Option String := none
  deriving DecidableEq, Repr

/-- Modelled from the spec: the capabilities that `SEQ_proxy_rebuild_context` consumes and
that are not among the sources.  `load_anims` gives the readers that `seq_open_anim_file`
opens for the views of a source (for checking, or with `openfile` for building);
`builder_start` is `MOV_proxy_builder_start`, which also extends the set of processed paths
and gives no handle when the builder cannot be obtained; `view_stem` is
`BKE_scene_multiview_view_prefix_get`, `multiview_name` is `seq_multiview_name`, and
`readable` is `BLI_access(path, R_OK) == 0`. -/
structure ProxyMedia where
  load_anims : StripData → Bool → List StripAnim
  builder_start : MovieReader → Nat → Nat → Int → Bool → List String → Bool →
    Option MovieProxyBuilder × List String
  view_stem : Scene → String → MultiViewPrefixVars
  multiview_name : Scene → Nat → String → Option String → String
  readable : String → Bool

/-- Modelled from the spec: `seq_open_anim_file` ("open the source"): the readers of the
views of the source of the strip replace the ones the strip had. -/
def seq_open_anim_file (media : ProxyMedia) (seq : Strip) (openfile : Bool) : Strip :=
  { seq with anims := media.load_anims seq.data openfile }

/-- Modelled from the spec: `SEQ_relations_sequence_free_anim`, which closes the readers of
the strip. -/
def SEQ_relations_sequence_free_anim (seq : Strip) : Strip :=
  { seq with anims := [] }

/-- The result is the return value and the variables `prefix_vars` after the call.  A strip
without source element has the empty file name. -/
def seq_proxy_multiview_context_invalid (media : ProxyMedia) (blendfile_path : String)
    (seq : Strip) (scene : Scene) (view_id : Nat) (vars : MultiViewPrefixVars) :
    Bool × MultiViewPrefixVars :=
  if scene.multiview = false then (false, vars)
  else if seq.type = SEQ_TYPE_IMAGE ∧ seq.views_format = ViewsFormat.R_IMF_VIEWS_INDIVIDUAL then
    let vars : MultiViewPrefixVars :=
      if view_id = 0 then
        let filepath := BLI_path_join seq.data.dirpath (seq.data.stripdata.head?.getD "")
        let filepath := BLI_path_abs filepath blendfile_path
        media.view_stem scene filepath
      else vars
    if vars.stem = "" then (decide (view_id ≠ 0), vars)
    else
      let filepath := media.multiview_name scene view_id vars.stem vars.ext
      if media.readable filepath then (false, vars)
      else (decide (view_id ≠ 0), vars)
  else (false, vars)

def seq_proxy_context_count (seq : Strip) (scene : Scene) : Nat :=
  if scene.multiview = false then 1
  else
    match seq.type with
    | SEQ_TYPE_MOVIE => seq.anims.length
    | SEQ_TYPE_IMAGE =>
      match seq.views_format with
      | ViewsFormat.R_IMF_VIEWS_INDIVIDUAL => scene.multiview_num_views
      | ViewsFormat.R_IMF_VIEWS_STEREO_3D => 2
      | ViewsFormat.R_IMF_VIEWS_MULTIVIEW => 1
    | _ => 1

/-- The proxy settings are those of the strip, which the caller has found to be there. -/
def seq_proxy_need_rebuild (proxy : StripProxy) (anim : MovieReader) : Bool :=
  if proxy.build_flags_skip_existing = false then true
  else
    let required_proxies := proxy.build_size_flags
    let built_proxies := anim.existing_proxies
    decide (required_proxies &&& built_proxies ≠ required_proxies)

/-- What `SEQ_proxy_rebuild_context` reads and writes while it goes through the views: the
scene (the readers of the strip are opened and closed), the variables `prefix_vars`, the set
of processed paths and the queue. -/
structure RebuildState where
  scene : Scene
  prefix_vars : MultiViewPrefixVars
  processed_paths : List String
  queue : List SeqIndexBuildContext
  deriving DecidableEq, Repr

/-- The body of the loop of `SEQ_proxy_rebuild_context` for the view `i`.  The result is
`none` where the source dereferences a null pointer (no reader entry for the view, or no
proxy settings); otherwise it holds `false` for `return false` and `true` when the loop goes
on, and the state. -/
def proxy_rebuild_context_view (media : ProxyMedia) (blendfile_path : String) (seq : StripId)
    (build_only_on_bad_performance : Bool) (i : Nat) (st : RebuildState) :
    Option (Bool × RebuildState) :=
  let invalid := seq_proxy_multiview_context_invalid media blendfile_path
    (st.scene.strip seq) st.scene i st.prefix_vars
  let st : RebuildState := { st with prefix_vars := invalid.2 }
  if invalid.1 then some (true, st)
  else
    let st : RebuildState :=
      { st with scene := st.scene.modify seq fun s => seq_open_anim_file media s false }
    match (st.scene.strip seq).anims.get? i, (st.scene.strip seq).data.proxy with
    | none, _ => none
    | _, none => none
    | some sanim, some proxy =>
      if (match sanim.anim with
          | some anim => !seq_proxy_need_rebuild proxy anim
          | none => false) = true then some (true, st)
      else
        let st : RebuildState :=
          { st with scene := st.scene.modify seq SEQ_relations_sequence_free_anim }
        let nseq : Strip := st.scene.strip seq
        let context : SeqIndexBuildContext :=
          { tc_flags := proxy.build_tc_flags
            size_flags := proxy.build_size_flags
            quality := proxy.quality
            overwrite := decide (proxy.build_flags_skip_existing = false)
            view_id := i
            seq := nseq
            orig_seq := seq }
        if nseq.type = SEQ_TYPE_MOVIE then
          let nseq := seq_open_anim_file media nseq true
          match nseq.anims.get? i with
          | none => none
          | some sanim =>
            let started : Option MovieProxyBuilder × List String :=
              match sanim.anim with
              | some anim =>
                media.builder_start anim context.tc_flags context.size_flags context.quality
                  context.overwrite st.processed_paths build_only_on_bad_performance
              | none => (none, st.processed_paths)
            let st : RebuildState := { st with processed_paths := started.2 }
            match started.1 with
            | none => some (false, st)
            | some builder =>
              some (true, { st with
                queue := st.queue
                  ++ [{ context with seq := nseq, proxy_builder := some builder }] })
        else some (true, { st with queue := st.queue ++ [context] })

/-- The loop of `SEQ_proxy_rebuild_context` over the views that are left. -/
def proxy_rebuild_context_views (media : ProxyMedia) (blendfile_path : String) (seq : StripId)
    (build_only_on_bad_performance : Bool) :
    List Nat → RebuildState → Option (Bool × RebuildState)
  | [], st => some (true, st)
  | i :: views, st =>
    match proxy_rebuild_context_view media blendfile_path seq build_only_on_bad_performance
        i st with
    | none => none
    | some (false, st) => some (false, st)
    | some (true, st) =>
      proxy_rebuild_context_views media blendfile_path seq build_only_on_bad_performance
        views st

/-- The result holds the return value and the state at the return: the queue, the processed
paths and the scene; it is `none` where the source dereferences a null pointer. -/
def SEQ_proxy_rebuild_context (media : ProxyMedia) (blendfile_path : String) (scene : Scene)
    (seq : StripId) (processed_paths : List String) (queue : List SeqIndexBuildContext)
    (build_only_on_bad_performance : Bool) : Option (Bool × RebuildState) :=
  let st : RebuildState :=
    { scene := scene, prefix_vars := {}, processed_paths := processed_paths, queue := queue }
  if (scene.strip seq).data.proxy = none then some (true, st)
  else if (scene.strip seq).flag_use_proxy = false then some (true, st)
  else
    let num_files := seq_proxy_context_count (scene.strip seq) scene
    proxy_rebuild_context_views media blendfile_path seq build_only_on_bad_performance
      (List.range num_files) st

/-- The strip without its readers: what `SEQ_proxy_rebuild_context` leaves as it is. -/
def Strip.source (s : Strip) : Strip :=
  { s with anims := [] }

/-- The proxy-builder handle cannot be obtained for the view `i` of a movie strip, in the
state `st` of `SEQ_proxy_rebuild_context`: the view is not skipped (it is not an invalid
multi-view context, and the reader opened for checking does not show that no rebuild is
needed), and the reader opened for building is null or `MOV_proxy_builder_start` gives no
handle for it. -/
def BuilderUnobtainable (media : ProxyMedia) (blendfile_path : String) (seq : StripId)
    (build_only_on_bad_performance : Bool) (i : Nat) (st : RebuildState) : Prop :=
  (seq_proxy_multiview_context_invalid media blendfile_path (st.scene.strip seq) st.scene i
    st.prefix_vars).1 = false ∧
  (st.scene.strip seq).type = SEQ_TYPE_MOVIE ∧
  ∃ proxy sanim sanim2,
    (st.scene.strip seq).data.proxy = some proxy ∧
    (media.load_anims (st.scene.strip seq).data false).get? i = some sanim ∧
    (∀ anim, sanim.anim = some anim → seq_proxy_need_rebuild proxy anim = true) ∧
    (media.load_anims (st.scene.strip seq).data true).get? i = some sanim2 ∧
    ∀ anim, sanim2.anim = some anim →
      (media.builder_start anim proxy.build_tc_flags proxy.build_size_flags proxy.quality
        (decide (proxy.build_flags_skip_existing = false)) st.processed_paths
        build_only_on_bad_performance).1 = none

/-- A media layer with two readers for every source, none of them with proxies; the builder
can be started for the first reader only. -/
def media_two_views : ProxyMedia where
  load_anims := fun _ _ =>
    [{ anim := some { id := 0 } }, { anim := some { id := 1 } }]
  builder_start := fun anim _ _ _ _ processed_paths _ =>
    (if anim.id = 0 then some { id := 0 } else none, processed_paths)
  view_stem := fun _ _ => {}
  multiview_name := fun _ _ _ _ => ""
  readable := fun _ => false

/-- A media layer with one reader for every source, which has the proxy of size 25; the
builder can be started for it. -/
def media_built : ProxyMedia where
  load_anims := fun _ _ => [{ anim := some { id := 0, existing_proxies := 1 } }]
  builder_start := fun _ _ _ _ _ processed_paths _ => (some { id := 0 }, processed_paths)
  view_stem := fun _ _ => {}
  multiview_name := fun _ _ _ _ => ""
  readable := fun _ => false

/-- A multi-view scene with one movie strip that has two views open and proxies enabled for
the size 25, existing proxies being skipped. -/
def scene_stereo_movie : Scene where
  frs_sec := 24
  frs_sec_base := 1
  MAXFRAME := 1048574
  multiview := true
  multiview_num_views := 2
  strips := [
    { Strip.null with
      type := SEQ_TYPE_MOVIE, start := 0, len := 10, startdisp := 0, enddisp := 10,
      flag_use_proxy := true,
      anims := [{ anim := some { id := 0 } }, { anim := some { id := 1 } }],
      data := { dirpath := "/media", stripdata := ["clip.mov"],
                proxy := some { build_size_flags := 1, build_flags_skip_existing := true } } } ]

/-- A scene with one movie strip with proxies enabled for the size 25, existing proxies
being skipped or not. -/
def scene_movie_proxy (skip_existing : Bool) : Scene where
  frs_sec := 24
  frs_sec_base := 1
  MAXFRAME := 1048574
  strips := [
    { Strip.null with
      type := SEQ_TYPE_MOVIE, start := 0, len := 10, startdisp := 0, enddisp := 10,
      flag_use_proxy := true,
      data := { dirpath := "/media", stripdata := ["clip.mov"],
                proxy := some { build_size_flags := 1,
                                build_flags_skip_existing := skip_existing } } } ]

/-- A sound strip of 100 content frames at frame 0 whose media rate, 48 frames per second, is
remapped to the scene rate (`SEQ_AUTO_PLAYBACK_RATE`); retiming is inactive. -/
def strip_sound_fast : Strip :=
  { Strip.null with
    type := SEQ_TYPE_SOUND_RAM, start := 0, len := 100, startdisp := 0, enddisp := 50,
    media_playback_rate := 48, flag_auto_playback_rate := true }

/-- A movie strip at frame 0 without content frames (`len = 0`) and with the strobe
factor 2. -/
def strip_empty_strobed : Strip :=
  { Strip.null with type := SEQ_TYPE_MOVIE, start := 0, len := 0, strobe := 2 }

/-- A movie strip of 10 content frames that starts at frame 5, with the strobe factor 3. -/
def strip_movie_strobed : Strip :=
  { Strip.null with type := SEQ_TYPE_MOVIE, start := 5, len := 10, startdisp := 5,
                    enddisp := 15, strobe := 3 }

/-! ## Edit points -/

/-- The values of the enumeration of sides of `SEQ_sequencer.hh` that
`SEQ_time_find_next_prev_edit` tells apart. -/
def SEQ_SIDE_LEFT : Int := 1

def SEQ_SIDE_RIGHT : Int := 2

def SEQ_SIDE_BOTH : Int := 3

/-- The body of the inner loop of `SEQ_time_find_next_prev_edit` for one frame
`seq_frames[i]`; the pair holds `best_frame` and `best_dist`. -/
def find_edit_candidate (sc : Scene) (timeline_frame : Int) (side : Int) (best : Int × Int)
    (seq_frame : Int) : Int × Int :=
  let dist : Int :=
    if side = SEQ_SIDE_LEFT then
      if seq_frame < timeline_frame then timeline_frame - seq_frame else sc.MAXFRAME * 2
    else if side = SEQ_SIDE_RIGHT then
      if seq_frame > timeline_frame then seq_frame - timeline_frame else sc.MAXFRAME * 2
    else if side = SEQ_SIDE_BOTH then |seq_frame - timeline_frame|
    else sc.MAXFRAME * 2
  if dist < best.2 then (seq_frame, dist) else best

/-- The editing data is passed as far as the function reads it: `none` when
`SEQ_editing_get` gives a null pointer, otherwise the strip list `ed->seqbasep`.  The test
`SEQ_render_is_muted(channels, seq)`, which is not among the sources, is the argument
`is_muted`. -/
def SEQ_time_find_next_prev_edit (sc : Scene) (ed : Option (List StripId))
    (is_muted : Strip → Bool) (timeline_frame : Int) (side : Int)
    (do_skip_mute do_center do_unselected : Bool) : Int :=
  match ed with
  | none => timeline_frame
  | some seqbasep =>
    (seqbasep.foldl
      (fun best seq =>
        if do_skip_mute = true ∧ is_muted (sc.strip seq) = true then best
        else if do_unselected = true ∧ (sc.strip seq).flag_select = true then best
        else
          let seq_frames : List Int :=
            if do_center then
              [(SEQ_time_left_handle_frame_get sc (sc.strip seq)
                + SEQ_time_right_handle_frame_get sc (sc.strip seq)).tdiv 2]
            else
              [SEQ_time_left_handle_frame_get sc (sc.strip seq),
               SEQ_time_right_handle_frame_get sc (sc.strip seq)]
          seq_frames.foldl (find_edit_candidate sc timeline_frame side) best)
      (timeline_frame, sc.MAXFRAME * 2)).1

/-- A frame is a handle of a considered strip of `SEQ_time_find_next_prev_edit` with
`do_center` off: the left or the right handle frame of a strip of the list that the loop
does not skip as muted or as selected. -/
def EditHandle (sc : Scene) (seqbasep : List StripId) (is_muted : Strip → Bool)
    (do_skip_mute do_unselected : Bool) (frame : Int) : Prop :=
  ∃ seq ∈ seqbasep,
    ¬ (do_skip_mute = true ∧ is_muted (sc.strip seq) = true) ∧
    ¬ (do_unselected = true ∧ (sc.strip seq).flag_select = true) ∧
    (frame = SEQ_time_left_handle_frame_get sc (sc.strip seq) ∨
      frame = SEQ_time_right_handle_frame_get sc (sc.strip seq))

/-- The invariant of the search of `SEQ_time_find_next_prev_edit` for one side, over the
frames `S` seen so far: `good` tells the frames on the wanted side of the timeline frame and
`dist` is their distance to it.  Either `best_dist` is still the sentinel, `best_frame` the
timeline frame and no frame seen is on the wanted side, or `best_frame` is a frame seen on
the wanted side at the least distance, which `best_dist` holds. -/
def EditBest (sc : Scene) (timeline_frame : Int) (good : Int → Prop) (dist : Int → Int)
    (S : Int → Prop) (best : Int × Int) : Prop :=
  (best.2 = sc.MAXFRAME * 2 ∧ best.1 = timeline_frame ∧ ∀ h, S h → ¬ good h) ∨
  (good best.1 ∧ best.2 = dist best.1 ∧ best.2 < sc.MAXFRAME * 2 ∧ S best.1 ∧
    ∀ h, S h → good h → dist best.1 ≤ dist h)

/-- The meta-parent relation is a forest: `lvl` is the nesting depth, one more for a child
than for the meta strip that owns it. -/
def MetaForest (sc : Scene) (lvl : StripId → Nat) : Prop :=
  ∀ m, m < sc.strips.length → ∀ c ∈ (sc.strip m).seqbase, lvl c = lvl m + 1

/-! ## Sound bounds inside meta strips -/

/-- A chain of nested meta strips below the strip `m`, down to the strip list that holds
`d`: the first strip of the chain is a meta strip among the children of `m`, each further
one a meta strip among the children of the one before, and `d` is a child of the last one
(of `m` itself when the chain is empty).  The meta strips that enclose `d` below and
including `m` are `m` and the strips of the chain. -/
def IsMetaChain (sc : Scene) : StripId → List StripId → StripId → Prop
  | m, [], d => d ∈ (sc.strip m).seqbase
  | m, c :: chain, d =>
    c ∈ (sc.strip m).seqbase ∧ (sc.strip c).type = SEQ_TYPE_META ∧ IsMetaChain sc c chain d

/-- The greatest of `start` and the starts `start + startofs` of the strips of a chain. -/
def chain_start (sc : Scene) (start : Int) (chain : List StripId) : Int :=
  chain.foldl (fun s c => max s (metaseq_start (sc.strip c))) start

/-- The least of `end_` and the ends `start + len - endofs` of the strips of a chain. -/
def chain_end (sc : Scene) (end_ : Int) (chain : List StripId) : Int :=
  chain.foldl (fun e c => min e (metaseq_end (sc.strip c))) end_

/-- A meta strip on frames [0,50) that holds a meta strip on frames [10,30), which holds a
sound strip with the stored range [5,105] and the scene sound 7. -/
def scene_meta_sound : Scene where
  frs_sec := 24
  frs_sec_base := 1
  MAXFRAME := 1048574
  strips := [
    { Strip.null with type := SEQ_TYPE_META, start := 0, len := 50, enddisp := 50,
                      seqbase := [1] },
    { Strip.null with type := SEQ_TYPE_META, start := 10, len := 20, startdisp := 10,
                      enddisp := 30, seqbase := [2] },
    { Strip.null with type := SEQ_TYPE_SOUND_RAM, start := 5, len := 100, startdisp := 5,
                      enddisp := 105, scene_sound := some 7 } ]

/-! ## Slip of a meta strip -/

/-- Ownership of the strips by the meta strips, as the strip lists of the source give it: a
strip list holds a strip once, a strip is in one strip list only, only meta strips have
children, and the children are strips of the scene. -/
structure OwnedOnce (sc : Scene) : Prop where
  nodup : ∀ m, m < sc.strips.length → (sc.strip m).seqbase.Nodup
  unique : ∀ m1, m1 < sc.strips.length → ∀ m2, m2 < sc.strips.length →
    ∀ c ∈ (sc.strip m1).seqbase, c ∈ (sc.strip m2).seqbase → m1 = m2
  metas : ∀ m, m < sc.strips.length → (sc.strip m).seqbase ≠ [] →
    (sc.strip m).type = SEQ_TYPE_META
  arena : ∀ m, m < sc.strips.length → ∀ c ∈ (sc.strip m).seqbase, c < sc.strips.length

/-- The strip `d` is the strip `a` or is nested in it at some depth. -/
def InSubtree (sc : Scene) (a d : StripId) : Prop :=
  d = a ∨ ∃ chain, IsMetaChain sc a chain d

/-- A strip that a slip inside a meta strip moves: it has no effect inputs and is not a meta
strip without children. -/
def Slippable (s : Strip) : Prop :=
  s.inputs = [] ∧ ¬ (s.type = SEQ_TYPE_META ∧ s.seqbase = [])

/-- What a slip inside a meta strip does to a strip: `start` is moved by `delta`, `startofs`
and `endofs` are as they were. -/
def Slipped (delta : Int) (s s2 : Strip) : Prop :=
  s2.start = s.start + delta ∧ s2.startofs = s.startofs ∧ s2.endofs = s.endofs

/-- A top-level meta strip (strip 0) on frames [0,50) that holds a movie strip (strip 1) and
a meta strip without children (strip 2). -/
def scene_meta_empty_child : Scene where
  frs_sec := 24
  frs_sec_base := 1
  MAXFRAME := 1048574
  strips := [
    { Strip.null with type := SEQ_TYPE_META, start := 0, len := 50, enddisp := 50,
                      seqbase := [1, 2] },
    { Strip.null with type := SEQ_TYPE_MOVIE, start := 0, len := 50, startdisp := 0,
                      enddisp := 50 },
    { Strip.null with type := SEQ_TYPE_META, start := 10, len := 20, startdisp := 10,
                      enddisp := 30 } ]

/-- What the call of `seq_time_slip_strip_ex` for the strip `c` inside a meta strip does,
between the scenes `s` before and `s1` after the call: the strip graph is kept, a strip
without inputs outside the subtree of `c` is as it was, and every strip of the subtree that
the slip moves is moved. -/
def SlipSpec (sc0 : Scene) (delta : Int) (c : StripId) (s s1 : Scene) : Prop :=
  SameShape sc0 s1 ∧
  (∀ i, ¬ InSubtree sc0 c i → (sc0.strip i).inputs = [] → s1.strip i = s.strip i) ∧
  (∀ d, InSubtree sc0 c d → Slippable (sc0.strip d) → Slipped delta (s.strip d) (s1.strip d))

/-! ## Arena lemmas -/

theorem Scene.strip_modify (sc : Scene) (i j : StripId) (f : Strip → Strip) :
    (sc.modify i f).strip j
      = if j = i ∧ i < sc.strips.length then f (sc.strip i) else sc.strip j := by
  unfold Scene.modify Scene.strip
  simp only [List.getD_eq_getElem?_getD, List.getElem?_set]
  by_cases hji : j = i
  · subst hji
    by_cases hlt : j < sc.strips.length
    · simp [hlt]
    · simp [hlt]
      have : sc.strips.length ≤ j := Nat.le_of_not_lt hlt
      simp [List.getElem?_eq_none this]
  · have hij : ¬ i = j := fun h => hji h.symm
    simp [hji, hij]

theorem Scene.strip_modify_self (sc : Scene) (i : StripId) (f : Strip → Strip)
    (h : i < sc.strips.length) : (sc.modify i f).strip i = f (sc.strip i) := by
  rw [Scene.strip_modify]; simp [h]

theorem Scene.strip_modify_ne (sc : Scene) (i j : StripId) (f : Strip → Strip)
    (h : j ≠ i) : (sc.modify i f).strip j = sc.strip j := by
  rw [Scene.strip_modify]; simp [h]

@[simp] theorem Scene.modify_length (sc : Scene) (i : StripId) (f : Strip → Strip) :
    (sc.modify i f).strips.length = sc.strips.length := by
  simp [Scene.modify]

@[simp] theorem Scene.modify_frs_sec (sc : Scene) (i : StripId) (f : Strip → Strip) :
    (sc.modify i f).frs_sec = sc.frs_sec := rfl

@[simp] theorem Scene.modify_frs_sec_base (sc : Scene) (i : StripId) (f : Strip → Strip) :
    (sc.modify i f).frs_sec_base = sc.frs_sec_base := rfl

@[simp] theorem Scene.modify_MAXFRAME (sc : Scene) (i : StripId) (f : Strip → Strip) :
    (sc.modify i f).MAXFRAME = sc.MAXFRAME := rfl

theorem Scene.modify_modify (sc : Scene) (i : StripId) (f g : Strip → Strip) :
    (sc.modify i f).modify i g = sc.modify i (fun s => g (f s)) := by
  by_cases h : i < sc.strips.length
  · have := Scene.strip_modify_self sc i f h
    simp only [Scene.modify] at this ⊢
    simp only [this, List.set_set]
  · have hle : sc.strips.length ≤ i := Nat.le_of_not_lt h
    simp [Scene.modify, List.set_eq_of_length_le hle]

/-! ## The handle getters and the fields they read -/

theorem strip_length_scene_congr (sc sc2 : Scene) (s : Strip)
    (hf : sc2.frs_sec = sc.frs_sec) (hb : sc2.frs_sec_base = sc.frs_sec_base) :
    SEQ_time_strip_length_get sc2 s = SEQ_time_strip_length_get sc s := by
  simp [SEQ_time_strip_length_get, SEQ_retiming_key_timeline_frame_get,
    SEQ_time_get_rounded_sound_offset, SEQ_time_media_playback_rate_factor_get, FPS, hf, hb]

theorem right_handle_scene_congr (sc sc2 : Scene) (s : Strip)
    (hf : sc2.frs_sec = sc.frs_sec) (hb : sc2.frs_sec_base = sc.frs_sec_base) :
    SEQ_time_right_handle_frame_get sc2 s = SEQ_time_right_handle_frame_get sc s := by
  simp [SEQ_time_right_handle_frame_get, SEQ_time_content_end_frame_get,
    strip_length_scene_congr sc sc2 s hf hb]

@[simp] theorem right_handle_modify (sc : Scene) (i : StripId) (f : Strip → Strip) (s : Strip) :
    SEQ_time_right_handle_frame_get (sc.modify i f) s = SEQ_time_right_handle_frame_get sc s :=
  right_handle_scene_congr sc _ s rfl rfl

theorem left_handle_scene (sc sc2 : Scene) (s : Strip) :
    SEQ_time_left_handle_frame_get sc2 s = SEQ_time_left_handle_frame_get sc s := rfl

theorem inputs_ne_nil_iff (s : Strip) :
    s.inputs ≠ [] ↔ (s.seq1.isSome || s.seq2.isSome) = true := by
  unfold Strip.inputs
  cases s.seq1 <;> cases s.seq2 <;> simp

theorem left_handle_of_inputs (sc : Scene) (s : Strip) (h : s.inputs ≠ []) :
    SEQ_time_left_handle_frame_get sc s = s.startdisp := by
  simp [SEQ_time_left_handle_frame_get, (inputs_ne_nil_iff s).1 h]

theorem right_handle_of_inputs (sc : Scene) (s : Strip) (h : s.inputs ≠ []) :
    SEQ_time_right_handle_frame_get sc s = s.enddisp := by
  have := (inputs_ne_nil_iff s).1 h
  simp only [SEQ_time_right_handle_frame_get, this, if_true]

theorem left_handle_of_no_inputs (sc : Scene) (s : Strip) (h : s.inputs = []) :
    SEQ_time_left_handle_frame_get sc s = s.start + s.startofs := by
  have : ¬ (s.seq1.isSome || s.seq2.isSome) = true := fun h2 => (inputs_ne_nil_iff s).2 h2 h
  simp [SEQ_time_left_handle_frame_get, this]

theorem right_handle_of_no_inputs (sc : Scene) (s : Strip) (h : s.inputs = []) :
    SEQ_time_right_handle_frame_get sc s
      = s.start + SEQ_time_strip_length_get sc s - s.endofs := by
  have : ¬ (s.seq1.isSome || s.seq2.isSome) = true := fun h2 => (inputs_ne_nil_iff s).2 h2 h
  simp [SEQ_time_right_handle_frame_get, this, SEQ_time_content_end_frame_get,
    SEQ_time_start_frame_get]

/-- Without retiming and without automatic playback rate the content length is `len`. -/
theorem strip_length_plain (sc : Scene) (s : Strip)
    (hk : s.retiming_keys.length ≤ 1) (ha : s.flag_auto_playback_rate = false) :
    SEQ_time_strip_length_get sc s = s.len := by
  have : ¬ 1 < s.retiming_keys.length := Nat.not_lt.mpr hk
  simp [SEQ_time_strip_length_get, SEQ_retiming_is_active, this,
    SEQ_time_media_playback_rate_factor_get, ha, float_to_int]

/-! ## `seq_time_effect_range_set` -/

@[simp] theorem effect_range_finish_inputs (s : Strip) :
    (effect_range_finish s).inputs = s.inputs := by
  unfold effect_range_finish Strip.inputs
  split <;> rfl

@[simp] theorem effect_range_finish_startdisp (s : Strip) :
    (effect_range_finish s).startdisp = min s.startdisp s.enddisp := by
  unfold effect_range_finish
  split <;> simp only <;> omega

@[simp] theorem effect_range_finish_enddisp (s : Strip) :
    (effect_range_finish s).enddisp = max s.startdisp s.enddisp := by
  unfold effect_range_finish
  split <;> simp only <;> omega

theorem effect_range_set_two (sc : Scene) (seq s1 s2 : StripId)
    (h1 : (sc.strip seq).seq1 = some s1) (h2 : (sc.strip seq).seq2 = some s2) :
    seq_time_effect_range_set sc seq
      = sc.modify seq fun s => effect_range_finish
          { s with
            startdisp := max (SEQ_time_left_handle_frame_get sc (sc.strip s1))
                             (SEQ_time_left_handle_frame_get sc (sc.strip s2))
            enddisp := min (SEQ_time_right_handle_frame_get sc (sc.strip s1))
                           (SEQ_time_right_handle_frame_get sc (sc.strip s2)) } := by
  unfold seq_time_effect_range_set
  rw [h1, h2]
  simp only [Scene.modify_modify, right_handle_modify]
  have key : ∀ j x, SEQ_time_right_handle_frame_get sc
      ((sc.modify seq fun s => { s with startdisp := x }).strip j)
      = SEQ_time_right_handle_frame_get sc (sc.strip j) := by
    intro j x
    rw [Scene.strip_modify]
    split
    · rename_i h; rw [h.1]; rfl
    · rfl
  simp only [key]

/-! ## Effect range of two inputs and handle span (C1, C7) -/

/-- C1 (as amended): for an effect strip with both inputs present, let `l` be the larger of
the inputs' left handles and `r` the smaller of their right handles.  After
`seq_time_effect_range_set` the effect's left handle is `min l r` and its right handle is
`max l r`, so left ≤ right; they are `l` and `r` themselves exactly when `l ≤ r`, and are
swapped when the inputs do not overlap.  An input that is another strip is not changed by the
call. -/
theorem effect_range_set_two_inputs (sc : Scene) (seq s1 s2 : StripId)
    (hseq : seq < sc.strips.length)
    (h1 : (sc.strip seq).seq1 = some s1) (h2 : (sc.strip seq).seq2 = some s2) :
    let sc2 := seq_time_effect_range_set sc seq
    let l := max (SEQ_time_left_handle_frame_get sc (sc.strip s1))
                 (SEQ_time_left_handle_frame_get sc (sc.strip s2))
    let r := min (SEQ_time_right_handle_frame_get sc (sc.strip s1))
                 (SEQ_time_right_handle_frame_get sc (sc.strip s2))
    SEQ_time_left_handle_frame_get sc2 (sc2.strip seq) = min l r ∧
    SEQ_time_right_handle_frame_get sc2 (sc2.strip seq) = max l r ∧
    SEQ_time_left_handle_frame_get sc2 (sc2.strip seq)
      ≤ SEQ_time_right_handle_frame_get sc2 (sc2.strip seq) ∧
    (l ≤ r → SEQ_time_left_handle_frame_get sc2 (sc2.strip seq) = l ∧
             SEQ_time_right_handle_frame_get sc2 (sc2.strip seq) = r) ∧
    (s1 ≠ seq → sc2.strip s1 = sc.strip s1) ∧ (s2 ≠ seq → sc2.strip s2 = sc.strip s2) := by
  intro sc2 l r
  have hsc2 : sc2 = _ := effect_range_set_two sc seq s1 s2 h1 h2
  have hs : sc2.strip seq
      = effect_range_finish { sc.strip seq with startdisp := l, enddisp := r } := by
    rw [hsc2, Scene.strip_modify_self _ _ _ hseq]
  have hin : (sc2.strip seq).inputs ≠ [] := by
    rw [hs, effect_range_finish_inputs]
    simp [Strip.inputs, h1]
  have hL : SEQ_time_left_handle_frame_get sc2 (sc2.strip seq) = min l r := by
    rw [left_handle_of_inputs _ _ hin, hs, effect_range_finish_startdisp]
  have hR : SEQ_time_right_handle_frame_get sc2 (sc2.strip seq) = max l r := by
    rw [right_handle_of_inputs _ _ hin, hs, effect_range_finish_enddisp]
  refine ⟨hL, hR, ?_, ?_, ?_, ?_⟩
  · rw [hL, hR]; omega
  · intro hlr; rw [hL, hR]; omega
  · intro hne; rw [hsc2, Scene.strip_modify_ne _ _ _ _ hne]
  · intro hne; rw [hsc2, Scene.strip_modify_ne _ _ _ _ hne]

/-- Witness for C1: the effect of the strips on [0,10) and [5,15). -/
theorem effect_range_set_two_inputs_witness :
    2 < scene_overlapping_inputs.strips.length ∧
    (scene_overlapping_inputs.strip 2).seq1 = some 0 ∧
    (scene_overlapping_inputs.strip 2).seq2 = some 1 ∧
    (let sc2 := seq_time_effect_range_set scene_overlapping_inputs 2
     let l := max (SEQ_time_left_handle_frame_get scene_overlapping_inputs
                    (scene_overlapping_inputs.strip 0))
                  (SEQ_time_left_handle_frame_get scene_overlapping_inputs
                    (scene_overlapping_inputs.strip 1))
     let r := min (SEQ_time_right_handle_frame_get scene_overlapping_inputs
                    (scene_overlapping_inputs.strip 0))
                  (SEQ_time_right_handle_frame_get scene_overlapping_inputs
                    (scene_overlapping_inputs.strip 1))
     SEQ_time_left_handle_frame_get sc2 (sc2.strip 2) = min l r ∧
     SEQ_time_right_handle_frame_get sc2 (sc2.strip 2) = max l r ∧
     SEQ_time_left_handle_frame_get sc2 (sc2.strip 2)
       ≤ SEQ_time_right_handle_frame_get sc2 (sc2.strip 2) ∧
     (l ≤ r → SEQ_time_left_handle_frame_get sc2 (sc2.strip 2) = l ∧
              SEQ_time_right_handle_frame_get sc2 (sc2.strip 2) = r) ∧
     ((0 : StripId) ≠ 2 → sc2.strip 0 = scene_overlapping_inputs.strip 0) ∧
     ((1 : StripId) ≠ 2 → sc2.strip 1 = scene_overlapping_inputs.strip 1)) :=
  ⟨by decide, rfl, rfl,
   effect_range_set_two_inputs scene_overlapping_inputs 2 0 1 (by decide) rfl rfl⟩

/-- Counterexample to C1 as stated: for the effect of the strips on [0,10) and [20,30) the
left handle after `seq_time_effect_range_set` is 10, not the larger left handle 20 of the
inputs, and the right handle is 20, not the smaller right handle 10. -/
theorem effect_range_set_two_inputs_counterexample :
    (scene_disjoint_inputs.strip 2).seq1 = some 0 ∧
    (scene_disjoint_inputs.strip 2).seq2 = some 1 ∧
    (let sc2 := seq_time_effect_range_set scene_disjoint_inputs 2
     SEQ_time_left_handle_frame_get sc2 (sc2.strip 2) = 10 ∧
     max (SEQ_time_left_handle_frame_get sc2 (sc2.strip 0))
         (SEQ_time_left_handle_frame_get sc2 (sc2.strip 1)) = 20 ∧
     SEQ_time_right_handle_frame_get sc2 (sc2.strip 2) = 20 ∧
     min (SEQ_time_right_handle_frame_get sc2 (sc2.strip 0))
         (SEQ_time_right_handle_frame_get sc2 (sc2.strip 1)) = 10) := by
  refine ⟨rfl, rfl, ?_⟩
  simp [seq_time_effect_range_set, scene_disjoint_inputs, Scene.strip, Scene.modify,
    Strip.null, SEQ_time_left_handle_frame_get, SEQ_time_right_handle_frame_get,
    SEQ_time_content_end_frame_get, SEQ_time_strip_length_get, SEQ_retiming_is_active,
    SEQ_time_media_playback_rate_factor_get, float_to_int, SEQ_time_start_frame_get,
    effect_range_finish]

/-- C7 (as amended): for a strip with retiming inactive and no effect inputs, the distance
between its handles is the content length of `SEQ_time_strip_length_get` less the two trims
`startofs` and `endofs`; it is the content length itself when both trims are zero. -/
theorem handle_span_eq_length_minus_trims (sc : Scene) (seq : Strip)
    (_hret : SEQ_retiming_is_active seq = false)
    (h1 : seq.seq1 = none) (h2 : seq.seq2 = none) :
    SEQ_time_right_handle_frame_get sc seq - SEQ_time_left_handle_frame_get sc seq
        = SEQ_time_strip_length_get sc seq - seq.startofs - seq.endofs ∧
    (seq.startofs = 0 → seq.endofs = 0 →
      SEQ_time_right_handle_frame_get sc seq - SEQ_time_left_handle_frame_get sc seq
        = SEQ_time_strip_length_get sc seq) := by
  have hin : seq.inputs = [] := by simp [Strip.inputs, h1, h2]
  rw [left_handle_of_no_inputs sc seq hin, right_handle_of_no_inputs sc seq hin]
  constructor
  · omega
  · intro h3 h4; omega

/-- Witness for C7: the trimmed movie strip. -/
theorem handle_span_eq_length_minus_trims_witness :
    SEQ_retiming_is_active strip_trimmed = false ∧
    strip_trimmed.seq1 = none ∧ strip_trimmed.seq2 = none ∧
    (SEQ_time_right_handle_frame_get scene_disjoint_inputs strip_trimmed
        - SEQ_time_left_handle_frame_get scene_disjoint_inputs strip_trimmed
        = SEQ_time_strip_length_get scene_disjoint_inputs strip_trimmed
          - strip_trimmed.startofs - strip_trimmed.endofs ∧
     (strip_trimmed.startofs = 0 → strip_trimmed.endofs = 0 →
      SEQ_time_right_handle_frame_get scene_disjoint_inputs strip_trimmed
        - SEQ_time_left_handle_frame_get scene_disjoint_inputs strip_trimmed
        = SEQ_time_strip_length_get scene_disjoint_inputs strip_trimmed)) :=
  ⟨rfl, rfl, rfl,
   handle_span_eq_length_minus_trims scene_disjoint_inputs strip_trimmed rfl rfl rfl⟩

/-- Counterexample to C7 as stated: the movie strip of 10 frames with 2 frames trimmed at the
left has no retiming and no inputs, its handles are 8 frames apart and its content length
is 10. -/
theorem handle_span_counterexample :
    SEQ_retiming_is_active strip_trimmed = false ∧
    strip_trimmed.seq1 = none ∧ strip_trimmed.seq2 = none ∧
    SEQ_time_right_handle_frame_get scene_disjoint_inputs strip_trimmed
        - SEQ_time_left_handle_frame_get scene_disjoint_inputs strip_trimmed = 8 ∧
    SEQ_time_strip_length_get scene_disjoint_inputs strip_trimmed = 10 := by
  refine ⟨rfl, rfl, rfl, ?_, ?_⟩ <;>
  simp [strip_trimmed, Strip.null, SEQ_time_left_handle_frame_get,
    SEQ_time_right_handle_frame_get, SEQ_time_content_end_frame_get,
    SEQ_time_strip_length_get, SEQ_retiming_is_active,
    SEQ_time_media_playback_rate_factor_get, float_to_int, SEQ_time_start_frame_get]

/-! ## Folds -/

theorem foldl_inv {α β : Type} (f : β → α → β) (I : β → Prop) (l : List α)
    (hstep : ∀ b a, a ∈ l → I b → I (f b a)) : ∀ b, I b → I (l.foldl f b) := by
  induction l with
  | nil => intro b hb; exact hb
  | cons a l ih =>
    intro b hb
    simp only [List.foldl_cons]
    exact ih (fun b2 a2 ha2 hb2 => hstep b2 a2 (List.mem_cons_of_mem _ ha2) hb2) _
      (hstep b a (List.mem_cons_self _ _) hb)

theorem foldlM_inv {α β : Type} (f : β → α → Option β) (I : List α → β → Prop)
    (l : List α)
    (hstep : ∀ d b a b2, a ∈ l → I d b → f b a = some b2 → I (d ++ [a]) b2) :
    ∀ d b r, I d b → l.foldlM f b = some r → I (d ++ l) r := by
  induction l with
  | nil =>
    intro d b r hb h
    simp only [List.foldlM_nil, pure, Option.some.injEq] at h
    subst h; simpa using hb
  | cons a l ih =>
    intro d b r hb h
    simp only [List.foldlM_cons, bind, Option.bind_eq_some] at h
    obtain ⟨b2, hb2, hr⟩ := h
    have := ih (fun d2 b3 a3 b4 ha3 hI hf => hstep d2 b3 a3 b4 (List.mem_cons_of_mem _ ha3) hI hf)
      (d ++ [a]) b2 r (hstep d b a b2 (List.mem_cons_self _ _) hb hb2) hr
    simpa using this

theorem foldlM_total {α β : Type} (f : β → α → Option β) (I : β → Prop) (l : List α)
    (hstep : ∀ b a, a ∈ l → I b → ∃ b2, f b a = some b2 ∧ I b2) :
    ∀ b, I b → ∃ r, l.foldlM f b = some r ∧ I r := by
  induction l with
  | nil => intro b hb; exact ⟨b, rfl, hb⟩
  | cons a l ih =>
    intro b hb
    obtain ⟨b2, hb2, hI⟩ := hstep b a (List.mem_cons_self _ _) hb
    obtain ⟨r, hr, hIr⟩ := ih (fun b3 a3 ha3 h3 => hstep b3 a3 (List.mem_cons_of_mem _ ha3) h3) b2 hI
    refine ⟨r, ?_, hIr⟩
    simp only [List.foldlM_cons, bind, hb2, Option.some_bind, hr]

/-! ## Shape -/

theorem SameShape.refl (sc : Scene) : SameShape sc sc :=
  ⟨rfl, rfl, rfl, rfl, fun _ => rfl⟩

theorem SameShape.trans {a b c : Scene} (h1 : SameShape a b) (h2 : SameShape b c) :
    SameShape a c :=
  ⟨h2.1.trans h1.1, h2.2.1.trans h1.2.1, h2.2.2.1.trans h1.2.2.1,
   h2.2.2.2.1.trans h1.2.2.2.1, fun i => (h2.2.2.2.2 i).trans (h1.2.2.2.2 i)⟩

theorem SameShape.symm {a b : Scene} (h : SameShape a b) : SameShape b a :=
  ⟨h.1.symm, h.2.1.symm, h.2.2.1.symm, h.2.2.2.1.symm, fun i => (h.2.2.2.2 i).symm⟩

theorem SameShape.inputs {a b : Scene} (h : SameShape a b) (i : StripId) :
    (b.strip i).inputs = (a.strip i).inputs := by
  have h2 := congrArg Strip.inputs (h.2.2.2.2 i)
  exact h2

theorem SameShape.seqbase {a b : Scene} (h : SameShape a b) (i : StripId) :
    (b.strip i).seqbase = (a.strip i).seqbase := by
  have h2 := congrArg Strip.seqbase (h.2.2.2.2 i)
  exact h2

theorem SameShape.modify (sc : Scene) (i : StripId) (f : Strip → Strip)
    (hf : ∀ s, (f s).static = s.static) : SameShape sc (sc.modify i f) := by
  refine ⟨rfl, rfl, rfl, by simp, fun j => ?_⟩
  rw [Scene.strip_modify]
  split
  · rename_i h; rw [hf, h.1]
  · rfl

theorem SameShape.lookup_effects {a b : Scene} (h : SameShape a b) (s : StripId) :
    seq_sequence_lookup_effects_by_seq b s = seq_sequence_lookup_effects_by_seq a s := by
  unfold seq_sequence_lookup_effects_by_seq
  rw [h.2.2.2.1]
  congr 1
  funext e
  rw [h.inputs]

theorem SameShape.lookup_meta {a b : Scene} (h : SameShape a b) (s : StripId) :
    seq_sequence_lookup_meta_by_seq b s = seq_sequence_lookup_meta_by_seq a s := by
  unfold seq_sequence_lookup_meta_by_seq
  rw [h.2.2.2.1]
  congr 1
  funext e
  rw [h.seqbase]

theorem mem_lookup_effects (sc : Scene) (s f : StripId) :
    f ∈ seq_sequence_lookup_effects_by_seq sc s
      ↔ f < sc.strips.length ∧ s ∈ (sc.strip f).inputs := by
  simp [seq_sequence_lookup_effects_by_seq]

theorem lookup_meta_some (sc : Scene) (s m : StripId)
    (h : seq_sequence_lookup_meta_by_seq sc s = some m) :
    m < sc.strips.length ∧ s ∈ (sc.strip m).seqbase := by
  unfold seq_sequence_lookup_meta_by_seq at h
  have h1 := List.find?_some h
  have h2 := List.mem_of_find?_eq_some h
  simp at h1 h2
  exact ⟨h2, h1⟩

theorem Scene.strip_null (sc : Scene) (i : StripId) (h : sc.strips.length ≤ i) :
    sc.strip i = Strip.null := by
  simp [Scene.strip, List.getD_eq_getElem?_getD, List.getElem?_eq_none h]

theorem Scene.modify_eq_self (sc : Scene) (i : StripId) (f : Strip → Strip)
    (h : f (sc.strip i) = sc.strip i) : sc.modify i f = sc := by
  unfold Scene.modify
  rw [h]
  by_cases hi : i < sc.strips.length
  · have : sc.strip i = sc.strips[i] := by
      simp [Scene.strip, List.getD_eq_getElem?_getD, List.getElem?_eq_getElem hi]
    rw [this]
    congr 1
    apply List.ext_getElem (by simp)
    intro n h1 h2
    simp only [List.getElem_set]
    split
    · rename_i h3; subst h3; rfl
    · rfl
  · rw [List.set_eq_of_length_le (Nat.le_of_not_lt hi)]

theorem Scene.modify_congr (sc : Scene) (i : StripId) (f g : Strip → Strip)
    (h : f (sc.strip i) = g (sc.strip i)) : sc.modify i f = sc.modify i g := by
  unfold Scene.modify
  rw [h]

theorem Scene.ext_strip (a b : Scene) (h : SameShape a b)
    (hsfra : b.sfra = a.sfra) (hefra : b.efra = a.efra) (hed : b.ed = a.ed)
    (hmv : b.multiview = a.multiview) (hnv : b.multiview_num_views = a.multiview_num_views)
    (hs : ∀ i, b.strip i = a.strip i) : b = a := by
  obtain ⟨h1, h2, h3, h4, _⟩ := h
  cases a; cases b
  simp only [Scene.mk.injEq] at *
  refine ⟨h1, h2, h3, ?_, hsfra, hefra, hed, hmv, hnv⟩
  apply List.ext_getElem h4
  intro n hn1 hn2
  have := hs n
  simp only [Scene.strip, List.getD_eq_getElem?_getD, List.getElem?_eq_getElem hn1,
    List.getElem?_eq_getElem hn2, Option.getD_some] at this
  exact this

/-! ## Closed form of `seq_time_effect_range_set` -/

@[simp] theorem effect_range_finish_static (s : Strip) :
    (effect_range_finish s).static = s.static := by
  unfold effect_range_finish Strip.static
  split <;> rfl

theorem effect_range_strip_static (sc : Scene) (s : Strip) :
    (effect_range_strip sc s).static = s.static := by
  unfold effect_range_strip
  split
  · rfl
  · rw [effect_range_finish_static]; rfl

theorem effect_range_strip_inputs (sc : Scene) (s : Strip) :
    (effect_range_strip sc s).inputs = s.inputs := by
  have h := congrArg Strip.inputs (effect_range_strip_static sc s)
  exact h

theorem effect_range_bounds_of_no_inputs (sc : Scene) (s : Strip) (h : s.inputs = []) :
    effect_range_bounds sc s = none := by
  unfold effect_range_bounds
  unfold Strip.inputs at h
  cases h1 : s.seq1 <;> cases h2 : s.seq2 <;> simp [h1, h2] at h ⊢

theorem effect_range_strip_of_no_inputs (sc : Scene) (s : Strip) (h : s.inputs = []) :
    effect_range_strip sc s = s := by
  unfold effect_range_strip
  rw [effect_range_bounds_of_no_inputs sc s h]

theorem effect_range_set_of_no_inputs (sc : Scene) (seq : StripId)
    (h : (sc.strip seq).inputs = []) : seq_time_effect_range_set sc seq = sc := by
  unfold seq_time_effect_range_set
  unfold Strip.inputs at h
  cases h1 : (sc.strip seq).seq1 <;> cases h2 : (sc.strip seq).seq2 <;> simp [h1, h2] at h ⊢

/-- For an effect that is not its own input the sequential assignments of the source amount
to one update of the effect strip. -/
theorem effect_range_set_eq (sc : Scene) (seq : StripId)
    (hself : seq ∉ (sc.strip seq).inputs) :
    seq_time_effect_range_set sc seq = sc.modify seq (effect_range_strip sc) := by
  have keyL : ∀ j (g : Strip → Strip), j ≠ seq →
      SEQ_time_left_handle_frame_get (sc.modify seq g) ((sc.modify seq g).strip j)
      = SEQ_time_left_handle_frame_get sc (sc.strip j) := by
    intro j g hj
    rw [Scene.strip_modify_ne _ _ _ _ hj]; rfl
  have keyR : ∀ j (g : Strip → Strip), j ≠ seq →
      SEQ_time_right_handle_frame_get (sc.modify seq g) ((sc.modify seq g).strip j)
      = SEQ_time_right_handle_frame_get sc (sc.strip j) := by
    intro j g hj
    rw [Scene.strip_modify_ne _ _ _ _ hj, right_handle_modify]
  unfold seq_time_effect_range_set
  unfold Strip.inputs at hself
  cases h1 : (sc.strip seq).seq1 with
  | none =>
    cases h2 : (sc.strip seq).seq2 with
    | none =>
      simp only
      rw [Scene.modify_eq_self]
      simp [effect_range_strip, effect_range_bounds, h1, h2]
    | some s2 =>
      have hne : s2 ≠ seq := by
        intro h; apply hself; simp [h2, h]
      simp only [Scene.modify_modify, keyL _ _ hne, right_handle_modify]
      apply Scene.modify_congr
      simp [effect_range_strip, effect_range_bounds, h1, h2]
  | some s1 =>
    have hne1 : s1 ≠ seq := by
      intro h; apply hself; simp [h1, h]
    cases h2 : (sc.strip seq).seq2 with
    | none =>
      simp only [Scene.modify_modify, keyL _ _ hne1, right_handle_modify]
      apply Scene.modify_congr
      simp [effect_range_strip, effect_range_bounds, h1, h2]
    | some s2 =>
      have hne : s2 ≠ seq := by
        intro h; apply hself; simp [h2, h]
      simp only [Scene.modify_modify, keyR _ _ hne, keyR _ _ hne1, right_handle_modify]
      apply Scene.modify_congr
      simp [effect_range_strip, effect_range_bounds, h1, h2]

theorem effect_range_set_shape (sc : Scene) (seq : StripId) :
    SameShape sc (seq_time_effect_range_set sc seq) := by
  have fin : ∀ (x : Scene), SameShape x (x.modify seq effect_range_finish) :=
    fun x => SameShape.modify x seq _ effect_range_finish_static
  have sd : ∀ (x : Scene) (v : Int),
      SameShape x (x.modify seq fun s => { s with startdisp := v }) :=
    fun x v => SameShape.modify x seq _ (fun _ => rfl)
  have ed : ∀ (x : Scene) (v : Int),
      SameShape x (x.modify seq fun s => { s with enddisp := v }) :=
    fun x v => SameShape.modify x seq _ (fun _ => rfl)
  unfold seq_time_effect_range_set
  split
  · exact SameShape.refl sc
  · exact ((sd _ _).trans (ed _ _)).trans (fin _)
  · exact ((sd _ _).trans (ed _ _)).trans (fin _)
  · exact ((sd _ _).trans (ed _ _)).trans (fin _)

theorem effect_range_set_strip_ne (sc : Scene) (seq j : StripId) (h : j ≠ seq) :
    (seq_time_effect_range_set sc seq).strip j = sc.strip j := by
  unfold seq_time_effect_range_set
  split <;> simp only [Scene.strip_modify_ne _ _ _ _ h]

theorem effect_range_bounds_congr (sc sc2 : Scene) (s t : Strip)
    (hf : sc2.frs_sec = sc.frs_sec) (hb : sc2.frs_sec_base = sc.frs_sec_base)
    (h1 : t.seq1 = s.seq1) (h2 : t.seq2 = s.seq2)
    (h : ∀ a ∈ s.inputs, sc2.strip a = sc.strip a) :
    effect_range_bounds sc2 t = effect_range_bounds sc s := by
  unfold effect_range_bounds
  rw [h1, h2]
  unfold Strip.inputs at h
  cases h1 : s.seq1 <;> cases h2 : s.seq2 <;>
    simp only [h1, h2, Option.toList, List.mem_append, List.mem_singleton, List.not_mem_nil,
      or_false, false_or, forall_eq_or_imp, forall_eq, List.nil_append, List.append_nil,
      List.singleton_append, List.mem_cons] at h ⊢
  · rw [h, right_handle_scene_congr sc sc2 _ hf hb]; rfl
  · rw [h, right_handle_scene_congr sc sc2 _ hf hb]; rfl
  · rw [h.1, h.2, right_handle_scene_congr sc sc2 _ hf hb,
      right_handle_scene_congr sc sc2 _ hf hb]; rfl

theorem effect_range_strip_congr (sc sc2 : Scene) (s : Strip)
    (hf : sc2.frs_sec = sc.frs_sec) (hb : sc2.frs_sec_base = sc.frs_sec_base)
    (h : ∀ a ∈ s.inputs, sc2.strip a = sc.strip a) :
    effect_range_strip sc2 s = effect_range_strip sc s := by
  unfold effect_range_strip
  rw [effect_range_bounds_congr sc sc2 s s hf hb rfl rfl h]

theorem effect_range_finish_idem (s : Strip) (a b : Int) :
    effect_range_finish { effect_range_finish { s with startdisp := a, enddisp := b } with
                          startdisp := a, enddisp := b }
      = effect_range_finish { s with startdisp := a, enddisp := b } := by
  unfold effect_range_finish
  simp only
  split <;> rfl

theorem effect_range_strip_idem (sc : Scene) (s : Strip) :
    effect_range_strip sc (effect_range_strip sc s) = effect_range_strip sc s := by
  have hs1 : (effect_range_strip sc s).seq1 = s.seq1 := by
    have h := congrArg Strip.seq1 (effect_range_strip_static sc s)
    exact h
  have hs2 : (effect_range_strip sc s).seq2 = s.seq2 := by
    have h := congrArg Strip.seq2 (effect_range_strip_static sc s)
    exact h
  have hb := effect_range_bounds_congr sc sc s (effect_range_strip sc s) rfl rfl hs1 hs2
    (fun _ _ => rfl)
  rw [effect_range_strip, hb]
  cases hbd : effect_range_bounds sc s with
  | none => rfl
  | some b =>
    simp only
    have he : effect_range_strip sc s
        = effect_range_finish { s with startdisp := b.1, enddisp := b.2 } := by
      simp [effect_range_strip, hbd]
    rw [he]
    exact effect_range_finish_idem s _ _

/-! ## The effect cascade: frame -/

theorem update_effects_zero (sc : Scene) (l : List StripId) :
    seq_time_update_effects_strip_range 0 sc l = none := rfl

theorem update_effects_succ (fuel : Nat) (sc : Scene) (l : List StripId) :
    seq_time_update_effects_strip_range (fuel + 1) sc l
      = l.foldlM
          (fun sc seq =>
            seq_time_update_effects_strip_range fuel sc
              (seq_sequence_lookup_effects_by_seq sc seq))
          (l.foldl seq_time_effect_range_set sc) := by
  simp [seq_time_update_effects_strip_range]

theorem update_effects_nil (fuel : Nat) (sc : Scene) :
    seq_time_update_effects_strip_range (fuel + 1) sc [] = some sc := by
  rw [update_effects_succ]; rfl

/-- The cascade keeps the strip graph and writes only strips of a set `Q` that contains the
given effects and is closed under consumers. -/
theorem update_effects_frame (sc0 : Scene) (Q : StripId → Prop)
    (hclosed : ∀ e, Q e → ∀ f, f < sc0.strips.length → e ∈ (sc0.strip f).inputs → Q f) :
    ∀ fuel sc l sc2, SameShape sc0 sc → (∀ e ∈ l, Q e) →
      seq_time_update_effects_strip_range fuel sc l = some sc2 →
      SameShape sc0 sc2 ∧ ∀ i, ¬ Q i → sc2.strip i = sc.strip i := by
  intro fuel
  induction fuel with
  | zero => intro sc l sc2 _ _ h; simp [update_effects_zero] at h
  | succ fuel ih =>
    intro sc l sc2 hsh hl h
    rw [update_effects_succ] at h
    have h1 : SameShape sc0 (l.foldl seq_time_effect_range_set sc) ∧
        ∀ i, ¬ Q i → (l.foldl seq_time_effect_range_set sc).strip i = sc.strip i := by
      refine foldl_inv seq_time_effect_range_set
        (fun x => SameShape sc0 x ∧ ∀ i, ¬ Q i → x.strip i = sc.strip i) l ?_ sc
        ⟨hsh, fun _ _ => rfl⟩
      intro x e he hx
      refine ⟨hx.1.trans (effect_range_set_shape x e), fun i hi => ?_⟩
      have hne : i ≠ e := fun h => hi (h ▸ hl e he)
      rw [effect_range_set_strip_ne x e i hne, hx.2 i hi]
    have h2 := foldlM_inv
      (fun sc seq =>
        seq_time_update_effects_strip_range fuel sc
          (seq_sequence_lookup_effects_by_seq sc seq))
      (fun _ x => SameShape sc0 x ∧ ∀ i, ¬ Q i → x.strip i = sc.strip i) l
      (by
        intro d x e x2 he hx hstep
        have hlook : ∀ f ∈ seq_sequence_lookup_effects_by_seq x e, Q f := by
          intro f hf
          rw [hx.1.lookup_effects, mem_lookup_effects] at hf
          exact hclosed e (hl e he) f hf.1 hf.2
        have := ih x _ x2 hx.1 hlook hstep
        exact ⟨this.1, fun i hi => by rw [this.2 i hi, hx.2 i hi]⟩)
      [] _ sc2 h1 h
    exact h2

/-- A strip without inputs is never written by the cascade. -/
theorem update_effects_no_inputs (fuel : Nat) (sc : Scene) (l : List StripId) (sc2 : Scene)
    (hl : ∀ e ∈ l, (sc.strip e).inputs ≠ [])
    (h : seq_time_update_effects_strip_range fuel sc l = some sc2) (i : StripId)
    (hi : (sc.strip i).inputs = []) : sc2.strip i = sc.strip i := by
  have := update_effects_frame sc (fun e => (sc.strip e).inputs ≠ [])
    (fun e _ f _ hf => List.ne_nil_of_mem hf) fuel sc l sc2 (SameShape.refl sc) hl h
  exact this.2 i (by simpa using hi)

theorem lookup_effects_inputs_ne_nil (sc : Scene) (s : StripId) :
    ∀ e ∈ seq_sequence_lookup_effects_by_seq sc s, (sc.strip e).inputs ≠ [] := by
  intro e he
  rw [mem_lookup_effects] at he
  exact List.ne_nil_of_mem he.2

/-! ## The effect cascade: termination -/

theorem update_effects_terminates (sc0 : Scene) (rk : StripId → Nat) (B : Nat)
    (hac : EffectsAcyclic sc0 rk) (hB : ∀ i, i < sc0.strips.length → rk i ≤ B) :
    ∀ k fuel sc l, SameShape sc0 sc → k + 1 ≤ fuel →
      (∀ e ∈ l, e < sc0.strips.length ∧ B - rk e < k) →
      ∃ sc2, seq_time_update_effects_strip_range fuel sc l = some sc2 := by
  intro k
  induction k with
  | zero =>
    intro fuel sc l _ hfuel hl
    have : l = [] := by
      cases l with
      | nil => rfl
      | cons a l => exact absurd (hl a (List.mem_cons_self _ _)).2 (Nat.not_lt_zero _)
    subst this
    obtain ⟨f, rfl⟩ : ∃ f, fuel = f + 1 := ⟨fuel - 1, by omega⟩
    exact ⟨sc, update_effects_nil f sc⟩
  | succ k ih =>
    intro fuel sc l hsh hfuel hl
    obtain ⟨f, rfl⟩ : ∃ f, fuel = f + 1 := ⟨fuel - 1, by omega⟩
    rw [update_effects_succ]
    have h1 : SameShape sc0 (l.foldl seq_time_effect_range_set sc) := by
      refine foldl_inv seq_time_effect_range_set (fun x => SameShape sc0 x) l ?_ sc hsh
      intro x e _ hx
      exact hx.trans (effect_range_set_shape x e)
    obtain ⟨r, hr, _⟩ := foldlM_total
      (fun sc seq =>
        seq_time_update_effects_strip_range f sc
          (seq_sequence_lookup_effects_by_seq sc seq))
      (fun x => SameShape sc0 x) l
      (by
        intro x e he hx
        have hlook : ∀ g ∈ seq_sequence_lookup_effects_by_seq x e,
            g < sc0.strips.length ∧ B - rk g < k := by
          intro g hg
          rw [hx.lookup_effects, mem_lookup_effects] at hg
          have h1 := hac g hg.1 e hg.2
          have h2 := hB g hg.1
          have h3 := (hl e he).2
          exact ⟨hg.1, by omega⟩
        obtain ⟨x2, hx2⟩ := ih f x _ hx (by omega) hlook
        refine ⟨x2, hx2, ?_⟩
        exact (update_effects_frame sc0 (fun _ => True) (fun _ _ _ _ _ => trivial) f x _ x2 hx
          (fun _ _ => trivial) hx2).1)
      _ h1
    exact ⟨r, hr⟩

/-! ## The effect cascade: consistency -/

theorem foldl_inv_prefix {α β : Type} (f : β → α → β) (I : List α → β → Prop) (l : List α)
    (hstep : ∀ d b a, a ∈ l → I d b → I (d ++ [a]) (f b a)) :
    ∀ d b, I d b → I (d ++ l) (l.foldl f b) := by
  induction l with
  | nil => intro d b hb; simpa using hb
  | cons a l ih =>
    intro d b hb
    simp only [List.foldl_cons]
    have := ih (fun d2 b2 a2 ha2 h2 => hstep d2 b2 a2 (List.mem_cons_of_mem _ ha2) h2)
      (d ++ [a]) (f b a) (hstep d b a (List.mem_cons_self _ _) hb)
    simpa using this

theorem stripConsistent_of_agree (x x2 : Scene) (f : StripId)
    (hf : x2.frs_sec = x.frs_sec) (hb : x2.frs_sec_base = x.frs_sec_base)
    (hs : x2.strip f = x.strip f) (hin : ∀ a ∈ (x.strip f).inputs, x2.strip a = x.strip a)
    (h : StripConsistent x f) : StripConsistent x2 f := by
  unfold StripConsistent at h ⊢
  rw [hs, effect_range_strip_congr x x2 _ hf hb hin, h]

theorem not_self_input (sc0 : Scene) (rk : StripId → Nat) (hac : EffectsAcyclic sc0 rk)
    (x : Scene) (hx : SameShape sc0 x) (e : StripId) : e ∉ (x.strip e).inputs := by
  rw [hx.inputs]
  intro h
  by_cases he : e < sc0.strips.length
  · exact absurd (hac e he e h) (Nat.lt_irrefl _)
  · rw [Scene.strip_null sc0 e (Nat.le_of_not_lt he)] at h
    simp [Strip.inputs, Strip.null] at h

theorem stripConsistent_after_set (x : Scene) (e : StripId)
    (hself : e ∉ (x.strip e).inputs) :
    StripConsistent (seq_time_effect_range_set x e) e := by
  rw [effect_range_set_eq x e hself]
  unfold StripConsistent
  by_cases he : e < x.strips.length
  · rw [Scene.strip_modify_self _ _ _ he]
    have hc := effect_range_strip_congr x (x.modify e (effect_range_strip x))
      (effect_range_strip x (x.strip e)) rfl rfl (by
        intro a ha
        rw [effect_range_strip_inputs] at ha
        have hne : a ≠ e := fun h => hself (h ▸ ha)
        rw [Scene.strip_modify_ne _ _ _ _ hne])
    rw [hc, effect_range_strip_idem]
  · have hnull : ∀ y : Scene, y.strips.length = x.strips.length → y.strip e = Strip.null :=
      fun y hy => Scene.strip_null y e (by rw [hy]; exact Nat.le_of_not_lt he)
    rw [hnull _ (by simp)]
    apply effect_range_strip_of_no_inputs
    simp [Strip.inputs, Strip.null]

theorem stripConsistent_to_set (x : Scene) (f : StripId)
    (hself : f ∉ (x.strip f).inputs) (h : StripConsistent x f) :
    seq_time_effect_range_set x f = x := by
  rw [effect_range_set_eq x f hself]
  exact Scene.modify_eq_self x f _ h

theorem transConsumes_head (sc : Scene) (e f : StripId) (h : TransConsumes sc e f) :
    f ∈ seq_sequence_lookup_effects_by_seq sc e ∨
    ∃ g ∈ seq_sequence_lookup_effects_by_seq sc e, TransConsumes sc g f := by
  induction h with
  | direct f hf he => exact Or.inl ((mem_lookup_effects sc e f).2 ⟨hf, he⟩)
  | step g f _ hf hg ih =>
    right
    rcases ih with h1 | ⟨g2, hg2, ht⟩
    · exact ⟨g, h1, TransConsumes.direct f hf hg⟩
    · exact ⟨g2, hg2, TransConsumes.step g f ht hf hg⟩

/-- After the cascade every effect reached from the given list is consistent with its inputs,
and every effect that was consistent before still is. -/
theorem update_effects_consistent (sc0 : Scene) (rk : StripId → Nat)
    (hac : EffectsAcyclic sc0 rk) :
    ∀ fuel sc l sc2, SameShape sc0 sc →
      seq_time_update_effects_strip_range fuel sc l = some sc2 →
      ∀ f, (StripConsistent sc f ∨ f ∈ l ∨ ∃ e ∈ l, TransConsumes sc0 e f) →
        StripConsistent sc2 f := by
  intro fuel
  induction fuel with
  | zero => intro sc l sc2 _ h; simp [update_effects_zero] at h
  | succ fuel ih =>
    intro sc l sc2 hsh h
    rw [update_effects_succ] at h
    -- first pass
    have h1 := foldl_inv_prefix seq_time_effect_range_set
      (fun d x => SameShape sc0 x ∧ (∀ i, i ∉ l → x.strip i = sc.strip i) ∧
        ∀ f, (StripConsistent sc f ∨ f ∈ d) →
          (∀ a ∈ (sc0.strip f).inputs, a ∉ l) → StripConsistent x f) l
      (by
        intro d x e he ⟨hx, hfr, hcons⟩
        refine ⟨hx.trans (effect_range_set_shape x e), ?_, ?_⟩
        · intro i hi
          have hne : i ≠ e := fun h => hi (h ▸ he)
          rw [effect_range_set_strip_ne x e i hne, hfr i hi]
        · intro f hf hin
          by_cases hfe : f = e
          · subst hfe
            exact stripConsistent_after_set x f (not_self_input sc0 rk hac x hx f)
          · have hf2 : StripConsistent sc f ∨ f ∈ d := by
              rcases hf with h | h
              · exact Or.inl h
              · simp only [List.mem_append, List.mem_singleton] at h
                rcases h with h | h
                · exact Or.inr h
                · exact absurd h hfe
            have hxf := hcons f hf2 hin
            refine stripConsistent_of_agree x _ f ?_ ?_ ?_ ?_ hxf
            · exact ((effect_range_set_shape x e).1)
            · exact ((effect_range_set_shape x e).2.1)
            · exact effect_range_set_strip_ne x e f hfe
            · intro a ha
              rw [hx.inputs] at ha
              have hne : a ≠ e := fun h => hin a ha (h ▸ he)
              exact effect_range_set_strip_ne x e a hne)
      [] sc ⟨hsh, fun _ _ => rfl, fun f hf _ => by
        rcases hf with h | h
        · exact h
        · simp at h⟩
    simp only [List.nil_append] at h1
    obtain ⟨hsh1, _, hcons1⟩ := h1
    -- second pass
    have h2 := foldlM_inv
      (fun sc seq =>
        seq_time_update_effects_strip_range fuel sc
          (seq_sequence_lookup_effects_by_seq sc seq))
      (fun d x => SameShape sc0 x ∧
        ∀ f, (StripConsistent (l.foldl seq_time_effect_range_set sc) f ∨
              ∃ e ∈ d, (f ∈ seq_sequence_lookup_effects_by_seq sc0 e ∨
                ∃ g ∈ seq_sequence_lookup_effects_by_seq sc0 e, TransConsumes sc0 g f)) →
          StripConsistent x f) l
      (by
        intro d x e x2 _ ⟨hx, hcons⟩ hstep
        have hx2 := (update_effects_frame sc0 (fun _ => True) (fun _ _ _ _ _ => trivial)
          fuel x _ x2 hx (fun _ _ => trivial) hstep).1
        refine ⟨hx2, ?_⟩
        intro f hf
        have hih := ih x _ x2 hx hstep f
        rw [hx.lookup_effects] at hih
        rcases hf with h | ⟨e2, he2, h⟩
        · exact hih (Or.inl (hcons f (Or.inl h)))
        · simp only [List.mem_append, List.mem_singleton] at he2
          rcases he2 with he2 | he2
          · exact hih (Or.inl (hcons f (Or.inr ⟨e2, he2, h⟩)))
          · subst he2
            exact hih (Or.inr h))
      [] _ sc2 ⟨hsh1, fun f hf => by
        rcases hf with h | ⟨e, he, _⟩
        · exact h
        · simp at he⟩ h
    simp only [List.nil_append] at h2
    obtain ⟨_, hcons2⟩ := h2
    intro f hf
    by_cases hT : ∃ e ∈ l, TransConsumes sc0 e f
    · obtain ⟨e, he, ht⟩ := hT
      exact hcons2 f (Or.inr ⟨e, he, transConsumes_head sc0 e f ht⟩)
    · apply hcons2 f
      left
      apply hcons1 f
      · rcases hf with h | h | h
        · exact Or.inl h
        · exact Or.inr h
        · exact absurd h hT
      · intro a ha hal
        apply hT
        refine ⟨a, hal, TransConsumes.direct f ?_ ha⟩
        by_contra hlt
        rw [Scene.strip_null sc0 f (Nat.le_of_not_lt hlt)] at ha
        simp [Strip.inputs, Strip.null] at ha

theorem rank_le_sup (n : Nat) (rk : StripId → Nat) (i : StripId) (h : i < n) :
    rk i ≤ (Finset.range n).sup rk :=
  Finset.le_sup (Finset.mem_range.2 h)

/-- C2: for a strip set whose effect-input relation is acyclic and a strip `s`, the run of
`seq_time_update_effects_strip_range` on the effects that consume `s` directly returns (with
enough fuel), and afterwards every effect that consumes `s` through a chain of effects is
consistent with the final handles of its inputs: `seq_time_effect_range_set` applied to it
once more changes nothing. -/
theorem effects_cascade_consistent (sc : Scene) (rk : StripId → Nat)
    (hac : EffectsAcyclic sc rk) (s : StripId) :
    ∃ N, ∀ fuel, N ≤ fuel →
      ∃ sc2, seq_time_update_effects_strip_range fuel sc
                (seq_sequence_lookup_effects_by_seq sc s) = some sc2 ∧
        ∀ f, TransConsumes sc s f → seq_time_effect_range_set sc2 f = sc2 := by
  refine ⟨(Finset.range sc.strips.length).sup rk + 2, fun fuel hfuel => ?_⟩
  obtain ⟨sc2, h2⟩ := update_effects_terminates sc rk _ hac
    (fun i hi => rank_le_sup _ rk i hi) ((Finset.range sc.strips.length).sup rk + 1) fuel sc
    (seq_sequence_lookup_effects_by_seq sc s) (SameShape.refl sc) (by omega)
    (fun e he => ⟨((mem_lookup_effects sc s e).1 he).1, by omega⟩)
  refine ⟨sc2, h2, fun f hf => ?_⟩
  have hsh := (update_effects_frame sc (fun _ => True) (fun _ _ _ _ _ => trivial) fuel sc _
    sc2 (SameShape.refl sc) (fun _ _ => trivial) h2).1
  apply stripConsistent_to_set sc2 f (not_self_input sc rk hac sc2 hsh f)
  apply update_effects_consistent sc rk hac fuel sc _ sc2 (SameShape.refl sc) h2 f
  right
  rcases transConsumes_head sc s f hf with h | h
  · exact Or.inl h
  · exact Or.inr h

/-- Witness for C2: the chain of two effects over a movie strip. -/
theorem effects_cascade_consistent_witness :
    EffectsAcyclic scene_effect_chain (fun i => i) ∧
    ∃ N, ∀ fuel, N ≤ fuel →
      ∃ sc2, seq_time_update_effects_strip_range fuel scene_effect_chain
                (seq_sequence_lookup_effects_by_seq scene_effect_chain 0) = some sc2 ∧
        ∀ f, TransConsumes scene_effect_chain 0 f → seq_time_effect_range_set sc2 f = sc2 :=
  ⟨by unfold EffectsAcyclic; decide,
   effects_cascade_consistent scene_effect_chain (fun i => i) (by unfold EffectsAcyclic; decide) 0⟩

/-! ## The meta cascade -/

theorem update_meta_zero (sc : Scene) (m : Option StripId) :
    SEQ_time_update_meta_strip_range 0 sc m = none := rfl

theorem update_meta_none (fuel : Nat) (sc : Scene) :
    SEQ_time_update_meta_strip_range (fuel + 1) sc none = some (sc, []) := rfl

theorem update_meta_empty (fuel : Nat) (sc : Scene) (m : StripId)
    (h : (sc.strip m).seqbase = []) :
    SEQ_time_update_meta_strip_range (fuel + 1) sc (some m) = some (sc, []) := by
  simp [SEQ_time_update_meta_strip_range, h]

theorem update_meta_succ (fuel : Nat) (sc : Scene) (m : StripId)
    (h : (sc.strip m).seqbase ≠ []) :
    SEQ_time_update_meta_strip_range (fuel + 1) sc (some m)
      = (seq_update_sound_bounds_recursive fuel (meta_range_step sc m) m).bind fun moves =>
        (seq_time_update_effects_strip_range fuel (meta_range_step sc m)
          (seq_sequence_lookup_effects_by_seq (meta_range_step sc m) m)).bind fun sc2 =>
        (SEQ_time_update_meta_strip_range fuel sc2
          (seq_sequence_lookup_meta_by_seq sc2 m)).map fun r => (r.1, moves ++ r.2) := by
  simp [SEQ_time_update_meta_strip_range, h, meta_range_step]

theorem meta_range_apply_static (sc : Scene) (a b c d : Int) (s : Strip) :
    (meta_range_apply sc a b c d s).static = s.static := rfl

theorem meta_range_step_shape (sc : Scene) (m : StripId) :
    SameShape sc (meta_range_step sc m) :=
  SameShape.modify sc m _ (meta_range_apply_static sc _ _ _ _)

theorem meta_range_step_strip_ne (sc : Scene) (m i : StripId) (h : i ≠ m) :
    (meta_range_step sc m).strip i = sc.strip i :=
  Scene.strip_modify_ne _ _ _ _ h

theorem meta_range_apply_left (sc : Scene) (a b c d : Int) (s : Strip)
    (h : s.inputs = []) :
    SEQ_time_left_handle_frame_get sc (meta_range_apply sc a b c d s) = a := by
  have h2 : (meta_range_apply sc a b c d s).inputs = [] := h
  rw [left_handle_of_no_inputs _ _ h2]
  simp [meta_range_apply]

theorem meta_range_apply_right (sc : Scene) (a b c d : Int) (s : Strip)
    (h : s.inputs = []) :
    SEQ_time_right_handle_frame_get sc (meta_range_apply sc a b c d s) = b := by
  have h2 : (meta_range_apply sc a b c d s).inputs = [] := h
  rw [right_handle_of_no_inputs _ _ h2]
  have hl : SEQ_time_strip_length_get sc (meta_range_apply sc a b c d s)
      = SEQ_time_strip_length_get sc
          { s with start := c + s.anim_startofs,
                   len := d - c - s.anim_startofs - s.anim_endofs,
                   startofs := a - (c + s.anim_startofs), startdisp := a } := rfl
  rw [hl]
  simp only [meta_range_apply]
  omega

theorem meta_range_apply_idem (sc : Scene) (a b c d : Int) (s : Strip) :
    meta_range_apply sc a b c d (meta_range_apply sc a b c d s)
      = meta_range_apply sc a b c d s := rfl

theorem sound_impl_succ (fuel : Nat) (sc : Scene) (m : StripId) (a b : Int) :
    seq_update_sound_bounds_recursive_impl (fuel + 1) sc m a b
      = (sc.strip m).seqbase.foldlM
          (fun moves child =>
            if (sc.strip child).type = SEQ_TYPE_META then
              (seq_update_sound_bounds_recursive_impl fuel sc child
                (max a (metaseq_start (sc.strip child)))
                (min b (metaseq_end (sc.strip child)))).map fun sub => moves ++ sub
            else if (sc.strip child).type = SEQ_TYPE_SOUND_RAM ∨
                (sc.strip child).type = SEQ_TYPE_SCENE then
              some (moves ++ sound_bounds_of_strip (sc.strip child) a b)
            else some moves)
          [] := by
  simp [seq_update_sound_bounds_recursive_impl]

/-- The walk over the meta tree returns when the fuel exceeds the remaining depth. -/
theorem sound_impl_terminates (sc : Scene) (lvl : StripId → Nat) (B : Nat)
    (hg : ∀ m, m < sc.strips.length → ∀ c ∈ (sc.strip m).seqbase, lvl c = lvl m + 1)
    (hB : ∀ i, i < sc.strips.length → lvl i ≤ B) :
    ∀ k fuel m a b, k + 1 ≤ fuel → (m < sc.strips.length → B - lvl m < k) →
      ∃ r, seq_update_sound_bounds_recursive_impl fuel sc m a b = some r := by
  intro k
  induction k with
  | zero =>
    intro fuel m a b hfuel hm
    obtain ⟨f, rfl⟩ : ∃ f, fuel = f + 1 := ⟨fuel - 1, by omega⟩
    have hge : sc.strips.length ≤ m := by
      by_contra h
      exact absurd (hm (Nat.lt_of_not_le h)) (Nat.not_lt_zero _)
    rw [sound_impl_succ, Scene.strip_null sc m hge]
    exact ⟨[], rfl⟩
  | succ k ih =>
    intro fuel m a b hfuel hm
    obtain ⟨f, rfl⟩ : ∃ f, fuel = f + 1 := ⟨fuel - 1, by omega⟩
    rw [sound_impl_succ]
    have key : ∃ r, (sc.strip m).seqbase.foldlM
          (fun moves child =>
            if (sc.strip child).type = SEQ_TYPE_META then
              (seq_update_sound_bounds_recursive_impl f sc child
                (max a (metaseq_start (sc.strip child)))
                (min b (metaseq_end (sc.strip child)))).map fun sub => moves ++ sub
            else if (sc.strip child).type = SEQ_TYPE_SOUND_RAM ∨
                (sc.strip child).type = SEQ_TYPE_SCENE then
              some (moves ++ sound_bounds_of_strip (sc.strip child) a b)
            else some moves)
          [] = some r ∧ True := by
      apply foldlM_total _ (fun _ => True) (sc.strip m).seqbase
      · intro moves c hc _
        by_cases hty : (sc.strip c).type = SEQ_TYPE_META
        · have hcl : c < sc.strips.length → B - lvl c < k := by
            intro hc2
            by_cases hm2 : m < sc.strips.length
            · have h1 := hg m hm2 c hc
              have h2 := hB c hc2
              have h3 := hm hm2
              omega
            · rw [Scene.strip_null sc m (Nat.le_of_not_lt hm2)] at hc
              simp [Strip.null] at hc
          obtain ⟨sub, hsub⟩ := ih f c (max a (metaseq_start (sc.strip c)))
            (min b (metaseq_end (sc.strip c))) (by omega) hcl
          exact ⟨moves ++ sub, by simp [hty, hsub], trivial⟩
        · by_cases hs : (sc.strip c).type = SEQ_TYPE_SOUND_RAM ∨
              (sc.strip c).type = SEQ_TYPE_SCENE
          · exact ⟨moves ++ sound_bounds_of_strip (sc.strip c) a b,
              by simp only [hty, if_false, hs, if_true], trivial⟩
          · exact ⟨moves, by simp only [hty, if_false, hs], trivial⟩
      · trivial
    obtain ⟨r, hr, _⟩ := key
    exact ⟨r, hr⟩

/-- The meta cascade keeps the strip graph and writes no strip nested deeper than the meta it
starts from. -/
theorem update_meta_frame (sc0 : Scene) (lvl : StripId → Nat) (hg : Graded sc0 lvl) :
    ∀ fuel sc m r, SameShape sc0 sc →
      SEQ_time_update_meta_strip_range fuel sc m = some r →
      SameShape sc0 r.1 ∧
      ∀ i, (∀ a, m = some a → lvl a < lvl i) → r.1.strip i = sc.strip i := by
  intro fuel
  induction fuel with
  | zero => intro sc m r _ h; simp [update_meta_zero] at h
  | succ fuel ih =>
    intro sc m r hsh h
    cases m with
    | none =>
      rw [update_meta_none] at h
      cases h
      exact ⟨hsh, fun _ _ => rfl⟩
    | some a =>
      by_cases hempty : (sc.strip a).seqbase = []
      · rw [update_meta_empty _ _ _ hempty] at h
        cases h
        exact ⟨hsh, fun _ _ => rfl⟩
      · rw [update_meta_succ _ _ _ hempty] at h
        simp only [Option.bind_eq_some, Option.map_eq_some'] at h
        obtain ⟨moves, _, sc2, hcas, r2, hrec, hr⟩ := h
        subst hr
        have hsh1 : SameShape sc0 (meta_range_step sc a) :=
          hsh.trans (meta_range_step_shape sc a)
        have hcf := update_effects_frame sc0 (fun i => lvl i = lvl a)
          (fun e he f hf hin => (hg.2 f hf e hin).symm.trans he)
          fuel _ _ sc2 hsh1
          (fun e he => by
            rw [hsh1.lookup_effects, mem_lookup_effects] at he
            exact (hg.2 e he.1 a he.2).symm)
          hcas
        obtain ⟨hsh3, hfr3⟩ := ih sc2 _ r2 hcf.1 hrec
        refine ⟨hsh3, fun i hi => ?_⟩
        have hlt : lvl a < lvl i := hi a rfl
        have hne : i ≠ a := fun h => by subst h; exact absurd hlt (Nat.lt_irrefl _)
        simp only
        rw [hfr3 i, hcf.2 i (by omega), meta_range_step_strip_ne sc a i hne]
        intro p hp
        rw [hcf.1.lookup_meta] at hp
        have := lookup_meta_some sc0 a p hp
        have := hg.1 p this.1 a this.2
        omega

theorem graded_of_shape {sc0 sc : Scene} {lvl : StripId → Nat} (hg : Graded sc0 lvl)
    (hsh : SameShape sc0 sc) : Graded sc lvl := by
  constructor
  · intro m hm c hc
    rw [hsh.seqbase] at hc
    exact hg.1 m (by rw [← hsh.2.2.2.1]; exact hm) c hc
  · intro e he a ha
    rw [hsh.inputs] at ha
    exact hg.2 e (by rw [← hsh.2.2.2.1]; exact he) a ha

theorem effectsAcyclic_of_shape {sc0 sc : Scene} {rk : StripId → Nat}
    (hac : EffectsAcyclic sc0 rk) (hsh : SameShape sc0 sc) : EffectsAcyclic sc rk := by
  intro e he a ha
  rw [hsh.inputs] at ha
  exact hac e (by rw [← hsh.2.2.2.1]; exact he) a ha

theorem metasHaveNoInputs_of_shape {sc0 sc : Scene} (hm : MetasHaveNoInputs sc0)
    (hsh : SameShape sc0 sc) : MetasHaveNoInputs sc := by
  intro m hlt hne
  rw [hsh.inputs]
  rw [hsh.seqbase] at hne
  exact hm m (by rw [← hsh.2.2.2.1]; exact hlt) hne

theorem wellFormed_of_shape {sc0 sc : Scene} {rk lvl : StripId → Nat}
    (h : WellFormed sc0 rk lvl) (hsh : SameShape sc0 sc) : WellFormed sc rk lvl :=
  ⟨effectsAcyclic_of_shape h.acyclic hsh, graded_of_shape h.graded hsh,
   metasHaveNoInputs_of_shape h.metas hsh⟩

/-- Fuel that suffices for every effect cascade and every walk over the meta tree of a
scene with the given rank and depth functions. -/
theorem cascade_fuel (sc0 : Scene) (rk lvl : StripId → Nat)
    (hac : EffectsAcyclic sc0 rk) (hg : Graded sc0 lvl) :
    ∃ N0, ∀ fuel sc, SameShape sc0 sc → N0 ≤ fuel →
      (∀ s, ∃ sc2, seq_time_update_effects_strip_range fuel sc
          (seq_sequence_lookup_effects_by_seq sc s) = some sc2) ∧
      (∀ m, ∃ moves, seq_update_sound_bounds_recursive fuel sc m = some moves) := by
  refine ⟨(Finset.range sc0.strips.length).sup rk + (Finset.range sc0.strips.length).sup lvl
    + 2, fun fuel sc hsh hfuel => ⟨fun s => ?_, fun m => ?_⟩⟩
  · exact update_effects_terminates sc0 rk _ hac
      (fun i hi => rank_le_sup _ rk i hi) ((Finset.range sc0.strips.length).sup rk + 1) fuel sc
      _ hsh (by omega)
      (fun e he => by
        rw [hsh.lookup_effects, mem_lookup_effects] at he
        exact ⟨he.1, by omega⟩)
  · have hg2 := graded_of_shape hg hsh
    exact sound_impl_terminates sc lvl ((Finset.range sc0.strips.length).sup lvl) hg2.1
      (fun i hi => rank_le_sup _ lvl i (by rw [← hsh.2.2.2.1]; exact hi))
      ((Finset.range sc0.strips.length).sup lvl + 1) fuel m _ _ (by omega) (fun _ => by omega)

theorem update_meta_terminates (sc0 : Scene) (lvl : StripId → Nat)
    (hg : Graded sc0 lvl) (N0 : Nat)
    (hN0 : ∀ fuel sc, SameShape sc0 sc → N0 ≤ fuel →
      (∀ s, ∃ sc2, seq_time_update_effects_strip_range fuel sc
          (seq_sequence_lookup_effects_by_seq sc s) = some sc2) ∧
      (∀ m, ∃ moves, seq_update_sound_bounds_recursive fuel sc m = some moves)) :
    ∀ k fuel sc m, SameShape sc0 sc → (∀ a, m = some a → lvl a ≤ k) → N0 + k + 2 ≤ fuel →
      ∃ r, SEQ_time_update_meta_strip_range fuel sc m = some r := by
  have step : ∀ k, (k ≠ 0 → ∀ fuel sc m, SameShape sc0 sc → (∀ a, m = some a → lvl a ≤ k - 1) →
        N0 + (k - 1) + 2 ≤ fuel → ∃ r, SEQ_time_update_meta_strip_range fuel sc m = some r) →
      ∀ fuel sc m, SameShape sc0 sc → (∀ a, m = some a → lvl a ≤ k) → N0 + k + 2 ≤ fuel →
      ∃ r, SEQ_time_update_meta_strip_range fuel sc m = some r := by
    intro k ih fuel sc m hsh hm hfuel
    obtain ⟨f, rfl⟩ : ∃ f, fuel = f + 1 := ⟨fuel - 1, by omega⟩
    cases m with
    | none => exact ⟨_, update_meta_none f sc⟩
    | some a =>
      by_cases hempty : (sc.strip a).seqbase = []
      · exact ⟨_, update_meta_empty f sc a hempty⟩
      · rw [update_meta_succ _ _ _ hempty]
        have hsh1 : SameShape sc0 (meta_range_step sc a) :=
          hsh.trans (meta_range_step_shape sc a)
        obtain ⟨hcas, hsnd⟩ := hN0 f _ hsh1 (by omega)
        obtain ⟨moves, hmoves⟩ := hsnd a
        obtain ⟨sc2, hsc2⟩ := hcas a
        have hsh2 := (update_effects_frame sc0 (fun _ => True) (fun _ _ _ _ _ => trivial) f _ _
          sc2 hsh1 (fun _ _ => trivial) hsc2).1
        have hrec : ∃ r, SEQ_time_update_meta_strip_range f sc2
            (seq_sequence_lookup_meta_by_seq sc2 a) = some r := by
          cases hp : seq_sequence_lookup_meta_by_seq sc2 a with
          | none =>
            obtain ⟨f2, rfl⟩ : ∃ f2, f = f2 + 1 := ⟨f - 1, by omega⟩
            exact ⟨_, update_meta_none f2 sc2⟩
          | some p =>
            rw [hsh2.lookup_meta] at hp
            have h1 := lookup_meta_some sc0 a p hp
            have h2 := hg.1 p h1.1 a h1.2
            have h3 := hm a rfl
            have hk : k ≠ 0 := by omega
            exact ih hk f sc2 (some p) hsh2
              (fun b hb => by cases hb; omega) (by omega)
        obtain ⟨r, hr⟩ := hrec
        exact ⟨(r.1, moves ++ r.2), by simp [hmoves, hsc2, hr]⟩
  intro k
  induction k with
  | zero => exact step 0 (fun h => absurd rfl h)
  | succ k ih => exact step (k + 1) (fun _ => by simpa using ih)

theorem update_meta_exists (sc : Scene) (rk lvl : StripId → Nat) (hwf : WellFormed sc rk lvl) :
    ∃ N, ∀ fuel sc2 m, SameShape sc sc2 → N + lvl m ≤ fuel →
      ∃ r, SEQ_time_update_meta_strip_range fuel sc2 (some m) = some r := by
  obtain ⟨N0, hN0⟩ := cascade_fuel sc rk lvl hwf.acyclic hwf.graded
  refine ⟨N0 + 2, fun fuel sc2 m hsh hfuel => ?_⟩
  exact update_meta_terminates sc lvl hwf.graded N0 hN0 (lvl m) fuel sc2 (some m)
    hsh (fun a ha => by cases ha; exact Nat.le_refl _) (by omega)

theorem seqbase_ne_nil_lt (sc : Scene) (m : StripId) (h : (sc.strip m).seqbase ≠ []) :
    m < sc.strips.length := by
  by_contra hlt
  rw [Scene.strip_null sc m (Nat.le_of_not_lt hlt)] at h
  exact h rfl

/-- What a run of the meta cascade from a meta strip with children leaves behind: the meta
holds the fields written by its own step, and no strip nested deeper than the meta is
written. -/
theorem update_meta_self (sc : Scene) (rk lvl : StripId → Nat) (hwf : WellFormed sc rk lvl)
    (m : StripId) (hchild : (sc.strip m).seqbase ≠ []) (fuel : Nat)
    (r : Scene × List SoundMove)
    (h : SEQ_time_update_meta_strip_range fuel sc (some m) = some r) :
    SameShape sc r.1 ∧ r.1.strip m = (meta_range_step sc m).strip m ∧
    ∀ i, lvl m < lvl i → r.1.strip i = sc.strip i := by
  have hfr := update_meta_frame sc lvl hwf.graded fuel sc (some m) r (SameShape.refl sc) h
  refine ⟨hfr.1, ?_, fun i hi => hfr.2 i (fun a ha => by cases ha; exact hi)⟩
  cases fuel with
  | zero => simp [update_meta_zero] at h
  | succ f =>
    rw [update_meta_succ _ _ _ hchild] at h
    simp only [Option.bind_eq_some, Option.map_eq_some'] at h
    obtain ⟨moves, _, sc2, hcas, r2, hrec, hr⟩ := h
    subst hr
    have hsh1 := meta_range_step_shape sc m
    have hin : ((meta_range_step sc m).strip m).inputs = [] := by
      rw [hsh1.inputs]
      exact hwf.metas m (seqbase_ne_nil_lt sc m hchild) hchild
    have h1 := update_effects_no_inputs f _ _ sc2
      (lookup_effects_inputs_ne_nil _ m) hcas m hin
    have hsh2 := (update_effects_frame sc (fun _ => True) (fun _ _ _ _ _ => trivial) f _ _
      sc2 hsh1 (fun _ _ => trivial) hcas).1
    have h2 := (update_meta_frame sc lvl hwf.graded f sc2 _ r2 hsh2 hrec).2 m
      (fun p hp => by
        rw [hsh2.lookup_meta] at hp
        have h3 := lookup_meta_some sc m p hp
        have := hwf.graded.1 p h3.1 m h3.2
        omega)
    simp only
    rw [h2, h1]

/-- C3: for a meta strip with at least one child in a well-formed strip graph,
`SEQ_time_update_meta_strip_range` returns (with enough fuel) and leaves the left and the
right handle of the meta where they were before the call, whatever the bounds of the
children are, and `startdisp`, `enddisp` hold these two values. -/
theorem meta_range_keeps_handles (sc : Scene) (rk lvl : StripId → Nat)
    (hwf : WellFormed sc rk lvl) (seq_meta : StripId)
    (hchild : (sc.strip seq_meta).seqbase ≠ []) :
    ∃ N, ∀ fuel, N ≤ fuel →
      ∃ r, SEQ_time_update_meta_strip_range fuel sc (some seq_meta) = some r ∧
        SEQ_time_left_handle_frame_get r.1 (r.1.strip seq_meta)
          = SEQ_time_left_handle_frame_get sc (sc.strip seq_meta) ∧
        SEQ_time_right_handle_frame_get r.1 (r.1.strip seq_meta)
          = SEQ_time_right_handle_frame_get sc (sc.strip seq_meta) ∧
        (r.1.strip seq_meta).startdisp
          = SEQ_time_left_handle_frame_get sc (sc.strip seq_meta) ∧
        (r.1.strip seq_meta).enddisp
          = SEQ_time_right_handle_frame_get sc (sc.strip seq_meta) := by
  obtain ⟨N, hN⟩ := update_meta_exists sc rk lvl hwf
  refine ⟨N + lvl seq_meta, fun fuel hfuel => ?_⟩
  obtain ⟨r, hr⟩ := hN fuel sc seq_meta (SameShape.refl sc) hfuel
  obtain ⟨hsh, hself, _⟩ := update_meta_self sc rk lvl hwf seq_meta hchild fuel r hr
  have hlt := seqbase_ne_nil_lt sc seq_meta hchild
  have hin := hwf.metas seq_meta hlt hchild
  refine ⟨r, hr, ?_, ?_, ?_, ?_⟩
  · rw [hself, meta_range_step, Scene.strip_modify_self _ _ _ hlt]
    exact meta_range_apply_left sc _ _ _ _ _ hin
  · rw [right_handle_scene_congr sc r.1 _ hsh.1 hsh.2.1, hself, meta_range_step,
      Scene.strip_modify_self _ _ _ hlt]
    exact meta_range_apply_right sc _ _ _ _ _ hin
  · rw [hself, meta_range_step, Scene.strip_modify_self _ _ _ hlt]
    rfl
  · rw [hself, meta_range_step, Scene.strip_modify_self _ _ _ hlt]
    rfl

theorem scene_nested_meta_wf :
    WellFormed scene_nested_meta (fun i => i) lvl_nested_meta :=
  ⟨by unfold EffectsAcyclic; decide, by unfold Graded; decide,
   by unfold MetasHaveNoInputs; decide⟩

/-- Witness for C3: the nested meta of `scene_nested_meta`. -/
theorem meta_range_keeps_handles_witness :
    WellFormed scene_nested_meta (fun i => i) lvl_nested_meta ∧
    (scene_nested_meta.strip 1).seqbase ≠ [] ∧
    ∃ N, ∀ fuel, N ≤ fuel →
      ∃ r, SEQ_time_update_meta_strip_range fuel scene_nested_meta (some 1) = some r ∧
        SEQ_time_left_handle_frame_get r.1 (r.1.strip 1)
          = SEQ_time_left_handle_frame_get scene_nested_meta (scene_nested_meta.strip 1) ∧
        SEQ_time_right_handle_frame_get r.1 (r.1.strip 1)
          = SEQ_time_right_handle_frame_get scene_nested_meta (scene_nested_meta.strip 1) ∧
        (r.1.strip 1).startdisp
          = SEQ_time_left_handle_frame_get scene_nested_meta (scene_nested_meta.strip 1) ∧
        (r.1.strip 1).enddisp
          = SEQ_time_right_handle_frame_get scene_nested_meta (scene_nested_meta.strip 1) :=
  ⟨scene_nested_meta_wf, by decide,
   meta_range_keeps_handles scene_nested_meta (fun i => i) lvl_nested_meta
     scene_nested_meta_wf 1 (by decide)⟩

/-! ## The bounds of the children of a meta -/

theorem children_bounds_fold (sc : Scene) (ch : List StripId) :
    ∀ a b : Int,
    let r := ch.foldl
      (fun mm child =>
        (min (SEQ_time_left_handle_frame_get sc (sc.strip child)) mm.1,
         max (SEQ_time_right_handle_frame_get sc (sc.strip child)) mm.2))
      (a, b)
    (r.1 ≤ a ∧ (∀ c ∈ ch, r.1 ≤ SEQ_time_left_handle_frame_get sc (sc.strip c)) ∧
      (r.1 = a ∨ ∃ c ∈ ch, SEQ_time_left_handle_frame_get sc (sc.strip c) = r.1)) ∧
    (b ≤ r.2 ∧ (∀ c ∈ ch, SEQ_time_right_handle_frame_get sc (sc.strip c) ≤ r.2) ∧
      (r.2 = b ∨ ∃ c ∈ ch, SEQ_time_right_handle_frame_get sc (sc.strip c) = r.2)) := by
  induction ch with
  | nil => intro a b; simp
  | cons x xs ih =>
    intro a b
    simp only [List.foldl_cons]
    have h := ih (min (SEQ_time_left_handle_frame_get sc (sc.strip x)) a)
      (max (SEQ_time_right_handle_frame_get sc (sc.strip x)) b)
    simp only at h
    have m1 := min_le_left (SEQ_time_left_handle_frame_get sc (sc.strip x)) a
    have m2 := min_le_right (SEQ_time_left_handle_frame_get sc (sc.strip x)) a
    have m3 := min_choice (SEQ_time_left_handle_frame_get sc (sc.strip x)) a
    have M1 := le_max_left (SEQ_time_right_handle_frame_get sc (sc.strip x)) b
    have M2 := le_max_right (SEQ_time_right_handle_frame_get sc (sc.strip x)) b
    have M3 := max_choice (SEQ_time_right_handle_frame_get sc (sc.strip x)) b
    revert h m1 m2 m3 M1 M2 M3
    generalize min (SEQ_time_left_handle_frame_get sc (sc.strip x)) a = mn
    generalize max (SEQ_time_right_handle_frame_get sc (sc.strip x)) b = mx
    intro h m1 m2 m3 M1 M2 M3
    obtain ⟨⟨h1, h2, h3⟩, h4, h5, h6⟩ := h
    refine ⟨⟨le_trans h1 m2, ?_, ?_⟩, le_trans M2 h4, ?_, ?_⟩
    · intro c hc
      rcases List.mem_cons.1 hc with rfl | hc
      · exact le_trans h1 m1
      · exact h2 c hc
    · rcases h3 with h3 | ⟨c, hc, h3⟩
      · rcases m3 with m3 | m3
        · right; exact ⟨x, List.mem_cons_self _ _, by rw [h3, m3]⟩
        · left; rw [h3, m3]
      · right; exact ⟨c, List.mem_cons_of_mem _ hc, h3⟩
    · intro c hc
      rcases List.mem_cons.1 hc with rfl | hc
      · exact le_trans M1 h4
      · exact h5 c hc
    · rcases h6 with h6 | ⟨c, hc, h6⟩
      · rcases M3 with M3 | M3
        · right; exact ⟨x, List.mem_cons_self _ _, by rw [h6, M3]⟩
        · left; rw [h6, M3]
      · right; exact ⟨c, List.mem_cons_of_mem _ hc, h6⟩

/-- With a child on each side of the sentinels, the loop over the children returns the least
left handle and the greatest right handle. -/
theorem meta_children_bounds_spec (sc : Scene) (ch : List StripId)
    (hlo : ∃ c ∈ ch, SEQ_time_left_handle_frame_get sc (sc.strip c) ≤ sc.MAXFRAME * 2)
    (hhi : ∃ c ∈ ch, -sc.MAXFRAME * 2 ≤ SEQ_time_right_handle_frame_get sc (sc.strip c)) :
    (∀ c ∈ ch, (meta_children_bounds sc ch).1 ≤ SEQ_time_left_handle_frame_get sc (sc.strip c)) ∧
    (∃ c ∈ ch, SEQ_time_left_handle_frame_get sc (sc.strip c) = (meta_children_bounds sc ch).1) ∧
    (∀ c ∈ ch, SEQ_time_right_handle_frame_get sc (sc.strip c) ≤ (meta_children_bounds sc ch).2) ∧
    (∃ c ∈ ch, SEQ_time_right_handle_frame_get sc (sc.strip c) = (meta_children_bounds sc ch).2) := by
  have h := children_bounds_fold sc ch (sc.MAXFRAME * 2) (-sc.MAXFRAME * 2)
  simp only at h
  obtain ⟨⟨h1, h2, h3⟩, h4, h5, h6⟩ := h
  refine ⟨h2, ?_, h5, ?_⟩
  · rcases h3 with h3 | h3
    · obtain ⟨c, hc, hcl⟩ := hlo
      have hge : (meta_children_bounds sc ch).1
          ≤ SEQ_time_left_handle_frame_get sc (sc.strip c) := h2 c hc
      have e : (meta_children_bounds sc ch).1 = sc.MAXFRAME * 2 := h3
      exact ⟨c, hc, le_antisymm (by rw [e]; exact hcl) hge⟩
    · exact h3
  · rcases h6 with h6 | h6
    · obtain ⟨c, hc, hcl⟩ := hhi
      have hle : SEQ_time_right_handle_frame_get sc (sc.strip c)
          ≤ (meta_children_bounds sc ch).2 := h5 c hc
      have e : (meta_children_bounds sc ch).2 = -sc.MAXFRAME * 2 := h6
      exact ⟨c, hc, le_antisymm hle (by rw [e]; exact hcl)⟩
    · exact h6

theorem meta_children_bounds_congr (sc sc2 : Scene) (ch : List StripId)
    (hsh : SameShape sc sc2) (h : ∀ c ∈ ch, sc2.strip c = sc.strip c) :
    meta_children_bounds sc2 ch = meta_children_bounds sc ch := by
  unfold meta_children_bounds
  rw [hsh.2.2.1]
  generalize (sc.MAXFRAME * 2, -sc.MAXFRAME * 2) = init
  induction ch generalizing init with
  | nil => rfl
  | cons x xs ih =>
    simp only [List.foldl_cons]
    rw [h x (List.mem_cons_self _ _), right_handle_scene_congr sc sc2 _ hsh.1 hsh.2.1]
    exact ih (fun c hc => h c (List.mem_cons_of_mem _ hc)) _

theorem meta_range_apply_scene_congr (sc sc2 : Scene) (a b c d : Int) (s : Strip)
    (hf : sc2.frs_sec = sc.frs_sec) (hb : sc2.frs_sec_base = sc.frs_sec_base) :
    meta_range_apply sc2 a b c d s = meta_range_apply sc a b c d s := by
  unfold meta_range_apply
  simp only [strip_length_scene_congr sc sc2 _ hf hb]

/-- The fields and children of a meta strip after `SEQ_time_update_meta_strip_range`. -/
theorem meta_range_content_span_aux (sc : Scene) (rk lvl : StripId → Nat)
    (hwf : WellFormed sc rk lvl) (seq_meta : StripId)
    (hlo : ∃ c ∈ (sc.strip seq_meta).seqbase,
      SEQ_time_left_handle_frame_get sc (sc.strip c) ≤ sc.MAXFRAME * 2)
    (hhi : ∃ c ∈ (sc.strip seq_meta).seqbase,
      -sc.MAXFRAME * 2 ≤ SEQ_time_right_handle_frame_get sc (sc.strip c)) :
    ∃ N, ∀ fuel, N ≤ fuel →
      ∃ r, SEQ_time_update_meta_strip_range fuel sc (some seq_meta) = some r ∧
        SameShape sc r.1 ∧
        ∃ mn mx : Int,
          (∀ c ∈ (r.1.strip seq_meta).seqbase,
            mn ≤ SEQ_time_left_handle_frame_get r.1 (r.1.strip c)) ∧
          (∃ c ∈ (r.1.strip seq_meta).seqbase,
            SEQ_time_left_handle_frame_get r.1 (r.1.strip c) = mn) ∧
          (∀ c ∈ (r.1.strip seq_meta).seqbase,
            SEQ_time_right_handle_frame_get r.1 (r.1.strip c) ≤ mx) ∧
          (∃ c ∈ (r.1.strip seq_meta).seqbase,
            SEQ_time_right_handle_frame_get r.1 (r.1.strip c) = mx) ∧
          (r.1.strip seq_meta).start = mn + (r.1.strip seq_meta).anim_startofs ∧
          (r.1.strip seq_meta).len
            = (mx - mn) - (r.1.strip seq_meta).anim_startofs
                - (r.1.strip seq_meta).anim_endofs := by
  have hchild : (sc.strip seq_meta).seqbase ≠ [] := by
    obtain ⟨c, hc, _⟩ := hlo
    exact List.ne_nil_of_mem hc
  obtain ⟨N, hN⟩ := update_meta_exists sc rk lvl hwf
  refine ⟨N + lvl seq_meta, fun fuel hfuel => ?_⟩
  obtain ⟨r, hr⟩ := hN fuel sc seq_meta (SameShape.refl sc) hfuel
  obtain ⟨hsh, hself, hdeep⟩ := update_meta_self sc rk lvl hwf seq_meta hchild fuel r hr
  have hlt := seqbase_ne_nil_lt sc seq_meta hchild
  have hch : ∀ c ∈ (sc.strip seq_meta).seqbase, r.1.strip c = sc.strip c := by
    intro c hc
    apply hdeep
    have := hwf.graded.1 seq_meta hlt c hc
    omega
  have hL : ∀ c ∈ (sc.strip seq_meta).seqbase,
      SEQ_time_left_handle_frame_get r.1 (r.1.strip c)
        = SEQ_time_left_handle_frame_get sc (sc.strip c) := by
    intro c hc; rw [hch c hc]; rfl
  have hR : ∀ c ∈ (sc.strip seq_meta).seqbase,
      SEQ_time_right_handle_frame_get r.1 (r.1.strip c)
        = SEQ_time_right_handle_frame_get sc (sc.strip c) := by
    intro c hc; rw [hch c hc, right_handle_scene_congr sc r.1 _ hsh.1 hsh.2.1]
  obtain ⟨b1, ⟨c1, hc1, b2⟩, b3, ⟨c2, hc2, b4⟩⟩ :=
    meta_children_bounds_spec sc (sc.strip seq_meta).seqbase hlo hhi
  refine ⟨r, hr, hsh, (meta_children_bounds sc (sc.strip seq_meta).seqbase).1,
    (meta_children_bounds sc (sc.strip seq_meta).seqbase).2, ?_, ?_, ?_, ?_, ?_, ?_⟩
  · rw [hsh.seqbase]; intro c hc; rw [hL c hc]; exact b1 c hc
  · rw [hsh.seqbase]; exact ⟨c1, hc1, by rw [hL c1 hc1]; exact b2⟩
  · rw [hsh.seqbase]; intro c hc; rw [hR c hc]; exact b3 c hc
  · rw [hsh.seqbase]; exact ⟨c2, hc2, by rw [hR c2 hc2]; exact b4⟩
  · rw [hself, meta_range_step, Scene.strip_modify_self _ _ _ hlt]
    rfl
  · rw [hself, meta_range_step, Scene.strip_modify_self _ _ _ hlt]
    simp only [meta_range_apply]

/-- C4 (as amended): for a meta strip of a well-formed strip graph with a child whose left
handle is at most `MAXFRAME * 2` and a child whose right handle is at least `-MAXFRAME * 2`,
`SEQ_time_update_meta_strip_range` returns (with enough fuel) and afterwards the stored
content span of the meta is the tight bound of its children: with `mn` the least left handle
and `mx` the greatest right handle of the children, `start = mn + anim_startofs` and
`len = (mx - mn) - anim_startofs - anim_endofs`. -/
theorem meta_range_content_span (sc : Scene) (rk lvl : StripId → Nat)
    (hwf : WellFormed sc rk lvl) (seq_meta : StripId)
    (hlo : ∃ c ∈ (sc.strip seq_meta).seqbase,
      SEQ_time_left_handle_frame_get sc (sc.strip c) ≤ sc.MAXFRAME * 2)
    (hhi : ∃ c ∈ (sc.strip seq_meta).seqbase,
      -sc.MAXFRAME * 2 ≤ SEQ_time_right_handle_frame_get sc (sc.strip c)) :
    ∃ N, ∀ fuel, N ≤ fuel →
      ∃ r, SEQ_time_update_meta_strip_range fuel sc (some seq_meta) = some r ∧
        ∃ mn mx : Int,
          (∀ c ∈ (r.1.strip seq_meta).seqbase,
            mn ≤ SEQ_time_left_handle_frame_get r.1 (r.1.strip c)) ∧
          (∃ c ∈ (r.1.strip seq_meta).seqbase,
            SEQ_time_left_handle_frame_get r.1 (r.1.strip c) = mn) ∧
          (∀ c ∈ (r.1.strip seq_meta).seqbase,
            SEQ_time_right_handle_frame_get r.1 (r.1.strip c) ≤ mx) ∧
          (∃ c ∈ (r.1.strip seq_meta).seqbase,
            SEQ_time_right_handle_frame_get r.1 (r.1.strip c) = mx) ∧
          (r.1.strip seq_meta).start = mn + (r.1.strip seq_meta).anim_startofs ∧
          (r.1.strip seq_meta).len
            = (mx - mn) - (r.1.strip seq_meta).anim_startofs
                - (r.1.strip seq_meta).anim_endofs := by
  obtain ⟨N, hN⟩ := meta_range_content_span_aux sc rk lvl hwf seq_meta hlo hhi
  refine ⟨N, fun fuel hfuel => ?_⟩
  obtain ⟨r, hr, _, h⟩ := hN fuel hfuel
  exact ⟨r, hr, h⟩

theorem playback_rate_factor_congr (sc sc2 : Scene) (s t : Strip)
    (hf : sc2.frs_sec = sc.frs_sec) (hb : sc2.frs_sec_base = sc.frs_sec_base)
    (h : t.static = s.static) :
    SEQ_time_media_playback_rate_factor_get sc2 t
      = SEQ_time_media_playback_rate_factor_get sc s := by
  have h1 : t.flag_auto_playback_rate = s.flag_auto_playback_rate := by
    have h2 := congrArg Strip.flag_auto_playback_rate h
    exact h2
  have h3 : t.media_playback_rate = s.media_playback_rate := by
    have h2 := congrArg Strip.media_playback_rate h
    exact h2
  simp [SEQ_time_media_playback_rate_factor_get, h1, h3, hf, hb]

theorem retiming_is_active_congr (s t : Strip) (h : t.static = s.static) :
    SEQ_retiming_is_active t = SEQ_retiming_is_active s := by
  have h1 : t.retiming_keys = s.retiming_keys := by
    have h2 := congrArg Strip.retiming_keys h
    exact h2
  simp [SEQ_retiming_is_active, h1]

/-- Without retiming and with playback-rate factor 1 the content length is `len`. -/
theorem strip_length_of_factor_one (sc : Scene) (s : Strip)
    (hk : SEQ_retiming_is_active s = false)
    (ha : SEQ_time_media_playback_rate_factor_get sc s = 1) :
    SEQ_time_strip_length_get sc s = s.len := by
  simp [SEQ_time_strip_length_get, hk, ha, float_to_int]

/-- C5 (as amended): for a meta strip of a well-formed strip graph with children on both sides
of the sentinels, retiming inactive and playback-rate factor 1, after
`SEQ_time_update_meta_strip_range` (which returns with enough fuel) the handles of the meta
are tied to the least left handle `mn` and the greatest right handle `mx` of its children by
its trims: `left = mn + anim_startofs + startofs` and
`right = mx - anim_endofs - endofs`.  The handles coincide with `mn`, `mx` when the trims
are zero; with non-negative trims the left handle is at least `mn` and the right handle at
most `mx`. -/
theorem meta_range_handles_vs_children (sc : Scene) (rk lvl : StripId → Nat)
    (hwf : WellFormed sc rk lvl) (seq_meta : StripId)
    (hlo : ∃ c ∈ (sc.strip seq_meta).seqbase,
      SEQ_time_left_handle_frame_get sc (sc.strip c) ≤ sc.MAXFRAME * 2)
    (hhi : ∃ c ∈ (sc.strip seq_meta).seqbase,
      -sc.MAXFRAME * 2 ≤ SEQ_time_right_handle_frame_get sc (sc.strip c))
    (hret : SEQ_retiming_is_active (sc.strip seq_meta) = false)
    (hrate : SEQ_time_media_playback_rate_factor_get sc (sc.strip seq_meta) = 1) :
    ∃ N, ∀ fuel, N ≤ fuel →
      ∃ r, SEQ_time_update_meta_strip_range fuel sc (some seq_meta) = some r ∧
        ∃ mn mx : Int,
          (∀ c ∈ (r.1.strip seq_meta).seqbase,
            mn ≤ SEQ_time_left_handle_frame_get r.1 (r.1.strip c)) ∧
          (∃ c ∈ (r.1.strip seq_meta).seqbase,
            SEQ_time_left_handle_frame_get r.1 (r.1.strip c) = mn) ∧
          (∀ c ∈ (r.1.strip seq_meta).seqbase,
            SEQ_time_right_handle_frame_get r.1 (r.1.strip c) ≤ mx) ∧
          (∃ c ∈ (r.1.strip seq_meta).seqbase,
            SEQ_time_right_handle_frame_get r.1 (r.1.strip c) = mx) ∧
          SEQ_time_left_handle_frame_get r.1 (r.1.strip seq_meta)
            = mn + (r.1.strip seq_meta).anim_startofs + (r.1.strip seq_meta).startofs ∧
          SEQ_time_right_handle_frame_get r.1 (r.1.strip seq_meta)
            = mx - (r.1.strip seq_meta).anim_endofs - (r.1.strip seq_meta).endofs ∧
          ((r.1.strip seq_meta).anim_startofs + (r.1.strip seq_meta).startofs = 0 →
            SEQ_time_left_handle_frame_get r.1 (r.1.strip seq_meta) = mn) ∧
          ((r.1.strip seq_meta).anim_endofs + (r.1.strip seq_meta).endofs = 0 →
            SEQ_time_right_handle_frame_get r.1 (r.1.strip seq_meta) = mx) ∧
          (0 ≤ (r.1.strip seq_meta).anim_startofs + (r.1.strip seq_meta).startofs →
            mn ≤ SEQ_time_left_handle_frame_get r.1 (r.1.strip seq_meta)) ∧
          (0 ≤ (r.1.strip seq_meta).anim_endofs + (r.1.strip seq_meta).endofs →
            SEQ_time_right_handle_frame_get r.1 (r.1.strip seq_meta) ≤ mx) := by
  have hchild : (sc.strip seq_meta).seqbase ≠ [] := by
    obtain ⟨c, hc, _⟩ := hlo
    exact List.ne_nil_of_mem hc
  have hlt := seqbase_ne_nil_lt sc seq_meta hchild
  obtain ⟨N, hN⟩ := meta_range_content_span_aux sc rk lvl hwf seq_meta hlo hhi
  refine ⟨N, fun fuel hfuel => ?_⟩
  obtain ⟨r, hr, hsh, mn, mx, h1, h2, h3, h4, h5, h6⟩ := hN fuel hfuel
  have hin : (r.1.strip seq_meta).inputs = [] := by
    rw [hsh.inputs]; exact hwf.metas seq_meta hlt hchild
  have hL := left_handle_of_no_inputs r.1 _ hin
  have hR := right_handle_of_no_inputs r.1 _ hin
  have hlen : SEQ_time_strip_length_get r.1 (r.1.strip seq_meta) = (r.1.strip seq_meta).len := by
    apply strip_length_of_factor_one
    · rw [retiming_is_active_congr _ _ (hsh.2.2.2.2 seq_meta)]; exact hret
    · rw [playback_rate_factor_congr sc r.1 _ _ hsh.1 hsh.2.1 (hsh.2.2.2.2 seq_meta)]
      exact hrate
  rw [hlen] at hR
  refine ⟨r, hr, mn, mx, h1, h2, h3, h4, ?_, ?_, ?_, ?_, ?_, ?_⟩
  · omega
  · omega
  · intro h; omega
  · intro h; omega
  · intro h; omega
  · intro h; omega

theorem scene_nested_meta_lo :
    ∃ c ∈ (scene_nested_meta.strip 1).seqbase,
      SEQ_time_left_handle_frame_get scene_nested_meta (scene_nested_meta.strip c)
        ≤ scene_nested_meta.MAXFRAME * 2 :=
  ⟨3, by decide, by decide⟩

theorem scene_nested_meta_hi :
    ∃ c ∈ (scene_nested_meta.strip 1).seqbase,
      -scene_nested_meta.MAXFRAME * 2
        ≤ SEQ_time_right_handle_frame_get scene_nested_meta (scene_nested_meta.strip c) := by
  refine ⟨3, by decide, ?_⟩
  rw [right_handle_of_no_inputs _ _ (by decide), strip_length_plain _ _ (by decide) rfl]
  decide

/-- Witness for C4: the nested meta of `scene_nested_meta`. -/
theorem meta_range_content_span_witness :
    WellFormed scene_nested_meta (fun i => i) lvl_nested_meta ∧
    (∃ c ∈ (scene_nested_meta.strip 1).seqbase,
      SEQ_time_left_handle_frame_get scene_nested_meta (scene_nested_meta.strip c)
        ≤ scene_nested_meta.MAXFRAME * 2) ∧
    (∃ c ∈ (scene_nested_meta.strip 1).seqbase,
      -scene_nested_meta.MAXFRAME * 2
        ≤ SEQ_time_right_handle_frame_get scene_nested_meta (scene_nested_meta.strip c)) ∧
    ∃ N, ∀ fuel, N ≤ fuel →
      ∃ r, SEQ_time_update_meta_strip_range fuel scene_nested_meta (some 1) = some r ∧
        ∃ mn mx : Int,
          (∀ c ∈ (r.1.strip 1).seqbase,
            mn ≤ SEQ_time_left_handle_frame_get r.1 (r.1.strip c)) ∧
          (∃ c ∈ (r.1.strip 1).seqbase,
            SEQ_time_left_handle_frame_get r.1 (r.1.strip c) = mn) ∧
          (∀ c ∈ (r.1.strip 1).seqbase,
            SEQ_time_right_handle_frame_get r.1 (r.1.strip c) ≤ mx) ∧
          (∃ c ∈ (r.1.strip 1).seqbase,
            SEQ_time_right_handle_frame_get r.1 (r.1.strip c) = mx) ∧
          (r.1.strip 1).start = mn + (r.1.strip 1).anim_startofs ∧
          (r.1.strip 1).len
            = (mx - mn) - (r.1.strip 1).anim_startofs - (r.1.strip 1).anim_endofs :=
  ⟨scene_nested_meta_wf, scene_nested_meta_lo, scene_nested_meta_hi,
   meta_range_content_span scene_nested_meta (fun i => i) lvl_nested_meta
     scene_nested_meta_wf 1 scene_nested_meta_lo scene_nested_meta_hi⟩

/-- Counterexample to C4 as stated: the only child of the meta of `scene_far_child` has its
left handle at frame 3000000, the meta has `anim_startofs = 0`, and after
`SEQ_time_update_meta_strip_range` the `start` of the meta is the sentinel
`MAXFRAME * 2 = 2097148`. -/
theorem meta_range_content_span_counterexample :
    (SEQ_time_update_meta_strip_range 3 scene_far_child (some 0)).map
      (fun r => ((r.1.strip 0).seqbase, (r.1.strip 0).start, (r.1.strip 0).anim_startofs,
        SEQ_time_left_handle_frame_get r.1 (r.1.strip 1)))
      = some ([1], 2097148, 0, 3000000) := by
  simp [SEQ_time_update_meta_strip_range, scene_far_child, Scene.strip, Scene.modify,
    Strip.null, meta_children_bounds, meta_range_apply, seq_update_sound_bounds_recursive,
    seq_update_sound_bounds_recursive_impl, seq_sequence_lookup_effects_by_seq,
    seq_sequence_lookup_meta_by_seq, seq_time_update_effects_strip_range,
    SEQ_time_left_handle_frame_get, SEQ_time_right_handle_frame_get,
    SEQ_time_content_end_frame_get, SEQ_time_strip_length_get, SEQ_retiming_is_active,
    SEQ_time_media_playback_rate_factor_get, float_to_int, SEQ_time_start_frame_get,
    Strip.inputs, List.range, List.range.loop]

/-- Witness for C5: the nested meta of `scene_nested_meta`. -/
theorem meta_range_handles_vs_children_witness :
    WellFormed scene_nested_meta (fun i => i) lvl_nested_meta ∧
    (∃ c ∈ (scene_nested_meta.strip 1).seqbase,
      SEQ_time_left_handle_frame_get scene_nested_meta (scene_nested_meta.strip c)
        ≤ scene_nested_meta.MAXFRAME * 2) ∧
    (∃ c ∈ (scene_nested_meta.strip 1).seqbase,
      -scene_nested_meta.MAXFRAME * 2
        ≤ SEQ_time_right_handle_frame_get scene_nested_meta (scene_nested_meta.strip c)) ∧
    SEQ_retiming_is_active (scene_nested_meta.strip 1) = false ∧
    SEQ_time_media_playback_rate_factor_get scene_nested_meta (scene_nested_meta.strip 1) = 1 ∧
    ∃ N, ∀ fuel, N ≤ fuel →
      ∃ r, SEQ_time_update_meta_strip_range fuel scene_nested_meta (some 1) = some r ∧
        ∃ mn mx : Int,
          (∀ c ∈ (r.1.strip 1).seqbase,
            mn ≤ SEQ_time_left_handle_frame_get r.1 (r.1.strip c)) ∧
          (∃ c ∈ (r.1.strip 1).seqbase,
            SEQ_time_left_handle_frame_get r.1 (r.1.strip c) = mn) ∧
          (∀ c ∈ (r.1.strip 1).seqbase,
            SEQ_time_right_handle_frame_get r.1 (r.1.strip c) ≤ mx) ∧
          (∃ c ∈ (r.1.strip 1).seqbase,
            SEQ_time_right_handle_frame_get r.1 (r.1.strip c) = mx) ∧
          SEQ_time_left_handle_frame_get r.1 (r.1.strip 1)
            = mn + (r.1.strip 1).anim_startofs + (r.1.strip 1).startofs ∧
          SEQ_time_right_handle_frame_get r.1 (r.1.strip 1)
            = mx - (r.1.strip 1).anim_endofs - (r.1.strip 1).endofs ∧
          ((r.1.strip 1).anim_startofs + (r.1.strip 1).startofs = 0 →
            SEQ_time_left_handle_frame_get r.1 (r.1.strip 1) = mn) ∧
          ((r.1.strip 1).anim_endofs + (r.1.strip 1).endofs = 0 →
            SEQ_time_right_handle_frame_get r.1 (r.1.strip 1) = mx) ∧
          (0 ≤ (r.1.strip 1).anim_startofs + (r.1.strip 1).startofs →
            mn ≤ SEQ_time_left_handle_frame_get r.1 (r.1.strip 1)) ∧
          (0 ≤ (r.1.strip 1).anim_endofs + (r.1.strip 1).endofs →
            SEQ_time_right_handle_frame_get r.1 (r.1.strip 1) ≤ mx) :=
  ⟨scene_nested_meta_wf, scene_nested_meta_lo, scene_nested_meta_hi, rfl, rfl,
   meta_range_handles_vs_children scene_nested_meta (fun i => i) lvl_nested_meta
     scene_nested_meta_wf 1 scene_nested_meta_lo scene_nested_meta_hi rfl rfl⟩

/-- Counterexample to C5 as stated: after `SEQ_time_update_meta_strip_range` on the nested
meta of `scene_nested_meta` the right handle of the meta is 10, while its child strip 4 has
its right handle at 40; the meta does not reach the greatest right handle of its
children. -/
theorem meta_range_handles_vs_children_counterexample :
    (SEQ_time_update_meta_strip_range 4 scene_nested_meta (some 1)).map
      (fun r => ((r.1.strip 1).seqbase,
        SEQ_time_right_handle_frame_get r.1 (r.1.strip 1),
        SEQ_time_right_handle_frame_get r.1 (r.1.strip 4)))
      = some ([3, 4], 10, 40) := by
  simp [SEQ_time_update_meta_strip_range, scene_nested_meta, Scene.strip, Scene.modify,
    Strip.null, meta_children_bounds, meta_range_apply, seq_update_sound_bounds_recursive,
    seq_update_sound_bounds_recursive_impl, seq_sequence_lookup_effects_by_seq,
    seq_sequence_lookup_meta_by_seq, seq_time_update_effects_strip_range,
    seq_time_effect_range_set, effect_range_finish,
    SEQ_time_left_handle_frame_get, SEQ_time_right_handle_frame_get,
    SEQ_time_content_end_frame_get, SEQ_time_strip_length_get, SEQ_retiming_is_active,
    SEQ_time_media_playback_rate_factor_get, float_to_int, SEQ_time_start_frame_get,
    Strip.inputs, List.range, List.range.loop]

/-! ## Idempotence of the cascades -/

theorem transConsumes_cons (sc : Scene) (e g f : StripId)
    (hg : g ∈ seq_sequence_lookup_effects_by_seq sc e) (h : TransConsumes sc g f) :
    TransConsumes sc e f := by
  induction h with
  | direct f hf hin =>
    rw [mem_lookup_effects] at hg
    exact TransConsumes.step g f (TransConsumes.direct g hg.1 hg.2) hf hin
  | step g2 f _ hf hin ih => exact TransConsumes.step g2 f ih hf hin

theorem transConsumes_lvl (sc : Scene) (lvl : StripId → Nat) (hg : Graded sc lvl)
    (e f : StripId) (h : TransConsumes sc e f) : lvl f = lvl e := by
  induction h with
  | direct f hf hin => exact (hg.2 f hf e hin).symm
  | step g f _ hf hin ih => rw [← ih]; exact (hg.2 f hf g hin).symm

/-- On a scene in which every effect reached from the list is consistent with its inputs the
cascade changes nothing. -/
theorem update_effects_fixed (sc0 : Scene) (rk : StripId → Nat)
    (hac : EffectsAcyclic sc0 rk) :
    ∀ fuel sc l sc2, SameShape sc0 sc →
      (∀ f, (f ∈ l ∨ ∃ e ∈ l, TransConsumes sc0 e f) → StripConsistent sc f) →
      seq_time_update_effects_strip_range fuel sc l = some sc2 → sc2 = sc := by
  intro fuel
  induction fuel with
  | zero => intro sc l sc2 _ _ h; simp [update_effects_zero] at h
  | succ fuel ih =>
    intro sc l sc2 hsh hcons h
    rw [update_effects_succ] at h
    have h1 : l.foldl seq_time_effect_range_set sc = sc := by
      refine foldl_inv seq_time_effect_range_set (fun x => x = sc) l ?_ sc rfl
      intro x e he hx
      subst hx
      exact stripConsistent_to_set x e (not_self_input sc0 rk hac x hsh e)
        (hcons e (Or.inl he))
    rw [h1] at h
    have h2 := foldlM_inv
      (fun sc seq =>
        seq_time_update_effects_strip_range fuel sc
          (seq_sequence_lookup_effects_by_seq sc seq))
      (fun _ x => x = sc) l
      (by
        intro d x e x2 he hx hstep
        subst hx
        apply ih x _ x2 hsh _ hstep
        intro f hf
        apply hcons
        right
        rw [hsh.lookup_effects] at hf
        rcases hf with hf | ⟨g, hg, hf⟩
        · rw [mem_lookup_effects] at hf
          exact ⟨e, he, TransConsumes.direct f hf.1 hf.2⟩
        · exact ⟨e, he, transConsumes_cons sc0 e g f hg hf⟩)
      [] sc sc2 rfl h
    exact h2

/-- A second run of the meta cascade from the same meta changes no strip. -/
theorem update_meta_idem (sc0 : Scene) (rk lvl : StripId → Nat)
    (hwf : WellFormed sc0 rk lvl) :
    ∀ fuel sc m r, SameShape sc0 sc →
      SEQ_time_update_meta_strip_range fuel sc m = some r →
      ∀ fuel2 r2, SEQ_time_update_meta_strip_range fuel2 r.1 m = some r2 → r2.1 = r.1 := by
  intro fuel
  induction fuel with
  | zero => intro sc m r _ h; simp [update_meta_zero] at h
  | succ fuel ih =>
    intro sc m r hsh h fuel2 r2 h2
    cases fuel2 with
    | zero => simp [update_meta_zero] at h2
    | succ f2 =>
    cases m with
    | none =>
      rw [update_meta_none] at h2
      cases h2; rfl
    | some a =>
      by_cases hempty : (sc.strip a).seqbase = []
      · rw [update_meta_empty _ _ _ hempty] at h
        cases h
        rw [update_meta_empty _ _ _ hempty] at h2
        cases h2; rfl
      · have hwf1 := wellFormed_of_shape hwf hsh
        obtain ⟨hshr, hself, hdeep⟩ := update_meta_self sc rk lvl hwf1 a hempty _ r h
        have hlt := seqbase_ne_nil_lt sc a hempty
        have hin := hwf1.metas a hlt hempty
        rw [update_meta_succ _ _ _ hempty] at h
        simp only [Option.bind_eq_some, Option.map_eq_some'] at h
        obtain ⟨moves, _, s2, hcas, r3, hrec, hr⟩ := h
        have hr1 : r.1 = r3.1 := by rw [← hr]
        have hsh1 : SameShape sc0 (meta_range_step sc a) :=
          hsh.trans (meta_range_step_shape sc a)
        have hsh2 := (update_effects_frame sc0 (fun _ => True) (fun _ _ _ _ _ => trivial) fuel
          _ _ s2 hsh1 (fun _ _ => trivial) hcas).1
        have hfr3 := update_meta_frame sc0 lvl hwf.graded fuel s2 _ r3 hsh2 hrec
        -- the second run: the step of the meta changes nothing
        have hempty2 : (r.1.strip a).seqbase ≠ [] := by rw [hshr.seqbase]; exact hempty
        have hstep : meta_range_step r.1 a = r.1 := by
          unfold meta_range_step
          apply Scene.modify_eq_self
          have hch : meta_children_bounds r.1 (r.1.strip a).seqbase
              = meta_children_bounds sc (sc.strip a).seqbase := by
            rw [hshr.seqbase]
            apply meta_children_bounds_congr sc r.1 _ hshr
            intro c hc
            apply hdeep
            have := hwf1.graded.1 a hlt c hc
            omega
          rw [hch, meta_range_apply_scene_congr sc r.1 _ _ _ _ _ hshr.1 hshr.2.1,
            right_handle_scene_congr sc r.1 _ hshr.1 hshr.2.1, hself]
          unfold meta_range_step
          rw [Scene.strip_modify_self _ _ _ hlt, meta_range_apply_right sc _ _ _ _ _ hin]
          have hl := meta_range_apply_left sc
            (SEQ_time_left_handle_frame_get sc (sc.strip a))
            (SEQ_time_right_handle_frame_get sc (sc.strip a))
            (meta_children_bounds sc (sc.strip a).seqbase).1
            (meta_children_bounds sc (sc.strip a).seqbase).2 (sc.strip a) hin
          rw [left_handle_scene sc r.1, hl]
          exact meta_range_apply_idem sc _ _ _ _ _
        rw [update_meta_succ _ _ _ hempty2, hstep] at h2
        simp only [Option.bind_eq_some, Option.map_eq_some'] at h2
        obtain ⟨moves2, _, s4, hcas2, r5, hrec2, hr2⟩ := h2
        -- the second run: the effect cascade changes nothing
        have hs4 : s4 = r.1 := by
          apply update_effects_fixed sc0 rk hwf.acyclic f2 r.1 _ s4 (hsh.trans hshr) _ hcas2
          intro f hf
          rw [(hsh.trans hshr).lookup_effects] at hf
          have hcons2 : StripConsistent s2 f := by
            apply update_effects_consistent sc0 rk hwf.acyclic fuel _ _ s2 hsh1 hcas f
            right
            rw [hsh1.lookup_effects]
            exact hf
          have hlvl : lvl f = lvl a := by
            rcases hf with hf | ⟨e, he, hf⟩
            · rw [mem_lookup_effects] at hf
              exact (hwf.graded.2 f hf.1 a hf.2).symm
            · rw [transConsumes_lvl sc0 lvl hwf.graded e f hf]
              rw [mem_lookup_effects] at he
              exact (hwf.graded.2 e he.1 a he.2).symm
          have hpar : ∀ p, seq_sequence_lookup_meta_by_seq s2 a = some p → lvl p < lvl a := by
            intro p hp
            rw [hsh2.lookup_meta] at hp
            have h3 := lookup_meta_some sc0 a p hp
            have := hwf.graded.1 p h3.1 a h3.2
            omega
          have hflt : f < sc0.strips.length := by
            rcases hf with hf | ⟨e, he, hf⟩
            · exact ((mem_lookup_effects sc0 a f).1 hf).1
            · cases hf with
              | direct _ h _ => exact h
              | step _ _ _ h _ => exact h
          rw [hr1]
          refine stripConsistent_of_agree s2 r3.1 f ?_ ?_ ?_ ?_ hcons2
          · exact hfr3.1.1.trans hsh2.1.symm
          · exact hfr3.1.2.1.trans hsh2.2.1.symm
          · exact hfr3.2 f (fun p hp => by rw [hlvl]; exact hpar p hp)
          · intro b hb
            rw [hsh2.inputs] at hb
            have hb2 := hwf.graded.2 f hflt b hb
            exact hfr3.2 b (fun p hp => by rw [hb2, hlvl]; exact hpar p hp)
        -- the second run: the cascade from the parent changes nothing
        subst hs4
        have hlook : seq_sequence_lookup_meta_by_seq r.1 a = seq_sequence_lookup_meta_by_seq s2 a := by
          rw [(hsh.trans hshr).lookup_meta, hsh2.lookup_meta]
        rw [hlook, hr1] at hrec2
        have := ih s2 _ r3 hsh2 hrec f2 r5 hrec2
        rw [← hr2]
        simp only
        rw [this, hr1]

/-- C6: in a well-formed strip graph `SEQ_time_update_meta_strip_range` is idempotent: the
call returns (with enough fuel), a second call on the same meta returns as well, and the
second call leaves the scene exactly as the first call left it; so `start`, `len`,
`startofs`, `endofs`, `startdisp`, `enddisp` of the meta and of every ancestor meta (and of
every other strip) keep their values. -/
theorem meta_range_idempotent (sc : Scene) (rk lvl : StripId → Nat)
    (hwf : WellFormed sc rk lvl) (seq_meta : StripId) :
    ∃ N, ∀ fuel, N ≤ fuel →
      ∃ r1 r2, SEQ_time_update_meta_strip_range fuel sc (some seq_meta) = some r1 ∧
        SEQ_time_update_meta_strip_range fuel r1.1 (some seq_meta) = some r2 ∧
        r2.1 = r1.1 := by
  obtain ⟨N, hN⟩ := update_meta_exists sc rk lvl hwf
  refine ⟨N + lvl seq_meta, fun fuel hfuel => ?_⟩
  obtain ⟨r1, hr1⟩ := hN fuel sc seq_meta (SameShape.refl sc) hfuel
  have hsh := (update_meta_frame sc lvl hwf.graded fuel sc _ r1 (SameShape.refl sc) hr1).1
  obtain ⟨r2, hr2⟩ := hN fuel r1.1 seq_meta hsh hfuel
  exact ⟨r1, r2, hr1, hr2,
    update_meta_idem sc rk lvl hwf fuel sc _ r1 (SameShape.refl sc) hr1 fuel r2 hr2⟩

/-- Witness for C6: the nested meta of `scene_nested_meta`. -/
theorem meta_range_idempotent_witness :
    WellFormed scene_nested_meta (fun i => i) lvl_nested_meta ∧
    ∃ N, ∀ fuel, N ≤ fuel →
      ∃ r1 r2, SEQ_time_update_meta_strip_range fuel scene_nested_meta (some 1) = some r1 ∧
        SEQ_time_update_meta_strip_range fuel r1.1 (some 1) = some r2 ∧
        r2.1 = r1.1 :=
  ⟨scene_nested_meta_wf,
   meta_range_idempotent scene_nested_meta (fun i => i) lvl_nested_meta
     scene_nested_meta_wf 1⟩

/-! ## The handle setters -/

/-- The common tail of the handle setters returns with enough fuel, keeps the strip graph and
does not write the strip it starts from. -/
theorem update_effects_and_meta_spec (sc0 : Scene) (rk lvl : StripId → Nat)
    (hwf : WellFormed sc0 rk lvl) :
    ∃ N, ∀ fuel sc seq, SameShape sc0 sc → N + lvl seq ≤ fuel →
      ∃ r, update_effects_and_meta fuel sc seq = some r ∧ SameShape sc0 r.1 ∧
        r.1.strip seq = sc.strip seq := by
  obtain ⟨N0, hN0⟩ := cascade_fuel sc0 rk lvl hwf.acyclic hwf.graded
  refine ⟨N0 + 2, fun fuel sc seq hsh hfuel => ?_⟩
  obtain ⟨sc2, hsc2⟩ := (hN0 fuel sc hsh (by omega)).1 seq
  have hfr := update_effects_frame sc0 (fun i => rk seq < rk i)
    (fun e he f hf hin => Nat.lt_trans he (hwf.acyclic f hf e hin))
    fuel sc _ sc2 hsh
    (fun e he => by
      rw [hsh.lookup_effects, mem_lookup_effects] at he
      exact hwf.acyclic e he.1 seq he.2)
    hsc2
  have hpar : ∀ p, seq_sequence_lookup_meta_by_seq sc2 seq = some p → lvl p + 1 = lvl seq := by
    intro p hp
    rw [hfr.1.lookup_meta] at hp
    have h3 := lookup_meta_some sc0 seq p hp
    have := hwf.graded.1 p h3.1 seq h3.2
    omega
  obtain ⟨r, hr⟩ := update_meta_terminates sc0 lvl hwf.graded N0 hN0 (lvl seq) fuel sc2
    (seq_sequence_lookup_meta_by_seq sc2 seq) hfr.1
    (fun p hp => by have := hpar p hp; omega) (by omega)
  have hfr2 := update_meta_frame sc0 lvl hwf.graded fuel sc2 _ r hfr.1 hr
  refine ⟨r, ?_, hfr2.1, ?_⟩
  · simp [update_effects_and_meta, hsc2, hr]
  · rw [hfr2.2 seq (fun p hp => by have := hpar p hp; omega),
      hfr.2 seq (Nat.lt_irrefl _)]

/-- C9: for a strip of a well-formed strip graph and a target frame `t`,
`SEQ_time_right_handle_frame_set` returns (with enough fuel) and afterwards the right handle
reads back as `max t (l + 1)`, with `l` the left handle before the call; the left handle,
`start` and `startofs` are unchanged, so the right handle is above the left handle. -/
theorem right_handle_frame_set_clamps (sc : Scene) (rk lvl : StripId → Nat)
    (hwf : WellFormed sc rk lvl) (seq : StripId) (hseq : seq < sc.strips.length)
    (timeline_frame : Int) :
    ∃ N, ∀ fuel, N ≤ fuel →
      ∃ r, SEQ_time_right_handle_frame_set fuel sc seq timeline_frame = some r ∧
        SEQ_time_right_handle_frame_get r.1 (r.1.strip seq)
          = max timeline_frame (SEQ_time_left_handle_frame_get sc (sc.strip seq) + 1) ∧
        SEQ_time_left_handle_frame_get r.1 (r.1.strip seq)
          = SEQ_time_left_handle_frame_get sc (sc.strip seq) ∧
        (r.1.strip seq).start = (sc.strip seq).start ∧
        (r.1.strip seq).startofs = (sc.strip seq).startofs ∧
        SEQ_time_left_handle_frame_get r.1 (r.1.strip seq)
          < SEQ_time_right_handle_frame_get r.1 (r.1.strip seq) := by
  obtain ⟨N, hN⟩ := update_effects_and_meta_spec sc rk lvl hwf
  refine ⟨N + lvl seq, fun fuel hfuel => ?_⟩
  unfold SEQ_time_right_handle_frame_set
  simp only [Scene.modify_modify]
  generalize htf : (if timeline_frame ≤ SEQ_time_left_handle_frame_get sc (sc.strip seq)
    then SEQ_time_left_handle_frame_get sc (sc.strip seq) + 1 else timeline_frame) = tf
  have htf2 : tf = max timeline_frame (SEQ_time_left_handle_frame_get sc (sc.strip seq) + 1) := by
    rw [← htf]
    split
    · rw [max_eq_right (by omega)]
    · rw [max_eq_left (by omega)]
  have hsh : SameShape sc (sc.modify seq fun s =>
      { s with endofs := SEQ_time_content_end_frame_get sc s - tf, enddisp := tf }) :=
    SameShape.modify sc seq _ (fun _ => rfl)
  obtain ⟨r, hr, hshr, hself⟩ := hN fuel _ seq hsh hfuel
  refine ⟨r, hr, ?_⟩
  rw [hself, Scene.strip_modify_self _ _ _ hseq]
  have hR : SEQ_time_right_handle_frame_get r.1
      { sc.strip seq with
        endofs := SEQ_time_content_end_frame_get sc (sc.strip seq) - tf, enddisp := tf } = tf := by
    rw [right_handle_scene_congr sc r.1 _ hshr.1 hshr.2.1]
    by_cases hin : ({ sc.strip seq with
        endofs := SEQ_time_content_end_frame_get sc (sc.strip seq) - tf,
        enddisp := tf } : Strip).inputs = []
    · rw [right_handle_of_no_inputs _ _ hin]
      have hl : SEQ_time_strip_length_get sc
          { sc.strip seq with
            endofs := SEQ_time_content_end_frame_get sc (sc.strip seq) - tf, enddisp := tf }
          = SEQ_time_strip_length_get sc (sc.strip seq) := rfl
      rw [hl]
      simp only [SEQ_time_content_end_frame_get, SEQ_time_start_frame_get]
      omega
    · rw [right_handle_of_inputs _ _ hin]
  have hL : SEQ_time_left_handle_frame_get r.1
      { sc.strip seq with
        endofs := SEQ_time_content_end_frame_get sc (sc.strip seq) - tf, enddisp := tf }
      = SEQ_time_left_handle_frame_get sc (sc.strip seq) := rfl
  refine ⟨by rw [hR, htf2], hL, rfl, rfl, ?_⟩
  rw [hR, hL, htf2]
  exact lt_of_lt_of_le (by omega) (le_max_right _ _)

/-- Witness for C9: the right handle of the nested meta of `scene_nested_meta` moved to
frame 7. -/
theorem right_handle_frame_set_clamps_witness :
    WellFormed scene_nested_meta (fun i => i) lvl_nested_meta ∧
    1 < scene_nested_meta.strips.length ∧
    ∃ N, ∀ fuel, N ≤ fuel →
      ∃ r, SEQ_time_right_handle_frame_set fuel scene_nested_meta 1 7 = some r ∧
        SEQ_time_right_handle_frame_get r.1 (r.1.strip 1)
          = max 7 (SEQ_time_left_handle_frame_get scene_nested_meta
                    (scene_nested_meta.strip 1) + 1) ∧
        SEQ_time_left_handle_frame_get r.1 (r.1.strip 1)
          = SEQ_time_left_handle_frame_get scene_nested_meta (scene_nested_meta.strip 1) ∧
        (r.1.strip 1).start = (scene_nested_meta.strip 1).start ∧
        (r.1.strip 1).startofs = (scene_nested_meta.strip 1).startofs ∧
        SEQ_time_left_handle_frame_get r.1 (r.1.strip 1)
          < SEQ_time_right_handle_frame_get r.1 (r.1.strip 1) :=
  ⟨scene_nested_meta_wf, by decide,
   right_handle_frame_set_clamps scene_nested_meta (fun i => i) lvl_nested_meta
     scene_nested_meta_wf 1 (by decide) 7⟩

/-- The part of C8 that the code meets: for a strip without effect inputs that is not a
single-frame-content strip, `SEQ_time_left_handle_frame_set` returns (with enough fuel),
the left handle reads back as `min t (r - 1)` with `r` the right handle before the call,
and the right handle is still `r`. -/
theorem left_handle_frame_set_plain (sc : Scene) (rk lvl : StripId → Nat)
    (hwf : WellFormed sc rk lvl) (seq : StripId) (hseq : seq < sc.strips.length)
    (hin : (sc.strip seq).inputs = [])
    (hsingle : SEQ_transform_single_image_check (sc.strip seq) = false)
    (timeline_frame : Int) :
    ∃ N, ∀ fuel, N ≤ fuel →
      ∃ r, SEQ_time_left_handle_frame_set fuel sc seq timeline_frame = some r ∧
        SEQ_time_left_handle_frame_get r.1 (r.1.strip seq)
          = min timeline_frame (SEQ_time_right_handle_frame_get sc (sc.strip seq) - 1) ∧
        SEQ_time_right_handle_frame_get r.1 (r.1.strip seq)
          = SEQ_time_right_handle_frame_get sc (sc.strip seq) ∧
        SEQ_time_left_handle_frame_get r.1 (r.1.strip seq)
          < SEQ_time_right_handle_frame_get r.1 (r.1.strip seq) := by
  obtain ⟨N, hN⟩ := update_effects_and_meta_spec sc rk lvl hwf
  refine ⟨N + lvl seq, fun fuel hfuel => ?_⟩
  unfold SEQ_time_left_handle_frame_set
  simp only [hsingle, Bool.false_eq_true, if_false, Option.some_bind, Scene.modify_modify,
    List.nil_append]
  generalize htf : (if timeline_frame ≥ SEQ_time_right_handle_frame_get sc (sc.strip seq)
    then SEQ_time_right_handle_frame_get sc (sc.strip seq) - 1 else timeline_frame) = tf
  have htf2 : tf = min timeline_frame (SEQ_time_right_handle_frame_get sc (sc.strip seq) - 1) := by
    rw [← htf]
    split
    · rw [min_eq_right (by omega)]
    · rw [min_eq_left (by omega)]
  have hsh : SameShape sc (sc.modify seq fun s =>
      { s with startofs := tf - SEQ_time_start_frame_get (sc.strip seq), startdisp := tf }) :=
    SameShape.modify sc seq _ (fun _ => rfl)
  obtain ⟨r, hr, hshr, hself⟩ := hN fuel _ seq hsh hfuel
  refine ⟨(r.1, r.2), by simp [hr], ?_⟩
  simp only
  rw [hself, Scene.strip_modify_self _ _ _ hseq]
  have hin2 : ({ sc.strip seq with
      startofs := tf - SEQ_time_start_frame_get (sc.strip seq), startdisp := tf } : Strip).inputs
      = [] := hin
  have hL : SEQ_time_left_handle_frame_get r.1
      { sc.strip seq with
        startofs := tf - SEQ_time_start_frame_get (sc.strip seq), startdisp := tf } = tf := by
    rw [left_handle_of_no_inputs _ _ hin2]
    simp only [SEQ_time_start_frame_get]
    omega
  have hR : SEQ_time_right_handle_frame_get r.1
      { sc.strip seq with
        startofs := tf - SEQ_time_start_frame_get (sc.strip seq), startdisp := tf }
      = SEQ_time_right_handle_frame_get sc (sc.strip seq) := by
    rw [right_handle_scene_congr sc r.1 _ hshr.1 hshr.2.1]
    rfl
  refine ⟨by rw [hL, htf2], hR, ?_⟩
  rw [hL, hR, htf2]
  exact lt_of_le_of_lt (min_le_right _ _) (by omega)

/-- C8, the code at the failing input: the single-image strip of `scene_single_image`,
slipped by -2 frames, has no inputs, handles 0 and 11 and `startofs = 2`; then
`SEQ_time_left_handle_frame_set` with target frame 5 leaves the left handle at 7 (and
`startdisp` at 5), the right handle at 11. -/
theorem left_handle_frame_set_single_image :
    (SEQ_time_slip_strip 3 scene_single_image 0 (-2) 0).bind
      (fun sc1 =>
        (SEQ_time_left_handle_frame_set 3 sc1 0 5).map
          (fun r => ((sc1.strip 0).inputs, (sc1.strip 0).startofs,
            SEQ_time_left_handle_frame_get sc1 (sc1.strip 0),
            SEQ_time_right_handle_frame_get sc1 (sc1.strip 0),
            SEQ_time_left_handle_frame_get r.1 (r.1.strip 0),
            (r.1.strip 0).startdisp,
            SEQ_time_right_handle_frame_get r.1 (r.1.strip 0))))
      = some ([], 2, 0, 11, 7, 5, 11) := by
  simp [SEQ_time_slip_strip, seq_time_slip_strip_ex, SEQ_time_left_handle_frame_set,
    SEQ_time_start_frame_set, SEQ_transform_single_image_check, update_effects_and_meta,
    SEQ_time_update_meta_strip_range, scene_single_image, Scene.strip, Scene.modify,
    Strip.null, seq_sequence_lookup_effects_by_seq, StripType.is_effect,
    seq_sequence_lookup_meta_by_seq, seq_time_update_effects_strip_range,
    SEQ_time_left_handle_frame_get, SEQ_time_right_handle_frame_get,
    SEQ_time_content_end_frame_get, SEQ_time_strip_length_get, SEQ_retiming_is_active,
    SEQ_time_media_playback_rate_factor_get, float_to_int, SEQ_time_start_frame_get,
    Strip.inputs, List.range, List.range.loop]

/-- C10, the code at the failing input: the movie strip of `scene_one_movie` has
`startdisp`, `enddisp` equal to its handles 0 and 10; after `seq_time_translate_handles` by
1 its handles are 1 and 11 while `startdisp = 1` and `enddisp = 9`. -/
theorem translate_handles_breaks_enddisp :
    (scene_one_movie.strip 0).startdisp
      = SEQ_time_left_handle_frame_get scene_one_movie (scene_one_movie.strip 0) ∧
    (scene_one_movie.strip 0).enddisp
      = SEQ_time_right_handle_frame_get scene_one_movie (scene_one_movie.strip 0) ∧
    (seq_time_translate_handles 3 scene_one_movie 0 1).map
      (fun r => ((r.1.strip 0).startdisp,
        SEQ_time_left_handle_frame_get r.1 (r.1.strip 0),
        (r.1.strip 0).enddisp,
        SEQ_time_right_handle_frame_get r.1 (r.1.strip 0)))
      = some (1, 1, 9, 11) := by
  refine ⟨?_, ?_, ?_⟩ <;>
  simp [seq_time_translate_handles, update_effects_and_meta,
    SEQ_time_update_meta_strip_range, scene_one_movie, Scene.strip, Scene.modify,
    Strip.null, seq_sequence_lookup_effects_by_seq,
    seq_sequence_lookup_meta_by_seq, seq_time_update_effects_strip_range,
    SEQ_time_left_handle_frame_get, SEQ_time_right_handle_frame_get,
    SEQ_time_content_end_frame_get, SEQ_time_strip_length_get, SEQ_retiming_is_active,
    SEQ_time_media_playback_rate_factor_get, float_to_int, SEQ_time_start_frame_get,
    Strip.inputs, List.range, List.range.loop]

/-! ## Frame index -/

theorem clamp_f_bounds (v hi : ℚ) (h : 0 ≤ hi) : 0 ≤ clamp_f v 0 hi ∧ clamp_f v 0 hi ≤ hi := by
  unfold clamp_f
  split_ifs with h1 h2
  · exact ⟨h, le_refl _⟩
  · exact ⟨le_refl _, h⟩
  · exact ⟨not_lt.mp h2, not_lt.mp h1⟩

theorem clamp_f_eq_min_max (v hi : ℚ) (h : 0 ≤ hi) : clamp_f v 0 hi = min (max v 0) hi := by
  unfold clamp_f
  split_ifs with h1 h2
  · rw [min_eq_right]
    exact le_trans h1.le (le_max_left _ _)
  · rw [max_eq_right h2.le, min_eq_left h]
  · rw [max_eq_left (not_lt.mp h2), min_eq_left (not_lt.mp h1)]

theorem max_ff_eq_max (a b : ℚ) : max_ff a b = max a b := by
  unfold max_ff
  split_ifs with h
  · exact (max_eq_left h.le).symm
  · exact (max_eq_right (not_lt.mp h)).symm

theorem strobe_bounds (x y : ℚ) (hx : 0 ≤ x) (hy : 1 < y) :
    0 ≤ x - fmodf x y ∧ x - fmodf x y ≤ x := by
  have hy0 : 0 < y := lt_trans one_pos hy
  have hq : 0 ≤ x / y := div_nonneg hx hy0.le
  have e : x - fmodf x y = ((⌊x / y⌋ : Int) : ℚ) * y := by
    simp [fmodf, float_to_int, hq]
  rw [e]
  constructor
  · apply mul_nonneg _ hy0.le
    exact_mod_cast Int.floor_nonneg.mpr hq
  · calc ((⌊x / y⌋ : Int) : ℚ) * y ≤ (x / y) * y :=
          mul_le_mul_of_nonneg_right (Int.floor_le _) hy0.le
      _ = x := div_mul_cancel₀ x hy0.ne.symm

/-- The shape of the result of `SEQ_give_frame_index` past its two early returns: a value
clamped to `[0, frame_index_max]`, then quantized by the strobe. -/
theorem give_frame_index_shape (sc : Scene) (seq : Strip) (t : ℚ)
    (hend : ¬ frame_index_end sc seq < (SEQ_time_start_frame_get seq : ℚ))
    (hsingle : ¬ (seq.type = SEQ_TYPE_IMAGE ∧ SEQ_transform_single_image_check seq = true)) :
    ∃ x : ℚ, SEQ_give_frame_index sc seq t =
      if seq.strobe > 1 then
        clamp_f x 0 (frame_index_max sc seq)
          - fmodf (clamp_f x 0 (frame_index_max sc seq)) seq.strobe
      else clamp_f x 0 (frame_index_max sc seq) := by
  refine ⟨if SEQ_retiming_is_active seq then
      seq_retiming_evaluate seq
          (max_ff (if seq.flag_reverse_frames then frame_index_end sc seq - t
              else t - (SEQ_time_start_frame_get seq : ℚ)) 0
            * SEQ_time_media_playback_rate_factor_get sc seq)
        * frame_index_max sc seq
    else
      max_ff (if seq.flag_reverse_frames then frame_index_end sc seq - t
          else t - (SEQ_time_start_frame_get seq : ℚ)) 0
        * SEQ_time_media_playback_rate_factor_get sc seq, ?_⟩
  unfold SEQ_give_frame_index
  simp only [if_neg hend, if_neg hsingle]

/-- Past the early rejection, the frame index lies in `[0, frame_index_max]` as soon as
`frame_index_max` is not negative. -/
theorem give_frame_index_bounds (sc : Scene) (seq : Strip) (t : ℚ)
    (hend : ¬ frame_index_end sc seq < (SEQ_time_start_frame_get seq : ℚ))
    (hmax : 0 ≤ frame_index_max sc seq) :
    0 ≤ SEQ_give_frame_index sc seq t ∧ SEQ_give_frame_index sc seq t ≤ frame_index_max sc seq := by
  by_cases hsingle : seq.type = SEQ_TYPE_IMAGE ∧ SEQ_transform_single_image_check seq = true
  · have e : SEQ_give_frame_index sc seq t = 0 := by
      unfold SEQ_give_frame_index
      simp only [if_neg hend, if_pos hsingle]
    rw [e]
    exact ⟨le_refl _, hmax⟩
  · obtain ⟨x, hx⟩ := give_frame_index_shape sc seq t hend hsingle
    rw [hx]
    have hb := clamp_f_bounds x _ hmax
    split_ifs with h
    · have hs := strobe_bounds _ _ hb.1 h
      exact ⟨hs.1, le_trans hs.2 hb.2⟩
    · exact hb

theorem give_frame_index_rejects (sc : Scene) (seq : Strip) (t : ℚ)
    (hend : frame_index_end sc seq < (SEQ_time_start_frame_get seq : ℚ)) :
    SEQ_give_frame_index sc seq t = -1 := by
  unfold SEQ_give_frame_index
  simp only [if_pos hend]

theorem frame_index_end_lt_iff (sc : Scene) (seq : Strip) :
    frame_index_end sc seq < (SEQ_time_start_frame_get seq : ℚ) ↔
      if seq.type.is_effect then
        SEQ_time_right_handle_frame_get sc seq < SEQ_time_start_frame_get seq
      else SEQ_time_strip_length_get sc seq ≤ 0 := by
  unfold frame_index_end
  split_ifs with h
  · exact Int.cast_lt
  · unfold SEQ_time_content_end_frame_get
    rw [show ((SEQ_time_start_frame_get seq + SEQ_time_strip_length_get sc seq : Int) : ℚ) - 1
        = ((SEQ_time_start_frame_get seq + SEQ_time_strip_length_get sc seq - 1 : Int) : ℚ) by
      push_cast; ring]
    rw [Int.cast_lt]
    omega

theorem frame_index_max_nonneg (sc : Scene) (seq : Strip)
    (hend : ¬ frame_index_end sc seq < (SEQ_time_start_frame_get seq : ℚ))
    (hlen : seq.type.is_effect = false → 1 ≤ seq.len) : 0 ≤ frame_index_max sc seq := by
  unfold frame_index_max
  unfold frame_index_end at hend
  split_ifs with h
  · rw [if_pos h] at hend
    linarith [not_lt.mp hend]
  · have h1 : (1 : ℚ) ≤ seq.len := by exact_mod_cast hlen (by simpa using h)
    linarith

/-- C12 (as amended): `SEQ_give_frame_index` returns the sentinel `-1` whenever the
effective content end of the strip precedes its start (content length `≤ 0` for a strip that
is not of effect type, right handle before start for an effect-type strip), for every strip;
for a strip that has at least one content frame (`1 ≤ len` when it is not of effect type) it
returns `-1` exactly in that case, and for every other such strip and timeline frame the
result is not negative. -/
theorem give_frame_index_sentinel (sc : Scene) (seq : Strip) (timeline_frame : ℚ) :
    ((if seq.type.is_effect then
        SEQ_time_right_handle_frame_get sc seq < SEQ_time_start_frame_get seq
      else SEQ_time_strip_length_get sc seq ≤ 0) →
      SEQ_give_frame_index sc seq timeline_frame = -1) ∧
    ((seq.type.is_effect = false → 1 ≤ seq.len) →
      (SEQ_give_frame_index sc seq timeline_frame = -1 ↔
        if seq.type.is_effect then
          SEQ_time_right_handle_frame_get sc seq < SEQ_time_start_frame_get seq
        else SEQ_time_strip_length_get sc seq ≤ 0) ∧
      (SEQ_give_frame_index sc seq timeline_frame ≠ -1 →
        0 ≤ SEQ_give_frame_index sc seq timeline_frame)) := by
  rw [← frame_index_end_lt_iff]
  refine ⟨fun hend => give_frame_index_rejects sc seq timeline_frame hend, fun hlen => ?_⟩
  by_cases hend : frame_index_end sc seq < (SEQ_time_start_frame_get seq : ℚ)
  · have e := give_frame_index_rejects sc seq timeline_frame hend
    exact ⟨⟨fun _ => hend, fun _ => e⟩, fun h => absurd e h⟩
  · have hb := give_frame_index_bounds sc seq timeline_frame hend
      (frame_index_max_nonneg sc seq hend hlen)
    refine ⟨⟨fun h => ?_, fun h => absurd h hend⟩, fun _ => hb.1⟩
    rw [h] at hb
    exact absurd hb.1 (by norm_num)

/-- Witness for C12: the movie strip without content frames, whose content length is 0, at
frame 0, where the sentinel is returned; and the movie strip of 10 frames that starts at
frame 5, at frame 8, where the result is not the sentinel and not negative. -/
theorem give_frame_index_sentinel_witness :
    SEQ_time_strip_length_get scene_one_movie strip_empty_strobed ≤ 0 ∧
    SEQ_give_frame_index scene_one_movie strip_empty_strobed 0 = -1 ∧
    (strip_movie_at_5.type.is_effect = false → 1 ≤ strip_movie_at_5.len) ∧
    ((SEQ_give_frame_index scene_one_movie strip_movie_at_5 8 = -1 ↔
      if strip_movie_at_5.type.is_effect then
        SEQ_time_right_handle_frame_get scene_one_movie strip_movie_at_5
          < SEQ_time_start_frame_get strip_movie_at_5
      else SEQ_time_strip_length_get scene_one_movie strip_movie_at_5 ≤ 0) ∧
    (SEQ_give_frame_index scene_one_movie strip_movie_at_5 8 ≠ -1 →
      0 ≤ SEQ_give_frame_index scene_one_movie strip_movie_at_5 8)) :=
  have hlength : SEQ_time_strip_length_get scene_one_movie strip_empty_strobed ≤ 0 := by
    simp [strip_empty_strobed, Strip.null, SEQ_time_strip_length_get, SEQ_retiming_is_active,
      SEQ_time_media_playback_rate_factor_get, float_to_int]
  ⟨hlength,
   (give_frame_index_sentinel scene_one_movie strip_empty_strobed 0).1 hlength,
   fun _ => by decide,
   (give_frame_index_sentinel scene_one_movie strip_movie_at_5 8).2 (fun _ => by decide)⟩

/-- Counterexample to C12 as stated: the retimed movie strip without content frames has a
content length of 11 frames, so its content end does not precede its start, and at frame 5
`SEQ_give_frame_index` returns `-1`, which is negative. -/
theorem give_frame_index_sentinel_counterexample :
    strip_retimed_empty.type.is_effect = false ∧
    SEQ_time_strip_length_get scene_one_movie strip_retimed_empty = 11 ∧
    ¬ frame_index_end scene_one_movie strip_retimed_empty
        < (SEQ_time_start_frame_get strip_retimed_empty : ℚ) ∧
    SEQ_give_frame_index scene_one_movie strip_retimed_empty 5 = -1 := by
  refine ⟨rfl, ?_, ?_, ?_⟩ <;>
  simp [strip_retimed_empty, Strip.null, SEQ_give_frame_index, frame_index_end,
    frame_index_max, SEQ_time_content_end_frame_get, SEQ_time_strip_length_get,
    SEQ_retiming_is_active, SEQ_retiming_key_timeline_frame_get, SEQ_retiming_last_key_get,
    SEQ_time_get_rounded_sound_offset, SEQ_time_media_playback_rate_factor_get,
    SEQ_time_start_frame_get, SEQ_transform_single_image_check, StripType.is_effect,
    seq_retiming_evaluate, retiming_segment, max_ff, clamp_f, fmodf, float_to_int]
  norm_num

/-- C13 (as amended): whenever `SEQ_give_frame_index` does not return the sentinel, its
result lies between `0` and `frame_index_max` (`len - 1` for a strip that is not of effect
type, right handle minus start for an effect-type strip), for every timeline frame and every
setting of reversal, playback rate, retiming and strobe, provided a strip that is not of
effect type has at least one content frame (`1 ≤ len`). -/
theorem give_frame_index_in_range (sc : Scene) (seq : Strip) (timeline_frame : ℚ)
    (hlen : seq.type.is_effect = false → 1 ≤ seq.len)
    (hres : SEQ_give_frame_index sc seq timeline_frame ≠ -1) :
    0 ≤ SEQ_give_frame_index sc seq timeline_frame ∧
    SEQ_give_frame_index sc seq timeline_frame
      ≤ (if seq.type.is_effect then
          (SEQ_time_right_handle_frame_get sc seq : ℚ) - (SEQ_time_start_frame_get seq : ℚ)
        else (seq.len : ℚ) - 1) := by
  have hend : ¬ frame_index_end sc seq < (SEQ_time_start_frame_get seq : ℚ) :=
    fun h => hres (give_frame_index_rejects sc seq timeline_frame h)
  exact give_frame_index_bounds sc seq timeline_frame hend
    (frame_index_max_nonneg sc seq hend hlen)

/-- C14: for a strip that is not of effect type and not a single image, with `len ≥ 1`, no
reversal, retiming inactive, playback-rate factor 1 and strobe at most 1, the frame index of
a timeline frame `t` is `min (max (t - start) 0) (len - 1)`. -/
theorem give_frame_index_plain (sc : Scene) (seq : Strip) (timeline_frame : ℚ)
    (htype : seq.type.is_effect = false)
    (hsingle : ¬ (seq.type = SEQ_TYPE_IMAGE ∧ SEQ_transform_single_image_check seq = true))
    (hlen : 1 ≤ seq.len)
    (hrev : seq.flag_reverse_frames = false)
    (hret : SEQ_retiming_is_active seq = false)
    (hrate : SEQ_time_media_playback_rate_factor_get sc seq = 1)
    (hstrobe : seq.strobe ≤ 1) :
    SEQ_give_frame_index sc seq timeline_frame
      = min (max (timeline_frame - (seq.start : ℚ)) 0) ((seq.len : ℚ) - 1) := by
  have hlen1 : (1 : ℚ) ≤ seq.len := by exact_mod_cast hlen
  have hlength : SEQ_time_strip_length_get sc seq = seq.len := by
    simp [SEQ_time_strip_length_get, hret, hrate, float_to_int]
  have hend : ¬ frame_index_end sc seq < (SEQ_time_start_frame_get seq : ℚ) := by
    rw [frame_index_end_lt_iff, htype]
    simp only [Bool.false_eq_true, if_false, hlength]
    omega
  have hmax : frame_index_max sc seq = (seq.len : ℚ) - 1 := by
    simp [frame_index_max, htype]
  have hend2 : ¬ frame_index_end sc seq < (seq.start : ℚ) := hend
  unfold SEQ_give_frame_index
  simp only [if_neg hend2, if_neg hsingle, hrev, hret, hrate, if_neg (not_lt.mpr hstrobe),
    Bool.false_eq_true, if_false, mul_one, hmax, max_ff_eq_max, SEQ_time_start_frame_get]
  rw [clamp_f_eq_min_max _ _ (sub_nonneg.mpr hlen1), max_eq_left (le_max_right _ _)]

/-- Witness for C13: the movie strip of 10 frames that starts at frame 5, at frame 8, where
the frame index is 3. -/
theorem give_frame_index_in_range_witness :
    (strip_movie_at_5.type.is_effect = false → 1 ≤ strip_movie_at_5.len) ∧
    SEQ_give_frame_index scene_one_movie strip_movie_at_5 8 ≠ -1 ∧
    (0 ≤ SEQ_give_frame_index scene_one_movie strip_movie_at_5 8 ∧
     SEQ_give_frame_index scene_one_movie strip_movie_at_5 8
      ≤ (if strip_movie_at_5.type.is_effect then
          (SEQ_time_right_handle_frame_get scene_one_movie strip_movie_at_5 : ℚ)
            - (SEQ_time_start_frame_get strip_movie_at_5 : ℚ)
        else (strip_movie_at_5.len : ℚ) - 1)) :=
  have hres : SEQ_give_frame_index scene_one_movie strip_movie_at_5 8 ≠ -1 := by
    simp [strip_movie_at_5, Strip.null, SEQ_give_frame_index, frame_index_end,
      frame_index_max, SEQ_time_content_end_frame_get, SEQ_time_strip_length_get,
      SEQ_retiming_is_active, SEQ_time_media_playback_rate_factor_get,
      SEQ_time_start_frame_get, SEQ_transform_single_image_check, StripType.is_effect,
      max_ff, clamp_f, float_to_int]
    norm_num
  ⟨fun _ => by decide, hres,
   give_frame_index_in_range scene_one_movie strip_movie_at_5 8 (fun _ => by decide) hres⟩

/-- Counterexample to C13 as stated: for the retimed movie strip without content frames,
`SEQ_give_frame_index` at frame 10 returns 0, which is not the sentinel, and
`frame_index_max = len - 1` is `-1`: the result is above `frame_index_max`. -/
theorem give_frame_index_in_range_counterexample :
    strip_retimed_empty.type.is_effect = false ∧
    SEQ_give_frame_index scene_one_movie strip_retimed_empty 10 = 0 ∧
    SEQ_give_frame_index scene_one_movie strip_retimed_empty 10 ≠ -1 ∧
    ¬ SEQ_give_frame_index scene_one_movie strip_retimed_empty 10
        ≤ (strip_retimed_empty.len : ℚ) - 1 := by
  have e : SEQ_give_frame_index scene_one_movie strip_retimed_empty 10 = 0 := by
    simp [strip_retimed_empty, Strip.null, SEQ_give_frame_index, frame_index_end,
      frame_index_max, SEQ_time_content_end_frame_get, SEQ_time_strip_length_get,
      SEQ_retiming_is_active, SEQ_retiming_key_timeline_frame_get, SEQ_retiming_last_key_get,
      SEQ_time_get_rounded_sound_offset, SEQ_time_media_playback_rate_factor_get,
      SEQ_time_start_frame_get, SEQ_transform_single_image_check, StripType.is_effect,
      seq_retiming_evaluate, retiming_segment, max_ff, clamp_f, fmodf, float_to_int]
  refine ⟨rfl, e, ?_, ?_⟩
  · rw [e]; norm_num
  · rw [e]; simp [strip_retimed_empty, Strip.null]

/-- Witness for C14: the movie strip of 10 frames that starts at frame 5, at frame 8. -/
theorem give_frame_index_plain_witness :
    strip_movie_at_5.type.is_effect = false ∧
    ¬ (strip_movie_at_5.type = SEQ_TYPE_IMAGE
        ∧ SEQ_transform_single_image_check strip_movie_at_5 = true) ∧
    1 ≤ strip_movie_at_5.len ∧
    strip_movie_at_5.flag_reverse_frames = false ∧
    SEQ_retiming_is_active strip_movie_at_5 = false ∧
    SEQ_time_media_playback_rate_factor_get scene_one_movie strip_movie_at_5 = 1 ∧
    strip_movie_at_5.strobe ≤ 1 ∧
    SEQ_give_frame_index scene_one_movie strip_movie_at_5 8
      = min (max (8 - (strip_movie_at_5.start : ℚ)) 0) ((strip_movie_at_5.len : ℚ) - 1) :=
  have hstrobe : strip_movie_at_5.strobe ≤ 1 := by simp [strip_movie_at_5, Strip.null]
  ⟨rfl, by decide, by decide, rfl, rfl, rfl, hstrobe,
   give_frame_index_plain scene_one_movie strip_movie_at_5 8 rfl (by decide) (by decide)
     rfl rfl rfl hstrobe⟩

/-! ## Gap detection -/

theorem strip_exists_iff_covered (sc : Scene) (seqbase : List StripId) (g : Int) :
    strip_exists_at_frame sc (SEQ_query_all_strips seqbase) g = true ↔ Covered sc seqbase g := by
  simp [strip_exists_at_frame, SEQ_query_all_strips, Covered, List.any_eq_true]

theorem strip_exists_false_iff (sc : Scene) (seqbase : List StripId) (g : Int) :
    strip_exists_at_frame sc (SEQ_query_all_strips seqbase) g = false ↔ ¬ Covered sc seqbase g := by
  rw [← strip_exists_iff_covered]
  simp

theorem foldl_rect_bounds (f : rctf → StripId → rctf) (lo hi : StripId → Int)
    (hstep : ∀ r a, (f r a).xmin ≤ r.xmin ∧ (f r a).xmin ≤ lo a ∧
      r.xmax ≤ (f r a).xmax ∧ hi a ≤ (f r a).xmax) :
    ∀ (l : List StripId) (rect : rctf),
      (l.foldl f rect).xmin ≤ rect.xmin ∧ rect.xmax ≤ (l.foldl f rect).xmax ∧
      ∀ a ∈ l, (l.foldl f rect).xmin ≤ lo a ∧ hi a ≤ (l.foldl f rect).xmax := by
  intro l
  induction l with
  | nil => intro rect; simp
  | cons a l ih =>
    intro rect
    simp only [List.foldl_cons]
    obtain ⟨h1, h2, h3⟩ := ih (f rect a)
    obtain ⟨s1, s2, s3, s4⟩ := hstep rect a
    refine ⟨le_trans h1 s1, le_trans s3 h2, ?_⟩
    intro b hb
    rcases List.mem_cons.mp hb with rfl | hb
    · exact ⟨le_trans h1 s2, le_trans s4 h2⟩
    · exact h3 b hb

/-- The bounding box reaches one frame past the scene range and past every strip, on both
sides. -/
theorem boundbox_bounds (sc : Scene) (strips : List StripId) :
    (SEQ_timeline_boundbox sc (some strips)).xmin ≤ sc.sfra ∧
    sc.efra + 1 ≤ (SEQ_timeline_boundbox sc (some strips)).xmax ∧
    ∀ seq ∈ strips,
      (SEQ_timeline_boundbox sc (some strips)).xmin
          ≤ SEQ_time_left_handle_frame_get sc (sc.strip seq) - 1 ∧
      SEQ_time_right_handle_frame_get sc (sc.strip seq) + 1
          ≤ (SEQ_timeline_boundbox sc (some strips)).xmax := by
  unfold SEQ_timeline_boundbox SEQ_timeline_expand_boundbox
  exact foldl_rect_bounds _
    (fun a => SEQ_time_left_handle_frame_get sc (sc.strip a) - 1)
    (fun a => SEQ_time_right_handle_frame_get sc (sc.strip a) + 1)
    (fun r a => by
      dsimp only
      split_ifs <;> (try dsimp only at *) <;> omega)
    strips (SEQ_timeline_init_boundbox sc)

/-- A covered frame lies strictly inside the bounding box. -/
theorem covered_in_boundbox (sc : Scene) (seqbase : List StripId) (g : Int)
    (h : Covered sc seqbase g) :
    (SEQ_timeline_boundbox sc (some seqbase)).xmin < g ∧
    g + 2 ≤ (SEQ_timeline_boundbox sc (some seqbase)).xmax := by
  obtain ⟨seq, hmem, hcov⟩ := h
  have hb := (boundbox_bounds sc seqbase).2.2 seq hmem
  simp only [SEQ_time_strip_intersects_frame, Bool.and_eq_true, decide_eq_true_eq] at hcov
  omega

theorem gap_search_backward_spec (sc : Scene) (strips : List StripId) (sfra : Int) :
    ∀ (n : Nat) (tf : Int), tf - sfra + 1 ≤ n →
      (gap_search_backward sc strips sfra n tf = tf ∧ tf < sfra) ∨
      (sfra - 1 ≤ gap_search_backward sc strips sfra n tf ∧
        gap_search_backward sc strips sfra n tf ≤ tf ∧
        (∀ g, gap_search_backward sc strips sfra n tf < g → g ≤ tf →
          strip_exists_at_frame sc strips g = false) ∧
        (sfra ≤ gap_search_backward sc strips sfra n tf →
          strip_exists_at_frame sc strips (gap_search_backward sc strips sfra n tf) = true)) := by
  intro n
  induction n with
  | zero =>
    intro tf h
    left
    exact ⟨rfl, by omega⟩
  | succ n ih =>
    intro tf h
    unfold gap_search_backward
    by_cases h1 : tf ≥ sfra
    · rw [if_pos h1]
      by_cases h2 : strip_exists_at_frame sc strips tf = true
      · rw [if_pos h2]
        right
        exact ⟨by omega, le_refl _, fun g hg1 hg2 => by omega, fun _ => h2⟩
      · rw [if_neg h2]
        right
        rcases ih (tf - 1) (by omega) with ⟨e, hlt⟩ | ⟨b1, b2, b3, b4⟩
        · rw [e]
          refine ⟨by omega, by omega, fun g hg1 hg2 => ?_, fun hc => by omega⟩
          have : g = tf := by omega
          subst this
          simpa using h2
        · refine ⟨b1, by omega, fun g hg1 hg2 => ?_, b4⟩
          by_cases hg : g = tf
          · subst hg; simpa using h2
          · exact b3 g hg1 (by omega)
    · rw [if_neg h1]
      left
      exact ⟨rfl, by omega⟩

theorem gap_search_forward_spec (sc : Scene) (strips : List StripId) (efra : Int)
    (target : Bool) :
    ∀ (n : Nat) (tf : Int), efra - tf + 1 ≤ n →
      match gap_search_forward sc strips efra target n tf with
      | some r => tf ≤ r ∧ r ≤ efra ∧ strip_exists_at_frame sc strips r = target ∧
          ∀ g, tf ≤ g → g < r → strip_exists_at_frame sc strips g ≠ target
      | none => ∀ g, tf ≤ g → g ≤ efra → strip_exists_at_frame sc strips g ≠ target := by
  intro n
  induction n with
  | zero =>
    intro tf h
    simp only [gap_search_forward]
    intro g h1 h2
    omega
  | succ n ih =>
    intro tf h
    unfold gap_search_forward
    by_cases h1 : tf ≤ efra
    · rw [if_pos h1]
      by_cases h2 : strip_exists_at_frame sc strips tf = target
      · rw [if_pos h2]
        exact ⟨le_refl _, h1, h2, fun g hg1 hg2 => by omega⟩
      · rw [if_neg h2]
        have hi := ih (tf + 1) (by omega)
        cases hr : gap_search_forward sc strips efra target n (tf + 1) with
        | none =>
          rw [hr] at hi
          intro g hg1 hg2
          by_cases hg : g = tf
          · subst hg; exact h2
          · exact hi g (by omega) hg2
        | some r =>
          rw [hr] at hi
          obtain ⟨a1, a2, a3, a4⟩ := hi
          refine ⟨by omega, a2, a3, fun g hg1 hg2 => ?_⟩
          by_cases hg : g = tf
          · subst hg; exact h2
          · exact a4 g (by omega) hg2
    · rw [if_neg h1]
      intro g hg1 hg2
      omega

/-- The result of `seq_time_gap_info_get` at an initial frame that no strip covers. -/
theorem gap_info_of_uncovered (sc : Scene) (seqbase : List StripId) (f : Int) (g0 : GapInfo)
    (hf : strip_exists_at_frame sc (SEQ_query_all_strips seqbase) f = false) :
    seq_time_gap_info_get sc seqbase f g0 =
      match gap_search_forward sc (SEQ_query_all_strips seqbase)
          (SEQ_timeline_boundbox sc (some seqbase)).xmax true
          ((SEQ_timeline_boundbox sc (some seqbase)).xmax - f + 1).toNat f with
      | some e =>
        { gap_start_frame :=
            gap_search_backward sc (SEQ_query_all_strips seqbase)
              (SEQ_timeline_boundbox sc (some seqbase)).xmin
              (f - (SEQ_timeline_boundbox sc (some seqbase)).xmin + 1).toNat f + 1
          gap_length := e -
            (gap_search_backward sc (SEQ_query_all_strips seqbase)
              (SEQ_timeline_boundbox sc (some seqbase)).xmin
              (f - (SEQ_timeline_boundbox sc (some seqbase)).xmin + 1).toNat f + 1)
          gap_exists := true }
      | none =>
        { gap_start_frame :=
            gap_search_backward sc (SEQ_query_all_strips seqbase)
              (SEQ_timeline_boundbox sc (some seqbase)).xmin
              (f - (SEQ_timeline_boundbox sc (some seqbase)).xmin + 1).toNat f + 1
          gap_length := g0.gap_length
          gap_exists := false } := by
  unfold seq_time_gap_info_get
  simp only [hf, if_true]

/-- The result of `seq_time_gap_info_get` at an initial frame that a strip covers. -/
theorem gap_info_of_covered (sc : Scene) (seqbase : List StripId) (f : Int) (g0 : GapInfo)
    (hf : strip_exists_at_frame sc (SEQ_query_all_strips seqbase) f = true) :
    seq_time_gap_info_get sc seqbase f g0 =
      match gap_search_forward sc (SEQ_query_all_strips seqbase)
          (SEQ_timeline_boundbox sc (some seqbase)).xmax false
          ((SEQ_timeline_boundbox sc (some seqbase)).xmax - f + 1).toNat f with
      | some u =>
        match gap_search_forward sc (SEQ_query_all_strips seqbase)
            (SEQ_timeline_boundbox sc (some seqbase)).xmax true
            ((SEQ_timeline_boundbox sc (some seqbase)).xmax - u + 1).toNat u with
        | some e => { gap_start_frame := u, gap_length := e - u, gap_exists := true }
        | none => { gap_start_frame := u, gap_length := g0.gap_length, gap_exists := false }
      | none => { g0 with gap_exists := false } := by
  unfold seq_time_gap_info_get
  simp only [hf, Bool.true_eq_false, if_false]
  cases gap_search_forward sc (SEQ_query_all_strips seqbase)
      (SEQ_timeline_boundbox sc (some seqbase)).xmax false
      ((SEQ_timeline_boundbox sc (some seqbase)).xmax - f + 1).toNat f with
  | none => rfl
  | some u =>
    simp only []

/-- The forward search for a covered frame finds the least covered frame at or after its
starting frame. -/
theorem gap_search_forward_covered (sc : Scene) (seqbase : List StripId) (tf hi : Int)
    (hhi : Covered sc seqbase hi) (hle : tf ≤ hi)
    (hmin : ∀ g, tf ≤ g → g < hi → ¬ Covered sc seqbase g) :
    gap_search_forward sc (SEQ_query_all_strips seqbase)
      (SEQ_timeline_boundbox sc (some seqbase)).xmax true
      ((SEQ_timeline_boundbox sc (some seqbase)).xmax - tf + 1).toNat tf = some hi := by
  have hb := covered_in_boundbox sc seqbase hi hhi
  have hs := gap_search_forward_spec sc (SEQ_query_all_strips seqbase)
    (SEQ_timeline_boundbox sc (some seqbase)).xmax true
    ((SEQ_timeline_boundbox sc (some seqbase)).xmax - tf + 1).toNat tf (by omega)
  cases hr : gap_search_forward sc (SEQ_query_all_strips seqbase)
      (SEQ_timeline_boundbox sc (some seqbase)).xmax true
      ((SEQ_timeline_boundbox sc (some seqbase)).xmax - tf + 1).toNat tf with
  | none =>
    rw [hr] at hs
    exact absurd ((strip_exists_iff_covered sc seqbase hi).mpr hhi) (hs hi hle (by omega))
  | some r =>
    rw [hr] at hs
    obtain ⟨a1, _, a3, a4⟩ := hs
    have hr_cov := (strip_exists_iff_covered sc seqbase r).mp a3
    have h1 : ¬ r < hi := fun h => hmin r a1 h hr_cov
    have h2 : ¬ hi < r := fun h =>
      a4 hi hle h ((strip_exists_iff_covered sc seqbase hi).mpr hhi)
    have : r = hi := by omega
    rw [this]

/-- C15: when no strip covers the initial frame `f`, `lo` is the greatest covered frame
below `f` and `hi` the least covered frame above `f`, `seq_time_gap_info_get` reports
`gap_exists = true`, `gap_start_frame = lo + 1` and `gap_length = hi - gap_start_frame`. -/
theorem gap_info_between_strips (sc : Scene) (seqbase : List StripId) (f lo hi : Int)
    (r_gap_info : GapInfo)
    (hf : ¬ Covered sc seqbase f)
    (hlo : Covered sc seqbase lo) (hlof : lo < f)
    (hlo_max : ∀ g, lo < g → g < f → ¬ Covered sc seqbase g)
    (hhi : Covered sc seqbase hi) (hfhi : f < hi)
    (hhi_min : ∀ g, f < g → g < hi → ¬ Covered sc seqbase g) :
    seq_time_gap_info_get sc seqbase f r_gap_info =
      { gap_start_frame := lo + 1, gap_length := hi - (lo + 1), gap_exists := true } := by
  have hf2 := (strip_exists_false_iff sc seqbase f).mpr hf
  rw [gap_info_of_uncovered sc seqbase f r_gap_info hf2]
  have hfwd := gap_search_forward_covered sc seqbase f hi hhi hfhi.le (fun g h1 h2 => by
    by_cases hg : g = f
    · subst hg; exact hf
    · exact hhi_min g (by omega) h2)
  have hblo := covered_in_boundbox sc seqbase lo hlo
  have hback : gap_search_backward sc (SEQ_query_all_strips seqbase)
      (SEQ_timeline_boundbox sc (some seqbase)).xmin
      (f - (SEQ_timeline_boundbox sc (some seqbase)).xmin + 1).toNat f = lo := by
    rcases gap_search_backward_spec sc (SEQ_query_all_strips seqbase)
      (SEQ_timeline_boundbox sc (some seqbase)).xmin
      (f - (SEQ_timeline_boundbox sc (some seqbase)).xmin + 1).toNat f (by omega) with
      ⟨_, h⟩ | ⟨b1, b2, b3, b4⟩
    · omega
    · generalize gap_search_backward sc (SEQ_query_all_strips seqbase)
        (SEQ_timeline_boundbox sc (some seqbase)).xmin
        (f - (SEQ_timeline_boundbox sc (some seqbase)).xmin + 1).toNat f = r at b1 b2 b3 b4
      have h1 : ¬ r < lo := fun h => by
        have := b3 lo h (by omega)
        rw [(strip_exists_iff_covered sc seqbase lo).mpr hlo] at this
        exact Bool.noConfusion this
      have h2 : ¬ lo < r := fun h => by
        have hc := (strip_exists_iff_covered sc seqbase r).mp (b4 (by omega))
        by_cases hrf : r = f
        · subst hrf; exact hf hc
        · exact hlo_max r h (by omega) hc
      omega
  rw [hfwd, hback]

/-- When `seq_time_gap_info_get` reports a gap, in terms of `u`, the first frame at or after
the initial frame that no strip covers. -/
theorem gap_exists_characterised (sc : Scene) (seqbase : List StripId) (f : Int) (r_gap_info : GapInfo) :
    (seq_time_gap_info_get sc seqbase f r_gap_info).gap_exists = true ↔
      ∃ u g, f ≤ u ∧ (∀ h, f ≤ h → h < u → Covered sc seqbase h) ∧ ¬ Covered sc seqbase u ∧
        u < g ∧ Covered sc seqbase g := by
  by_cases hf : Covered sc seqbase f
  · have hf2 := (strip_exists_iff_covered sc seqbase f).mpr hf
    have hbf := covered_in_boundbox sc seqbase f hf
    rw [gap_info_of_covered sc seqbase f r_gap_info hf2]
    have hs := gap_search_forward_spec sc (SEQ_query_all_strips seqbase)
      (SEQ_timeline_boundbox sc (some seqbase)).xmax false
      ((SEQ_timeline_boundbox sc (some seqbase)).xmax - f + 1).toNat f (by omega)
    cases hr : gap_search_forward sc (SEQ_query_all_strips seqbase)
        (SEQ_timeline_boundbox sc (some seqbase)).xmax false
        ((SEQ_timeline_boundbox sc (some seqbase)).xmax - f + 1).toNat f with
    | none =>
      rw [hr] at hs
      exfalso
      have hx := hs (SEQ_timeline_boundbox sc (some seqbase)).xmax (by omega) (le_refl _)
      have hc : Covered sc seqbase (SEQ_timeline_boundbox sc (some seqbase)).xmax := by
        rw [← strip_exists_iff_covered]
        simpa using hx
      have := covered_in_boundbox sc seqbase _ hc
      omega
    | some u0 =>
      rw [hr] at hs
      obtain ⟨a1, a2, a3, a4⟩ := hs
      have hu0 : ¬ Covered sc seqbase u0 := (strip_exists_false_iff sc seqbase u0).mp a3
      have hpre : ∀ h, f ≤ h → h < u0 → Covered sc seqbase h := fun h h1 h2 => by
        rw [← strip_exists_iff_covered]
        simpa using a4 h h1 h2
      simp only []
      have hs2 := gap_search_forward_spec sc (SEQ_query_all_strips seqbase)
        (SEQ_timeline_boundbox sc (some seqbase)).xmax true
        ((SEQ_timeline_boundbox sc (some seqbase)).xmax - u0 + 1).toNat u0 (by omega)
      cases hr2 : gap_search_forward sc (SEQ_query_all_strips seqbase)
          (SEQ_timeline_boundbox sc (some seqbase)).xmax true
          ((SEQ_timeline_boundbox sc (some seqbase)).xmax - u0 + 1).toNat u0 with
      | none =>
        rw [hr2] at hs2
        simp only [Bool.false_eq_true, false_iff]
        rintro ⟨u, g, h1, h2, h3, h4, h5⟩
        have e : u = u0 := by
          have k1 : ¬ u < u0 := fun h => h3 (hpre u h1 h)
          have k2 : ¬ u0 < u := fun h => hu0 (h2 u0 a1 h)
          omega
        subst e
        have hbg := covered_in_boundbox sc seqbase g h5
        exact hs2 g h4.le (by omega) ((strip_exists_iff_covered sc seqbase g).mpr h5)
      | some e =>
        rw [hr2] at hs2
        obtain ⟨c1, _, c3, _⟩ := hs2
        have he : Covered sc seqbase e := (strip_exists_iff_covered sc seqbase e).mp c3
        simp only [true_iff]
        refine ⟨u0, e, a1, hpre, hu0, ?_, he⟩
        have : e ≠ u0 := fun h => hu0 (h ▸ he)
        omega
  · have hf2 := (strip_exists_false_iff sc seqbase f).mpr hf
    rw [gap_info_of_uncovered sc seqbase f r_gap_info hf2]
    have hs := gap_search_forward_spec sc (SEQ_query_all_strips seqbase)
      (SEQ_timeline_boundbox sc (some seqbase)).xmax true
      ((SEQ_timeline_boundbox sc (some seqbase)).xmax - f + 1).toNat f (by omega)
    cases hr : gap_search_forward sc (SEQ_query_all_strips seqbase)
        (SEQ_timeline_boundbox sc (some seqbase)).xmax true
        ((SEQ_timeline_boundbox sc (some seqbase)).xmax - f + 1).toNat f with
    | none =>
      rw [hr] at hs
      simp only [Bool.false_eq_true, false_iff]
      rintro ⟨u, g, h1, h2, h3, h4, h5⟩
      have e : u = f := by
        have k2 : ¬ f < u := fun h => hf (h2 f (le_refl _) h)
        omega
      subst e
      have hbg := covered_in_boundbox sc seqbase g h5
      exact hs g h4.le (by omega) ((strip_exists_iff_covered sc seqbase g).mpr h5)
    | some e =>
      rw [hr] at hs
      obtain ⟨c1, _, c3, _⟩ := hs
      have he : Covered sc seqbase e := (strip_exists_iff_covered sc seqbase e).mp c3
      simp only [true_iff]
      refine ⟨f, e, le_refl _, fun h h1 h2 => by omega, hf, ?_, he⟩
      have : e ≠ f := fun h => hf (h ▸ he)
      omega

/-- C17 (as amended): `seq_time_gap_info_get` reports `gap_exists = true` exactly when some
strip covers a frame after `u`, the first frame at or after the initial frame that no strip
covers; for an initial frame that no strip covers, `u` is the initial frame itself. -/
theorem gap_exists_iff (sc : Scene) (seqbase : List StripId) (f : Int) (r_gap_info : GapInfo) :
    (seq_time_gap_info_get sc seqbase f r_gap_info).gap_exists = true ↔
      ∃ u g, f ≤ u ∧ (∀ h, f ≤ h → h < u → Covered sc seqbase h) ∧ ¬ Covered sc seqbase u ∧
        u < g ∧ Covered sc seqbase g :=
  gap_exists_characterised sc seqbase f r_gap_info

theorem covered_two_strips_gap (g : Int) :
    Covered scene_two_strips_gap [0, 1] g ↔ (0 ≤ g ∧ g < 10) ∨ (20 ≤ g ∧ g < 30) := by
  simp [Covered, SEQ_time_strip_intersects_frame, scene_two_strips_gap, Scene.strip,
    Strip.null, SEQ_time_left_handle_frame_get, SEQ_time_right_handle_frame_get,
    SEQ_time_content_end_frame_get, SEQ_time_strip_length_get, SEQ_retiming_is_active,
    SEQ_time_media_playback_rate_factor_get, float_to_int, SEQ_time_start_frame_get]

theorem covered_one_strip_late (g : Int) :
    Covered scene_one_strip_late [0] g ↔ 10 ≤ g ∧ g < 20 := by
  simp [Covered, SEQ_time_strip_intersects_frame, scene_one_strip_late, Scene.strip,
    Strip.null, SEQ_time_left_handle_frame_get, SEQ_time_right_handle_frame_get,
    SEQ_time_content_end_frame_get, SEQ_time_strip_length_get, SEQ_retiming_is_active,
    SEQ_time_media_playback_rate_factor_get, float_to_int, SEQ_time_start_frame_get]

theorem boundbox_one_strip_late :
    SEQ_timeline_boundbox scene_one_strip_late (some [0])
      = { xmin := 1, xmax := 251, ymin := 1, ymax := 8 } := by
  simp [SEQ_timeline_boundbox, SEQ_timeline_expand_boundbox, SEQ_timeline_init_boundbox,
    scene_one_strip_late, Scene.strip,
    Strip.null, SEQ_time_left_handle_frame_get, SEQ_time_right_handle_frame_get,
    SEQ_time_content_end_frame_get, SEQ_time_strip_length_get, SEQ_retiming_is_active,
    SEQ_time_media_playback_rate_factor_get, float_to_int, SEQ_time_start_frame_get]

/-- Witness for C15: strips on [0,10) and [20,30), initial frame 15: the gap starts at frame
10 and is 10 frames long. -/
theorem gap_info_between_strips_witness :
    ¬ Covered scene_two_strips_gap [0, 1] 15 ∧
    Covered scene_two_strips_gap [0, 1] 9 ∧
    Covered scene_two_strips_gap [0, 1] 20 ∧
    seq_time_gap_info_get scene_two_strips_gap [0, 1] 15
        { gap_start_frame := 0, gap_length := 0, gap_exists := false }
      = { gap_start_frame := 9 + 1, gap_length := 20 - (9 + 1), gap_exists := true } :=
  have h15 : ¬ Covered scene_two_strips_gap [0, 1] 15 := by
    rw [covered_two_strips_gap]; omega
  have h9 : Covered scene_two_strips_gap [0, 1] 9 := by
    rw [covered_two_strips_gap]; omega
  have h20 : Covered scene_two_strips_gap [0, 1] 20 := by
    rw [covered_two_strips_gap]; omega
  ⟨h15, h9, h20,
   gap_info_between_strips scene_two_strips_gap [0, 1] 15 9 20 _ h15 h9 (by decide)
     (fun g h1 h2 => by rw [covered_two_strips_gap]; omega) h20 (by decide)
     (fun g h1 h2 => by rw [covered_two_strips_gap]; omega)⟩

/-- For an initial frame that no strip covers and that is not below the left edge of the
bounding box of the timeline, a reported gap contains the initial frame. -/
theorem gap_contains_initial_frame (sc : Scene) (seqbase : List StripId) (f : Int)
    (r_gap_info : GapInfo)
    (hf : ¬ Covered sc seqbase f)
    (hsfra : (SEQ_timeline_boundbox sc (some seqbase)).xmin ≤ f)
    (hex : (seq_time_gap_info_get sc seqbase f r_gap_info).gap_exists = true) :
    (seq_time_gap_info_get sc seqbase f r_gap_info).gap_start_frame ≤ f ∧
    f < (seq_time_gap_info_get sc seqbase f r_gap_info).gap_start_frame
          + (seq_time_gap_info_get sc seqbase f r_gap_info).gap_length := by
  have hf2 := (strip_exists_false_iff sc seqbase f).mpr hf
  rw [gap_info_of_uncovered sc seqbase f r_gap_info hf2] at hex ⊢
  have hs := gap_search_forward_spec sc (SEQ_query_all_strips seqbase)
    (SEQ_timeline_boundbox sc (some seqbase)).xmax true
    ((SEQ_timeline_boundbox sc (some seqbase)).xmax - f + 1).toNat f (by omega)
  cases hr : gap_search_forward sc (SEQ_query_all_strips seqbase)
      (SEQ_timeline_boundbox sc (some seqbase)).xmax true
      ((SEQ_timeline_boundbox sc (some seqbase)).xmax - f + 1).toNat f with
  | none =>
    rw [hr] at hex
    exact absurd hex (by simp)
  | some e =>
    rw [hr] at hs
    obtain ⟨c1, _, c3, _⟩ := hs
    have he : Covered sc seqbase e := (strip_exists_iff_covered sc seqbase e).mp c3
    have hne : e ≠ f := fun h => hf (h ▸ he)
    simp only []
    rcases gap_search_backward_spec sc (SEQ_query_all_strips seqbase)
      (SEQ_timeline_boundbox sc (some seqbase)).xmin
      (f - (SEQ_timeline_boundbox sc (some seqbase)).xmin + 1).toNat f (by omega) with
      ⟨_, h⟩ | ⟨b1, b2, _, b4⟩
    · omega
    · generalize gap_search_backward sc (SEQ_query_all_strips seqbase)
        (SEQ_timeline_boundbox sc (some seqbase)).xmin
        (f - (SEQ_timeline_boundbox sc (some seqbase)).xmin + 1).toNat f = r at b1 b2 b4
      have hrf : r ≠ f := fun h => by
        subst h
        exact hf ((strip_exists_iff_covered sc seqbase r).mp (b4 hsfra))
      constructor <;> omega

/-- C16, the code at the failing input: one strip on frames [10,20) in a scene that starts
at frame 1, initial frame 0.  No strip covers frame 0, the backward search is skipped
because frame 0 lies before the left edge of the bounding box (frame 1), and the reported
gap is the region [1,10), which does not contain frame 0. -/
theorem gap_info_before_scene_start :
    ¬ Covered scene_one_strip_late [0] 0 ∧
    seq_time_gap_info_get scene_one_strip_late [0] 0
        { gap_start_frame := 0, gap_length := 0, gap_exists := false }
      = { gap_start_frame := 1, gap_length := 9, gap_exists := true } ∧
    ¬ ((1 : Int) ≤ 0 ∧ (0 : Int) < 1 + 9) := by
  have h0 : ¬ Covered scene_one_strip_late [0] 0 := by
    rw [covered_one_strip_late]; omega
  have h10 : Covered scene_one_strip_late [0] 10 := by
    rw [covered_one_strip_late]; omega
  refine ⟨h0, ?_, by omega⟩
  rw [gap_info_of_uncovered _ _ _ _ ((strip_exists_false_iff _ _ _).mpr h0),
    gap_search_forward_covered scene_one_strip_late [0] 0 10 h10 (by decide)
      (fun g h1 h2 => by rw [covered_one_strip_late]; omega),
    boundbox_one_strip_late]
  rfl

/-- Counterexample to C17 as stated: with strips on [0,10) and [20,30), no strip covers the
initial frame 35, and `seq_time_gap_info_get` reports `gap_exists = false`. -/
theorem gap_exists_counterexample :
    ¬ Covered scene_two_strips_gap [0, 1] 35 ∧
    (seq_time_gap_info_get scene_two_strips_gap [0, 1] 35
        { gap_start_frame := 0, gap_length := 0, gap_exists := false }).gap_exists = false := by
  have h35 : ¬ Covered scene_two_strips_gap [0, 1] 35 := by
    rw [covered_two_strips_gap]; omega
  refine ⟨h35, ?_⟩
  rw [Bool.eq_false_iff]
  intro h
  obtain ⟨u, g, h1, h2, h3, h4, h5⟩ := (gap_exists_characterised _ _ _ _).mp h
  rw [covered_two_strips_gap] at h5
  omega

/-! ## Proxy path resolver -/

open eSpaceSeq_Proxy_RenderSize in
/-- The number of the size directory: the scale factor as a percentage. -/
theorem proxy_size_number_string (render_size : eSpaceSeq_Proxy_RenderSize) :
    toString (float_to_int (SEQ_rendersize_to_scale_factor render_size * 100))
      = match render_size with
        | SEQ_RENDER_SIZE_PROXY_25 => "25"
        | SEQ_RENDER_SIZE_PROXY_50 => "50"
        | SEQ_RENDER_SIZE_PROXY_75 => "75"
        | _ => "100" := by
  have h25 : float_to_int ((0.25 : ℚ) * 100) = 25 := by
    simp [float_to_int]; norm_num
  have h50 : float_to_int ((0.50 : ℚ) * 100) = 50 := by
    simp [float_to_int]; norm_num
  have h75 : float_to_int ((0.75 : ℚ) * 100) = 75 := by
    simp [float_to_int]; norm_num
  have h100 : float_to_int ((1.0 : ℚ) * 100) = 100 := by
    simp [float_to_int]; norm_num
  cases render_size <;> simp only [SEQ_rendersize_to_scale_factor, h25, h50, h75, h100] <;>
    decide

/-- The path of `seq_proxy_get_filepath` outside the custom-file branch. -/
theorem proxy_filepath_main_branch (blendfile_path : String) (sc : Scene) (seq : Strip)
    (timeline_frame : Int) (render_size : eSpaceSeq_Proxy_RenderSize) (view_id : Int)
    (proxy : StripProxy) (filename : String)
    (hproxy : seq.data.proxy = some proxy)
    (hcustom : ¬ (proxy.storage_custom_file = true ∧ sc.ed.proxy_storage_is_dir_storage = false))
    (hse : SEQ_render_give_stripelem sc seq timeline_frame = some filename) :
    seq_proxy_get_filepath blendfile_path sc seq timeline_frame render_size view_id =
      some (BLI_path_abs
        ((if sc.ed.proxy_storage_is_dir_storage then
            if sc.ed.proxy_dir = "" then "//BL_proxy" else sc.ed.proxy_dir
          else if proxy.storage_custom_dir then proxy.dirpath
          else seq.data.dirpath ++ "/" ++ "BL_proxy")
          ++ "/" ++ "images" ++ "/"
          ++ toString (float_to_int (SEQ_rendersize_to_scale_factor render_size * 100))
          ++ "/" ++ filename ++ "_proxy"
          ++ (if view_id > 0 then "_" ++ toString view_id else "") ++ ".jpg")
        blendfile_path) := by
  unfold seq_proxy_get_filepath
  simp only [hproxy, if_neg hcustom, hse]

open eSpaceSeq_Proxy_RenderSize in
/-- C18 (as amended): for a strip with proxy settings, no custom file or directory storage
and no project-level directory storage, `seq_proxy_get_filepath` yields
`<strip source dir>/BL_proxy/images/<percent>/<source file name>_proxy<view suffix>.jpg`,
resolved against the location of the data file, where the source file name is the whole
name of the source element, its extension included. -/
theorem proxy_filepath_default (blendfile_path : String) (sc : Scene) (seq : Strip)
    (timeline_frame : Int) (render_size : eSpaceSeq_Proxy_RenderSize) (view_id : Int)
    (proxy : StripProxy) (filename : String)
    (hproxy : seq.data.proxy = some proxy)
    (hfile : proxy.storage_custom_file = false)
    (hdir : proxy.storage_custom_dir = false)
    (hed : sc.ed.proxy_storage_is_dir_storage = false)
    (hse : SEQ_render_give_stripelem sc seq timeline_frame = some filename) :
    seq_proxy_get_filepath blendfile_path sc seq timeline_frame render_size view_id =
      some (BLI_path_abs
        (seq.data.dirpath ++ "/" ++ "BL_proxy" ++ "/" ++ "images" ++ "/"
          ++ (match render_size with
              | SEQ_RENDER_SIZE_PROXY_25 => "25"
              | SEQ_RENDER_SIZE_PROXY_50 => "50"
              | SEQ_RENDER_SIZE_PROXY_75 => "75"
              | _ => "100")
          ++ "/" ++ filename ++ "_proxy"
          ++ (if view_id > 0 then "_" ++ toString view_id else "") ++ ".jpg")
        blendfile_path) := by
  rw [proxy_filepath_main_branch blendfile_path sc seq timeline_frame render_size view_id
    proxy filename hproxy (by simp [hfile]) hse, proxy_size_number_string]
  simp only [hed, hdir, Bool.false_eq_true, if_false]

/-- Witness for C18: source `/media/clip.mov`, tier 50%, view 0. -/
theorem proxy_filepath_default_witness :
    strip_clip_proxy.data.proxy = some {} ∧
    SEQ_render_give_stripelem scene_one_movie strip_clip_proxy 0 = some "clip.mov" ∧
    seq_proxy_get_filepath "/project/film.blend" scene_one_movie strip_clip_proxy 0
        eSpaceSeq_Proxy_RenderSize.SEQ_RENDER_SIZE_PROXY_50 0
      = some "/media/BL_proxy/images/50/clip.mov_proxy.jpg" :=
  ⟨rfl, by decide,
   proxy_filepath_default "/project/film.blend" scene_one_movie strip_clip_proxy 0
     eSpaceSeq_Proxy_RenderSize.SEQ_RENDER_SIZE_PROXY_50 0 {} "clip.mov" rfl rfl rfl rfl
     (by decide)⟩

/-- Counterexample to C18 as stated: for the source `/media/clip.mov` at tier 50% the path
is `/media/BL_proxy/images/50/clip.mov_proxy.jpg` for view 0, which does not end in
`/BL_proxy/images/50/clip_proxy.jpg`, and `..._proxy_1.jpg` after `clip.mov` for view 1,
which does not end in `clip_proxy_1.jpg`. -/
theorem proxy_filepath_default_counterexample :
    strip_clip_proxy.data.proxy = some {} ∧
    seq_proxy_get_filepath "/project/film.blend" scene_one_movie strip_clip_proxy 0
        eSpaceSeq_Proxy_RenderSize.SEQ_RENDER_SIZE_PROXY_50 0
      = some "/media/BL_proxy/images/50/clip.mov_proxy.jpg" ∧
    ¬ List.IsSuffix "/BL_proxy/images/50/clip_proxy.jpg".data
        "/media/BL_proxy/images/50/clip.mov_proxy.jpg".data ∧
    seq_proxy_get_filepath "/project/film.blend" scene_one_movie strip_clip_proxy 0
        eSpaceSeq_Proxy_RenderSize.SEQ_RENDER_SIZE_PROXY_50 1
      = some "/media/BL_proxy/images/50/clip.mov_proxy_1.jpg" ∧
    ¬ List.IsSuffix "clip_proxy_1.jpg".data
        "/media/BL_proxy/images/50/clip.mov_proxy_1.jpg".data := by
  refine ⟨rfl, ?_, by decide, ?_, by decide⟩
  · rw [proxy_filepath_main_branch _ _ _ _ _ _ {} "clip.mov" rfl (by decide) (by decide),
      proxy_size_number_string]
    decide
  · rw [proxy_filepath_main_branch _ _ _ _ _ _ {} "clip.mov" rfl (by decide) (by decide),
      proxy_size_number_string]
    decide

/-- C19 (as amended): for a strip whose proxy storage mode is custom-file, when the
project-level proxy storage is not the project directory, `seq_proxy_get_filepath` returns
the custom file path of the strip (the join of the proxy directory and file name, resolved
against the location of the data file), followed by a view suffix that is empty for view 0,
whatever the render size and the timeline frame are. -/
theorem proxy_filepath_custom_file (blendfile_path : String) (sc : Scene) (seq : Strip)
    (timeline_frame : Int) (render_size : eSpaceSeq_Proxy_RenderSize) (view_id : Int)
    (proxy : StripProxy)
    (hproxy : seq.data.proxy = some proxy)
    (hfile : proxy.storage_custom_file = true)
    (hed : sc.ed.proxy_storage_is_dir_storage = false) :
    ∃ view_suffix : String,
      seq_proxy_get_filepath blendfile_path sc seq timeline_frame render_size view_id =
        some (BLI_path_abs (BLI_path_join proxy.dirpath proxy.filename) blendfile_path
          ++ view_suffix) ∧
      (view_id ≤ 0 → view_suffix = "") := by
  unfold seq_proxy_get_filepath seq_proxy_get_custom_file_filepath
  simp only [hproxy, hfile, hed, and_self, if_true]
  by_cases hv : view_id > 0
  · refine ⟨"_" ++ ("_" ++ toString view_id), ?_, fun h => by omega⟩
    simp only [if_pos hv, String.append_assoc]
  · refine ⟨"", ?_, fun _ => rfl⟩
    simp only [if_neg hv, String.append_empty]

/-- Witness for C19: the strip with the custom proxy file `/proxies/clip_small.avi`. -/
theorem proxy_filepath_custom_file_witness :
    strip_clip_custom_file.data.proxy
      = some { dirpath := "/proxies", filename := "clip_small.avi",
               storage_custom_file := true } ∧
    scene_one_movie.ed.proxy_storage_is_dir_storage = false ∧
    ∃ view_suffix : String,
      seq_proxy_get_filepath "/project/film.blend" scene_one_movie strip_clip_custom_file 0
          eSpaceSeq_Proxy_RenderSize.SEQ_RENDER_SIZE_PROXY_50 0 =
        some (BLI_path_abs (BLI_path_join "/proxies" "clip_small.avi") "/project/film.blend"
          ++ view_suffix) ∧
      ((0 : Int) ≤ 0 → view_suffix = "") :=
  ⟨rfl, rfl,
   proxy_filepath_custom_file "/project/film.blend" scene_one_movie strip_clip_custom_file 0
     eSpaceSeq_Proxy_RenderSize.SEQ_RENDER_SIZE_PROXY_50 0
     { dirpath := "/proxies", filename := "clip_small.avi", storage_custom_file := true }
     rfl rfl rfl⟩

/-- Counterexample to C19 as stated: the strip has the custom proxy file
`/proxies/clip_small.avi`, the project-level proxy storage is the project directory, and the
path is the one of the project directory, not the custom file path. -/
theorem proxy_filepath_custom_file_counterexample :
    (∃ proxy, strip_clip_custom_file.data.proxy = some proxy ∧
      proxy.storage_custom_file = true ∧
      BLI_path_abs (BLI_path_join proxy.dirpath proxy.filename) "/project/film.blend"
        = "/proxies/clip_small.avi") ∧
    seq_proxy_get_filepath "/project/film.blend" scene_proxy_dir_storage
        strip_clip_custom_file 0 eSpaceSeq_Proxy_RenderSize.SEQ_RENDER_SIZE_PROXY_50 0
      = some "/project/BL_proxy/images/50/clip.mov_proxy.jpg" := by
  refine ⟨⟨_, rfl, rfl, by decide⟩, ?_⟩
  rw [proxy_filepath_main_branch _ _ _ _ _ _ _ "clip.mov" rfl (by decide) (by decide),
    proxy_size_number_string]
  decide

/-- C20, the code at the failing input: for the strip with the custom proxy file
`/proxies/clip_small.avi` the path for view 0 is the custom file path, and the path for
view 1 is that path followed by `__1`, with two underscores. -/
theorem proxy_filepath_custom_file_view_suffix :
    seq_proxy_get_filepath "/project/film.blend" scene_one_movie strip_clip_custom_file 0
        eSpaceSeq_Proxy_RenderSize.SEQ_RENDER_SIZE_PROXY_50 0
      = some "/proxies/clip_small.avi" ∧
    seq_proxy_get_filepath "/project/film.blend" scene_one_movie strip_clip_custom_file 0
        eSpaceSeq_Proxy_RenderSize.SEQ_RENDER_SIZE_PROXY_50 1
      = some "/proxies/clip_small.avi__1" := by
  constructor <;>
  · unfold seq_proxy_get_filepath
    decide

/-! ## Slip -/

theorem slip_ex_zero (sc : Scene) (seq : StripId) (delta : Int) (subframe_delta : ℚ)
    (recursed : Bool) :
    seq_time_slip_strip_ex 0 sc seq delta subframe_delta recursed = none := rfl

theorem slip_ex_succ (fuel : Nat) (sc : Scene) (seq : StripId) (delta : Int)
    (subframe_delta : ℚ) (recursed : Bool) :
    seq_time_slip_strip_ex (fuel + 1) sc seq delta subframe_delta recursed =
      if delta = 0 then some (slip_sound_step sc seq subframe_delta)
      else if ((slip_sound_step sc seq subframe_delta).strip seq).seq1 ≠ none
          ∨ ((slip_sound_step sc seq subframe_delta).strip seq).seq2 ≠ none then
        some (slip_sound_step sc seq subframe_delta)
      else if recursed = false
          ∧ ((slip_sound_step sc seq subframe_delta).strip seq).type.is_effect = true then
        some (slip_sound_step sc seq subframe_delta)
      else if ((slip_sound_step sc seq subframe_delta).strip seq).type = SEQ_TYPE_META
          ∧ ((slip_sound_step sc seq subframe_delta).strip seq).seqbase = [] then
        some (slip_sound_step sc seq subframe_delta)
      else
        (if ((slip_sound_step sc seq subframe_delta).strip seq).type = SEQ_TYPE_META then
          ((slip_sound_step sc seq subframe_delta).strip seq).seqbase.foldlM
            (fun sc seq_child =>
              seq_time_slip_strip_ex fuel sc seq_child delta subframe_delta true)
            (slip_sound_step sc seq subframe_delta)
        else some (slip_sound_step sc seq subframe_delta)).bind fun sc =>
          seq_time_update_effects_strip_range fuel (slip_own_step sc seq delta recursed)
            (seq_sequence_lookup_effects_by_seq (slip_own_step sc seq delta recursed) seq) := by
  rfl

theorem slip_sound_step_shape (sc : Scene) (seq : StripId) (subframe_delta : ℚ) :
    SameShape sc (slip_sound_step sc seq subframe_delta) := by
  unfold slip_sound_step
  split_ifs
  · exact SameShape.modify _ _ _ (fun _ => rfl)
  · exact SameShape.refl _

theorem slip_sound_step_strip_ne (sc : Scene) (seq i : StripId) (subframe_delta : ℚ)
    (h : i ≠ seq) : (slip_sound_step sc seq subframe_delta).strip i = sc.strip i := by
  unfold slip_sound_step
  split_ifs
  · exact Scene.strip_modify_ne _ _ _ _ h
  · rfl

theorem slip_own_step_shape (sc : Scene) (seq : StripId) (delta : Int) (recursed : Bool) :
    SameShape sc (slip_own_step sc seq delta recursed) := by
  have hm : ∀ (a : Scene) (f : Strip → Strip), (∀ s, (f s).static = s.static) →
      SameShape sc a → SameShape sc (a.modify seq f) :=
    fun a f hf ha => ha.trans (SameShape.modify a seq f hf)
  unfold slip_own_step
  dsimp only
  split_ifs
  · refine hm _ _ (fun _ => ?_) (hm _ _ (fun _ => ?_) (hm _ _ (fun _ => ?_)
      (hm _ _ (fun _ => ?_) (hm _ _ (fun _ => ?_) (SameShape.refl _))))) <;> rfl
  · refine hm _ _ (fun _ => ?_) (hm _ _ (fun _ => ?_) (hm _ _ (fun _ => ?_)
      (SameShape.refl _))) <;> rfl

theorem slip_own_step_strip_ne (sc : Scene) (seq i : StripId) (delta : Int) (recursed : Bool)
    (h : i ≠ seq) : (slip_own_step sc seq delta recursed).strip i = sc.strip i := by
  unfold slip_own_step
  dsimp only
  split_ifs <;> simp only [Scene.strip_modify_ne _ _ _ _ h]

theorem slip_own_step_eq (sc : Scene) (seq : StripId) (delta : Int) (recursed : Bool) :
    slip_own_step sc seq delta recursed
      = sc.modify seq fun s => slip_own_strip sc s delta recursed := by
  unfold slip_own_step
  dsimp only
  split_ifs with h
  · simp only [Scene.modify_modify, right_handle_modify]
    apply Scene.modify_congr
    simp [slip_own_strip, h, SEQ_time_left_handle_frame_get]
  · simp only [Scene.modify_modify, right_handle_modify]
    apply Scene.modify_congr
    simp [slip_own_strip, h, SEQ_time_left_handle_frame_get]

theorem slip_own_strip_scene_congr (sc sc2 : Scene) (s : Strip) (delta : Int)
    (recursed : Bool) (hf : sc2.frs_sec = sc.frs_sec)
    (hb : sc2.frs_sec_base = sc.frs_sec_base) :
    slip_own_strip sc2 s delta recursed = slip_own_strip sc s delta recursed := by
  unfold slip_own_strip
  simp only [right_handle_scene_congr sc sc2 _ hf hb, left_handle_scene sc2 sc]

/-- Outside a recursion, the strip written by a slip of a strip without inputs and with
retiming inactive has its start moved by `delta` and its handles where they were. -/
theorem slip_own_strip_handles (sc : Scene) (s : Strip) (delta : Int)
    (hin : s.inputs = []) (hret : SEQ_retiming_is_active s = false) :
    (slip_own_strip sc s delta false).start = s.start + delta ∧
    SEQ_time_left_handle_frame_get sc (slip_own_strip sc s delta false)
      = SEQ_time_left_handle_frame_get sc s ∧
    SEQ_time_right_handle_frame_get sc (slip_own_strip sc s delta false)
      = SEQ_time_right_handle_frame_get sc s := by
  have hin2 : (slip_own_strip sc s delta false).inputs = [] := hin
  have hlen : SEQ_time_strip_length_get sc (slip_own_strip sc s delta false)
      = SEQ_time_strip_length_get sc s := by
    have hret2 : SEQ_retiming_is_active (slip_own_strip sc s delta false) = false := hret
    simp only [SEQ_time_strip_length_get, hret, hret2, Bool.false_eq_true, if_false]
    rfl
  refine ⟨rfl, ?_, ?_⟩
  · rw [left_handle_of_no_inputs _ _ hin2, left_handle_of_no_inputs _ _ hin]
    simp only [slip_own_strip, if_true]
    omega
  · rw [right_handle_of_no_inputs _ _ hin2, right_handle_of_no_inputs _ _ hin]
    simp only [SEQ_time_content_end_frame_get, hlen, SEQ_time_start_frame_get]
    simp only [slip_own_strip, if_true]
    omega

/-- One level of `seq_time_slip_strip_ex`, given what the calls on the children do: the call
returns, keeps the strip graph, writes no strip above the level of its strip, and where it
runs to its end the strip itself is the one of `slip_own_strip`. -/
theorem slip_ex_step (sc0 : Scene) (lvl : StripId → Nat) (hg : Graded sc0 lvl) (f : Nat)
    (hcas : ∀ sc, SameShape sc0 sc → ∀ s, ∃ sc2, seq_time_update_effects_strip_range f sc
      (seq_sequence_lookup_effects_by_seq sc s) = some sc2)
    (sc : Scene) (c : StripId) (delta : Int) (subframe_delta : ℚ) (recursed : Bool)
    (hsh : SameShape sc0 sc)
    (hchild : ∀ sc1 child, child ∈ (sc0.strip c).seqbase → SameShape sc0 sc1 →
      ∃ sc2, seq_time_slip_strip_ex f sc1 child delta subframe_delta true = some sc2 ∧
        SameShape sc0 sc2 ∧ ∀ i, lvl i ≤ lvl c → sc2.strip i = sc1.strip i) :
    ∃ sc2, seq_time_slip_strip_ex (f + 1) sc c delta subframe_delta recursed = some sc2 ∧
      SameShape sc0 sc2 ∧
      (∀ i, lvl i < lvl c → sc2.strip i = sc.strip i) ∧
      (delta ≠ 0 → (sc0.strip c).inputs = [] →
        ¬ (recursed = false ∧ (sc0.strip c).type.is_effect = true) →
        ¬ ((sc0.strip c).type = SEQ_TYPE_META ∧ (sc0.strip c).seqbase = []) →
        c < sc0.strips.length →
        sc2.strip c
          = slip_own_strip sc ((slip_sound_step sc c subframe_delta).strip c) delta recursed) := by
  have hsh1 : SameShape sc0 (slip_sound_step sc c subframe_delta) :=
    hsh.trans (slip_sound_step_shape sc c subframe_delta)
  have hfr1 : ∀ i, lvl i < lvl c → (slip_sound_step sc c subframe_delta).strip i = sc.strip i :=
    fun i hi => slip_sound_step_strip_ne sc c i subframe_delta (fun h => by subst h; omega)
  have hst : ((slip_sound_step sc c subframe_delta).strip c).static = (sc0.strip c).static :=
    hsh1.2.2.2.2 c
  have hty : ((slip_sound_step sc c subframe_delta).strip c).type = (sc0.strip c).type := by
    have h2 := congrArg Strip.type hst
    exact h2
  have hs1 : ((slip_sound_step sc c subframe_delta).strip c).seq1 = (sc0.strip c).seq1 := by
    have h2 := congrArg Strip.seq1 hst
    exact h2
  have hs2 : ((slip_sound_step sc c subframe_delta).strip c).seq2 = (sc0.strip c).seq2 := by
    have h2 := congrArg Strip.seq2 hst
    exact h2
  have hsb : ((slip_sound_step sc c subframe_delta).strip c).seqbase = (sc0.strip c).seqbase :=
    hsh1.seqbase c
  rw [slip_ex_succ, hty, hs1, hs2, hsb]
  by_cases h0 : delta = 0
  · rw [if_pos h0]
    exact ⟨_, rfl, hsh1, hfr1, fun h => absurd h0 h⟩
  rw [if_neg h0]
  by_cases h1 : (sc0.strip c).seq1 ≠ none ∨ (sc0.strip c).seq2 ≠ none
  · rw [if_pos h1]
    refine ⟨_, rfl, hsh1, hfr1, fun _ hin => ?_⟩
    exfalso
    rcases h1 with h1 | h1
    · cases hs : (sc0.strip c).seq1 with
      | none => exact h1 hs
      | some a => simp [Strip.inputs, hs] at hin
    · cases hs : (sc0.strip c).seq2 with
      | none => exact h1 hs
      | some a => simp [Strip.inputs, hs] at hin
  rw [if_neg h1]
  by_cases h2 : recursed = false ∧ (sc0.strip c).type.is_effect = true
  · rw [if_pos h2]
    exact ⟨_, rfl, hsh1, hfr1, fun _ _ h => absurd h2 h⟩
  rw [if_neg h2]
  by_cases h3 : (sc0.strip c).type = SEQ_TYPE_META ∧ (sc0.strip c).seqbase = []
  · rw [if_pos h3]
    exact ⟨_, rfl, hsh1, hfr1, fun _ _ _ h => absurd h3 h⟩
  rw [if_neg h3]
  have hchildren : ∃ sc3,
      (if (sc0.strip c).type = SEQ_TYPE_META then
        (sc0.strip c).seqbase.foldlM
          (fun sc seq_child =>
            seq_time_slip_strip_ex f sc seq_child delta subframe_delta true)
          (slip_sound_step sc c subframe_delta)
      else some (slip_sound_step sc c subframe_delta)) = some sc3 ∧
      (SameShape sc0 sc3 ∧
        ∀ i, lvl i ≤ lvl c → sc3.strip i = (slip_sound_step sc c subframe_delta).strip i) := by
    by_cases hm : (sc0.strip c).type = SEQ_TYPE_META
    · rw [if_pos hm]
      apply foldlM_total _
        (fun sc3 => SameShape sc0 sc3 ∧
          ∀ i, lvl i ≤ lvl c → sc3.strip i = (slip_sound_step sc c subframe_delta).strip i)
        (sc0.strip c).seqbase
      · intro b a ha hb
        obtain ⟨sc2, e, hsh2, hfr2⟩ := hchild b a ha hb.1
        exact ⟨sc2, e, hsh2, fun i hi => (hfr2 i hi).trans (hb.2 i hi)⟩
      · exact ⟨hsh1, fun _ _ => rfl⟩
    · rw [if_neg hm]
      exact ⟨_, rfl, hsh1, fun _ _ => rfl⟩
  obtain ⟨sc3, e3, hsh3, hfr3⟩ := hchildren
  rw [e3, Option.some_bind]
  have hsh4 : SameShape sc0 (slip_own_step sc3 c delta recursed) :=
    hsh3.trans (slip_own_step_shape sc3 c delta recursed)
  obtain ⟨sc5, e5⟩ := hcas _ hsh4 c
  have hfr5 := update_effects_frame sc0 (fun i => lvl c ≤ lvl i)
    (fun e he x hx hin => by
      have := hg.2 x hx e hin
      show lvl c ≤ lvl x
      omega)
    f _ _ sc5 hsh4
    (fun e he => by
      rw [hsh4.lookup_effects, mem_lookup_effects] at he
      have := hg.2 e he.1 c he.2
      show lvl c ≤ lvl e
      omega)
    e5
  refine ⟨sc5, e5, hfr5.1, fun i hi => ?_, fun _ hin _ _ hc => ?_⟩
  · rw [hfr5.2 i (by show ¬ lvl c ≤ lvl i; omega),
      slip_own_step_strip_ne sc3 c i delta recursed (fun h => by subst h; omega),
      hfr3 i hi.le, hfr1 i hi]
  · have hin4 : ((slip_own_step sc3 c delta recursed).strip c).inputs = [] := by
      rw [hsh4.inputs]; exact hin
    have hl : ∀ e ∈ seq_sequence_lookup_effects_by_seq (slip_own_step sc3 c delta recursed) c,
        ((slip_own_step sc3 c delta recursed).strip e).inputs ≠ [] :=
      lookup_effects_inputs_ne_nil _ c
    rw [update_effects_no_inputs f _ _ sc5 hl e5 c hin4, slip_own_step_eq,
      Scene.strip_modify_self _ _ _ (by rw [hsh3.2.2.2.1]; exact hc), hfr3 c (le_refl _)]
    exact slip_own_strip_scene_congr sc sc3 _ delta recursed
      (hsh3.1.trans hsh.1.symm) (hsh3.2.1.trans hsh.2.1.symm)

/-- Every call of `seq_time_slip_strip_ex` returns when the fuel is enough, keeps the strip
graph and writes no strip above the level of its strip. -/
theorem slip_ex_terminates (sc0 : Scene) (lvl : StripId → Nat) (hg : Graded sc0 lvl)
    (B N0 : Nat) (hB : ∀ i, i < sc0.strips.length → lvl i ≤ B)
    (hN0 : ∀ fuel sc, SameShape sc0 sc → N0 ≤ fuel →
      ∀ s, ∃ sc2, seq_time_update_effects_strip_range fuel sc
        (seq_sequence_lookup_effects_by_seq sc s) = some sc2)
    (delta : Int) (subframe_delta : ℚ) :
    ∀ k fuel sc c recursed, SameShape sc0 sc → N0 + k + 1 ≤ fuel →
      (c < sc0.strips.length → B - lvl c < k) →
      ∃ sc2, seq_time_slip_strip_ex fuel sc c delta subframe_delta recursed = some sc2 ∧
        SameShape sc0 sc2 ∧ ∀ i, lvl i < lvl c → sc2.strip i = sc.strip i := by
  intro k
  induction k with
  | zero =>
    intro fuel sc c recursed hsh hfuel hc
    obtain ⟨f, rfl⟩ : ∃ f, fuel = f + 1 := ⟨fuel - 1, by omega⟩
    have hge : sc0.strips.length ≤ c := by
      by_contra h
      exact absurd (hc (Nat.lt_of_not_le h)) (Nat.not_lt_zero _)
    obtain ⟨sc2, e, hsh2, hfr, _⟩ := slip_ex_step sc0 lvl hg f
      (fun sc1 h1 => hN0 f sc1 h1 (by omega)) sc c delta subframe_delta recursed hsh
      (fun sc1 child hch _ => by
        rw [Scene.strip_null sc0 c hge] at hch
        simp [Strip.null] at hch)
    exact ⟨sc2, e, hsh2, hfr⟩
  | succ k ih =>
    intro fuel sc c recursed hsh hfuel hc
    obtain ⟨f, rfl⟩ : ∃ f, fuel = f + 1 := ⟨fuel - 1, by omega⟩
    obtain ⟨sc2, e, hsh2, hfr, _⟩ := slip_ex_step sc0 lvl hg f
      (fun sc1 h1 => hN0 f sc1 h1 (by omega)) sc c delta subframe_delta recursed hsh
      (fun sc1 child hch h1 => by
        have hlt : c < sc0.strips.length := by
          by_contra h
          rw [Scene.strip_null sc0 c (Nat.le_of_not_lt h)] at hch
          simp [Strip.null] at hch
        have hl := hg.1 c hlt child hch
        obtain ⟨sc3, e3, hsh3, hfr3⟩ := ih f sc1 child true h1 (by omega)
          (fun hch2 => by
            have h2 := hB child hch2
            have h3 := hc hlt
            omega)
        exact ⟨sc3, e3, hsh3, fun i hi => hfr3 i (by omega)⟩)
    exact ⟨sc2, e, hsh2, hfr⟩

theorem slip_sound_step_strip_self (sc : Scene) (seq : StripId) (subframe_delta : ℚ) :
    ∃ x : ℚ, (slip_sound_step sc seq subframe_delta).strip seq
      = { sc.strip seq with sound_offset := x } := by
  unfold slip_sound_step
  split_ifs
  · rw [Scene.strip_modify]
    split_ifs
    · exact ⟨_, rfl⟩
    · exact ⟨(sc.strip seq).sound_offset, rfl⟩
  · exact ⟨(sc.strip seq).sound_offset, rfl⟩

/-- The sound offset does not enter the handles of a strip without inputs and with retiming
inactive. -/
theorem handles_sound_offset (sc : Scene) (s : Strip) (x : ℚ)
    (hin : s.inputs = []) (hret : SEQ_retiming_is_active s = false) :
    SEQ_time_left_handle_frame_get sc { s with sound_offset := x }
      = SEQ_time_left_handle_frame_get sc s ∧
    SEQ_time_right_handle_frame_get sc { s with sound_offset := x }
      = SEQ_time_right_handle_frame_get sc s := by
  have hin2 : ({ s with sound_offset := x } : Strip).inputs = [] := hin
  have hret2 : SEQ_retiming_is_active ({ s with sound_offset := x } : Strip) = false := hret
  constructor
  · rfl
  · rw [right_handle_of_no_inputs _ _ hin2, right_handle_of_no_inputs _ _ hin]
    simp only [SEQ_time_strip_length_get, hret, hret2, Bool.false_eq_true, if_false]
    rfl

/-- C11 (as amended): for a strip that is not of effect type, has no effect inputs, has
retiming inactive and is not a meta strip without children, and for every `delta`,
`SEQ_time_slip_strip` returns, adds `delta` to `start` and leaves the left and the right
handle where they were. -/
theorem slip_strip_keeps_handles (sc : Scene) (rk lvl : StripId → Nat)
    (hwf : WellFormed sc rk lvl) (seq : StripId) (hseq : seq < sc.strips.length)
    (htype : (sc.strip seq).type.is_effect = false)
    (hin : (sc.strip seq).inputs = [])
    (hret : SEQ_retiming_is_active (sc.strip seq) = false)
    (hmeta : (sc.strip seq).type = SEQ_TYPE_META → (sc.strip seq).seqbase ≠ [])
    (delta : Int) (subframe_delta : ℚ) :
    ∃ N, ∀ fuel, N ≤ fuel →
      ∃ sc2, SEQ_time_slip_strip fuel sc seq delta subframe_delta = some sc2 ∧
        (sc2.strip seq).start = (sc.strip seq).start + delta ∧
        SEQ_time_left_handle_frame_get sc2 (sc2.strip seq)
          = SEQ_time_left_handle_frame_get sc (sc.strip seq) ∧
        SEQ_time_right_handle_frame_get sc2 (sc2.strip seq)
          = SEQ_time_right_handle_frame_get sc (sc.strip seq) := by
  obtain ⟨N0, hN0⟩ := cascade_fuel sc rk lvl hwf.acyclic hwf.graded
  refine ⟨N0 + ((Finset.range sc.strips.length).sup lvl + 1) + 2, fun fuel hfuel => ?_⟩
  obtain ⟨f, rfl⟩ : ∃ f, fuel = f + 1 := ⟨fuel - 1, by omega⟩
  have hcas : ∀ fuel sc1, SameShape sc sc1 → N0 ≤ fuel →
      ∀ s, ∃ sc2, seq_time_update_effects_strip_range fuel sc1
        (seq_sequence_lookup_effects_by_seq sc1 s) = some sc2 :=
    fun fuel sc1 h1 h2 => (hN0 fuel sc1 h1 h2).1
  obtain ⟨sc2, e, hsh2, _, hself⟩ := slip_ex_step sc lvl hwf.graded f
    (fun sc1 h1 => hcas f sc1 h1 (by omega)) sc seq delta subframe_delta false
    (SameShape.refl sc)
    (fun sc1 child hch h1 => by
      have hl := hwf.graded.1 seq hseq child hch
      obtain ⟨sc3, e3, hsh3, hfr3⟩ := slip_ex_terminates sc lvl hwf.graded
        ((Finset.range sc.strips.length).sup lvl) N0
        (fun i hi => rank_le_sup _ lvl i hi) hcas delta subframe_delta
        ((Finset.range sc.strips.length).sup lvl + 1) f sc1 child true h1 (by omega)
        (fun _ => by omega)
      exact ⟨sc3, e3, hsh3, fun i hi => hfr3 i (by omega)⟩)
  obtain ⟨x, hx⟩ := slip_sound_step_strip_self sc seq subframe_delta
  have hso := handles_sound_offset sc (sc.strip seq) x hin hret
  refine ⟨sc2, e, ?_⟩
  rw [right_handle_scene_congr sc sc2 _ hsh2.1 hsh2.2.1, left_handle_scene sc2 sc]
  by_cases h0 : delta = 0
  · have e0 : seq_time_slip_strip_ex (f + 1) sc seq delta subframe_delta false
        = some (slip_sound_step sc seq subframe_delta) := by
      rw [slip_ex_succ, if_pos h0]
    have e2 : sc2 = slip_sound_step sc seq subframe_delta := by
      rw [e0] at e
      exact (Option.some.inj e).symm
    rw [e2, hx, h0]
    exact ⟨by simp, hso.1, hso.2⟩
  · have hs := hself h0 hin (fun h => by simp [htype] at h)
      (fun h => hmeta h.1 h.2) hseq
    rw [hs, hx]
    have hk := slip_own_strip_handles sc { sc.strip seq with sound_offset := x } delta hin hret
    exact ⟨hk.1, hk.2.1.trans hso.1, hk.2.2.trans hso.2⟩

/-- Witness for C11: the top-level meta strip of `scene_nested_meta`, slipped by 3 frames. -/
theorem slip_strip_keeps_handles_witness :
    WellFormed scene_nested_meta (fun i => i) lvl_nested_meta ∧
    0 < scene_nested_meta.strips.length ∧
    (scene_nested_meta.strip 0).type.is_effect = false ∧
    (scene_nested_meta.strip 0).inputs = [] ∧
    SEQ_retiming_is_active (scene_nested_meta.strip 0) = false ∧
    ((scene_nested_meta.strip 0).type = SEQ_TYPE_META →
      (scene_nested_meta.strip 0).seqbase ≠ []) ∧
    ∃ N, ∀ fuel, N ≤ fuel →
      ∃ sc2, SEQ_time_slip_strip fuel scene_nested_meta 0 3 0 = some sc2 ∧
        (sc2.strip 0).start = (scene_nested_meta.strip 0).start + 3 ∧
        SEQ_time_left_handle_frame_get sc2 (sc2.strip 0)
          = SEQ_time_left_handle_frame_get scene_nested_meta (scene_nested_meta.strip 0) ∧
        SEQ_time_right_handle_frame_get sc2 (sc2.strip 0)
          = SEQ_time_right_handle_frame_get scene_nested_meta (scene_nested_meta.strip 0) :=
  ⟨scene_nested_meta_wf, by decide, by decide, by decide, by decide, fun _ => by decide,
   slip_strip_keeps_handles scene_nested_meta (fun i => i) lvl_nested_meta
     scene_nested_meta_wf 0 (by decide) (by decide) (by decide) (by decide)
     (fun _ => by decide) 3 0⟩

/-- Counterexample to C11 as stated: the meta strip of `scene_empty_meta` is a top-level
strip, not of effect type, without inputs and with retiming inactive; a slip by 5 frames
returns the scene as it was, with `start` still 0. -/
theorem slip_strip_counterexample :
    (scene_empty_meta.strip 0).type.is_effect = false ∧
    (scene_empty_meta.strip 0).inputs = [] ∧
    SEQ_retiming_is_active (scene_empty_meta.strip 0) = false ∧
    seq_sequence_lookup_meta_by_seq scene_empty_meta 0 = none ∧
    SEQ_time_slip_strip 3 scene_empty_meta 0 5 0 = some scene_empty_meta ∧
    (scene_empty_meta.strip 0).start ≠ (scene_empty_meta.strip 0).start + 5 := by
  refine ⟨by decide, by decide, by decide, by decide, ?_, by decide⟩
  rw [SEQ_time_slip_strip, slip_ex_succ]
  simp [slip_sound_step, scene_empty_meta, Scene.strip, Strip.null]

/-! ## Identity retiming curve -/

/-- C28: for a strip with the two retiming keys of a linear identity curve (position 0 with
content position 0, position `T` with content position `T`, that is the factor
`T / frame_index_max`), no reversal, playback-rate factor 1 and strobe at most 1, the frame
index of a timeline frame `t` between `start` and `start + T` is `t - start`; with
`start = 0` and `T = 10` the frame index at frame 5 is 5. -/
theorem give_frame_index_identity_curve (sc : Scene) (seq : Strip) (T : Int)
    (timeline_frame : ℚ)
    (htype : seq.type.is_effect = false)
    (hsingle : ¬ (seq.type = SEQ_TYPE_IMAGE ∧ SEQ_transform_single_image_check seq = true))
    (hrev : seq.flag_reverse_frames = false)
    (hrate : SEQ_time_media_playback_rate_factor_get sc seq = 1)
    (hstrobe : seq.strobe ≤ 1)
    (hT : 0 < T) (hlen : T + 1 ≤ seq.len)
    (hkeys : seq.retiming_keys
      = [{ strip_frame_index := 0, retiming_factor := 0 },
         { strip_frame_index := T, retiming_factor := (T : ℚ) / ((seq.len : ℚ) - 1) }])
    (ht0 : (seq.start : ℚ) ≤ timeline_frame) (ht1 : timeline_frame ≤ (seq.start : ℚ) + T) :
    SEQ_give_frame_index sc seq timeline_frame = timeline_frame - seq.start := by
  have hact : SEQ_retiming_is_active seq = true := by
    simp [SEQ_retiming_is_active, hkeys]
  have hTq : (0 : ℚ) < T := by exact_mod_cast hT
  have hlenq : (T : ℚ) + 1 ≤ seq.len := by exact_mod_cast hlen
  have hM : (0 : ℚ) < (seq.len : ℚ) - 1 := by linarith
  have hlength : SEQ_time_strip_length_get sc seq = T + 1 := by
    simp [SEQ_time_strip_length_get, hact, SEQ_retiming_key_timeline_frame_get,
      SEQ_retiming_last_key_get, hkeys, SEQ_time_start_frame_get]
    omega
  have hend : ¬ frame_index_end sc seq < (seq.start : ℚ) := by
    have h := frame_index_end_lt_iff sc seq
    simp only [SEQ_time_start_frame_get] at h
    rw [h, htype]
    simp only [Bool.false_eq_true, if_false, hlength]
    omega
  have hmax : frame_index_max sc seq = (seq.len : ℚ) - 1 := by
    simp [frame_index_max, htype]
  have hx0 : (0 : ℚ) ≤ timeline_frame - seq.start := by linarith
  have hne : (0 : Int) ≠ T := by omega
  have heval : seq_retiming_evaluate seq (timeline_frame - seq.start)
      = (timeline_frame - seq.start) / T * ((T : ℚ) / ((seq.len : ℚ) - 1)) := by
    simp [seq_retiming_evaluate, retiming_segment, hkeys, hne]
  unfold SEQ_give_frame_index
  simp only [if_neg hend, if_neg hsingle, hrev, hact, hrate, if_neg (not_lt.mpr hstrobe),
    Bool.false_eq_true, if_false, if_true, mul_one, hmax, max_ff_eq_max,
    SEQ_time_start_frame_get, max_eq_left hx0, heval]
  have hval : (timeline_frame - seq.start) / T * ((T : ℚ) / ((seq.len : ℚ) - 1))
      * ((seq.len : ℚ) - 1) = timeline_frame - seq.start := by
    field_simp
  rw [hval]
  unfold clamp_f
  rw [if_neg (by linarith), if_neg (by linarith)]

/-- Witness for C28: the strip with the keys at positions 0 and 10, at timeline frame 5. -/
theorem give_frame_index_identity_curve_witness :
    strip_retimed_identity.start = 0 ∧
    strip_retimed_identity.retiming_keys
      = [{ strip_frame_index := 0, retiming_factor := 0 },
         { strip_frame_index := 10, retiming_factor := 1 }] ∧
    SEQ_give_frame_index scene_one_movie strip_retimed_identity 5 = 5 := by
  have hkeys : strip_retimed_identity.retiming_keys
      = [{ strip_frame_index := 0, retiming_factor := 0 },
         { strip_frame_index := (10 : Int),
           retiming_factor := ((10 : Int) : ℚ) / ((strip_retimed_identity.len : ℚ) - 1) }] := by
    simp [strip_retimed_identity, Strip.null]
    norm_num
  have h := give_frame_index_identity_curve scene_one_movie strip_retimed_identity 10 5
    rfl (by decide) rfl rfl (by simp [strip_retimed_identity, Strip.null]) (by decide)
    (by decide) hkeys (by simp [strip_retimed_identity, Strip.null])
    (by simp [strip_retimed_identity, Strip.null]; norm_num)
  refine ⟨rfl, rfl, ?_⟩
  rw [h]
  simp [strip_retimed_identity, Strip.null]

/-! ## Effect with one input -/

/-- The bounds of an effect strip with one input after `seq_time_effect_range_set`: the
handles of the input, in ascending order. -/
theorem effect_range_set_one_input_bounds (sc : Scene) (seq a : StripId)
    (hone : ((sc.strip seq).seq1 = some a ∧ (sc.strip seq).seq2 = none) ∨
      ((sc.strip seq).seq1 = none ∧ (sc.strip seq).seq2 = some a))
    (hne : a ≠ seq) :
    SEQ_time_left_handle_frame_get (seq_time_effect_range_set sc seq)
        ((seq_time_effect_range_set sc seq).strip seq)
      = min (SEQ_time_right_handle_frame_get sc (sc.strip a))
          (SEQ_time_left_handle_frame_get sc (sc.strip a)) ∧
    SEQ_time_right_handle_frame_get (seq_time_effect_range_set sc seq)
        ((seq_time_effect_range_set sc seq).strip seq)
      = max (SEQ_time_right_handle_frame_get sc (sc.strip a))
          (SEQ_time_left_handle_frame_get sc (sc.strip a)) ∧
    (seq_time_effect_range_set sc seq).strip a = sc.strip a := by
  have hinputs : (sc.strip seq).inputs = [a] := by
    rcases hone with ⟨h1, h2⟩ | ⟨h1, h2⟩ <;> simp [Strip.inputs, h1, h2]
  have hself : seq ∉ (sc.strip seq).inputs := by
    rw [hinputs]
    simp
    exact fun h => hne h.symm
  have hseq : seq < sc.strips.length := by
    by_contra h
    rw [Scene.strip_null sc seq (Nat.le_of_not_lt h)] at hinputs
    simp [Strip.null, Strip.inputs] at hinputs
  have hb : effect_range_bounds sc (sc.strip seq)
      = some (SEQ_time_right_handle_frame_get sc (sc.strip a),
              SEQ_time_left_handle_frame_get sc (sc.strip a)) := by
    rcases hone with ⟨h1, h2⟩ | ⟨h1, h2⟩ <;> simp [effect_range_bounds, h1, h2]
  have hs : (seq_time_effect_range_set sc seq).strip seq
      = effect_range_finish { sc.strip seq with
          startdisp := SEQ_time_right_handle_frame_get sc (sc.strip a),
          enddisp := SEQ_time_left_handle_frame_get sc (sc.strip a) } := by
    rw [effect_range_set_eq sc seq hself, Scene.strip_modify_self _ _ _ hseq]
    simp only [effect_range_strip, hb]
  have hin : ((seq_time_effect_range_set sc seq).strip seq).inputs ≠ [] := by
    rw [hs, effect_range_finish_inputs]
    show (sc.strip seq).inputs ≠ []
    rw [hinputs]
    simp
  refine ⟨?_, ?_, ?_⟩
  · rw [left_handle_of_inputs _ _ hin, hs, effect_range_finish_startdisp]
  · rw [right_handle_of_inputs _ _ hin, hs, effect_range_finish_enddisp]
  · rw [effect_range_set_eq sc seq hself, Scene.strip_modify_ne _ _ _ _ hne]

/-- C29 (as amended): for an effect strip with exactly one input present (`seq1` only, or
`seq2` only) whose input has its left handle not after its right handle, after
`seq_time_effect_range_set` the handles of the effect are the handles of the input. -/
theorem effect_range_set_one_input (sc : Scene) (seq a : StripId)
    (hone : ((sc.strip seq).seq1 = some a ∧ (sc.strip seq).seq2 = none) ∨
      ((sc.strip seq).seq1 = none ∧ (sc.strip seq).seq2 = some a))
    (hord : SEQ_time_left_handle_frame_get sc (sc.strip a)
      ≤ SEQ_time_right_handle_frame_get sc (sc.strip a)) :
    SEQ_time_left_handle_frame_get (seq_time_effect_range_set sc seq)
        ((seq_time_effect_range_set sc seq).strip seq)
      = SEQ_time_left_handle_frame_get (seq_time_effect_range_set sc seq)
          ((seq_time_effect_range_set sc seq).strip a) ∧
    SEQ_time_right_handle_frame_get (seq_time_effect_range_set sc seq)
        ((seq_time_effect_range_set sc seq).strip seq)
      = SEQ_time_right_handle_frame_get (seq_time_effect_range_set sc seq)
          ((seq_time_effect_range_set sc seq).strip a) := by
  by_cases hne : a = seq
  · subst hne
    exact ⟨rfl, rfl⟩
  · obtain ⟨hl, hr, ha⟩ := effect_range_set_one_input_bounds sc seq a hone hne
    have hsh := effect_range_set_shape sc seq
    rw [hl, hr, ha, right_handle_scene_congr sc _ _ hsh.1 hsh.2.1,
      left_handle_scene (seq_time_effect_range_set sc seq) sc]
    exact ⟨min_eq_right hord, max_eq_left hord⟩

/-- Witness for C29: the effect of the movie strip on frames [0,10). -/
theorem effect_range_set_one_input_witness :
    (((scene_one_input.strip 1).seq1 = some 0 ∧ (scene_one_input.strip 1).seq2 = none) ∨
      ((scene_one_input.strip 1).seq1 = none ∧ (scene_one_input.strip 1).seq2 = some 0)) ∧
    SEQ_time_left_handle_frame_get scene_one_input (scene_one_input.strip 0)
      ≤ SEQ_time_right_handle_frame_get scene_one_input (scene_one_input.strip 0) ∧
    (SEQ_time_left_handle_frame_get (seq_time_effect_range_set scene_one_input 1)
        ((seq_time_effect_range_set scene_one_input 1).strip 1)
      = SEQ_time_left_handle_frame_get (seq_time_effect_range_set scene_one_input 1)
          ((seq_time_effect_range_set scene_one_input 1).strip 0) ∧
    SEQ_time_right_handle_frame_get (seq_time_effect_range_set scene_one_input 1)
        ((seq_time_effect_range_set scene_one_input 1).strip 1)
      = SEQ_time_right_handle_frame_get (seq_time_effect_range_set scene_one_input 1)
          ((seq_time_effect_range_set scene_one_input 1).strip 0)) :=
  have hone : ((scene_one_input.strip 1).seq1 = some 0 ∧ (scene_one_input.strip 1).seq2 = none) ∨
      ((scene_one_input.strip 1).seq1 = none ∧ (scene_one_input.strip 1).seq2 = some 0) :=
    Or.inl ⟨rfl, rfl⟩
  have hord : SEQ_time_left_handle_frame_get scene_one_input (scene_one_input.strip 0)
      ≤ SEQ_time_right_handle_frame_get scene_one_input (scene_one_input.strip 0) := by
    simp [scene_one_input, Scene.strip, Strip.null, SEQ_time_left_handle_frame_get,
      SEQ_time_right_handle_frame_get, SEQ_time_content_end_frame_get,
      SEQ_time_strip_length_get, SEQ_retiming_is_active,
      SEQ_time_media_playback_rate_factor_get, float_to_int, SEQ_time_start_frame_get]
  ⟨hone, hord, effect_range_set_one_input scene_one_input 1 0 hone hord⟩

/-- Counterexample to C29 as stated: the only input of the effect strip has its left
handle at frame 8 and its right handle at frame 5; after `seq_time_effect_range_set` the
effect has its left handle at frame 5 and its right handle at frame 8. -/
theorem effect_range_set_one_input_counterexample :
    (scene_inverted_input.strip 1).seq1 = some 0 ∧
    (scene_inverted_input.strip 1).seq2 = none ∧
    SEQ_time_left_handle_frame_get (seq_time_effect_range_set scene_inverted_input 1)
        ((seq_time_effect_range_set scene_inverted_input 1).strip 0) = 8 ∧
    SEQ_time_right_handle_frame_get (seq_time_effect_range_set scene_inverted_input 1)
        ((seq_time_effect_range_set scene_inverted_input 1).strip 0) = 5 ∧
    SEQ_time_left_handle_frame_get (seq_time_effect_range_set scene_inverted_input 1)
        ((seq_time_effect_range_set scene_inverted_input 1).strip 1) = 5 ∧
    SEQ_time_right_handle_frame_get (seq_time_effect_range_set scene_inverted_input 1)
        ((seq_time_effect_range_set scene_inverted_input 1).strip 1) = 8 := by
  refine ⟨rfl, rfl, ?_, ?_, ?_, ?_⟩ <;>
  simp [seq_time_effect_range_set, effect_range_finish, scene_inverted_input, Scene.strip,
    Scene.modify, Strip.null, SEQ_time_left_handle_frame_get,
    SEQ_time_right_handle_frame_get, SEQ_time_content_end_frame_get,
    SEQ_time_strip_length_get, SEQ_retiming_is_active,
    SEQ_time_media_playback_rate_factor_get, float_to_int, SEQ_time_start_frame_get]

/-! ## Left handle of a single-frame-content strip -/

/-- The strip that the single-image branch of `SEQ_time_left_handle_frame_set` leaves has
its right handle where it was, and its left handle at the new start plus `startofs`. -/
theorem single_image_strip_handles (sc : Scene) (s : Strip) (tf : Int)
    (hin : s.inputs = []) :
    SEQ_time_right_handle_frame_get sc
        { s with start := tf, endofs := s.endofs + (tf - s.start), startdisp := tf }
      = SEQ_time_right_handle_frame_get sc s ∧
    SEQ_time_left_handle_frame_get sc
        { s with start := tf, endofs := s.endofs + (tf - s.start), startdisp := tf }
      = tf + s.startofs := by
  have hin2 : Strip.inputs
      { s with start := tf, endofs := s.endofs + (tf - s.start), startdisp := tf } = [] := hin
  have hlen : SEQ_time_strip_length_get sc
      { s with start := tf, endofs := s.endofs + (tf - s.start), startdisp := tf }
      = SEQ_time_strip_length_get sc s := by
    simp only [SEQ_time_strip_length_get, SEQ_retiming_is_active,
      SEQ_retiming_key_timeline_frame_get, SEQ_time_start_frame_get,
      SEQ_time_get_rounded_sound_offset, SEQ_retiming_last_key_get,
      SEQ_time_media_playback_rate_factor_get]
    split_ifs <;> first | rfl | omega
  constructor
  · rw [right_handle_of_no_inputs _ _ hin2, right_handle_of_no_inputs _ _ hin, hlen]
    simp only
    omega
  · rw [left_handle_of_no_inputs _ _ hin2]

/-- The part of C30 that the code meets: for a single-frame-content strip without effect
inputs, `SEQ_time_left_handle_frame_set` returns (with enough fuel), moves `start` to the
clamped frame, leaves `startofs` as it was, adds the displacement of `start` to `endofs`,
and leaves the right handle where it was; the left handle reads back as the clamped frame
plus `startofs`. -/
theorem left_handle_frame_set_single_image_fields (sc : Scene) (rk lvl : StripId → Nat)
    (hwf : WellFormed sc rk lvl) (seq : StripId) (hseq : seq < sc.strips.length)
    (hin : (sc.strip seq).inputs = [])
    (hsingle : SEQ_transform_single_image_check (sc.strip seq) = true)
    (timeline_frame : Int) :
    ∃ N, ∀ fuel, N ≤ fuel →
      ∃ r, SEQ_time_left_handle_frame_set fuel sc seq timeline_frame = some r ∧
        (r.1.strip seq).start
          = min timeline_frame (SEQ_time_right_handle_frame_get sc (sc.strip seq) - 1) ∧
        (r.1.strip seq).startofs = (sc.strip seq).startofs ∧
        (r.1.strip seq).endofs
          = (sc.strip seq).endofs
            + (min timeline_frame (SEQ_time_right_handle_frame_get sc (sc.strip seq) - 1)
              - (sc.strip seq).start) ∧
        SEQ_time_right_handle_frame_get r.1 (r.1.strip seq)
          = SEQ_time_right_handle_frame_get sc (sc.strip seq) ∧
        SEQ_time_left_handle_frame_get r.1 (r.1.strip seq)
          = min timeline_frame (SEQ_time_right_handle_frame_get sc (sc.strip seq) - 1)
            + (sc.strip seq).startofs := by
  obtain ⟨N, hN⟩ := update_effects_and_meta_spec sc rk lvl hwf
  refine ⟨N + lvl seq, fun fuel hfuel => ?_⟩
  unfold SEQ_time_left_handle_frame_set SEQ_time_start_frame_set
  simp only [hsingle, if_true]
  generalize htf : (if timeline_frame ≥ SEQ_time_right_handle_frame_get sc (sc.strip seq)
    then SEQ_time_right_handle_frame_get sc (sc.strip seq) - 1 else timeline_frame) = tf
  have htf2 : tf = min timeline_frame (SEQ_time_right_handle_frame_get sc (sc.strip seq) - 1) := by
    rw [← htf]
    split
    · rw [min_eq_right (by omega)]
    · rw [min_eq_left (by omega)]
  rw [← htf2]
  have hsh1 : SameShape sc (sc.modify seq fun s => { s with start := tf }) :=
    SameShape.modify sc seq _ (fun _ => rfl)
  obtain ⟨r1, hr1, hshr1, hself1⟩ := hN fuel _ seq hsh1 hfuel
  rw [hr1]
  simp only [Option.map_some', Option.some_bind, Scene.modify_modify]
  have hsh2 : SameShape sc (r1.1.modify seq fun s =>
      { s with endofs := s.endofs + (tf - SEQ_time_start_frame_get (sc.strip seq)),
               startdisp := tf }) :=
    hshr1.trans (SameShape.modify r1.1 seq _ (fun _ => rfl))
  obtain ⟨r2, hr2, hshr2, hself2⟩ := hN fuel _ seq hsh2 hfuel
  refine ⟨(r2.1, r1.2 ++ r2.2), by simp [hr2], ?_⟩
  simp only
  rw [hself2, Scene.strip_modify_self _ _ _ (by rw [hshr1.2.2.2.1]; exact hseq), hself1,
    Scene.strip_modify_self _ _ _ hseq]
  have key := single_image_strip_handles sc (sc.strip seq) tf hin
  refine ⟨rfl, rfl, rfl, ?_, key.2⟩
  rw [right_handle_scene_congr sc r2.1 _ hshr2.1 hshr2.2.1]
  exact key.1

/-- C30, the code at the failing input: the single-image strip held over frames [0,11)
with `start = -2`, `startofs = 2`, `endofs = -12`; `SEQ_time_left_handle_frame_set` with
target frame 5 moves `start` to 5, leaves `startofs = 2`, makes `endofs = -12 + 7 = -5`
and leaves the right handle at frame 11, and the left handle afterwards is frame 7, not the
target frame 5. -/
theorem left_handle_frame_set_single_image_offset :
    SEQ_transform_single_image_check (scene_single_image_slipped.strip 0) = true ∧
    SEQ_time_right_handle_frame_get scene_single_image_slipped
      (scene_single_image_slipped.strip 0) = 11 ∧
    (SEQ_time_left_handle_frame_set 3 scene_single_image_slipped 0 5).map
      (fun r => ((r.1.strip 0).start, (r.1.strip 0).startofs, (r.1.strip 0).endofs,
        SEQ_time_right_handle_frame_get r.1 (r.1.strip 0),
        SEQ_time_left_handle_frame_get r.1 (r.1.strip 0)))
      = some (5, 2, -5, 11, 7) := by
  refine ⟨rfl, ?_, ?_⟩ <;>
  simp [SEQ_time_left_handle_frame_set,
    SEQ_time_start_frame_set, SEQ_transform_single_image_check, update_effects_and_meta,
    SEQ_time_update_meta_strip_range, scene_single_image_slipped, Scene.strip, Scene.modify,
    Strip.null, seq_sequence_lookup_effects_by_seq, StripType.is_effect,
    seq_sequence_lookup_meta_by_seq, seq_time_update_effects_strip_range,
    SEQ_time_left_handle_frame_get, SEQ_time_right_handle_frame_get,
    SEQ_time_content_end_frame_get, SEQ_time_strip_length_get, SEQ_retiming_is_active,
    SEQ_time_media_playback_rate_factor_get, float_to_int, SEQ_time_start_frame_get,
    Strip.inputs, List.range, List.range.loop]

/-! ## Proxy build pipeline -/

theorem proxy_rebuild_spec_eq (blendfile_path : String) (save_ok : String → Bool)
    (scene : Scene) (context : SeqIndexBuildContext) (n : Nat) (w : ProxyWorld) :
    proxy_rebuild_spec blendfile_path save_ok scene context n w
      = (List.range n).foldl
          (fun w (k : Nat) => proxy_rebuild_spec_frame blendfile_path save_ok scene context
            (SEQ_time_left_handle_frame_get scene context.seq + (k : Int)) w) w := rfl

/-- One iteration of the frame loop is one frame of the specification. -/
theorem proxy_rebuild_frames_succ (blendfile_path : String) (save_ok : String → Bool)
    (stop_requested : Int → Bool) (scene : Scene) (context : SeqIndexBuildContext)
    (n : Nat) (timeline_frame : Int) (w : ProxyWorld) :
    proxy_rebuild_frames blendfile_path save_ok stop_requested scene context (n + 1)
        timeline_frame w
      = if timeline_frame < SEQ_time_right_handle_frame_get scene context.seq then
          if stop_requested timeline_frame then
            proxy_rebuild_spec_frame blendfile_path save_ok scene context timeline_frame w
          else
            proxy_rebuild_frames blendfile_path save_ok stop_requested scene context n
              (timeline_frame + 1)
              (proxy_rebuild_spec_frame blendfile_path save_ok scene context timeline_frame w)
        else w := by
  by_cases hr : timeline_frame < SEQ_time_right_handle_frame_get scene context.seq
  · by_cases h1 : context.size_flags &&& IMB_PROXY_25 = 0 <;>
    by_cases h2 : context.size_flags &&& IMB_PROXY_50 = 0 <;>
    by_cases h3 : context.size_flags &&& IMB_PROXY_75 = 0 <;>
    by_cases h4 : context.size_flags &&& IMB_PROXY_100 = 0 <;>
    simp only [proxy_rebuild_frames, proxy_rebuild_spec_frame, enabled_tiers, hr, h1, h2, h3,
      h4, ne_eq, not_true_eq_false, not_false_eq_true, if_true, if_false, List.append_nil,
      List.nil_append, List.cons_append, List.foldl_cons, List.foldl_nil]
  · simp only [proxy_rebuild_frames, if_neg hr]

theorem foldl_range_succ_shift {β : Type} (f : β → Nat → β) (m : Nat) (b : β) :
    (List.range (m + 1)).foldl f b = (List.range m).foldl (fun b j => f b (j + 1)) (f b 0) := by
  rw [List.range_succ_eq_map, List.foldl_cons, List.foldl_map]

/-- The frame loop runs the frames of the specification one after the other, as long as no
stop is requested: it comes to an end after `m` frames when the first `m` frames lie inside
the range, no stop is requested after the first `m - 1` of them, and either a stop is
requested after frame `m` or the range ends there. -/
theorem proxy_rebuild_frames_prefix (blendfile_path : String) (save_ok : String → Bool)
    (stop_requested : Int → Bool) (scene : Scene) (context : SeqIndexBuildContext) :
    ∀ (m fuel : Nat) (timeline_frame : Int) (w : ProxyWorld), m ≤ fuel →
      (∀ j : Nat, j < m →
        timeline_frame + j < SEQ_time_right_handle_frame_get scene context.seq) →
      (∀ j : Nat, j + 1 < m → stop_requested (timeline_frame + j) = false) →
      (stop_requested (timeline_frame + m - 1) = true ∧ 0 < m
        ∨ SEQ_time_right_handle_frame_get scene context.seq ≤ timeline_frame + m) →
      proxy_rebuild_frames blendfile_path save_ok stop_requested scene context fuel
          timeline_frame w
        = (List.range m).foldl
            (fun w (j : Nat) => proxy_rebuild_spec_frame blendfile_path save_ok scene context
              (timeline_frame + (j : Int)) w) w := by
  intro m
  induction m with
  | zero =>
    intro fuel tf w _ _ _ hend
    have hr : ¬ tf < SEQ_time_right_handle_frame_get scene context.seq := by
      rcases hend with ⟨_, h⟩ | h
      · omega
      · simp only [Nat.cast_zero, add_zero] at h
        omega
    cases fuel with
    | zero => rfl
    | succ f =>
      rw [proxy_rebuild_frames_succ, if_neg hr]
      rfl
  | succ m ih =>
    intro fuel tf w hfuel hin hstop hend
    obtain ⟨f, rfl⟩ : ∃ f, fuel = f + 1 := ⟨fuel - 1, by omega⟩
    have hr : tf < SEQ_time_right_handle_frame_get scene context.seq := by
      have := hin 0 (by omega)
      simpa using this
    rw [proxy_rebuild_frames_succ, if_pos hr, foldl_range_succ_shift]
    simp only [Nat.cast_zero, add_zero]
    by_cases hm : m = 0
    · subst hm
      simp only [List.range_zero, List.foldl_nil]
      by_cases hs : stop_requested tf = true
      · rw [if_pos hs]
      · rw [if_neg hs]
        have hr2 : ¬ tf + 1 < SEQ_time_right_handle_frame_get scene context.seq := by
          rcases hend with ⟨h, _⟩ | h
          · simp only [Nat.cast_zero, zero_add, Nat.cast_one, add_sub_cancel_right] at h
            exact absurd h hs
          · simp only [Nat.cast_zero, zero_add, Nat.cast_one] at h
            omega
        cases f with
        | zero => rfl
        | succ f2 => rw [proxy_rebuild_frames_succ, if_neg hr2]
    · have hs : stop_requested tf = false := by
        have := hstop 0 (by omega)
        simpa using this
      rw [hs]
      simp only [Bool.false_eq_true, if_false]
      rw [ih f (tf + 1) _ (by omega)
        (fun j hj => by
          have := hin (j + 1) (by omega)
          push_cast at this
          omega)
        (fun j hj => by
          have := hstop (j + 1) (by omega)
          push_cast at this
          rw [show tf + 1 + (j : Int) = tf + ((j : Int) + 1) by ring]
          exact this)
        (by
          rcases hend with ⟨h, _⟩ | h
          · left
            push_cast at h
            rw [show tf + 1 + (m : Int) - 1 = tf + ((m : Int) + 1) - 1 by ring]
            exact ⟨h, by omega⟩
          · right
            push_cast at h
            omega)]
      congr 1
      funext w2 j
      rw [show tf + 1 + (j : Int) = tf + ((j + 1 : Nat) : Int) by push_cast; ring]

/-- The frame loop of a context whose strip is not a movie, has proxies enabled and no
custom proxy file. -/
theorem proxy_rebuild_runs_frames (blendfile_path : String) (save_ok : String → Bool)
    (stop_requested : Int → Bool) (scene : Scene) (context : SeqIndexBuildContext)
    (w : ProxyWorld)
    (hmovie : context.seq.type ≠ SEQ_TYPE_MOVIE)
    (huse : context.seq.flag_use_proxy = true)
    (hcustom : ∀ proxy, context.seq.data.proxy = some proxy → proxy.storage_custom_file = false) :
    SEQ_proxy_rebuild blendfile_path save_ok stop_requested scene context w
      = proxy_rebuild_frames blendfile_path save_ok stop_requested scene context
          (SEQ_time_right_handle_frame_get scene context.seq
            - SEQ_time_left_handle_frame_get scene context.seq).toNat
          (SEQ_time_left_handle_frame_get scene context.seq) w := by
  unfold SEQ_proxy_rebuild
  rw [if_neg hmovie, if_neg (by simp [huse])]
  cases hp : context.seq.data.proxy with
  | none => simp
  | some proxy => simp [hcustom proxy hp]

/-- A context whose strip is not a movie and has proxies disabled or a custom proxy file
builds nothing. -/
theorem proxy_rebuild_returns_early (blendfile_path : String) (save_ok : String → Bool)
    (stop_requested : Int → Bool) (scene : Scene) (context : SeqIndexBuildContext)
    (w : ProxyWorld)
    (hmovie : context.seq.type ≠ SEQ_TYPE_MOVIE)
    (h : context.seq.flag_use_proxy = false ∨
      ∃ proxy, context.seq.data.proxy = some proxy ∧ proxy.storage_custom_file = true) :
    SEQ_proxy_rebuild blendfile_path save_ok stop_requested scene context w = w := by
  unfold SEQ_proxy_rebuild
  rw [if_neg hmovie]
  by_cases huse : context.seq.flag_use_proxy = false
  · rw [if_pos huse]
  · rw [if_neg huse]
    rcases h with h | ⟨proxy, hp, hc⟩
    · exact absurd h huse
    · simp [hp, hc]

/-- C24 (as amended): for a build context whose strip is not a movie, has proxies enabled
and no custom proxy file, and with no stop requested, `SEQ_proxy_rebuild` is the build of
the specification over the whole range: every timeline frame from the left handle up to the
right handle (excluded) once, in ascending order, and for each frame the enabled size tiers
in the order 25, 50, 75, 100. -/
theorem proxy_rebuild_visits_range (blendfile_path : String) (save_ok : String → Bool)
    (stop_requested : Int → Bool) (scene : Scene) (context : SeqIndexBuildContext)
    (w : ProxyWorld)
    (hmovie : context.seq.type ≠ SEQ_TYPE_MOVIE)
    (huse : context.seq.flag_use_proxy = true)
    (hcustom : ∀ proxy, context.seq.data.proxy = some proxy → proxy.storage_custom_file = false)
    (hstop : ∀ t, stop_requested t = false) :
    SEQ_proxy_rebuild blendfile_path save_ok stop_requested scene context w
      = proxy_rebuild_spec blendfile_path save_ok scene context
          (SEQ_time_right_handle_frame_get scene context.seq
            - SEQ_time_left_handle_frame_get scene context.seq).toNat w := by
  rw [proxy_rebuild_runs_frames _ _ _ _ _ _ hmovie huse hcustom, proxy_rebuild_spec_eq]
  exact proxy_rebuild_frames_prefix blendfile_path save_ok stop_requested scene context
    (SEQ_time_right_handle_frame_get scene context.seq
      - SEQ_time_left_handle_frame_get scene context.seq).toNat _
    (SEQ_time_left_handle_frame_get scene context.seq) w (le_refl _)
    (fun j hj => by omega) (fun j _ => hstop _) (Or.inr (by omega))

/-- C23: for a build context whose strip is not a movie, when a stop is requested after
frame `N` of the range and after no earlier frame, `SEQ_proxy_rebuild` builds the frames
from the left handle up to `N` (included) and no frame after `N`; a context with proxies
disabled or with a custom proxy file builds no frame at all. -/
theorem proxy_rebuild_stops_after (blendfile_path : String) (save_ok : String → Bool)
    (stop_requested : Int → Bool) (scene : Scene) (context : SeqIndexBuildContext)
    (w : ProxyWorld) (N : Int)
    (hmovie : context.seq.type ≠ SEQ_TYPE_MOVIE)
    (hN0 : SEQ_time_left_handle_frame_get scene context.seq ≤ N)
    (hN1 : N < SEQ_time_right_handle_frame_get scene context.seq)
    (hstop : stop_requested N = true)
    (hbefore : ∀ t, SEQ_time_left_handle_frame_get scene context.seq ≤ t → t < N →
      stop_requested t = false) :
    SEQ_proxy_rebuild blendfile_path save_ok stop_requested scene context w
      = if context.seq.flag_use_proxy = false ∨
          (∃ proxy, context.seq.data.proxy = some proxy ∧ proxy.storage_custom_file = true)
        then w
        else proxy_rebuild_spec blendfile_path save_ok scene context
          (N - SEQ_time_left_handle_frame_get scene context.seq + 1).toNat w := by
  by_cases h : context.seq.flag_use_proxy = false ∨
      (∃ proxy, context.seq.data.proxy = some proxy ∧ proxy.storage_custom_file = true)
  · rw [if_pos h]
    exact proxy_rebuild_returns_early _ _ _ _ _ _ hmovie h
  · rw [if_neg h]
    have huse : context.seq.flag_use_proxy = true := by
      cases hu : context.seq.flag_use_proxy with
      | true => rfl
      | false => exact absurd (Or.inl hu) h
    have hcustom : ∀ proxy, context.seq.data.proxy = some proxy →
        proxy.storage_custom_file = false := by
      intro proxy hp
      cases hc : proxy.storage_custom_file with
      | false => rfl
      | true => exact absurd (Or.inr ⟨proxy, hp, hc⟩) h
    rw [proxy_rebuild_runs_frames _ _ _ _ _ _ hmovie huse hcustom, proxy_rebuild_spec_eq]
    exact proxy_rebuild_frames_prefix blendfile_path save_ok stop_requested scene context
      (N - SEQ_time_left_handle_frame_get scene context.seq + 1).toNat _
      (SEQ_time_left_handle_frame_get scene context.seq) w (by omega)
      (fun j hj => by omega)
      (fun j hj => hbefore _ (by omega) (by omega))
      (Or.inl ⟨by
        rw [show SEQ_time_left_handle_frame_get scene context.seq
            + ((N - SEQ_time_left_handle_frame_get scene context.seq + 1).toNat : Int) - 1 = N by
          omega]
        exact hstop, by omega⟩)

/-- With overwrite disabled, `seq_proxy_build_frame` does nothing for a destination that
exists. -/
theorem build_frame_skips_existing (blendfile_path : String) (save_ok : String → Bool)
    (scene : Scene) (view_id : Int) (seq : Strip) (timeline_frame proxy_render_size : Int)
    (w : ProxyWorld) (p : String)
    (hp : seq_proxy_get_filepath blendfile_path scene seq timeline_frame
      (eSpaceSeq_Proxy_RenderSize.of_int proxy_render_size) view_id = some p)
    (hex : p ∈ w.files) :
    seq_proxy_build_frame blendfile_path save_ok scene view_id seq timeline_frame
      proxy_render_size false w = w := by
  simp [seq_proxy_build_frame, hp, hex]

/-- With overwrite disabled, `seq_proxy_build_frame` only appends events, none of them for
a destination that existed, and removes no file. -/
theorem build_frame_avoids (blendfile_path : String) (save_ok : String → Bool)
    (scene : Scene) (view_id : Int) (seq : Strip) (timeline_frame proxy_render_size : Int)
    (files0 : List String) (w : ProxyWorld) (hsub : ∀ p ∈ files0, p ∈ w.files) :
    ∃ new,
      (seq_proxy_build_frame blendfile_path save_ok scene view_id seq timeline_frame
        proxy_render_size false w).events = w.events ++ new ∧
      (∀ e ∈ new, ProxyEvent.avoids blendfile_path scene view_id seq files0 e) ∧
      (∀ p ∈ w.files, p ∈ (seq_proxy_build_frame blendfile_path save_ok scene view_id seq
        timeline_frame proxy_render_size false w).files) := by
  unfold seq_proxy_build_frame
  cases hp : seq_proxy_get_filepath blendfile_path scene seq timeline_frame
      (eSpaceSeq_Proxy_RenderSize.of_int proxy_render_size) view_id with
  | none => exact ⟨[], by simp, by simp, fun p h => h⟩
  | some filepath =>
    simp only [true_and]
    by_cases hex : filepath ∈ w.files
    · rw [if_pos hex]
      exact ⟨[], by simp, by simp, fun p h => h⟩
    · rw [if_neg hex]
      have h0 : filepath ∉ files0 := fun h => hex (hsub _ h)
      refine ⟨[ProxyEvent.render timeline_frame proxy_render_size, ProxyEvent.save filepath],
        ?_, ?_, ?_⟩
      · split_ifs <;> simp
      · intro e he
        simp only [List.mem_cons, List.mem_singleton, List.not_mem_nil, or_false] at he
        rcases he with rfl | rfl
        · intro p hp2
          rw [hp] at hp2
          cases hp2
          exact h0
        · exact h0
      · intro p hpm
        split_ifs
        · exact List.mem_append_left _ hpm
        · exact hpm

/-- The world relation kept by a build with overwrite disabled, against the files that exist
at its start. -/
theorem avoids_trans (blendfile_path : String) (scene : Scene) (view_id : Int) (seq : Strip)
    (w0 w1 w2 : ProxyWorld)
    (h1 : ∃ new, w1.events = w0.events ++ new ∧
      (∀ e ∈ new, ProxyEvent.avoids blendfile_path scene view_id seq w0.files e) ∧
      (∀ p ∈ w0.files, p ∈ w1.files))
    (h2 : ∃ new, w2.events = w1.events ++ new ∧
      (∀ e ∈ new, ProxyEvent.avoids blendfile_path scene view_id seq w0.files e) ∧
      (∀ p ∈ w1.files, p ∈ w2.files)) :
    ∃ new, w2.events = w0.events ++ new ∧
      (∀ e ∈ new, ProxyEvent.avoids blendfile_path scene view_id seq w0.files e) ∧
      (∀ p ∈ w0.files, p ∈ w2.files) := by
  obtain ⟨n1, e1, a1, f1⟩ := h1
  obtain ⟨n2, e2, a2, f2⟩ := h2
  refine ⟨n1 ++ n2, by rw [e2, e1, List.append_assoc], ?_, fun p hp => f2 p (f1 p hp)⟩
  intro e he
  rcases List.mem_append.mp he with h | h
  · exact a1 e h
  · exact a2 e h

theorem spec_frame_avoids (blendfile_path : String) (save_ok : String → Bool)
    (scene : Scene) (context : SeqIndexBuildContext) (hover : context.overwrite = false)
    (timeline_frame : Int) (w0 w : ProxyWorld)
    (h : ∃ new, w.events = w0.events ++ new ∧
      (∀ e ∈ new, ProxyEvent.avoids blendfile_path scene context.view_id context.seq
        w0.files e) ∧
      (∀ p ∈ w0.files, p ∈ w.files)) :
    ∃ new, (proxy_rebuild_spec_frame blendfile_path save_ok scene context timeline_frame
          w).events = w0.events ++ new ∧
      (∀ e ∈ new, ProxyEvent.avoids blendfile_path scene context.view_id context.seq
        w0.files e) ∧
      (∀ p ∈ w0.files, p ∈ (proxy_rebuild_spec_frame blendfile_path save_ok scene context
        timeline_frame w).files) := by
  unfold proxy_rebuild_spec_frame
  rw [hover]
  have hfold : ∀ (l : List Int) (w1 : ProxyWorld),
      (∃ new, w1.events = w0.events ++ new ∧
        (∀ e ∈ new, ProxyEvent.avoids blendfile_path scene context.view_id context.seq
          w0.files e) ∧
        (∀ p ∈ w0.files, p ∈ w1.files)) →
      ∃ new, (l.foldl (fun w size =>
          seq_proxy_build_frame blendfile_path save_ok scene context.view_id context.seq
            timeline_frame size false w) w1).events = w0.events ++ new ∧
        (∀ e ∈ new, ProxyEvent.avoids blendfile_path scene context.view_id context.seq
          w0.files e) ∧
        (∀ p ∈ w0.files, p ∈ (l.foldl (fun w size =>
          seq_proxy_build_frame blendfile_path save_ok scene context.view_id context.seq
            timeline_frame size false w) w1).files) := by
    intro l
    induction l with
    | nil => intro w1 h1; exact h1
    | cons s l ih =>
      intro w1 h1
      rw [List.foldl_cons]
      apply ih
      exact avoids_trans _ _ _ _ w0 w1 _ h1
        (build_frame_avoids blendfile_path save_ok scene context.view_id context.seq
          timeline_frame s w0.files w1 h1.choose_spec.2.2)
  obtain ⟨new, e, a, f⟩ := hfold (enabled_tiers context.size_flags) w h
  refine ⟨new ++ [ProxyEvent.progress timeline_frame
      (((timeline_frame - SEQ_time_left_handle_frame_get scene context.seq : Int) : ℚ)
        / ((SEQ_time_right_handle_frame_get scene context.seq
            - SEQ_time_left_handle_frame_get scene context.seq : Int) : ℚ))], ?_, ?_, f⟩
  · simp only [e, List.append_assoc]
  · intro ev hev
    rcases List.mem_append.mp hev with h1 | h1
    · exact a ev h1
    · simp only [List.mem_singleton] at h1
      subst h1
      trivial

theorem proxy_rebuild_frames_avoids (blendfile_path : String) (save_ok : String → Bool)
    (stop_requested : Int → Bool) (scene : Scene) (context : SeqIndexBuildContext)
    (hover : context.overwrite = false) (w0 : ProxyWorld) :
    ∀ (fuel : Nat) (timeline_frame : Int) (w : ProxyWorld),
      (∃ new, w.events = w0.events ++ new ∧
        (∀ e ∈ new, ProxyEvent.avoids blendfile_path scene context.view_id context.seq
          w0.files e) ∧
        (∀ p ∈ w0.files, p ∈ w.files)) →
      ∃ new, (proxy_rebuild_frames blendfile_path save_ok stop_requested scene context fuel
            timeline_frame w).events = w0.events ++ new ∧
        (∀ e ∈ new, ProxyEvent.avoids blendfile_path scene context.view_id context.seq
          w0.files e) ∧
        (∀ p ∈ w0.files, p ∈ (proxy_rebuild_frames blendfile_path save_ok stop_requested
          scene context fuel timeline_frame w).files) := by
  intro fuel
  induction fuel with
  | zero => intro tf w h; exact h
  | succ n ih =>
    intro tf w h
    rw [proxy_rebuild_frames_succ]
    split_ifs
    · exact spec_frame_avoids _ _ _ _ hover tf w0 w h
    · exact ih _ _ (spec_frame_avoids _ _ _ _ hover tf w0 w h)
    · exact h

/-- C21: for a build context whose strip is not a movie, with overwrite disabled:
`seq_proxy_build_frame` leaves the world as it is (no render, no save, same files) for every
frame and size whose resolved destination exists; and over the whole of
`SEQ_proxy_rebuild` events are only appended, no render is made for, and no save goes to, a
destination that existed at the start, and every file that existed still exists. -/
theorem proxy_rebuild_skips_existing (blendfile_path : String) (save_ok : String → Bool)
    (stop_requested : Int → Bool) (scene : Scene) (context : SeqIndexBuildContext)
    (w : ProxyWorld)
    (hmovie : context.seq.type ≠ SEQ_TYPE_MOVIE)
    (hover : context.overwrite = false) :
    (∀ (timeline_frame proxy_render_size : Int) (w1 : ProxyWorld) (p : String),
      seq_proxy_get_filepath blendfile_path scene context.seq timeline_frame
        (eSpaceSeq_Proxy_RenderSize.of_int proxy_render_size) context.view_id = some p →
      p ∈ w1.files →
      seq_proxy_build_frame blendfile_path save_ok scene context.view_id context.seq
        timeline_frame proxy_render_size context.overwrite w1 = w1) ∧
    ∃ new,
      (SEQ_proxy_rebuild blendfile_path save_ok stop_requested scene context w).events
        = w.events ++ new ∧
      (∀ e ∈ new, ProxyEvent.avoids blendfile_path scene context.view_id context.seq
        w.files e) ∧
      (∀ p ∈ w.files,
        p ∈ (SEQ_proxy_rebuild blendfile_path save_ok stop_requested scene context w).files) := by
  constructor
  · intro tf size w1 p hp hex
    rw [hover]
    exact build_frame_skips_existing _ _ _ _ _ _ _ _ p hp hex
  · have hrefl : ∃ new, w.events = w.events ++ new ∧
        (∀ e ∈ new, ProxyEvent.avoids blendfile_path scene context.view_id context.seq
          w.files e) ∧
        (∀ p ∈ w.files, p ∈ w.files) := ⟨[], by simp, by simp, fun _ h => h⟩
    unfold SEQ_proxy_rebuild
    rw [if_neg hmovie]
    split_ifs
    · exact hrefl
    · exact hrefl
    · exact proxy_rebuild_frames_avoids _ _ _ _ _ hover w _ _ w hrefl

theorem build_frame_progress_values (blendfile_path : String) (save_ok : String → Bool)
    (scene : Scene) (view_id : Int) (seq : Strip) (timeline_frame proxy_render_size : Int)
    (overwrite : Bool) (w : ProxyWorld) :
    (seq_proxy_build_frame blendfile_path save_ok scene view_id seq timeline_frame
        proxy_render_size overwrite w).events.filterMap ProxyEvent.progress_value
      = w.events.filterMap ProxyEvent.progress_value := by
  unfold seq_proxy_build_frame
  split
  · rfl
  · split_ifs
    · rfl
    · dsimp only
      split_ifs <;> simp [ProxyEvent.progress_value]

theorem spec_frame_progress_values (blendfile_path : String) (save_ok : String → Bool)
    (scene : Scene) (context : SeqIndexBuildContext) (timeline_frame : Int) (w : ProxyWorld) :
    (proxy_rebuild_spec_frame blendfile_path save_ok scene context timeline_frame
        w).events.filterMap ProxyEvent.progress_value
      = w.events.filterMap ProxyEvent.progress_value
        ++ [((timeline_frame - SEQ_time_left_handle_frame_get scene context.seq : Int) : ℚ)
            / ((SEQ_time_right_handle_frame_get scene context.seq
                - SEQ_time_left_handle_frame_get scene context.seq : Int) : ℚ)] := by
  have hfold : ∀ (l : List Int) (w1 : ProxyWorld),
      (l.foldl (fun w size =>
          seq_proxy_build_frame blendfile_path save_ok scene context.view_id context.seq
            timeline_frame size context.overwrite w) w1).events.filterMap
          ProxyEvent.progress_value
        = w1.events.filterMap ProxyEvent.progress_value := by
    intro l
    induction l with
    | nil => intro w1; rfl
    | cons s l ih =>
      intro w1
      rw [List.foldl_cons, ih, build_frame_progress_values]
  unfold proxy_rebuild_spec_frame
  simp only [List.filterMap_append, hfold]
  rfl

/-- The progress values that `proxy_rebuild_spec` reports over its first `n` frames: after
frame number `k` (counted from 1) the value `(k - 1) / (right handle - left handle)`. -/
theorem spec_progress_values (blendfile_path : String) (save_ok : String → Bool)
    (scene : Scene) (context : SeqIndexBuildContext) (n : Nat) (w : ProxyWorld) :
    (proxy_rebuild_spec blendfile_path save_ok scene context n
        w).events.filterMap ProxyEvent.progress_value
      = w.events.filterMap ProxyEvent.progress_value
        ++ (List.range n).map (fun k : Nat =>
            (k : ℚ) / ((SEQ_time_right_handle_frame_get scene context.seq
              - SEQ_time_left_handle_frame_get scene context.seq : Int) : ℚ)) := by
  rw [proxy_rebuild_spec_eq]
  induction n with
  | zero => simp
  | succ n ih =>
    rw [List.range_succ, List.foldl_append, List.foldl_cons, List.foldl_nil,
      spec_frame_progress_values, ih, List.map_append, List.append_assoc]
    congr 2
    simp

theorem four_images_handles :
    SEQ_time_left_handle_frame_get scene_one_movie context_four_images.seq = 0 ∧
    SEQ_time_right_handle_frame_get scene_one_movie context_four_images.seq = 4 := by
  constructor <;>
  simp [context_four_images, strip_four_images, Strip.null, SEQ_time_left_handle_frame_get,
    SEQ_time_right_handle_frame_get, SEQ_time_content_end_frame_get,
    SEQ_time_strip_length_get, SEQ_retiming_is_active,
    SEQ_time_media_playback_rate_factor_get, float_to_int, SEQ_time_start_frame_get]

/-- C22, the code at the failing input: for the image strip on frames [0,4) (a range of
`n = 4` frames) and with no stop requested, the progress values that `SEQ_proxy_rebuild`
writes after the frames 1 to 4 are 0, 1/4, 1/2 and 3/4: after frame `k` the value is
`(k - 1) / n`, and the last value is not 1. -/
theorem proxy_rebuild_progress_lags :
    SEQ_time_right_handle_frame_get scene_one_movie context_four_images.seq
      - SEQ_time_left_handle_frame_get scene_one_movie context_four_images.seq = 4 ∧
    (SEQ_proxy_rebuild "/project/film.blend" (fun _ => true) (fun _ => false) scene_one_movie
        context_four_images { files := [], events := [] }).events.filterMap
        ProxyEvent.progress_value
      = [0, 1 / 4, 1 / 2, 3 / 4] := by
  have hh := four_images_handles
  refine ⟨by rw [hh.1, hh.2]; rfl, ?_⟩
  rw [proxy_rebuild_runs_frames _ _ _ _ _ _ (by decide) rfl
      (fun proxy hp => by cases hp; rfl),
    proxy_rebuild_frames_prefix "/project/film.blend" (fun _ => true) (fun _ => false)
      scene_one_movie context_four_images 4 _ _ _ (by rw [hh.1, hh.2]; decide)
      (fun j hj => by rw [hh.1, hh.2]; omega) (fun _ _ => rfl)
      (Or.inr (by rw [hh.1, hh.2]; decide)),
    ← proxy_rebuild_spec_eq, spec_progress_values, hh.1, hh.2]
  simp [List.range, List.range.loop]
  norm_num

/-- Witness for C21: the build context of the image strip on frames [0,4) with overwrite
disabled, in a world in which the proxy of the first image for the size 25 exists. -/
theorem proxy_rebuild_skips_existing_witness :
    context_four_images.seq.type ≠ SEQ_TYPE_MOVIE ∧
    context_four_images.overwrite = false ∧
    ((∀ (timeline_frame proxy_render_size : Int) (w1 : ProxyWorld) (p : String),
      seq_proxy_get_filepath "/project/film.blend" scene_one_movie context_four_images.seq
        timeline_frame (eSpaceSeq_Proxy_RenderSize.of_int proxy_render_size)
        context_four_images.view_id = some p →
      p ∈ w1.files →
      seq_proxy_build_frame "/project/film.blend" (fun _ => true) scene_one_movie
        context_four_images.view_id context_four_images.seq timeline_frame proxy_render_size
        context_four_images.overwrite w1 = w1) ∧
    ∃ new,
      (SEQ_proxy_rebuild "/project/film.blend" (fun _ => true) (fun _ => false)
          scene_one_movie context_four_images
          { files := ["/media/BL_proxy/images/25/a.png_proxy.jpg"], events := [] }).events
        = ([] : List ProxyEvent) ++ new ∧
      (∀ e ∈ new, ProxyEvent.avoids "/project/film.blend" scene_one_movie
        context_four_images.view_id context_four_images.seq
        ["/media/BL_proxy/images/25/a.png_proxy.jpg"] e) ∧
      (∀ p ∈ ["/media/BL_proxy/images/25/a.png_proxy.jpg"],
        p ∈ (SEQ_proxy_rebuild "/project/film.blend" (fun _ => true) (fun _ => false)
          scene_one_movie context_four_images
          { files := ["/media/BL_proxy/images/25/a.png_proxy.jpg"], events := [] }).files)) :=
  ⟨by decide, rfl,
   proxy_rebuild_skips_existing "/project/film.blend" (fun _ => true) (fun _ => false)
     scene_one_movie context_four_images
     { files := ["/media/BL_proxy/images/25/a.png_proxy.jpg"], events := [] }
     (by decide) rfl⟩

/-- Witness for C23: the image strip on frames [0,4), with a stop requested after frame 1:
the frames 0 and 1 are built. -/
theorem proxy_rebuild_stops_after_witness :
    context_four_images.seq.type ≠ SEQ_TYPE_MOVIE ∧
    SEQ_time_left_handle_frame_get scene_one_movie context_four_images.seq ≤ 1 ∧
    1 < SEQ_time_right_handle_frame_get scene_one_movie context_four_images.seq ∧
    SEQ_proxy_rebuild "/project/film.blend" (fun _ => true) (fun t => decide (t = 1))
        scene_one_movie context_four_images { files := [], events := [] }
      = if context_four_images.seq.flag_use_proxy = false ∨
          (∃ proxy, context_four_images.seq.data.proxy = some proxy
            ∧ proxy.storage_custom_file = true)
        then { files := [], events := [] }
        else proxy_rebuild_spec "/project/film.blend" (fun _ => true) scene_one_movie
          context_four_images
          (1 - SEQ_time_left_handle_frame_get scene_one_movie context_four_images.seq
            + 1).toNat { files := [], events := [] } :=
  have h0 : SEQ_time_left_handle_frame_get scene_one_movie context_four_images.seq ≤ 1 := by
    rw [four_images_handles.1]; decide
  have h1 : 1 < SEQ_time_right_handle_frame_get scene_one_movie context_four_images.seq := by
    rw [four_images_handles.2]; decide
  ⟨by decide, h0, h1,
   proxy_rebuild_stops_after "/project/film.blend" (fun _ => true) (fun t => decide (t = 1))
     scene_one_movie context_four_images { files := [], events := [] } 1 (by decide) h0 h1
     (by decide) (fun t _ ht => by simp; omega)⟩

/-- Witness for C24: the image strip on frames [0,4), with no stop requested. -/
theorem proxy_rebuild_visits_range_witness :
    context_four_images.seq.type ≠ SEQ_TYPE_MOVIE ∧
    context_four_images.seq.flag_use_proxy = true ∧
    (∀ proxy, context_four_images.seq.data.proxy = some proxy →
      proxy.storage_custom_file = false) ∧
    SEQ_proxy_rebuild "/project/film.blend" (fun _ => true) (fun _ => false) scene_one_movie
        context_four_images { files := [], events := [] }
      = proxy_rebuild_spec "/project/film.blend" (fun _ => true) scene_one_movie
          context_four_images
          (SEQ_time_right_handle_frame_get scene_one_movie context_four_images.seq
            - SEQ_time_left_handle_frame_get scene_one_movie context_four_images.seq).toNat
          { files := [], events := [] } :=
  have hc : ∀ proxy, context_four_images.seq.data.proxy = some proxy →
      proxy.storage_custom_file = false := fun proxy hp => by cases hp; rfl
  ⟨by decide, rfl, hc,
   proxy_rebuild_visits_range "/project/film.blend" (fun _ => true) (fun _ => false)
     scene_one_movie context_four_images { files := [], events := [] } (by decide) rfl hc
     (fun _ => rfl)⟩

/-- Counterexample to C24 as stated: the context of an image strip on frames [0,10) with
proxies enabled for the size 25 and a custom proxy file; with no stop requested,
`SEQ_proxy_rebuild` visits no frame at all. -/
theorem proxy_rebuild_visits_range_counterexample :
    context_custom_file.seq.type ≠ SEQ_TYPE_MOVIE ∧
    SEQ_time_left_handle_frame_get scene_one_movie context_custom_file.seq = 0 ∧
    SEQ_time_right_handle_frame_get scene_one_movie context_custom_file.seq = 10 ∧
    enabled_tiers context_custom_file.size_flags = [25] ∧
    SEQ_proxy_rebuild "/project/film.blend" (fun _ => true) (fun _ => false) scene_one_movie
        context_custom_file { files := [], events := [] }
      = { files := [], events := [] } := by
  refine ⟨by decide, by decide, ?_, by decide, ?_⟩
  · simp [context_custom_file, strip_clip_custom_file, Strip.null,
      SEQ_time_right_handle_frame_get, SEQ_time_content_end_frame_get,
      SEQ_time_strip_length_get, SEQ_retiming_is_active,
      SEQ_time_media_playback_rate_factor_get, float_to_int, SEQ_time_start_frame_get]
  · exact proxy_rebuild_returns_early _ _ _ _ _ _ (by decide)
      (Or.inr ⟨_, rfl, rfl⟩)

/-! ## Proxy build contexts -/

theorem strip_modify_source (sc : Scene) (seq : StripId) (f : Strip → Strip)
    (hf : ∀ s, (f s).source = s.source) :
    ((sc.modify seq f).strip seq).source = (sc.strip seq).source := by
  rw [Scene.strip_modify]
  split_ifs
  · exact hf _
  · rfl

theorem source_data {a b : Strip} (h : a.source = b.source) : a.data = b.data := by
  have h2 := congrArg Strip.data h
  exact h2

theorem source_type {a b : Strip} (h : a.source = b.source) : a.type = b.type := by
  have h2 := congrArg Strip.type h
  exact h2

/-- The step of `SEQ_proxy_rebuild_context` for the view `i` when the strip has been found:
the three ways in which it ends. -/
theorem rebuild_view_cases (media : ProxyMedia) (blendfile_path : String) (seq : StripId)
    (build_only : Bool) (i : Nat) (st : RebuildState) (b : Bool) (st2 : RebuildState)
    (h : proxy_rebuild_context_view media blendfile_path seq build_only i st = some (b, st2)) :
    (st2.scene.strip seq).source = (st.scene.strip seq).source ∧
    st2.scene.multiview = st.scene.multiview ∧
    st2.scene.multiview_num_views = st.scene.multiview_num_views ∧
    (st2.queue = st.queue ∨
      (b = true ∧ ∃ c, st2.queue = st.queue ++ [c] ∧ c.view_id = i ∧
        ∀ proxy anim, (st.scene.strip seq).data.proxy = some proxy →
          (media.load_anims (st.scene.strip seq).data false).get? i = some ⟨some anim⟩ →
          seq_proxy_need_rebuild proxy anim = true)) ∧
    (b = false → st2.queue = st.queue) := by
  unfold proxy_rebuild_context_view at h
  by_cases hinv : (seq_proxy_multiview_context_invalid media blendfile_path
      (st.scene.strip seq) st.scene i st.prefix_vars).1 = true
  · simp only [hinv, if_true, Option.some.injEq, Prod.mk.injEq] at h
    obtain ⟨rfl, rfl⟩ := h
    exact ⟨rfl, rfl, rfl, Or.inl rfl, fun _ => rfl⟩
  · simp only [hinv, Bool.false_eq_true, if_false] at h
    have hs1 : ((st.scene.modify seq fun s => seq_open_anim_file media s false).strip
        seq).source = (st.scene.strip seq).source :=
      strip_modify_source _ seq (fun s => seq_open_anim_file media s false) (fun _ => rfl)
    have hs2 : (((st.scene.modify seq fun s => seq_open_anim_file media s false).modify seq
        SEQ_relations_sequence_free_anim).strip seq).source = (st.scene.strip seq).source :=
      (strip_modify_source _ seq SEQ_relations_sequence_free_anim (fun _ => rfl)).trans hs1
    have hA : ∀ sanim,
        ((st.scene.modify seq fun s => seq_open_anim_file media s false).strip
          seq).anims.get? i = some sanim →
        seq < st.scene.strips.length ∧
        (media.load_anims (st.scene.strip seq).data false).get? i = some sanim := by
      intro sanim hget
      rw [Scene.strip_modify] at hget
      by_cases hlt : seq < st.scene.strips.length
      · rw [if_pos ⟨rfl, hlt⟩] at hget
        exact ⟨hlt, hget⟩
      · rw [if_neg (fun hc => hlt hc.2), Scene.strip_null _ _ (Nat.le_of_not_lt hlt)] at hget
        simp [Strip.null] at hget
    cases hget : ((st.scene.modify seq fun s => seq_open_anim_file media s false).strip
        seq).anims.get? i with
    | none => simp only [hget] at h; cases h
    | some sanim =>
      cases hproxy : ((st.scene.modify seq fun s => seq_open_anim_file media s false).strip
          seq).data.proxy with
      | none => simp only [hget, hproxy] at h; cases h
      | some proxy =>
        simp only [hget, hproxy] at h
        have hproxy0 : (st.scene.strip seq).data.proxy = some proxy := by
          rw [← source_data hs1]; exact hproxy
        have hneed : ¬ (match sanim.anim with
            | some anim => !seq_proxy_need_rebuild proxy anim
            | none => false) = true →
            ∀ proxy2 anim, (st.scene.strip seq).data.proxy = some proxy2 →
              (media.load_anims (st.scene.strip seq).data false).get? i = some ⟨some anim⟩ →
              seq_proxy_need_rebuild proxy2 anim = true := by
          intro hn proxy2 anim hp2 hl
          rw [hproxy0] at hp2
          cases hp2
          rw [(hA sanim hget).2] at hl
          cases hl
          simpa using hn
        split_ifs at h with hskip hmovie
        · cases h
          exact ⟨hs1, rfl, rfl, Or.inl rfl, fun _ => rfl⟩
        · split at h
          · cases h
          · split at h
            · cases h
              exact ⟨hs2, rfl, rfl, Or.inl rfl, fun _ => rfl⟩
            · cases h
              exact ⟨hs2, rfl, rfl, Or.inr ⟨rfl, _, rfl, rfl, hneed hskip⟩,
                fun hc => by cases hc⟩
        · cases h
          exact ⟨hs2, rfl, rfl, Or.inr ⟨rfl, _, rfl, rfl, hneed hskip⟩,
            fun hc => by cases hc⟩

/-- What a run of the loop over some views does to the queue: it appends contexts, in the
order of the views, each for a view that needed a rebuild; the strip keeps its source. -/
theorem rebuild_views_queue (media : ProxyMedia) (blendfile_path : String) (seq : StripId)
    (build_only : Bool) :
    ∀ (views : List Nat) (st : RebuildState) (b : Bool) (st2 : RebuildState),
      proxy_rebuild_context_views media blendfile_path seq build_only views st
        = some (b, st2) →
      (st2.scene.strip seq).source = (st.scene.strip seq).source ∧
      ∃ ctxs, st2.queue = st.queue ++ ctxs ∧
        List.Sublist (ctxs.map fun c => c.view_id) views ∧
        ∀ c ∈ ctxs, ∀ proxy anim, (st.scene.strip seq).data.proxy = some proxy →
          (media.load_anims (st.scene.strip seq).data false).get? c.view_id
            = some ⟨some anim⟩ →
          seq_proxy_need_rebuild proxy anim = true := by
  intro views
  induction views with
  | nil =>
    intro st b st2 h
    simp only [proxy_rebuild_context_views, Option.some.injEq, Prod.mk.injEq] at h
    obtain ⟨_, rfl⟩ := h
    exact ⟨rfl, [], by simp, by simp, by simp⟩
  | cons i views ih =>
    intro st b st2 h
    unfold proxy_rebuild_context_views at h
    cases hv : proxy_rebuild_context_view media blendfile_path seq build_only i st with
    | none => simp only [hv] at h; cases h
    | some r =>
      obtain ⟨b1, st1⟩ := r
      obtain ⟨hsrc, _, _, hq, hfalse⟩ := rebuild_view_cases _ _ _ _ _ _ _ _ hv
      cases b1 with
      | false =>
        simp only [hv, Option.some.injEq, Prod.mk.injEq] at h
        obtain ⟨_, rfl⟩ := h
        exact ⟨hsrc, [], by simp [hfalse rfl], by simp, by simp⟩
      | true =>
        simp only [hv] at h
        obtain ⟨hsrc2, ctxs, hq2, hsub, hneed⟩ := ih st1 b st2 h
        refine ⟨hsrc2.trans hsrc, ?_⟩
        rcases hq with hq | ⟨_, c, hq, hc, hcn⟩
        · refine ⟨ctxs, by rw [hq2, hq], List.Sublist.cons _ hsub, ?_⟩
          intro c hcm proxy anim hp hl
          rw [← source_data hsrc] at hp hl
          exact hneed c hcm proxy anim hp hl
        · refine ⟨c :: ctxs, by rw [hq2, hq]; simp, ?_, ?_⟩
          · simp only [List.map_cons, hc]
            exact List.Sublist.cons₂ _ hsub
          · intro c2 hcm proxy anim hp hl
            rcases List.mem_cons.mp hcm with rfl | hcm
            · rw [hc] at hl
              exact hcn proxy anim hp hl
            · rw [← source_data hsrc] at hp hl
              exact hneed c2 hcm proxy anim hp hl

theorem rebuild_views_cons (media : ProxyMedia) (blendfile_path : String) (seq : StripId)
    (build_only : Bool) (i : Nat) (views : List Nat) (st : RebuildState) :
    proxy_rebuild_context_views media blendfile_path seq build_only (i :: views) st
      = match proxy_rebuild_context_view media blendfile_path seq build_only i st with
        | none => none
        | some (false, st) => some (false, st)
        | some (true, st) =>
          proxy_rebuild_context_views media blendfile_path seq build_only views st := rfl

theorem rebuild_views_append (media : ProxyMedia) (blendfile_path : String) (seq : StripId)
    (build_only : Bool) :
    ∀ (l1 l2 : List Nat) (st st1 : RebuildState),
      proxy_rebuild_context_views media blendfile_path seq build_only l1 st
        = some (true, st1) →
      proxy_rebuild_context_views media blendfile_path seq build_only (l1 ++ l2) st
        = proxy_rebuild_context_views media blendfile_path seq build_only l2 st1 := by
  intro l1
  induction l1 with
  | nil =>
    intro l2 st st1 h
    simp only [proxy_rebuild_context_views, Option.some.injEq, Prod.mk.injEq, true_and] at h
    subst h
    rfl
  | cons i l1 ih =>
    intro l2 st st1 h
    rw [List.cons_append, rebuild_views_cons]
    rw [rebuild_views_cons] at h
    cases hv : proxy_rebuild_context_view media blendfile_path seq build_only i st with
    | none => simp only [hv] at h; cases h
    | some r =>
      obtain ⟨b1, st0⟩ := r
      cases b1 with
      | false => simp only [hv, Option.some.injEq, Prod.mk.injEq] at h; cases h.1
      | true =>
        simp only [hv] at h ⊢
        exact ih l2 st0 st1 h

theorem range_split (n i : Nat) (h : i < n) : ∃ l2, List.range n = List.range i ++ i :: l2 := by
  induction n with
  | zero => omega
  | succ n ih =>
    rw [List.range_succ]
    by_cases hi : i = n
    · subst hi
      exact ⟨[], rfl⟩
    · obtain ⟨l2, hl⟩ := ih (by omega)
      exact ⟨l2 ++ [n], by rw [hl]; simp⟩

/-- When the builder handle cannot be obtained, the step for the view returns `false` and
leaves the queue as it is. -/
theorem rebuild_view_fails (media : ProxyMedia) (blendfile_path : String) (seq : StripId)
    (build_only : Bool) (i : Nat) (st : RebuildState)
    (h : BuilderUnobtainable media blendfile_path seq build_only i st) :
    ∃ st2, proxy_rebuild_context_view media blendfile_path seq build_only i st
        = some (false, st2) ∧ st2.queue = st.queue := by
  obtain ⟨hinv, hmovie, proxy, sanim, sanim2, hproxy, hl1, hneed, hl2, hstart⟩ := h
  have hlt : seq < st.scene.strips.length := by
    by_contra hc
    rw [Scene.strip_null _ _ (Nat.le_of_not_lt hc)] at hmovie
    simp [Strip.null] at hmovie
  have e1 : (st.scene.modify seq fun s => seq_open_anim_file media s false).strip seq
      = seq_open_anim_file media (st.scene.strip seq) false :=
    Scene.strip_modify_self _ _ _ hlt
  have e2 : ((st.scene.modify seq fun s => seq_open_anim_file media s false).modify seq
      SEQ_relations_sequence_free_anim).strip seq
      = SEQ_relations_sequence_free_anim (seq_open_anim_file media (st.scene.strip seq) false) := by
    rw [Scene.strip_modify_self _ _ _ (by simpa using hlt), e1]
  unfold proxy_rebuild_context_view
  simp only [hinv, Bool.false_eq_true, if_false, e1, e2]
  have g1 : (seq_open_anim_file media (st.scene.strip seq) false).anims.get? i = some sanim := hl1
  have g2 : (seq_open_anim_file media (st.scene.strip seq) false).data.proxy = some proxy :=
    hproxy
  have g3 : (SEQ_relations_sequence_free_anim
      (seq_open_anim_file media (st.scene.strip seq) false)).type = SEQ_TYPE_MOVIE := hmovie
  have g4 : (seq_open_anim_file media (SEQ_relations_sequence_free_anim
      (seq_open_anim_file media (st.scene.strip seq) false)) true).anims.get? i = some sanim2 :=
    hl2
  simp only [g1, g2, g3, if_true, g4]
  cases ha : sanim.anim with
  | none =>
    cases ha2 : sanim2.anim with
    | none =>
      simp only [Bool.false_eq_true, if_false]
      exact ⟨_, rfl, rfl⟩
    | some anim2 =>
      simp only [Bool.false_eq_true, if_false, hstart anim2 ha2]
      exact ⟨_, rfl, rfl⟩
  | some anim =>
    cases ha2 : sanim2.anim with
    | none =>
      simp only [hneed anim ha, Bool.not_true, Bool.false_eq_true, if_false]
      exact ⟨_, rfl, rfl⟩
    | some anim2 =>
      simp only [hneed anim ha, Bool.not_true, Bool.false_eq_true, if_false,
        hstart anim2 ha2]
      exact ⟨_, rfl, rfl⟩

/-- C25: when the call reaches the view `i` of a movie strip (the views before `i` have been
gone through, with the state `st1` as the result) and the proxy-builder handle cannot be
obtained for that view, `SEQ_proxy_rebuild_context` returns `false`; the queue is the one
after the views before `i`: the previous content followed by contexts of views before `i`, in
the order of the views; no context is queued for the view `i` or a later view. -/
theorem rebuild_context_fails_at_view (media : ProxyMedia) (blendfile_path : String)
    (scene : Scene) (seq : StripId) (processed_paths : List String)
    (queue : List SeqIndexBuildContext) (build_only_on_bad_performance : Bool)
    (i : Nat) (st1 : RebuildState)
    (hproxy : (scene.strip seq).data.proxy ≠ none)
    (huse : (scene.strip seq).flag_use_proxy = true)
    (hi : i < seq_proxy_context_count (scene.strip seq) scene)
    (hreach : proxy_rebuild_context_views media blendfile_path seq
        build_only_on_bad_performance (List.range i)
        { scene := scene, prefix_vars := {}, processed_paths := processed_paths,
          queue := queue }
      = some (true, st1))
    (hfail : BuilderUnobtainable media blendfile_path seq build_only_on_bad_performance i st1) :
    ∃ st2,
      SEQ_proxy_rebuild_context media blendfile_path scene seq processed_paths queue
        build_only_on_bad_performance = some (false, st2) ∧
      st2.queue = st1.queue ∧
      ∃ ctxs, st2.queue = queue ++ ctxs ∧
        List.Sublist (ctxs.map fun c => c.view_id) (List.range i) := by
  obtain ⟨st2, hv, hq⟩ := rebuild_view_fails _ _ _ _ _ _ hfail
  obtain ⟨l2, hl2⟩ := range_split _ i hi
  obtain ⟨_, ctxs, hctx, hsub, _⟩ := rebuild_views_queue _ _ _ _ _ _ _ _ hreach
  refine ⟨st2, ?_, hq, ctxs, by rw [hq, hctx], hsub⟩
  unfold SEQ_proxy_rebuild_context
  simp only [hproxy, huse, if_false, Bool.true_eq_false]
  rw [hl2, rebuild_views_append _ _ _ _ _ _ _ _ hreach, rebuild_views_cons, hv]

/-- Witness for C25: the movie strip with two views; the builder is obtained for view 0 and
not for view 1. -/
theorem rebuild_context_fails_at_view_witness :
    (scene_stereo_movie.strip 0).data.proxy ≠ none ∧
    (scene_stereo_movie.strip 0).flag_use_proxy = true ∧
    1 < seq_proxy_context_count (scene_stereo_movie.strip 0) scene_stereo_movie ∧
    ∃ st1,
      proxy_rebuild_context_views media_two_views "/project/film.blend" 0 false (List.range 1)
          { scene := scene_stereo_movie, prefix_vars := {}, processed_paths := [],
            queue := [] }
        = some (true, st1) ∧
      (st1.queue.map fun c => c.view_id) = [0] ∧
      BuilderUnobtainable media_two_views "/project/film.blend" 0 false 1 st1 ∧
      ∃ st2,
        SEQ_proxy_rebuild_context media_two_views "/project/film.blend" scene_stereo_movie 0
          [] [] false = some (false, st2) ∧
        st2.queue = st1.queue ∧
        ∃ ctxs, st2.queue = [] ++ ctxs ∧
          List.Sublist (ctxs.map fun c => c.view_id) (List.range 1) := by
  have hreach : ∃ st1,
      proxy_rebuild_context_views media_two_views "/project/film.blend" 0 false (List.range 1)
          { scene := scene_stereo_movie, prefix_vars := {}, processed_paths := [],
            queue := [] }
        = some (true, st1) ∧ (st1.queue.map fun c => c.view_id) = [0] ∧
        (st1.scene.strip 0).source = (scene_stereo_movie.strip 0).source := by
    refine ⟨_, rfl, by decide, by decide⟩
  obtain ⟨st1, h1, hq, hsrc⟩ := hreach
  have hfail : BuilderUnobtainable media_two_views "/project/film.blend" 0 false 1 st1 := by
    have hty : (st1.scene.strip 0).type = SEQ_TYPE_MOVIE := source_type hsrc
    have hdata : (st1.scene.strip 0).data = (scene_stereo_movie.strip 0).data :=
      source_data hsrc
    refine ⟨?_, hty, { build_size_flags := 1, build_flags_skip_existing := true },
      { anim := some { id := 1 } }, { anim := some { id := 1 } }, ?_, rfl, ?_, rfl, ?_⟩
    · unfold seq_proxy_multiview_context_invalid
      rw [hty]
      split_ifs <;> simp_all
    · rw [hdata]; rfl
    · intro anim ha
      cases ha
      decide
    · intro anim ha
      cases ha
      rfl
  exact ⟨by decide, rfl, by decide, st1, h1, hq, hfail,
    rebuild_context_fails_at_view media_two_views "/project/film.blend" scene_stereo_movie 0
      [] [] false 1 st1 (by decide) rfl (by decide) h1 hfail⟩

/-- C26 (as amended): whenever `SEQ_proxy_rebuild_context` returns `false`, the queue holds
its previous content, in place, followed by the contexts queued during the call for the
views before the failing one; it is as it was before the call exactly when no such context
has been queued. -/
theorem rebuild_context_failure_keeps_queue (media : ProxyMedia) (blendfile_path : String)
    (scene : Scene) (seq : StripId) (processed_paths : List String)
    (queue : List SeqIndexBuildContext) (build_only_on_bad_performance : Bool)
    (st2 : RebuildState)
    (h : SEQ_proxy_rebuild_context media blendfile_path scene seq processed_paths queue
      build_only_on_bad_performance = some (false, st2)) :
    ∃ ctxs, st2.queue = queue ++ ctxs ∧
      List.Sublist (ctxs.map fun c => c.view_id)
        (List.range (seq_proxy_context_count (scene.strip seq) scene)) ∧
      (st2.queue = queue ↔ ctxs = []) := by
  unfold SEQ_proxy_rebuild_context at h
  simp only at h
  split_ifs at h
  · cases h
  · cases h
  · obtain ⟨_, ctxs, hctx, hsub, _⟩ := rebuild_views_queue _ _ _ _ _ _ _ _ h
    exact ⟨ctxs, hctx, hsub, by rw [hctx]; simp⟩

/-- Witness for C26: the movie strip with two views, for which the call returns `false`. -/
theorem rebuild_context_failure_keeps_queue_witness :
    ∃ st2,
      SEQ_proxy_rebuild_context media_two_views "/project/film.blend" scene_stereo_movie 0
        [] [] false = some (false, st2) ∧
      ∃ ctxs, st2.queue = [] ++ ctxs ∧
        List.Sublist (ctxs.map fun c => c.view_id)
          (List.range (seq_proxy_context_count (scene_stereo_movie.strip 0)
            scene_stereo_movie)) ∧
        (st2.queue = [] ↔ ctxs = []) := by
  have h : ∃ st2,
      SEQ_proxy_rebuild_context media_two_views "/project/film.blend" scene_stereo_movie 0
        [] [] false = some (false, st2) := ⟨_, rfl⟩
  obtain ⟨st2, h2⟩ := h
  exact ⟨st2, h2,
    rebuild_context_failure_keeps_queue media_two_views "/project/film.blend"
      scene_stereo_movie 0 [] [] false st2 h2⟩

/-- Counterexample to C26 as stated: for the movie strip with two views the builder is
obtained for view 0 and not for view 1; the call returns `false` and the queue, empty before
the call, holds the context of view 0. -/
theorem rebuild_context_failure_counterexample :
    (SEQ_proxy_rebuild_context media_two_views "/project/film.blend" scene_stereo_movie 0
        [] [] false).map (fun r => (r.1, r.2.queue.map fun c => c.view_id))
      = some (false, [0]) := by
  decide

/-- A view whose reader, opened for checking, shows that no rebuild is needed is passed over:
the loop goes on, and the queue is as it was. -/
theorem rebuild_view_skips (media : ProxyMedia) (blendfile_path : String) (seq : StripId)
    (build_only : Bool) (i : Nat) (st : RebuildState) (proxy : StripProxy) (anim : MovieReader)
    (hp : (st.scene.strip seq).data.proxy = some proxy)
    (hl : (media.load_anims (st.scene.strip seq).data false).get? i = some ⟨some anim⟩)
    (hn : seq_proxy_need_rebuild proxy anim = false) :
    ∃ st2, proxy_rebuild_context_view media blendfile_path seq build_only i st
      = some (true, st2) ∧ st2.queue = st.queue := by
  have hlt : seq < st.scene.strips.length := by
    by_contra hc
    rw [Scene.strip_null _ _ (Nat.le_of_not_lt hc)] at hp
    simp [Strip.null] at hp
  unfold proxy_rebuild_context_view
  by_cases hinv : (seq_proxy_multiview_context_invalid media blendfile_path
      (st.scene.strip seq) st.scene i st.prefix_vars).1 = true
  · simp only [hinv, if_true]
    exact ⟨_, rfl, rfl⟩
  · simp only [hinv, Bool.false_eq_true, if_false]
    have hs : (st.scene.modify seq fun s => seq_open_anim_file media s false).strip seq
        = seq_open_anim_file media (st.scene.strip seq) false :=
      Scene.strip_modify_self _ _ _ hlt
    have hget : ((st.scene.modify seq fun s => seq_open_anim_file media s false).strip
        seq).anims.get? i = some ⟨some anim⟩ := by
      rw [hs]; exact hl
    have hpr : ((st.scene.modify seq fun s => seq_open_anim_file media s false).strip
        seq).data.proxy = some proxy := by
      rw [hs]; exact hp
    simp only [hget, hpr, hn, Bool.not_false, if_true]
    exact ⟨_, rfl, rfl⟩

/-- When the readers of all the views that are left show that no rebuild is needed, the loop
ends with `true` and the queue is as it was. -/
theorem rebuild_views_all_built (media : ProxyMedia) (blendfile_path : String) (seq : StripId)
    (build_only : Bool) (proxy : StripProxy) :
    ∀ (views : List Nat) (st : RebuildState),
      (st.scene.strip seq).data.proxy = some proxy →
      (∀ i ∈ views, ∃ anim,
        (media.load_anims (st.scene.strip seq).data false).get? i = some ⟨some anim⟩ ∧
        seq_proxy_need_rebuild proxy anim = false) →
      ∃ st2, proxy_rebuild_context_views media blendfile_path seq build_only views st
        = some (true, st2) ∧ st2.queue = st.queue := by
  intro views
  induction views with
  | nil =>
    intro st _ _
    exact ⟨st, rfl, rfl⟩
  | cons i views ih =>
    intro st hp hall
    obtain ⟨anim, hl, hn⟩ := hall i (List.mem_cons_self _ _)
    obtain ⟨st1, hv, hq⟩ := rebuild_view_skips media blendfile_path seq build_only i st
      proxy anim hp hl hn
    obtain ⟨hsrc, _⟩ := rebuild_view_cases _ _ _ _ _ _ _ _ hv
    have hd := source_data hsrc
    obtain ⟨st2, hvs, hq2⟩ := ih st1 (by rw [hd]; exact hp) (by
      intro j hj
      rw [hd]
      exact hall j (List.mem_cons_of_mem _ hj))
    refine ⟨st2, ?_, by rw [hq2, hq]⟩
    rw [rebuild_views_cons, hv]
    exact hvs

theorem need_rebuild_skip_existing (proxy : StripProxy) (anim : MovieReader)
    (hskip : proxy.build_flags_skip_existing = true) :
    seq_proxy_need_rebuild proxy anim
      = decide (proxy.build_size_flags &&& anim.existing_proxies ≠ proxy.build_size_flags) := by
  simp [seq_proxy_need_rebuild, hskip]

/-- C27 (as amended): for a strip with proxies enabled whose proxy settings ask to skip the
existing proxies (`SEQ_PROXY_SKIP_EXISTING`): (1) a view whose reader, opened for checking,
has the proxies of all the requested sizes is passed over: the loop goes on to the next view
and the queue is as it was; (2) when this holds for every view, the call returns `true` and
the queue is as it was; (3) whatever the call returns, the queue holds its previous content
followed by contexts of views of the strip, and a view with a queued context and an open
reader lacks the proxy of some requested size. -/
theorem rebuild_context_skips_built (media : ProxyMedia) (blendfile_path : String)
    (scene : Scene) (seq : StripId) (processed_paths : List String)
    (queue : List SeqIndexBuildContext) (build_only_on_bad_performance : Bool)
    (proxy : StripProxy)
    (hproxy : (scene.strip seq).data.proxy = some proxy)
    (huse : (scene.strip seq).flag_use_proxy = true)
    (hskip : proxy.build_flags_skip_existing = true) :
    (∀ (i : Nat) (st : RebuildState) (anim : MovieReader),
      (st.scene.strip seq).source = (scene.strip seq).source →
      (media.load_anims (scene.strip seq).data false).get? i = some ⟨some anim⟩ →
      proxy.build_size_flags &&& anim.existing_proxies = proxy.build_size_flags →
      ∃ st2, proxy_rebuild_context_view media blendfile_path seq
        build_only_on_bad_performance i st = some (true, st2) ∧ st2.queue = st.queue) ∧
    ((∀ i, i < seq_proxy_context_count (scene.strip seq) scene → ∃ anim,
        (media.load_anims (scene.strip seq).data false).get? i = some ⟨some anim⟩ ∧
        proxy.build_size_flags &&& anim.existing_proxies = proxy.build_size_flags) →
      ∃ st2, SEQ_proxy_rebuild_context media blendfile_path scene seq processed_paths queue
        build_only_on_bad_performance = some (true, st2) ∧ st2.queue = queue) ∧
    (∀ (b : Bool) (st2 : RebuildState),
      SEQ_proxy_rebuild_context media blendfile_path scene seq processed_paths queue
        build_only_on_bad_performance = some (b, st2) →
      ∃ ctxs, st2.queue = queue ++ ctxs ∧
        List.Sublist (ctxs.map fun c => c.view_id)
          (List.range (seq_proxy_context_count (scene.strip seq) scene)) ∧
        ∀ c ∈ ctxs, ∀ anim,
          (media.load_anims (scene.strip seq).data false).get? c.view_id
            = some ⟨some anim⟩ →
          proxy.build_size_flags &&& anim.existing_proxies ≠ proxy.build_size_flags) := by
  have hnS : (scene.strip seq).data.proxy ≠ none := by rw [hproxy]; simp
  refine ⟨?_, ?_, ?_⟩
  · intro i st anim hsrc hl hb
    have hd := source_data hsrc
    refine rebuild_view_skips media blendfile_path seq build_only_on_bad_performance i st
      proxy anim (by rw [hd]; exact hproxy) (by rw [hd]; exact hl) ?_
    rw [need_rebuild_skip_existing proxy anim hskip]
    simp [hb]
  · intro hall
    unfold SEQ_proxy_rebuild_context
    simp only [hnS, huse, if_false, Bool.true_eq_false]
    refine rebuild_views_all_built media blendfile_path seq build_only_on_bad_performance
      proxy _ _ hproxy ?_
    intro i hi
    obtain ⟨anim, hl, hb⟩ := hall i (List.mem_range.mp hi)
    refine ⟨anim, hl, ?_⟩
    rw [need_rebuild_skip_existing proxy anim hskip]
    simp [hb]
  · intro b st2 h
    unfold SEQ_proxy_rebuild_context at h
    simp only [hnS, huse, if_false, Bool.true_eq_false] at h
    obtain ⟨_, ctxs, hctx, hsub, hneed⟩ := rebuild_views_queue _ _ _ _ _ _ _ _ h
    refine ⟨ctxs, hctx, hsub, ?_⟩
    intro c hc anim hl
    have hn := hneed c hc proxy anim hproxy hl
    rw [need_rebuild_skip_existing proxy anim hskip] at hn
    simpa using hn

/-- Witness for C27: the movie strip whose reader has the proxy of the requested size 25,
existing proxies being skipped; the call returns `true` and queues nothing. -/
theorem rebuild_context_skips_built_witness :
    ((scene_movie_proxy true).strip 0).flag_use_proxy = true ∧
    (∃ st2, SEQ_proxy_rebuild_context media_built "/project/film.blend"
        (scene_movie_proxy true) 0 [] [] false = some (true, st2) ∧ st2.queue = []) ∧
    (∀ (b : Bool) (st2 : RebuildState),
      SEQ_proxy_rebuild_context media_built "/project/film.blend" (scene_movie_proxy true) 0
        [] [] false = some (b, st2) →
      ∃ ctxs, st2.queue = [] ++ ctxs ∧
        List.Sublist (ctxs.map fun c => c.view_id)
          (List.range (seq_proxy_context_count ((scene_movie_proxy true).strip 0)
            (scene_movie_proxy true))) ∧
        ∀ c ∈ ctxs, ∀ anim,
          (media_built.load_anims ((scene_movie_proxy true).strip 0).data false).get?
              c.view_id = some ⟨some anim⟩ →
          (1 : Nat) &&& anim.existing_proxies ≠ 1) := by
  have h := rebuild_context_skips_built media_built "/project/film.blend"
    (scene_movie_proxy true) 0 [] [] false
    { build_size_flags := 1, build_flags_skip_existing := true } rfl rfl rfl
  refine ⟨rfl, h.2.1 ?_, h.2.2⟩
  intro i hi
  have hi0 : i = 0 := by
    have hc : seq_proxy_context_count ((scene_movie_proxy true).strip 0)
        (scene_movie_proxy true) = 1 := by decide
    omega
  subst hi0
  exact ⟨{ id := 0, existing_proxies := 1 }, rfl, by decide⟩

/-- Counterexample to C27 as stated: the movie strip has proxies enabled for the size 25,
its proxy settings do not ask to skip existing proxies, and its reader has the proxy of size
25; the call queues a context for view 0. -/
theorem rebuild_context_skips_built_counterexample :
    ((scene_movie_proxy false).strip 0).flag_use_proxy = true ∧
    ((scene_movie_proxy false).strip 0).data.proxy
      = some { build_size_flags := 1, build_flags_skip_existing := false } ∧
    (media_built.load_anims ((scene_movie_proxy false).strip 0).data false).get? 0
      = some ⟨some { id := 0, existing_proxies := 1 }⟩ ∧
    (1 : Nat) &&& 1 = 1 ∧
    (SEQ_proxy_rebuild_context media_built "/project/film.blend" (scene_movie_proxy false) 0
        [] [] false).map (fun r => (r.1, r.2.queue.map fun c => c.view_id))
      = some (true, [0]) := by
  decide

/-! ## Content length of an un-retimed strip -/

/-- With retiming inactive `SEQ_time_strip_length_get` is `len / playback_rate_factor`,
truncated, for a strip of any type. -/
theorem strip_length_unretimed (sc : Scene) (seq : Strip)
    (hret : SEQ_retiming_is_active seq = false) :
    SEQ_time_strip_length_get sc seq
      = float_to_int ((seq.len : ℚ) / SEQ_time_media_playback_rate_factor_get sc seq) := by
  simp only [SEQ_time_strip_length_get, hret, Bool.false_eq_true, if_false]

/-- The two length functions agree on an un-retimed strip that is not a sound strip, and on
an un-retimed sound strip with the playback-rate factor 1. -/
theorem strip_length_eq_original (sc : Scene) (seq : Strip)
    (hret : SEQ_retiming_is_active seq = false)
    (h : seq.type ≠ SEQ_TYPE_SOUND_RAM ∨ SEQ_time_media_playback_rate_factor_get sc seq = 1) :
    SEQ_time_strip_length_get sc seq = seq_time_strip_original_content_length_get sc seq := by
  rw [strip_length_unretimed sc seq hret]
  unfold seq_time_strip_original_content_length_get
  rcases h with h | h
  · rw [if_neg h]
  · split_ifs
    · simp [h, float_to_int]
    · rfl

/-- C31, the code at the failing input: the sound strip of 100 content frames with retiming
inactive and the playback-rate factor 2 (media rate 48 in a scene of 24 frames per second):
`seq_time_strip_original_content_length_get` gives `len = 100`, while
`SEQ_time_strip_length_get`, the length that the handle getters use, gives `100 / 2 = 50`, and
the right handle is at frame 50. -/
theorem strip_length_sound_remapped :
    strip_sound_fast.type = SEQ_TYPE_SOUND_RAM ∧
    SEQ_retiming_is_active strip_sound_fast = false ∧
    SEQ_time_media_playback_rate_factor_get scene_one_movie strip_sound_fast = 2 ∧
    strip_sound_fast.len = 100 ∧
    seq_time_strip_original_content_length_get scene_one_movie strip_sound_fast = 100 ∧
    SEQ_time_strip_length_get scene_one_movie strip_sound_fast = 50 ∧
    SEQ_time_right_handle_frame_get scene_one_movie strip_sound_fast = 50 := by
  have hf : SEQ_time_media_playback_rate_factor_get scene_one_movie strip_sound_fast = 2 := by
    simp [SEQ_time_media_playback_rate_factor_get, strip_sound_fast, Strip.null,
      scene_one_movie]
    norm_num
  have hl : SEQ_time_strip_length_get scene_one_movie strip_sound_fast = 50 := by
    rw [strip_length_unretimed scene_one_movie strip_sound_fast rfl, hf]
    simp [strip_sound_fast, Strip.null, float_to_int]
    norm_num
  refine ⟨rfl, rfl, hf, rfl, rfl, hl, ?_⟩
  rw [right_handle_of_no_inputs scene_one_movie strip_sound_fast rfl]
  simp only [SEQ_time_content_end_frame_get, hl]
  rfl

/-! ## Reversal and strobe -/

/-- C34: for a strip that is not of effect type and not a single image, with `len ≥ 1`,
retiming inactive, playback-rate factor 1 and strobe at most 1, and for every timeline frame
`t` with `start ≤ t ≤ start + len - 1`, the frame index with `SEQ_REVERSE_FRAMES` set plus the
frame index without it is `len - 1`. -/
theorem give_frame_index_reversal_reflects (sc : Scene) (seq : Strip) (timeline_frame : ℚ)
    (htype : seq.type.is_effect = false)
    (hsingle : ¬ (seq.type = SEQ_TYPE_IMAGE ∧ SEQ_transform_single_image_check seq = true))
    (hlen : 1 ≤ seq.len)
    (hret : SEQ_retiming_is_active seq = false)
    (hrate : SEQ_time_media_playback_rate_factor_get sc seq = 1)
    (hstrobe : seq.strobe ≤ 1)
    (h1 : (seq.start : ℚ) ≤ timeline_frame)
    (h2 : timeline_frame ≤ (seq.start : ℚ) + (seq.len : ℚ) - 1) :
    SEQ_give_frame_index sc { seq with flag_reverse_frames := true } timeline_frame
      + SEQ_give_frame_index sc { seq with flag_reverse_frames := false } timeline_frame
      = (seq.len : ℚ) - 1 := by
  have hlen1 : (1 : ℚ) ≤ seq.len := by exact_mod_cast hlen
  have key : ∀ b : Bool,
      SEQ_give_frame_index sc { seq with flag_reverse_frames := b } timeline_frame
        = if b then (seq.start : ℚ) + (seq.len : ℚ) - 1 - timeline_frame
          else timeline_frame - (seq.start : ℚ) := by
    intro b
    have hrate2 : SEQ_time_media_playback_rate_factor_get sc
        { seq with flag_reverse_frames := b } = 1 := hrate
    have hret2 : SEQ_retiming_is_active { seq with flag_reverse_frames := b } = false := hret
    have hlength : SEQ_time_strip_length_get sc { seq with flag_reverse_frames := b }
        = seq.len := by
      simp [SEQ_time_strip_length_get, hret2, hrate2, float_to_int]
    have hendv : frame_index_end sc { seq with flag_reverse_frames := b }
        = (seq.start : ℚ) + (seq.len : ℚ) - 1 := by
      simp only [frame_index_end, htype, Bool.false_eq_true, if_false,
        SEQ_time_content_end_frame_get, hlength, SEQ_time_start_frame_get]
      push_cast
      ring
    have hmax : frame_index_max sc { seq with flag_reverse_frames := b }
        = (seq.len : ℚ) - 1 := by
      simp [frame_index_max, htype]
    have hend : ¬ (seq.start : ℚ) + (seq.len : ℚ) - 1 < (seq.start : ℚ) := by
      linarith
    have hsingle2 : ¬ (seq.type = SEQ_TYPE_IMAGE ∧
        SEQ_transform_single_image_check { seq with flag_reverse_frames := b } = true) :=
      hsingle
    unfold SEQ_give_frame_index
    simp only [hendv, hmax, hrate2, hret2, SEQ_time_start_frame_get, if_neg hend,
      if_neg hsingle2, if_neg (not_lt.mpr hstrobe), Bool.false_eq_true, if_false, mul_one,
      max_ff_eq_max]
    rw [clamp_f_eq_min_max _ _ (sub_nonneg.mpr hlen1), max_eq_left (le_max_right _ _)]
    cases b
    · simp only [Bool.false_eq_true, if_false]
      rw [max_eq_left (by linarith), min_eq_left (by linarith)]
    · simp only [if_true]
      rw [max_eq_left (by linarith), min_eq_left (by linarith)]
  rw [key true, key false]
  simp only [if_true, Bool.false_eq_true, if_false]
  ring

/-- Witness for C34: the movie strip of 10 frames that starts at frame 5, at frame 8: the
indices are 6 and 3. -/
theorem give_frame_index_reversal_reflects_witness :
    strip_movie_at_5.type.is_effect = false ∧
    1 ≤ strip_movie_at_5.len ∧
    SEQ_retiming_is_active strip_movie_at_5 = false ∧
    SEQ_time_media_playback_rate_factor_get scene_one_movie strip_movie_at_5 = 1 ∧
    strip_movie_at_5.strobe ≤ 1 ∧
    ((strip_movie_at_5.start : ℚ) ≤ 8 ∧
      (8 : ℚ) ≤ (strip_movie_at_5.start : ℚ) + (strip_movie_at_5.len : ℚ) - 1) ∧
    SEQ_give_frame_index scene_one_movie
        { strip_movie_at_5 with flag_reverse_frames := true } 8
      + SEQ_give_frame_index scene_one_movie
        { strip_movie_at_5 with flag_reverse_frames := false } 8
      = (strip_movie_at_5.len : ℚ) - 1 :=
  have hstrobe : strip_movie_at_5.strobe ≤ 1 := by simp [strip_movie_at_5, Strip.null]
  have h1 : (strip_movie_at_5.start : ℚ) ≤ 8 := by
    simp [strip_movie_at_5, Strip.null]; norm_num
  have h2 : (8 : ℚ) ≤ (strip_movie_at_5.start : ℚ) + (strip_movie_at_5.len : ℚ) - 1 := by
    simp [strip_movie_at_5, Strip.null]; norm_num
  ⟨rfl, by decide, rfl, rfl, hstrobe, ⟨h1, h2⟩,
   give_frame_index_reversal_reflects scene_one_movie strip_movie_at_5 8 rfl (by decide)
     (by decide) rfl rfl hstrobe h1 h2⟩

/-- The strobe step on integers: for `0 ≤ u` and `1 < s` the quantized value is
`s * (u / s)`, the largest multiple of `s` that does not exceed `u`. -/
theorem strobe_quantize_int (u s : Int) (hu : 0 ≤ u) (hs : 1 < s) :
    (u : ℚ) - fmodf (u : ℚ) (s : ℚ) = ((s * (u / s) : Int) : ℚ) := by
  have hs0 : (0 : ℚ) < (s : ℚ) := by exact_mod_cast (by omega : (0 : Int) < s)
  have hq : (0 : ℚ) ≤ (u : ℚ) / (s : ℚ) := div_nonneg (by exact_mod_cast hu) hs0.le
  have hfl : ⌊(u : ℚ) / (s : ℚ)⌋ = u / s := by
    have h := Rat.floor_intCast_div_natCast u s.toNat
    have hc : ((s.toNat : Int)) = s := Int.toNat_of_nonneg (by omega)
    have hc2 : ((s.toNat : ℚ)) = (s : ℚ) := by
      exact_mod_cast congrArg (fun z : Int => (z : ℚ)) hc
    rw [hc2, hc] at h
    exact h
  simp only [fmodf, float_to_int, hq, if_true, hfl]
  push_cast
  ring

/-- The frame index before the strobe step is an integer of `[0, frame_index_max]` when the
timeline frame is an integer, retiming is inactive and the playback-rate factor is 1. -/
theorem give_frame_index_unstrobed_int (sc : Scene) (seq : Strip) (timeline_frame : Int)
    (hret : SEQ_retiming_is_active seq = false)
    (hrate : SEQ_time_media_playback_rate_factor_get sc seq = 1)
    (hend : ¬ frame_index_end sc seq < (SEQ_time_start_frame_get seq : ℚ)) :
    ∃ u : Int, 0 ≤ u ∧
      (u : ℚ) = (if seq.type = SEQ_TYPE_IMAGE ∧ SEQ_transform_single_image_check seq = true
        then 0
        else clamp_f (max_ff (if seq.flag_reverse_frames = true
            then frame_index_end sc seq - (timeline_frame : ℚ)
            else (timeline_frame : ℚ) - (SEQ_time_start_frame_get seq : ℚ)) 0) 0
          (frame_index_max sc seq)) ∧
      SEQ_give_frame_index sc seq timeline_frame
        = if seq.strobe > 1 then (u : ℚ) - fmodf (u : ℚ) seq.strobe else (u : ℚ) := by
  by_cases hsingle : seq.type = SEQ_TYPE_IMAGE ∧ SEQ_transform_single_image_check seq = true
  · refine ⟨0, le_refl _, by rw [if_pos hsingle]; simp, ?_⟩
    unfold SEQ_give_frame_index
    simp only [if_neg hend, if_pos hsingle]
    split_ifs
    · simp [fmodf, float_to_int]
    · simp
  · have hE : ∃ e : Int, frame_index_end sc seq = (e : ℚ) := by
      unfold frame_index_end
      split_ifs
      · exact ⟨_, rfl⟩
      · exact ⟨SEQ_time_content_end_frame_get sc seq - 1, by push_cast; ring⟩
    have hM : ∃ m : Int, frame_index_max sc seq = (m : ℚ) := by
      unfold frame_index_max
      split_ifs
      · exact ⟨SEQ_time_right_handle_frame_get sc seq - SEQ_time_start_frame_get seq,
          by push_cast; ring⟩
      · exact ⟨seq.len - 1, by push_cast; ring⟩
    obtain ⟨e, he⟩ := hE
    obtain ⟨m, hm⟩ := hM
    have hm0 : 0 ≤ m := by
      have h0 : (0 : ℚ) ≤ frame_index_max sc seq := by
        apply frame_index_max_nonneg sc seq hend
        intro hty
        have hl2 : SEQ_time_strip_length_get sc seq = seq.len := by
          simp [SEQ_time_strip_length_get, hret, hrate, float_to_int]
        rw [frame_index_end_lt_iff, hty] at hend
        simp only [Bool.false_eq_true, if_false, hl2] at hend
        omega
      rw [hm] at h0
      exact_mod_cast h0
    have hm0q : (0 : ℚ) ≤ (m : ℚ) := by exact_mod_cast hm0
    have hx : clamp_f (max_ff (if seq.flag_reverse_frames = true
          then frame_index_end sc seq - (timeline_frame : ℚ)
          else (timeline_frame : ℚ) - (SEQ_time_start_frame_get seq : ℚ)) 0) 0
        (frame_index_max sc seq)
        = ((min (max (if seq.flag_reverse_frames then e - timeline_frame
            else timeline_frame - SEQ_time_start_frame_get seq) 0) m : Int) : ℚ) := by
      rw [hm, he, clamp_f_eq_min_max _ _ hm0q, max_ff_eq_max,
        max_eq_left (le_max_right _ _)]
      split_ifs <;> push_cast <;> rfl
    refine ⟨min (max (if seq.flag_reverse_frames then e - timeline_frame
        else timeline_frame - SEQ_time_start_frame_get seq) 0) m, ?_, ?_, ?_⟩
    · exact le_min (le_max_right _ _) hm0
    · rw [if_neg hsingle, hx]
    · unfold SEQ_give_frame_index
      simp only [if_neg hend, if_neg hsingle, hret, hrate, Bool.false_eq_true, if_false,
        mul_one]
      rw [hx]

/-- C33 (as amended): for a strip whose content is not rejected (its effective content end
does not precede its start), with retiming inactive and the playback-rate factor 1, and for
every integer timeline frame: with an integer strobe factor `s > 1`, `SEQ_give_frame_index`
returns the largest multiple of `s` that does not exceed the un-strobed index (the index of
the same strip with the strobe factor 1): both are integers, the result is divisible by `s`,
is at most the un-strobed index and is above the un-strobed index minus `s`; with a strobe
factor of at most 1 the result is the un-strobed index. -/
theorem give_frame_index_strobe_quantizes (sc : Scene) (seq : Strip) (timeline_frame : Int)
    (hret : SEQ_retiming_is_active seq = false)
    (hrate : SEQ_time_media_playback_rate_factor_get sc seq = 1)
    (hend : ¬ frame_index_end sc seq < (SEQ_time_start_frame_get seq : ℚ)) :
    (∀ s : Int, 1 < s → seq.strobe = (s : ℚ) →
      ∃ u r : Int,
        SEQ_give_frame_index sc { seq with strobe := 1 } timeline_frame = (u : ℚ) ∧
        SEQ_give_frame_index sc seq timeline_frame = (r : ℚ) ∧
        s ∣ r ∧ r ≤ u ∧ u - s < r) ∧
    (seq.strobe ≤ 1 →
      SEQ_give_frame_index sc seq timeline_frame
        = SEQ_give_frame_index sc { seq with strobe := 1 } timeline_frame) := by
  obtain ⟨u, hu0, huv, h2⟩ :=
    give_frame_index_unstrobed_int sc seq timeline_frame hret hrate hend
  obtain ⟨u1, _, huv1, h21⟩ :=
    give_frame_index_unstrobed_int sc { seq with strobe := 1 } timeline_frame hret hrate hend
  have hu1 : u1 = u := by
    have e : (u1 : ℚ) = (u : ℚ) := huv1.trans huv.symm
    exact_mod_cast e
  have h1 : SEQ_give_frame_index sc { seq with strobe := 1 } timeline_frame = (u : ℚ) := by
    rw [h21, hu1]
    exact if_neg (by norm_num)
  constructor
  · intro s hs hstrobe
    have hsq : (s : ℚ) > 1 := by exact_mod_cast hs
    refine ⟨u, s * (u / s), h1, ?_, Dvd.intro _ rfl, ?_, ?_⟩
    · rw [h2, hstrobe, if_pos hsq, strobe_quantize_int u s hu0 hs]
    · exact Int.mul_ediv_self_le (by omega)
    · have := Int.lt_mul_ediv_self_add (x := u) (k := s) (by omega)
      omega
  · intro hstrobe
    rw [h2, if_neg (not_lt.mpr hstrobe), h1]

/-- Witness for C33: the movie strip of 10 frames that starts at frame 5, with the strobe
factor 3, at frame 10: the un-strobed index is 5 and the result is 3. -/
theorem give_frame_index_strobe_quantizes_witness :
    SEQ_retiming_is_active strip_movie_strobed = false ∧
    SEQ_time_media_playback_rate_factor_get scene_one_movie strip_movie_strobed = 1 ∧
    ¬ frame_index_end scene_one_movie strip_movie_strobed
        < (SEQ_time_start_frame_get strip_movie_strobed : ℚ) ∧
    strip_movie_strobed.strobe = ((3 : Int) : ℚ) ∧
    ∃ u r : Int,
      SEQ_give_frame_index scene_one_movie { strip_movie_strobed with strobe := 1 }
        ((10 : Int) : ℚ) = (u : ℚ) ∧
      SEQ_give_frame_index scene_one_movie strip_movie_strobed ((10 : Int) : ℚ) = (r : ℚ) ∧
      (3 : Int) ∣ r ∧ r ≤ u ∧ u - 3 < r :=
  have hend : ¬ frame_index_end scene_one_movie strip_movie_strobed
      < (SEQ_time_start_frame_get strip_movie_strobed : ℚ) := by
    simp [frame_index_end, strip_movie_strobed, Strip.null, StripType.is_effect,
      SEQ_time_content_end_frame_get, SEQ_time_strip_length_get, SEQ_retiming_is_active,
      SEQ_time_media_playback_rate_factor_get, SEQ_time_start_frame_get, float_to_int]
    norm_num
  have hstrobe : strip_movie_strobed.strobe = ((3 : Int) : ℚ) := by
    simp [strip_movie_strobed, Strip.null]
  ⟨rfl, rfl, hend, hstrobe,
   (give_frame_index_strobe_quantizes scene_one_movie strip_movie_strobed 10 rfl rfl hend).1
     3 (by decide) hstrobe⟩

/-- Counterexample to C33 as stated: the movie strip without content frames and with the
strobe factor 2 has retiming inactive and the playback-rate factor 1; at frame 0
`SEQ_give_frame_index` returns the sentinel `-1`, with the strobe factor 2 as with the strobe
factor 1, and `-1` is not divisible by 2. -/
theorem give_frame_index_strobe_counterexample :
    SEQ_retiming_is_active strip_empty_strobed = false ∧
    SEQ_time_media_playback_rate_factor_get scene_one_movie strip_empty_strobed = 1 ∧
    strip_empty_strobed.strobe = 2 ∧
    SEQ_give_frame_index scene_one_movie { strip_empty_strobed with strobe := 1 } 0 = -1 ∧
    SEQ_give_frame_index scene_one_movie strip_empty_strobed 0 = -1 ∧
    ¬ (2 : Int) ∣ -1 := by
  refine ⟨rfl, rfl, rfl, ?_, ?_, by decide⟩ <;>
  · apply give_frame_index_rejects
    simp [frame_index_end, strip_empty_strobed, Strip.null, StripType.is_effect,
      SEQ_time_content_end_frame_get, SEQ_time_strip_length_get, SEQ_retiming_is_active,
      SEQ_time_media_playback_rate_factor_get, SEQ_time_start_frame_get, float_to_int]

/-! ## Translation of the handles -/

/-- The strip that `seq_time_translate_handles` leaves in the place of `s`: both handles of a
strip without inputs are moved by `offset`. -/
theorem translate_strip_handles (sc : Scene) (s : Strip) (offset : Int)
    (hin : s.inputs = []) :
    SEQ_time_left_handle_frame_get sc
        { s with startofs := s.startofs + offset, endofs := s.endofs - offset,
                 startdisp := s.startdisp + offset, enddisp := s.enddisp - offset }
      = SEQ_time_left_handle_frame_get sc s + offset ∧
    SEQ_time_right_handle_frame_get sc
        { s with startofs := s.startofs + offset, endofs := s.endofs - offset,
                 startdisp := s.startdisp + offset, enddisp := s.enddisp - offset }
      = SEQ_time_right_handle_frame_get sc s + offset := by
  have hin2 : Strip.inputs
      { s with startofs := s.startofs + offset, endofs := s.endofs - offset,
               startdisp := s.startdisp + offset, enddisp := s.enddisp - offset } = [] := hin
  have hlen : SEQ_time_strip_length_get sc
      { s with startofs := s.startofs + offset, endofs := s.endofs - offset,
               startdisp := s.startdisp + offset, enddisp := s.enddisp - offset }
      = SEQ_time_strip_length_get sc s := rfl
  constructor
  · rw [left_handle_of_no_inputs _ _ hin2, left_handle_of_no_inputs _ _ hin]
    simp only
    omega
  · rw [right_handle_of_no_inputs _ _ hin2, right_handle_of_no_inputs _ _ hin]
    simp only [SEQ_time_content_end_frame_get, hlen, SEQ_time_start_frame_get]
    omega

/-- C39: for a strip without effect inputs and with retiming inactive, in a well-formed strip
graph, and for every integer offset, `seq_time_translate_handles` returns (with enough fuel),
moves the left handle and the right handle by `offset`, so that the displayed length is what
it was, and leaves `start` and `len` as they were. -/
theorem translate_handles_moves_both (sc : Scene) (rk lvl : StripId → Nat)
    (hwf : WellFormed sc rk lvl) (seq : StripId) (hseq : seq < sc.strips.length)
    (hin : (sc.strip seq).inputs = [])
    (hret : SEQ_retiming_is_active (sc.strip seq) = false)
    (offset : Int) :
    ∃ N, ∀ fuel, N ≤ fuel →
      ∃ r, seq_time_translate_handles fuel sc seq offset = some r ∧
        SEQ_time_left_handle_frame_get r.1 (r.1.strip seq)
          = SEQ_time_left_handle_frame_get sc (sc.strip seq) + offset ∧
        SEQ_time_right_handle_frame_get r.1 (r.1.strip seq)
          = SEQ_time_right_handle_frame_get sc (sc.strip seq) + offset ∧
        SEQ_time_right_handle_frame_get r.1 (r.1.strip seq)
            - SEQ_time_left_handle_frame_get r.1 (r.1.strip seq)
          = SEQ_time_right_handle_frame_get sc (sc.strip seq)
            - SEQ_time_left_handle_frame_get sc (sc.strip seq) ∧
        (r.1.strip seq).start = (sc.strip seq).start ∧
        (r.1.strip seq).len = (sc.strip seq).len := by
  have _ := hret
  obtain ⟨N, hN⟩ := update_effects_and_meta_spec sc rk lvl hwf
  refine ⟨N + lvl seq, fun fuel hfuel => ?_⟩
  unfold seq_time_translate_handles
  simp only [Scene.modify_modify]
  have hsh : SameShape sc (sc.modify seq fun s =>
      { s with startofs := s.startofs + offset, endofs := s.endofs - offset,
               startdisp := s.startdisp + offset, enddisp := s.enddisp - offset }) :=
    SameShape.modify sc seq _ (fun _ => rfl)
  obtain ⟨r, hr, hshr, hself⟩ := hN fuel _ seq hsh hfuel
  have key := translate_strip_handles sc (sc.strip seq) offset hin
  have hstrip : r.1.strip seq
      = { sc.strip seq with
          startofs := (sc.strip seq).startofs + offset, endofs := (sc.strip seq).endofs - offset,
          startdisp := (sc.strip seq).startdisp + offset,
          enddisp := (sc.strip seq).enddisp - offset } := by
    rw [hself, Scene.strip_modify_self _ _ _ hseq]
  have hL : SEQ_time_left_handle_frame_get r.1 (r.1.strip seq)
      = SEQ_time_left_handle_frame_get sc (sc.strip seq) + offset := by
    rw [hstrip, left_handle_scene r.1 sc]
    exact key.1
  have hR : SEQ_time_right_handle_frame_get r.1 (r.1.strip seq)
      = SEQ_time_right_handle_frame_get sc (sc.strip seq) + offset := by
    rw [hstrip, right_handle_scene_congr sc r.1 _ hshr.1 hshr.2.1]
    exact key.2
  refine ⟨r, hr, hL, hR, ?_, ?_, ?_⟩
  · rw [hL, hR]
    omega
  · rw [hstrip]
  · rw [hstrip]

/-- Witness for C39: the movie strip on frames [10,40) inside the nested meta of
`scene_nested_meta`, with its handles moved by 3 frames. -/
theorem translate_handles_moves_both_witness :
    WellFormed scene_nested_meta (fun i => i) lvl_nested_meta ∧
    4 < scene_nested_meta.strips.length ∧
    (scene_nested_meta.strip 4).inputs = [] ∧
    SEQ_retiming_is_active (scene_nested_meta.strip 4) = false ∧
    ∃ N, ∀ fuel, N ≤ fuel →
      ∃ r, seq_time_translate_handles fuel scene_nested_meta 4 3 = some r ∧
        SEQ_time_left_handle_frame_get r.1 (r.1.strip 4)
          = SEQ_time_left_handle_frame_get scene_nested_meta (scene_nested_meta.strip 4) + 3 ∧
        SEQ_time_right_handle_frame_get r.1 (r.1.strip 4)
          = SEQ_time_right_handle_frame_get scene_nested_meta (scene_nested_meta.strip 4) + 3 ∧
        SEQ_time_right_handle_frame_get r.1 (r.1.strip 4)
            - SEQ_time_left_handle_frame_get r.1 (r.1.strip 4)
          = SEQ_time_right_handle_frame_get scene_nested_meta (scene_nested_meta.strip 4)
            - SEQ_time_left_handle_frame_get scene_nested_meta (scene_nested_meta.strip 4) ∧
        (r.1.strip 4).start = (scene_nested_meta.strip 4).start ∧
        (r.1.strip 4).len = (scene_nested_meta.strip 4).len :=
  ⟨scene_nested_meta_wf, by decide, by decide, by decide,
   translate_handles_moves_both scene_nested_meta (fun i => i) lvl_nested_meta
     scene_nested_meta_wf 4 (by decide) (by decide) (by decide) 3⟩
/-! ## Edit points -/

theorem find_edit_candidate_left (sc : Scene) (t : Int) (best : Int × Int) (c : Int)
    (hb : best.2 ≤ sc.MAXFRAME * 2) :
    find_edit_candidate sc t SEQ_SIDE_LEFT best c
      = if c < t ∧ t - c < best.2 then (c, t - c) else best := by
  simp only [find_edit_candidate, if_true]
  by_cases hc : c < t
  · simp only [hc, if_true, true_and]
  · simp only [hc, if_false, false_and]
    rw [if_neg (by omega)]

theorem find_edit_candidate_right (sc : Scene) (t : Int) (best : Int × Int) (c : Int)
    (hb : best.2 ≤ sc.MAXFRAME * 2) :
    find_edit_candidate sc t SEQ_SIDE_RIGHT best c
      = if t < c ∧ c - t < best.2 then (c, c - t) else best := by
  have hne : ¬ (SEQ_SIDE_RIGHT = SEQ_SIDE_LEFT) := by decide
  simp only [find_edit_candidate, if_neg hne, if_true, gt_iff_lt]
  by_cases hc : t < c
  · simp only [hc, if_true, true_and]
  · simp only [hc, if_false, false_and]
    rw [if_neg (by omega)]

theorem editBest_le (sc : Scene) (t : Int) (good : Int → Prop) (dist : Int → Int)
    (S : Int → Prop) (best : Int × Int) (h : EditBest sc t good dist S best) :
    best.2 ≤ sc.MAXFRAME * 2 := by
  rcases h with ⟨h1, _⟩ | ⟨_, _, h3, _⟩
  · exact le_of_eq h1
  · exact le_of_lt h3

theorem editBest_congr (sc : Scene) (t : Int) (good : Int → Prop) (dist : Int → Int)
    (S S2 : Int → Prop) (best : Int × Int) (hS : ∀ h, S h ↔ S2 h)
    (h : EditBest sc t good dist S best) : EditBest sc t good dist S2 best := by
  rcases h with ⟨h1, h2, h3⟩ | ⟨h1, h2, h3, h4, h5⟩
  · exact Or.inl ⟨h1, h2, fun h hh => h3 h ((hS h).mpr hh)⟩
  · exact Or.inr ⟨h1, h2, h3, (hS _).mp h4, fun h hh => h5 h ((hS h).mpr hh)⟩

/-- One frame more: the invariant of the search goes over to the frames seen with it. -/
theorem editBest_step (sc : Scene) (t : Int) (good : Int → Prop) [DecidablePred good]
    (dist : Int → Int) (S : Int → Prop) (best : Int × Int) (c : Int)
    (hd : good c → dist c < sc.MAXFRAME * 2)
    (h : EditBest sc t good dist S best) :
    EditBest sc t good dist (fun h => S h ∨ h = c)
      (if good c ∧ dist c < best.2 then (c, dist c) else best) := by
  by_cases hc : good c ∧ dist c < best.2
  · rw [if_pos hc]
    refine Or.inr ⟨hc.1, rfl, hd hc.1, Or.inr rfl, fun x hx hg => ?_⟩
    rcases hx with hx | rfl
    · rcases h with ⟨_, _, h3⟩ | ⟨_, h2, _, _, h5⟩
      · exact absurd hg (h3 x hx)
      · have := h5 x hx hg
        have := hc.2
        simp only at *
        omega
    · exact le_refl _
  · rw [if_neg hc]
    rcases h with ⟨h1, h2, h3⟩ | ⟨h1, h2, h3, h4, h5⟩
    · refine Or.inl ⟨h1, h2, fun x hx hg => ?_⟩
      rcases hx with hx | rfl
      · exact h3 x hx hg
      · exact hc ⟨hg, by have := hd hg; omega⟩
    · refine Or.inr ⟨h1, h2, h3, Or.inl h4, fun x hx hg => ?_⟩
      rcases hx with hx | rfl
      · exact h5 x hx hg
      · have : ¬ dist x < best.2 := fun hlt => hc ⟨hg, hlt⟩
        omega

/-- The loops of `SEQ_time_find_next_prev_edit` with `do_center` off keep the invariant of
the search, over the handle frames of the strips that are not skipped. -/
theorem find_edit_fold (sc : Scene) (is_muted : Strip → Bool) (t : Int) (side : Int)
    (do_skip_mute do_unselected : Bool) (good : Int → Prop) [DecidablePred good]
    (dist : Int → Int)
    (hcand : ∀ best c, best.2 ≤ sc.MAXFRAME * 2 →
      find_edit_candidate sc t side best c
        = if good c ∧ dist c < best.2 then (c, dist c) else best) :
    ∀ (l d : List StripId) (best : Int × Int),
      (∀ seq ∈ l,
        (good (SEQ_time_left_handle_frame_get sc (sc.strip seq)) →
          dist (SEQ_time_left_handle_frame_get sc (sc.strip seq)) < sc.MAXFRAME * 2) ∧
        (good (SEQ_time_right_handle_frame_get sc (sc.strip seq)) →
          dist (SEQ_time_right_handle_frame_get sc (sc.strip seq)) < sc.MAXFRAME * 2)) →
      EditBest sc t good dist (EditHandle sc d is_muted do_skip_mute do_unselected) best →
      EditBest sc t good dist (EditHandle sc (d ++ l) is_muted do_skip_mute do_unselected)
        (l.foldl
          (fun best seq =>
            if do_skip_mute = true ∧ is_muted (sc.strip seq) = true then best
            else if do_unselected = true ∧ (sc.strip seq).flag_select = true then best
            else
              [SEQ_time_left_handle_frame_get sc (sc.strip seq),
               SEQ_time_right_handle_frame_get sc (sc.strip seq)].foldl
                (find_edit_candidate sc t side) best)
          best) := by
  intro l
  induction l with
  | nil =>
    intro d best _ hb
    simpa using hb
  | cons a l ih =>
    intro d best hl hb
    simp only [List.foldl_cons]
    rw [show d ++ a :: l = d ++ [a] ++ l by simp]
    apply ih (d ++ [a]) _ (fun seq hs => hl seq (List.mem_cons_of_mem _ hs))
    have hmem : ∀ h, EditHandle sc (d ++ [a]) is_muted do_skip_mute do_unselected h ↔
        (EditHandle sc d is_muted do_skip_mute do_unselected h ∨
          (¬ (do_skip_mute = true ∧ is_muted (sc.strip a) = true) ∧
           ¬ (do_unselected = true ∧ (sc.strip a).flag_select = true) ∧
           (h = SEQ_time_left_handle_frame_get sc (sc.strip a) ∨
             h = SEQ_time_right_handle_frame_get sc (sc.strip a)))) := by
      intro h
      unfold EditHandle
      constructor
      · rintro ⟨seq, hs, h1, h2, h3⟩
        rcases List.mem_append.mp hs with hs | hs
        · exact Or.inl ⟨seq, hs, h1, h2, h3⟩
        · rw [List.mem_singleton] at hs
          subst hs
          exact Or.inr ⟨h1, h2, h3⟩
      · rintro (⟨seq, hs, h1, h2, h3⟩ | ⟨h1, h2, h3⟩)
        · exact ⟨seq, List.mem_append_left _ hs, h1, h2, h3⟩
        · exact ⟨a, List.mem_append_right _ (List.mem_singleton.mpr rfl), h1, h2, h3⟩
    by_cases hm : do_skip_mute = true ∧ is_muted (sc.strip a) = true
    · rw [if_pos hm]
      refine editBest_congr sc t good dist _ _ best (fun h => ?_) hb
      rw [hmem h]
      exact ⟨Or.inl, fun hh => hh.elim id (fun hh => absurd hm hh.1)⟩
    rw [if_neg hm]
    by_cases hsel : do_unselected = true ∧ (sc.strip a).flag_select = true
    · rw [if_pos hsel]
      refine editBest_congr sc t good dist _ _ best (fun h => ?_) hb
      rw [hmem h]
      exact ⟨Or.inl, fun hh => hh.elim id (fun hh => absurd hsel hh.2.1)⟩
    rw [if_neg hsel]
    obtain ⟨hdl, hdr⟩ := hl a (List.mem_cons_self _ _)
    simp only [List.foldl_cons, List.foldl_nil]
    have h1 := editBest_step sc t good dist _ best _ hdl hb
    rw [← hcand best _ (editBest_le sc t good dist _ best hb)] at h1
    have h2 := editBest_step sc t good dist _ _ _ hdr h1
    rw [← hcand _ _ (editBest_le sc t good dist _ _ h1)] at h2
    refine editBest_congr sc t good dist _ _ _ (fun h => ?_) h2
    rw [hmem h]
    constructor
    · rintro ((hh | hh) | hh)
      · exact Or.inl hh
      · exact Or.inr ⟨hm, hsel, Or.inl hh⟩
      · exact Or.inr ⟨hm, hsel, Or.inr hh⟩
    · rintro (hh | ⟨_, _, hh | hh⟩)
      · exact Or.inl (Or.inl hh)
      · exact Or.inl (Or.inr hh)
      · exact Or.inr hh

/-- C40: for a strip list whose handle frames lie within `MAXFRAME` of the timeline frame,
`SEQ_time_find_next_prev_edit` with `do_center` off returns, for side LEFT, the greatest
handle frame of a considered strip that is before the timeline frame, and for side RIGHT the
least one that is after it; when no considered strip has such a handle the timeline frame is
returned, and so it is when there is no editing data. -/
theorem find_next_prev_edit_nearest (sc : Scene) (seqbasep : List StripId)
    (is_muted : Strip → Bool) (timeline_frame : Int) (do_skip_mute do_unselected : Bool)
    (hwithin : ∀ seq ∈ seqbasep,
      |SEQ_time_left_handle_frame_get sc (sc.strip seq) - timeline_frame| ≤ sc.MAXFRAME ∧
      |SEQ_time_right_handle_frame_get sc (sc.strip seq) - timeline_frame| ≤ sc.MAXFRAME) :
    ((∃ h, EditHandle sc seqbasep is_muted do_skip_mute do_unselected h ∧ h < timeline_frame) →
      EditHandle sc seqbasep is_muted do_skip_mute do_unselected
        (SEQ_time_find_next_prev_edit sc (some seqbasep) is_muted timeline_frame
          SEQ_SIDE_LEFT do_skip_mute false do_unselected) ∧
      SEQ_time_find_next_prev_edit sc (some seqbasep) is_muted timeline_frame
          SEQ_SIDE_LEFT do_skip_mute false do_unselected < timeline_frame ∧
      ∀ h, EditHandle sc seqbasep is_muted do_skip_mute do_unselected h → h < timeline_frame →
        h ≤ SEQ_time_find_next_prev_edit sc (some seqbasep) is_muted timeline_frame
          SEQ_SIDE_LEFT do_skip_mute false do_unselected) ∧
    ((¬ ∃ h, EditHandle sc seqbasep is_muted do_skip_mute do_unselected h ∧
        h < timeline_frame) →
      SEQ_time_find_next_prev_edit sc (some seqbasep) is_muted timeline_frame
          SEQ_SIDE_LEFT do_skip_mute false do_unselected = timeline_frame) ∧
    ((∃ h, EditHandle sc seqbasep is_muted do_skip_mute do_unselected h ∧ timeline_frame < h) →
      EditHandle sc seqbasep is_muted do_skip_mute do_unselected
        (SEQ_time_find_next_prev_edit sc (some seqbasep) is_muted timeline_frame
          SEQ_SIDE_RIGHT do_skip_mute false do_unselected) ∧
      timeline_frame < SEQ_time_find_next_prev_edit sc (some seqbasep) is_muted
          timeline_frame SEQ_SIDE_RIGHT do_skip_mute false do_unselected ∧
      ∀ h, EditHandle sc seqbasep is_muted do_skip_mute do_unselected h → timeline_frame < h →
        SEQ_time_find_next_prev_edit sc (some seqbasep) is_muted timeline_frame
          SEQ_SIDE_RIGHT do_skip_mute false do_unselected ≤ h) ∧
    ((¬ ∃ h, EditHandle sc seqbasep is_muted do_skip_mute do_unselected h ∧
        timeline_frame < h) →
      SEQ_time_find_next_prev_edit sc (some seqbasep) is_muted timeline_frame
          SEQ_SIDE_RIGHT do_skip_mute false do_unselected = timeline_frame) ∧
    (∀ side do_center,
      SEQ_time_find_next_prev_edit sc none is_muted timeline_frame side do_skip_mute
        do_center do_unselected = timeline_frame) := by
  have hinit : ∀ (good : Int → Prop) (dist : Int → Int),
      EditBest sc timeline_frame good dist
        (EditHandle sc [] is_muted do_skip_mute do_unselected)
        (timeline_frame, sc.MAXFRAME * 2) := by
    intro good dist
    refine Or.inl ⟨rfl, rfl, fun h hh => ?_⟩
    obtain ⟨seq, hs, _⟩ := hh
    simp at hs
  have hL := find_edit_fold sc is_muted timeline_frame SEQ_SIDE_LEFT do_skip_mute
    do_unselected (fun h => h < timeline_frame) (fun h => timeline_frame - h)
    (fun best c hb => find_edit_candidate_left sc timeline_frame best c hb)
    seqbasep [] (timeline_frame, sc.MAXFRAME * 2)
    (fun seq hs => by
      obtain ⟨h1, h2⟩ := hwithin seq hs
      rw [abs_le] at h1 h2
      constructor <;> intro hg <;> dsimp only at hg ⊢ <;> omega)
    (hinit _ _)
  have hR := find_edit_fold sc is_muted timeline_frame SEQ_SIDE_RIGHT do_skip_mute
    do_unselected (fun h => timeline_frame < h) (fun h => h - timeline_frame)
    (fun best c hb => find_edit_candidate_right sc timeline_frame best c hb)
    seqbasep [] (timeline_frame, sc.MAXFRAME * 2)
    (fun seq hs => by
      obtain ⟨h1, h2⟩ := hwithin seq hs
      rw [abs_le] at h1 h2
      constructor <;> intro hg <;> dsimp only at hg ⊢ <;> omega)
    (hinit _ _)
  simp only [List.nil_append] at hL hR
  have eL : SEQ_time_find_next_prev_edit sc (some seqbasep) is_muted timeline_frame
      SEQ_SIDE_LEFT do_skip_mute false do_unselected = (seqbasep.foldl
          (fun best seq =>
            if do_skip_mute = true ∧ is_muted (sc.strip seq) = true then best
            else if do_unselected = true ∧ (sc.strip seq).flag_select = true then best
            else
              [SEQ_time_left_handle_frame_get sc (sc.strip seq),
               SEQ_time_right_handle_frame_get sc (sc.strip seq)].foldl
                (find_edit_candidate sc timeline_frame SEQ_SIDE_LEFT) best)
          (timeline_frame, sc.MAXFRAME * 2)).1 := by
    simp [SEQ_time_find_next_prev_edit]
  have eR : SEQ_time_find_next_prev_edit sc (some seqbasep) is_muted timeline_frame
      SEQ_SIDE_RIGHT do_skip_mute false do_unselected = (seqbasep.foldl
          (fun best seq =>
            if do_skip_mute = true ∧ is_muted (sc.strip seq) = true then best
            else if do_unselected = true ∧ (sc.strip seq).flag_select = true then best
            else
              [SEQ_time_left_handle_frame_get sc (sc.strip seq),
               SEQ_time_right_handle_frame_get sc (sc.strip seq)].foldl
                (find_edit_candidate sc timeline_frame SEQ_SIDE_RIGHT) best)
          (timeline_frame, sc.MAXFRAME * 2)).1 := by
    simp [SEQ_time_find_next_prev_edit]
  rw [eL, eR]
  refine ⟨?_, ?_, ?_, ?_, fun _ _ => rfl⟩
  · rintro ⟨h, hh, hlt⟩
    rcases hL with ⟨_, _, h3⟩ | ⟨h1, _, _, h4, h5⟩
    · exact absurd hlt (h3 h hh)
    · refine ⟨h4, h1, fun x hx hxl => ?_⟩
      have := h5 x hx hxl
      simp only at this
      omega
  · intro hno
    rcases hL with ⟨_, h2, _⟩ | ⟨h1, _, _, h4, _⟩
    · exact h2
    · exact absurd ⟨_, h4, h1⟩ hno
  · rintro ⟨h, hh, hlt⟩
    rcases hR with ⟨_, _, h3⟩ | ⟨h1, _, _, h4, h5⟩
    · exact absurd hlt (h3 h hh)
    · refine ⟨h4, h1, fun x hx hxl => ?_⟩
      have := h5 x hx hxl
      simp only at this
      omega
  · intro hno
    rcases hR with ⟨_, h2, _⟩ | ⟨h1, _, _, h4, _⟩
    · exact h2
    · exact absurd ⟨_, h4, h1⟩ hno

theorem two_strips_gap_handles :
    SEQ_time_left_handle_frame_get scene_two_strips_gap (scene_two_strips_gap.strip 0) = 0 ∧
    SEQ_time_right_handle_frame_get scene_two_strips_gap (scene_two_strips_gap.strip 0) = 10 ∧
    SEQ_time_left_handle_frame_get scene_two_strips_gap (scene_two_strips_gap.strip 1) = 20 ∧
    SEQ_time_right_handle_frame_get scene_two_strips_gap (scene_two_strips_gap.strip 1) = 30 := by
  refine ⟨?_, ?_, ?_, ?_⟩ <;>
  simp [scene_two_strips_gap, Scene.strip, Strip.null, SEQ_time_left_handle_frame_get,
    SEQ_time_right_handle_frame_get, SEQ_time_content_end_frame_get,
    SEQ_time_strip_length_get, SEQ_retiming_is_active,
    SEQ_time_media_playback_rate_factor_get, SEQ_time_start_frame_get, float_to_int]

/-- Witness for C40: the two movie strips on frames [0,10) and [20,30), none muted, and the
timeline frame 15: a handle before the frame exists (frame 10), and the result for side LEFT
is the greatest handle before frame 15. -/
theorem find_next_prev_edit_nearest_witness :
    (∀ seq ∈ [0, 1],
      |SEQ_time_left_handle_frame_get scene_two_strips_gap (scene_two_strips_gap.strip seq)
        - 15| ≤ scene_two_strips_gap.MAXFRAME ∧
      |SEQ_time_right_handle_frame_get scene_two_strips_gap (scene_two_strips_gap.strip seq)
        - 15| ≤ scene_two_strips_gap.MAXFRAME) ∧
    (∃ h, EditHandle scene_two_strips_gap [0, 1] (fun _ => false) false false h ∧ h < 15) ∧
    EditHandle scene_two_strips_gap [0, 1] (fun _ => false) false false
      (SEQ_time_find_next_prev_edit scene_two_strips_gap (some [0, 1]) (fun _ => false) 15
        SEQ_SIDE_LEFT false false false) ∧
    SEQ_time_find_next_prev_edit scene_two_strips_gap (some [0, 1]) (fun _ => false) 15
        SEQ_SIDE_LEFT false false false < 15 ∧
    ∀ h, EditHandle scene_two_strips_gap [0, 1] (fun _ => false) false false h → h < 15 →
      h ≤ SEQ_time_find_next_prev_edit scene_two_strips_gap (some [0, 1]) (fun _ => false) 15
        SEQ_SIDE_LEFT false false false := by
  obtain ⟨h0l, h0r, h1l, h1r⟩ := two_strips_gap_handles
  have hw : ∀ seq ∈ [0, 1],
      |SEQ_time_left_handle_frame_get scene_two_strips_gap (scene_two_strips_gap.strip seq)
        - 15| ≤ scene_two_strips_gap.MAXFRAME ∧
      |SEQ_time_right_handle_frame_get scene_two_strips_gap (scene_two_strips_gap.strip seq)
        - 15| ≤ scene_two_strips_gap.MAXFRAME := by
    intro seq hs
    have hM : scene_two_strips_gap.MAXFRAME = 1048574 := rfl
    simp only [List.mem_cons, List.mem_singleton, List.not_mem_nil, or_false] at hs
    rcases hs with rfl | rfl
    · rw [h0l, h0r, hM]
      constructor <;> rw [abs_le] <;> constructor <;> norm_num
    · rw [h1l, h1r, hM]
      constructor <;> rw [abs_le] <;> constructor <;> norm_num
  have hex : ∃ h, EditHandle scene_two_strips_gap [0, 1] (fun _ => false) false false h ∧
      h < 15 :=
    ⟨10, ⟨0, by simp, by simp, by simp, Or.inr h0r.symm⟩, by norm_num⟩
  exact ⟨hw, hex,
    (find_next_prev_edit_nearest scene_two_strips_gap [0, 1] (fun _ => false) 15 false false
      hw).1 hex⟩

/-! ## The reported gap -/

/-- C38: whenever `seq_time_gap_info_get` reports `gap_exists = true`, the reported region
is a non-empty run of empty frames ended by a strip: `gap_length ≥ 1`, no strip covers a
frame of `[gap_start_frame, gap_start_frame + gap_length)`, and a strip covers the frame
`gap_start_frame + gap_length`. -/
theorem gap_info_reports_empty_run (sc : Scene) (seqbase : List StripId) (initial_frame : Int)
    (r_gap_info : GapInfo)
    (hex : (seq_time_gap_info_get sc seqbase initial_frame r_gap_info).gap_exists = true) :
    1 ≤ (seq_time_gap_info_get sc seqbase initial_frame r_gap_info).gap_length ∧
    (∀ g, (seq_time_gap_info_get sc seqbase initial_frame r_gap_info).gap_start_frame ≤ g →
      g < (seq_time_gap_info_get sc seqbase initial_frame r_gap_info).gap_start_frame
            + (seq_time_gap_info_get sc seqbase initial_frame r_gap_info).gap_length →
      ¬ Covered sc seqbase g) ∧
    Covered sc seqbase
      ((seq_time_gap_info_get sc seqbase initial_frame r_gap_info).gap_start_frame
        + (seq_time_gap_info_get sc seqbase initial_frame r_gap_info).gap_length) := by
  by_cases hf : Covered sc seqbase initial_frame
  · have hf2 := (strip_exists_iff_covered sc seqbase initial_frame).mpr hf
    rw [gap_info_of_covered sc seqbase initial_frame r_gap_info hf2] at hex ⊢
    have hs1 := gap_search_forward_spec sc (SEQ_query_all_strips seqbase)
      (SEQ_timeline_boundbox sc (some seqbase)).xmax false
      ((SEQ_timeline_boundbox sc (some seqbase)).xmax - initial_frame + 1).toNat initial_frame
      (Int.self_le_toNat _)
    cases h1 : gap_search_forward sc (SEQ_query_all_strips seqbase)
        (SEQ_timeline_boundbox sc (some seqbase)).xmax false
        ((SEQ_timeline_boundbox sc (some seqbase)).xmax - initial_frame + 1).toNat
        initial_frame with
    | none =>
      rw [h1] at hex
      simp at hex
    | some u =>
      rw [h1] at hex hs1
      simp only at hex hs1 ⊢
      have hs2 := gap_search_forward_spec sc (SEQ_query_all_strips seqbase)
        (SEQ_timeline_boundbox sc (some seqbase)).xmax true
        ((SEQ_timeline_boundbox sc (some seqbase)).xmax - u + 1).toNat u
        (Int.self_le_toNat _)
      cases h2 : gap_search_forward sc (SEQ_query_all_strips seqbase)
          (SEQ_timeline_boundbox sc (some seqbase)).xmax true
          ((SEQ_timeline_boundbox sc (some seqbase)).xmax - u + 1).toNat u with
      | none =>
        rw [h2] at hex
        simp at hex
      | some e =>
        rw [h2] at hs2
        simp only at hs2 ⊢
        obtain ⟨_, _, hu, _⟩ := hs1
        obtain ⟨hue, _, he, hmin⟩ := hs2
        have hne : u ≠ e := by
          intro h
          rw [h, he] at hu
          exact absurd hu (by decide)
        refine ⟨by omega, fun g hg1 hg2 hc => ?_, ?_⟩
        · exact hmin g hg1 (by omega) ((strip_exists_iff_covered sc seqbase g).mpr hc)
        · rw [show u + (e - u) = e by omega]
          exact (strip_exists_iff_covered sc seqbase e).mp he
  · have hf2 := (strip_exists_false_iff sc seqbase initial_frame).mpr hf
    rw [gap_info_of_uncovered sc seqbase initial_frame r_gap_info hf2] at hex ⊢
    have hs2 := gap_search_forward_spec sc (SEQ_query_all_strips seqbase)
      (SEQ_timeline_boundbox sc (some seqbase)).xmax true
      ((SEQ_timeline_boundbox sc (some seqbase)).xmax - initial_frame + 1).toNat initial_frame
      (Int.self_le_toNat _)
    have hb := gap_search_backward_spec sc (SEQ_query_all_strips seqbase)
      (SEQ_timeline_boundbox sc (some seqbase)).xmin
      (initial_frame - (SEQ_timeline_boundbox sc (some seqbase)).xmin + 1).toNat initial_frame
      (Int.self_le_toNat _)
    cases h2 : gap_search_forward sc (SEQ_query_all_strips seqbase)
        (SEQ_timeline_boundbox sc (some seqbase)).xmax true
        ((SEQ_timeline_boundbox sc (some seqbase)).xmax - initial_frame + 1).toNat
        initial_frame with
    | none =>
      rw [h2] at hex
      simp at hex
    | some e =>
      rw [h2] at hs2
      simp only at hs2 ⊢
      obtain ⟨hfe, _, he, hmin⟩ := hs2
      have hce : Covered sc seqbase e := (strip_exists_iff_covered sc seqbase e).mp he
      have hbox := covered_in_boundbox sc seqbase e hce
      have hne : initial_frame ≠ e := fun h => hf (h ▸ hce)
      generalize gap_search_backward sc (SEQ_query_all_strips seqbase)
        (SEQ_timeline_boundbox sc (some seqbase)).xmin
        (initial_frame - (SEQ_timeline_boundbox sc (some seqbase)).xmin + 1).toNat
        initial_frame = b at hb ⊢
      have hforward : ∀ g, initial_frame ≤ g → g < e → ¬ Covered sc seqbase g :=
        fun g h1 h2 hc => hmin g h1 h2 ((strip_exists_iff_covered sc seqbase g).mpr hc)
      rcases hb with ⟨hb1, hb2⟩ | ⟨hb1, hb2, hb3, hb4⟩
      · subst hb1
        refine ⟨by omega, fun g hg1 hg2 => hforward g (by omega) (by omega), ?_⟩
        rw [show b + 1 + (e - (b + 1)) = e by omega]
        exact hce
      · have hbf : b ≠ initial_frame ∨ b < (SEQ_timeline_boundbox sc (some seqbase)).xmin := by
          by_cases hlt : b < (SEQ_timeline_boundbox sc (some seqbase)).xmin
          · exact Or.inr hlt
          · left
            intro h
            have := hb4 (by omega)
            rw [h, hf2] at this
            exact absurd this (by decide)
        refine ⟨by omega, fun g hg1 hg2 => ?_, ?_⟩
        · by_cases hgf : g ≤ initial_frame
          · exact (strip_exists_false_iff sc seqbase g).mp (hb3 g (by omega) hgf)
          · exact hforward g (by omega) (by omega)
        · rw [show b + 1 + (e - (b + 1)) = e by omega]
          exact hce

/-- Witness for C38: the two movie strips on frames [0,10) and [20,30) and the initial
frame 15, for which the gap [10,20) is reported. -/
theorem gap_info_reports_empty_run_witness :
    (seq_time_gap_info_get scene_two_strips_gap [0, 1] 15
      { gap_start_frame := 0, gap_length := 0, gap_exists := false }).gap_exists = true ∧
    1 ≤ (seq_time_gap_info_get scene_two_strips_gap [0, 1] 15
      { gap_start_frame := 0, gap_length := 0, gap_exists := false }).gap_length ∧
    (∀ g, (seq_time_gap_info_get scene_two_strips_gap [0, 1] 15
        { gap_start_frame := 0, gap_length := 0, gap_exists := false }).gap_start_frame ≤ g →
      g < (seq_time_gap_info_get scene_two_strips_gap [0, 1] 15
          { gap_start_frame := 0, gap_length := 0, gap_exists := false }).gap_start_frame
        + (seq_time_gap_info_get scene_two_strips_gap [0, 1] 15
          { gap_start_frame := 0, gap_length := 0, gap_exists := false }).gap_length →
      ¬ Covered scene_two_strips_gap [0, 1] g) ∧
    Covered scene_two_strips_gap [0, 1]
      ((seq_time_gap_info_get scene_two_strips_gap [0, 1] 15
          { gap_start_frame := 0, gap_length := 0, gap_exists := false }).gap_start_frame
        + (seq_time_gap_info_get scene_two_strips_gap [0, 1] 15
          { gap_start_frame := 0, gap_length := 0, gap_exists := false }).gap_length) := by
  have hex : (seq_time_gap_info_get scene_two_strips_gap [0, 1] 15
      { gap_start_frame := 0, gap_length := 0, gap_exists := false }).gap_exists = true := by
    rw [gap_exists_characterised]
    refine ⟨15, 20, le_refl _, fun h h1 h2 => absurd h1 (by omega), ?_, by norm_num, ?_⟩
    · rw [covered_two_strips_gap]
      omega
    · rw [covered_two_strips_gap]
      omega
  exact ⟨hex, gap_info_reports_empty_run scene_two_strips_gap [0, 1] 15 _ hex⟩

/-! ## Termination of the cascades -/

/-- Fuel that suffices for every effect cascade and every walk over the meta tree, for an
acyclic effect-input relation and a forest of meta strips. -/
theorem cascade_fuel_forest (sc0 : Scene) (rk lvl : StripId → Nat)
    (hac : EffectsAcyclic sc0 rk) (hforest : MetaForest sc0 lvl) :
    ∃ N0, ∀ fuel sc, SameShape sc0 sc → N0 ≤ fuel →
      (∀ s, ∃ sc2, seq_time_update_effects_strip_range fuel sc
          (seq_sequence_lookup_effects_by_seq sc s) = some sc2) ∧
      (∀ m, ∃ moves, seq_update_sound_bounds_recursive fuel sc m = some moves) := by
  refine ⟨(Finset.range sc0.strips.length).sup rk + (Finset.range sc0.strips.length).sup lvl
    + 2, fun fuel sc hsh hfuel => ⟨fun s => ?_, fun m => ?_⟩⟩
  · exact update_effects_terminates sc0 rk _ hac
      (fun i hi => rank_le_sup _ rk i hi) ((Finset.range sc0.strips.length).sup rk + 1) fuel sc
      _ hsh (by omega)
      (fun e he => by
        rw [hsh.lookup_effects, mem_lookup_effects] at he
        exact ⟨he.1, by omega⟩)
  · have hg2 : ∀ m, m < sc.strips.length → ∀ c ∈ (sc.strip m).seqbase, lvl c = lvl m + 1 := by
      intro m hm c hc
      rw [hsh.seqbase] at hc
      exact hforest m (by rw [← hsh.2.2.2.1]; exact hm) c hc
    exact sound_impl_terminates sc lvl ((Finset.range sc0.strips.length).sup lvl) hg2
      (fun i hi => rank_le_sup _ lvl i (by rw [← hsh.2.2.2.1]; exact hi))
      ((Finset.range sc0.strips.length).sup lvl + 1) fuel m _ _ (by omega) (fun _ => by omega)

/-- The meta cascade returns when the fuel exceeds the nesting depth of the meta strip it
starts from by what the cascades below it need. -/
theorem update_meta_terminates_forest (sc0 : Scene) (lvl : StripId → Nat)
    (hforest : MetaForest sc0 lvl) (N0 : Nat)
    (hN0 : ∀ fuel sc, SameShape sc0 sc → N0 ≤ fuel →
      (∀ s, ∃ sc2, seq_time_update_effects_strip_range fuel sc
          (seq_sequence_lookup_effects_by_seq sc s) = some sc2) ∧
      (∀ m, ∃ moves, seq_update_sound_bounds_recursive fuel sc m = some moves)) :
    ∀ k fuel sc m, SameShape sc0 sc →
      (∀ a, m = some a → a < sc0.strips.length → lvl a ≤ k) → N0 + k + 2 ≤ fuel →
      ∃ r, SEQ_time_update_meta_strip_range fuel sc m = some r := by
  have step : ∀ k, (k ≠ 0 → ∀ fuel sc m, SameShape sc0 sc →
        (∀ a, m = some a → a < sc0.strips.length → lvl a ≤ k - 1) →
        N0 + (k - 1) + 2 ≤ fuel → ∃ r, SEQ_time_update_meta_strip_range fuel sc m = some r) →
      ∀ fuel sc m, SameShape sc0 sc →
      (∀ a, m = some a → a < sc0.strips.length → lvl a ≤ k) → N0 + k + 2 ≤ fuel →
      ∃ r, SEQ_time_update_meta_strip_range fuel sc m = some r := by
    intro k ih fuel sc m hsh hm hfuel
    obtain ⟨f, rfl⟩ : ∃ f, fuel = f + 1 := ⟨fuel - 1, by omega⟩
    cases m with
    | none => exact ⟨_, update_meta_none f sc⟩
    | some a =>
      by_cases hempty : (sc.strip a).seqbase = []
      · exact ⟨_, update_meta_empty f sc a hempty⟩
      · rw [update_meta_succ _ _ _ hempty]
        have ha : a < sc0.strips.length := by
          rw [← hsh.2.2.2.1]
          exact seqbase_ne_nil_lt sc a hempty
        have hsh1 : SameShape sc0 (meta_range_step sc a) :=
          hsh.trans (meta_range_step_shape sc a)
        obtain ⟨hcas, hsnd⟩ := hN0 f _ hsh1 (by omega)
        obtain ⟨moves, hmoves⟩ := hsnd a
        obtain ⟨sc2, hsc2⟩ := hcas a
        have hsh2 := (update_effects_frame sc0 (fun _ => True) (fun _ _ _ _ _ => trivial) f _ _
          sc2 hsh1 (fun _ _ => trivial) hsc2).1
        have hrec : ∃ r, SEQ_time_update_meta_strip_range f sc2
            (seq_sequence_lookup_meta_by_seq sc2 a) = some r := by
          cases hp : seq_sequence_lookup_meta_by_seq sc2 a with
          | none =>
            obtain ⟨f2, rfl⟩ : ∃ f2, f = f2 + 1 := ⟨f - 1, by omega⟩
            exact ⟨_, update_meta_none f2 sc2⟩
          | some p =>
            rw [hsh2.lookup_meta] at hp
            have h1 := lookup_meta_some sc0 a p hp
            have h2 := hforest p h1.1 a h1.2
            have h3 := hm a rfl ha
            have hk : k ≠ 0 := by omega
            exact ih hk f sc2 (some p) hsh2
              (fun b hb _ => by cases hb; omega) (by omega)
        obtain ⟨r, hr⟩ := hrec
        exact ⟨(r.1, moves ++ r.2), by simp [hmoves, hsc2, hr]⟩
  intro k
  induction k with
  | zero => exact step 0 (fun h => absurd rfl h)
  | succ k ih => exact step (k + 1) (fun _ => by simpa using ih)

/-- C37: for a strip hierarchy whose effect-input relation is acyclic (a rank grows from
every input to the effect that consumes it) and whose meta-parent relation is a forest (a
nesting depth grows by one from a meta strip to its children), the recursion of
`seq_time_update_effects_strip_range` and `SEQ_time_update_meta_strip_range` returns from
every starting strip: there is an amount of fuel from which on the effect cascade of every
strip, the meta cascade from every strip and the common tail of the setters give a result. -/
theorem cascades_terminate (sc : Scene) (rk lvl : StripId → Nat)
    (hac : EffectsAcyclic sc rk) (hforest : MetaForest sc lvl) :
    ∃ N, ∀ fuel, N ≤ fuel → ∀ seq : StripId,
      (∃ sc2, seq_time_update_effects_strip_range fuel sc
          (seq_sequence_lookup_effects_by_seq sc seq) = some sc2) ∧
      (∃ r, SEQ_time_update_meta_strip_range fuel sc (some seq) = some r) ∧
      (∃ r, SEQ_time_update_meta_strip_range fuel sc
          (seq_sequence_lookup_meta_by_seq sc seq) = some r) ∧
      (∃ r, update_effects_and_meta fuel sc seq = some r) := by
  obtain ⟨N0, hN0⟩ := cascade_fuel_forest sc rk lvl hac hforest
  refine ⟨N0 + (Finset.range sc.strips.length).sup lvl + 2, fun fuel hfuel seq => ?_⟩
  have hmeta : ∀ sc1 m, SameShape sc sc1 →
      ∃ r, SEQ_time_update_meta_strip_range fuel sc1 m = some r :=
    fun sc1 m hsh =>
      update_meta_terminates_forest sc lvl hforest N0 hN0
        ((Finset.range sc.strips.length).sup lvl) fuel sc1 m hsh
        (fun a _ ha => rank_le_sup _ lvl a ha) hfuel
  obtain ⟨sc2, hsc2⟩ := (hN0 fuel sc (SameShape.refl sc) (by omega)).1 seq
  refine ⟨⟨sc2, hsc2⟩, hmeta sc _ (SameShape.refl sc), hmeta sc _ (SameShape.refl sc), ?_⟩
  have hsh2 := (update_effects_frame sc (fun _ => True) (fun _ _ _ _ _ => trivial) fuel sc _
    sc2 (SameShape.refl sc) (fun _ _ => trivial) hsc2).1
  obtain ⟨r, hr⟩ := hmeta sc2 (seq_sequence_lookup_meta_by_seq sc2 seq) hsh2
  exact ⟨r, by simp [update_effects_and_meta, hsc2, hr]⟩

/-- Witness for C37: the scene with a nested meta strip and an effect of two of its
strips. -/
theorem cascades_terminate_witness :
    EffectsAcyclic scene_nested_meta (fun i => i) ∧
    MetaForest scene_nested_meta lvl_nested_meta ∧
    ∃ N, ∀ fuel, N ≤ fuel → ∀ seq : StripId,
      (∃ sc2, seq_time_update_effects_strip_range fuel scene_nested_meta
          (seq_sequence_lookup_effects_by_seq scene_nested_meta seq) = some sc2) ∧
      (∃ r, SEQ_time_update_meta_strip_range fuel scene_nested_meta (some seq) = some r) ∧
      (∃ r, SEQ_time_update_meta_strip_range fuel scene_nested_meta
          (seq_sequence_lookup_meta_by_seq scene_nested_meta seq) = some r) ∧
      (∃ r, update_effects_and_meta fuel scene_nested_meta seq = some r) :=
  ⟨scene_nested_meta_wf.acyclic, scene_nested_meta_wf.graded.1,
   cascades_terminate scene_nested_meta (fun i => i) lvl_nested_meta
     scene_nested_meta_wf.acyclic scene_nested_meta_wf.graded.1⟩

/-! ## Sound bounds inside meta strips -/

theorem chain_start_ge (sc : Scene) (chain : List StripId) :
    ∀ start, start ≤ chain_start sc start chain ∧
      (∀ c ∈ chain, metaseq_start (sc.strip c) ≤ chain_start sc start chain) ∧
      (chain_start sc start chain = start ∨
        ∃ c ∈ chain, chain_start sc start chain = metaseq_start (sc.strip c)) := by
  induction chain with
  | nil =>
    intro start
    exact ⟨le_refl _, fun c hc => absurd hc (List.not_mem_nil _), Or.inl rfl⟩
  | cons a chain ih =>
    intro start
    obtain ⟨h1, h2, h3⟩ := ih (max start (metaseq_start (sc.strip a)))
    have e : chain_start sc start (a :: chain)
        = chain_start sc (max start (metaseq_start (sc.strip a))) chain := rfl
    rw [e]
    refine ⟨le_trans (le_max_left _ _) h1, fun c hc => ?_, ?_⟩
    · rcases List.mem_cons.mp hc with rfl | hc
      · exact le_trans (le_max_right _ _) h1
      · exact h2 c hc
    · rcases h3 with h3 | ⟨c, hc, h3⟩
      · rcases max_cases start (metaseq_start (sc.strip a)) with ⟨hm, _⟩ | ⟨hm, _⟩
        · exact Or.inl (h3.trans hm)
        · exact Or.inr ⟨a, List.mem_cons_self _ _, h3.trans hm⟩
      · exact Or.inr ⟨c, List.mem_cons_of_mem _ hc, h3⟩

theorem chain_end_le (sc : Scene) (chain : List StripId) :
    ∀ end_, chain_end sc end_ chain ≤ end_ ∧
      (∀ c ∈ chain, chain_end sc end_ chain ≤ metaseq_end (sc.strip c)) ∧
      (chain_end sc end_ chain = end_ ∨
        ∃ c ∈ chain, chain_end sc end_ chain = metaseq_end (sc.strip c)) := by
  induction chain with
  | nil =>
    intro end_
    exact ⟨le_refl _, fun c hc => absurd hc (List.not_mem_nil _), Or.inl rfl⟩
  | cons a chain ih =>
    intro end_
    obtain ⟨h1, h2, h3⟩ := ih (min end_ (metaseq_end (sc.strip a)))
    have e : chain_end sc end_ (a :: chain)
        = chain_end sc (min end_ (metaseq_end (sc.strip a))) chain := rfl
    rw [e]
    refine ⟨le_trans h1 (min_le_left _ _), fun c hc => ?_, ?_⟩
    · rcases List.mem_cons.mp hc with rfl | hc
      · exact le_trans h1 (min_le_right _ _)
      · exact h2 c hc
    · rcases h3 with h3 | ⟨c, hc, h3⟩
      · rcases min_cases end_ (metaseq_end (sc.strip a)) with ⟨hm, _⟩ | ⟨hm, _⟩
        · exact Or.inl (h3.trans hm)
        · exact Or.inr ⟨a, List.mem_cons_self _ _, h3.trans hm⟩
      · exact Or.inr ⟨c, List.mem_cons_of_mem _ hc, h3⟩

/-- The call of the sound engine issued for one strip: the stored range of the strip clipped
to the bounds. -/
theorem mem_sound_bounds_of_strip (seq : Strip) (start end_ : Int) (mv : SoundMove)
    (h : mv ∈ sound_bounds_of_strip seq start end_) :
    seq.scene_sound = some mv.handle ∧
    mv.startframe = max (seq.start + seq.startofs) start ∧
    mv.endframe = min (seq.start + seq.len - seq.endofs) end_ := by
  unfold sound_bounds_of_strip at h
  cases hs : seq.scene_sound with
  | none => simp [hs] at h
  | some handle =>
    simp only [hs, List.mem_singleton] at h
    subst h
    refine ⟨rfl, ?_, ?_⟩
    · simp only
      split_ifs with h1
      · rw [max_eq_right (by omega)]; omega
      · rw [max_eq_left (by omega)]
    · simp only
      split_ifs with h1
      · rw [min_eq_right (by omega)]; omega
      · rw [min_eq_left (by omega)]

theorem sound_bounds_of_strip_ne_nil (seq : Strip) (start end_ : Int) (handle : Nat)
    (h : seq.scene_sound = some handle) :
    ∃ mv, mv ∈ sound_bounds_of_strip seq start end_ := by
  unfold sound_bounds_of_strip
  simp only [h]
  exact ⟨_, List.mem_singleton.mpr rfl⟩

/-- A fold that appends what each element gives: the elements of the result. -/
theorem foldlM_append_mem {α β : Type} (g : α → Option (List β)) (l : List α) :
    ∀ (acc r : List β),
      l.foldlM (fun acc a => (g a).map fun p => acc ++ p) acc = some r →
      (∀ a ∈ l, ∃ p, g a = some p) ∧
      ∀ x, x ∈ r ↔ x ∈ acc ∨ ∃ a ∈ l, ∃ p, g a = some p ∧ x ∈ p := by
  induction l with
  | nil =>
    intro acc r h
    simp only [List.foldlM_nil, pure, Option.some.injEq] at h
    subst h
    simp
  | cons a l ih =>
    intro acc r h
    simp only [List.foldlM_cons, bind, Option.bind_eq_some, Option.map_eq_some'] at h
    obtain ⟨acc2, ⟨p, hp, rfl⟩, hr⟩ := h
    obtain ⟨h1, h2⟩ := ih _ r hr
    refine ⟨fun b hb => ?_, fun x => ?_⟩
    · rcases List.mem_cons.mp hb with rfl | hb
      · exact ⟨p, hp⟩
      · exact h1 b hb
    · rw [h2 x, List.mem_append]
      constructor
      · rintro ((hx | hx) | ⟨b, hb, q, hq, hx⟩)
        · exact Or.inl hx
        · exact Or.inr ⟨a, List.mem_cons_self _ _, p, hp, hx⟩
        · exact Or.inr ⟨b, List.mem_cons_of_mem _ hb, q, hq, hx⟩
      · rintro (hx | ⟨b, hb, q, hq, hx⟩)
        · exact Or.inl (Or.inl hx)
        · rcases List.mem_cons.mp hb with rfl | hb
          · rw [hp] at hq
            cases hq
            exact Or.inl (Or.inr hx)
          · exact Or.inr ⟨b, hb, q, hq, hx⟩

/-- The calls of the sound engine that the walk over a meta tree issues: one for each sound
or scene strip reached through a chain of nested meta strips, with the bounds of the walk
intersected with the ranges of the meta strips of the chain. -/
theorem sound_impl_moves (sc : Scene) :
    ∀ (fuel : Nat) (m : StripId) (start end_ : Int) (moves : List SoundMove),
      seq_update_sound_bounds_recursive_impl fuel sc m start end_ = some moves →
      ∀ mv, mv ∈ moves ↔
        ∃ chain d, IsMetaChain sc m chain d ∧
          ((sc.strip d).type = SEQ_TYPE_SOUND_RAM ∨ (sc.strip d).type = SEQ_TYPE_SCENE) ∧
          mv ∈ sound_bounds_of_strip (sc.strip d) (chain_start sc start chain)
            (chain_end sc end_ chain) := by
  intro fuel
  induction fuel with
  | zero =>
    intro m start end_ moves h
    simp [seq_update_sound_bounds_recursive_impl] at h
  | succ fuel ih =>
    intro m start end_ moves h
    rw [sound_impl_succ] at h
    have hfun : (fun (moves : List SoundMove) child =>
          if (sc.strip child).type = SEQ_TYPE_META then
            (seq_update_sound_bounds_recursive_impl fuel sc child
              (max start (metaseq_start (sc.strip child)))
              (min end_ (metaseq_end (sc.strip child)))).map fun sub => moves ++ sub
          else if (sc.strip child).type = SEQ_TYPE_SOUND_RAM ∨
              (sc.strip child).type = SEQ_TYPE_SCENE then
            some (moves ++ sound_bounds_of_strip (sc.strip child) start end_)
          else some moves)
        = fun moves child =>
          (if (sc.strip child).type = SEQ_TYPE_META then
            seq_update_sound_bounds_recursive_impl fuel sc child
              (max start (metaseq_start (sc.strip child)))
              (min end_ (metaseq_end (sc.strip child)))
          else if (sc.strip child).type = SEQ_TYPE_SOUND_RAM ∨
              (sc.strip child).type = SEQ_TYPE_SCENE then
            some (sound_bounds_of_strip (sc.strip child) start end_)
          else some []).map fun p => moves ++ p := by
      funext moves child
      split_ifs <;> simp
    rw [hfun] at h
    obtain ⟨hall, hmem⟩ := foldlM_append_mem _ _ _ _ h
    intro mv
    rw [hmem mv]
    simp only [List.not_mem_nil, false_or]
    constructor
    · rintro ⟨c, hc, p, hp, hx⟩
      by_cases hty : (sc.strip c).type = SEQ_TYPE_META
      · rw [if_pos hty] at hp
        obtain ⟨chain, d, hch, hd, hmv⟩ := (ih c _ _ p hp mv).mp hx
        exact ⟨c :: chain, d, ⟨hc, hty, hch⟩, hd, hmv⟩
      · rw [if_neg hty] at hp
        by_cases hs : (sc.strip c).type = SEQ_TYPE_SOUND_RAM ∨
            (sc.strip c).type = SEQ_TYPE_SCENE
        · rw [if_pos hs] at hp
          cases hp
          exact ⟨[], c, hc, hs, hx⟩
        · rw [if_neg hs] at hp
          cases hp
          exact absurd hx (List.not_mem_nil _)
    · rintro ⟨chain, d, hch, hd, hmv⟩
      cases chain with
      | nil =>
        have hty : ¬ (sc.strip d).type = SEQ_TYPE_META := by
          rcases hd with hd | hd <;> rw [hd] <;> decide
        exact ⟨d, hch, _, by rw [if_neg hty, if_pos hd]; rfl, hmv⟩
      | cons c chain =>
        obtain ⟨hc, hty, hrest⟩ := hch
        obtain ⟨p, hp⟩ := hall c hc
        have hp2 := hp
        rw [if_pos hty] at hp2
        exact ⟨c, hc, p, hp, (ih c _ _ p hp2 mv).mpr ⟨chain, d, hrest, hd, hmv⟩⟩

/-- C36: for a meta strip of a forest of meta strips, `seq_update_sound_bounds_recursive`
returns (with enough fuel), and the calls of the sound engine are these: for every sound or
scene strip `d` with a bound scene sound that is reached from the meta strip through a chain
of nested meta strips there is a call, and every call is of this kind; its playback range
starts at `max (start + startofs) S` and ends at `min (start + len - endofs) E`, the stored
range of `d` clipped to `[S, E]`, where `S` is the greatest start `start + startofs` and `E`
the least end `start + len - endofs` of the enclosing meta strips (the meta strip and the
strips of the chain); it starts before the start of no enclosing meta strip and ends after
the end of none. -/
theorem sound_bounds_clipped_to_metas (sc : Scene) (lvl : StripId → Nat)
    (hforest : MetaForest sc lvl) (metaseq : StripId) :
    ∃ N, ∀ fuel, N ≤ fuel →
      ∃ moves, seq_update_sound_bounds_recursive fuel sc metaseq = some moves ∧
        (∀ chain d handle, IsMetaChain sc metaseq chain d →
          ((sc.strip d).type = SEQ_TYPE_SOUND_RAM ∨ (sc.strip d).type = SEQ_TYPE_SCENE) →
          (sc.strip d).scene_sound = some handle →
          ∃ mv ∈ moves, mv.handle = handle ∧
            mv.startframe = max ((sc.strip d).start + (sc.strip d).startofs)
              (chain_start sc (metaseq_start (sc.strip metaseq)) chain) ∧
            mv.endframe = min ((sc.strip d).start + (sc.strip d).len - (sc.strip d).endofs)
              (chain_end sc (metaseq_end (sc.strip metaseq)) chain)) ∧
        (∀ mv ∈ moves, ∃ chain d, IsMetaChain sc metaseq chain d ∧
          ((sc.strip d).type = SEQ_TYPE_SOUND_RAM ∨ (sc.strip d).type = SEQ_TYPE_SCENE) ∧
          (sc.strip d).scene_sound = some mv.handle ∧
          mv.startframe = max ((sc.strip d).start + (sc.strip d).startofs)
            (chain_start sc (metaseq_start (sc.strip metaseq)) chain) ∧
          mv.endframe = min ((sc.strip d).start + (sc.strip d).len - (sc.strip d).endofs)
            (chain_end sc (metaseq_end (sc.strip metaseq)) chain) ∧
          ∀ c ∈ metaseq :: chain,
            metaseq_start (sc.strip c) ≤ mv.startframe ∧
            mv.endframe ≤ metaseq_end (sc.strip c)) := by
  refine ⟨(Finset.range sc.strips.length).sup lvl + 2, fun fuel hfuel => ?_⟩
  obtain ⟨moves, hmoves⟩ := sound_impl_terminates sc lvl
    ((Finset.range sc.strips.length).sup lvl) hforest
    (fun i hi => rank_le_sup _ lvl i hi)
    ((Finset.range sc.strips.length).sup lvl + 1) fuel metaseq
    (metaseq_start (sc.strip metaseq)) (metaseq_end (sc.strip metaseq)) (by omega)
    (fun _ => by omega)
  have hchar := sound_impl_moves sc fuel metaseq _ _ moves hmoves
  refine ⟨moves, hmoves, ?_, ?_⟩
  · intro chain d handle hch hty hs
    obtain ⟨mv, hmv⟩ := sound_bounds_of_strip_ne_nil (sc.strip d)
      (chain_start sc (metaseq_start (sc.strip metaseq)) chain)
      (chain_end sc (metaseq_end (sc.strip metaseq)) chain) handle hs
    obtain ⟨h1, h2, h3⟩ := mem_sound_bounds_of_strip _ _ _ mv hmv
    refine ⟨mv, (hchar mv).mpr ⟨chain, d, hch, hty, hmv⟩, ?_, h2, h3⟩
    rw [hs] at h1
    exact (Option.some.inj h1).symm
  · intro mv hmv
    obtain ⟨chain, d, hch, hty, hin⟩ := (hchar mv).mp hmv
    obtain ⟨h1, h2, h3⟩ := mem_sound_bounds_of_strip _ _ _ mv hin
    refine ⟨chain, d, hch, hty, h1, h2, h3, fun c hc => ?_⟩
    obtain ⟨hs1, hs2, _⟩ := chain_start_ge sc chain (metaseq_start (sc.strip metaseq))
    obtain ⟨he1, he2, _⟩ := chain_end_le sc chain (metaseq_end (sc.strip metaseq))
    rw [h2, h3]
    rcases List.mem_cons.mp hc with rfl | hc
    · exact ⟨le_trans hs1 (le_max_right _ _), le_trans (min_le_right _ _) he1⟩
    · exact ⟨le_trans (hs2 c hc) (le_max_right _ _), le_trans (min_le_right _ _) (he2 c hc)⟩

/-- Witness for C36: the sound strip with the stored range [5,105] inside the meta strip on
frames [10,30) inside the meta strip on frames [0,50): the call for it has the playback
range [10,30]. -/
theorem sound_bounds_clipped_to_metas_witness :
    MetaForest scene_meta_sound (fun i => i) ∧
    IsMetaChain scene_meta_sound 0 [1] 2 ∧
    max ((scene_meta_sound.strip 2).start + (scene_meta_sound.strip 2).startofs)
      (chain_start scene_meta_sound (metaseq_start (scene_meta_sound.strip 0)) [1]) = 10 ∧
    min ((scene_meta_sound.strip 2).start + (scene_meta_sound.strip 2).len
        - (scene_meta_sound.strip 2).endofs)
      (chain_end scene_meta_sound (metaseq_end (scene_meta_sound.strip 0)) [1]) = 30 ∧
    ∃ N, ∀ fuel, N ≤ fuel →
      ∃ moves, seq_update_sound_bounds_recursive fuel scene_meta_sound 0 = some moves ∧
        ∃ mv ∈ moves, mv.handle = 7 ∧
          mv.startframe
            = max ((scene_meta_sound.strip 2).start + (scene_meta_sound.strip 2).startofs)
              (chain_start scene_meta_sound (metaseq_start (scene_meta_sound.strip 0)) [1]) ∧
          mv.endframe
            = min ((scene_meta_sound.strip 2).start + (scene_meta_sound.strip 2).len
                - (scene_meta_sound.strip 2).endofs)
              (chain_end scene_meta_sound (metaseq_end (scene_meta_sound.strip 0)) [1]) := by
  have hforest : MetaForest scene_meta_sound (fun i => i) := by
    unfold MetaForest; decide
  have hch : IsMetaChain scene_meta_sound 0 [1] 2 := by
    unfold IsMetaChain IsMetaChain; decide
  obtain ⟨N, hN⟩ := sound_bounds_clipped_to_metas scene_meta_sound (fun i => i) hforest 0
  refine ⟨hforest, hch, by decide, by decide, N, fun fuel hfuel => ?_⟩
  obtain ⟨moves, hmoves, hall, _⟩ := hN fuel hfuel
  exact ⟨moves, hmoves, hall [1] 2 7 hch (Or.inl (by decide)) (by decide)⟩

/-! ## Slip of a meta strip -/

theorem ownedOnce_nodup {sc : Scene} (h : OwnedOnce sc) (m : StripId) :
    (sc.strip m).seqbase.Nodup := by
  by_cases hm : m < sc.strips.length
  · exact h.nodup m hm
  · rw [Scene.strip_null sc m (Nat.le_of_not_lt hm)]
    exact List.nodup_nil

theorem ownedOnce_unique {sc : Scene} (h : OwnedOnce sc) (m1 m2 c : StripId)
    (h1 : c ∈ (sc.strip m1).seqbase) (h2 : c ∈ (sc.strip m2).seqbase) : m1 = m2 :=
  h.unique m1 (seqbase_ne_nil_lt sc m1 (List.ne_nil_of_mem h1)) m2
    (seqbase_ne_nil_lt sc m2 (List.ne_nil_of_mem h2)) c h1 h2

theorem ownedOnce_metas {sc : Scene} (h : OwnedOnce sc) (m : StripId)
    (hne : (sc.strip m).seqbase ≠ []) : (sc.strip m).type = SEQ_TYPE_META :=
  h.metas m (seqbase_ne_nil_lt sc m hne) hne

theorem ownedOnce_arena {sc : Scene} (h : OwnedOnce sc) (m c : StripId)
    (hc : c ∈ (sc.strip m).seqbase) : c < sc.strips.length :=
  h.arena m (seqbase_ne_nil_lt sc m (List.ne_nil_of_mem hc)) c hc

theorem metaChain_seqbase_ne_nil (sc : Scene) (a : StripId) (chain : List StripId)
    (d : StripId) (h : IsMetaChain sc a chain d) : (sc.strip a).seqbase ≠ [] := by
  cases chain with
  | nil => exact List.ne_nil_of_mem h
  | cons c chain => exact List.ne_nil_of_mem h.1

theorem metaChain_lvl (sc : Scene) (lvl : StripId → Nat) (hforest : MetaForest sc lvl) :
    ∀ (chain : List StripId) (a d : StripId), IsMetaChain sc a chain d →
      lvl d = lvl a + chain.length + 1 := by
  intro chain
  induction chain with
  | nil =>
    intro a d h
    have ha := seqbase_ne_nil_lt sc a (List.ne_nil_of_mem h)
    simpa using hforest a ha d h
  | cons c chain ih =>
    intro a d h
    obtain ⟨hc, _, hrest⟩ := h
    have ha := seqbase_ne_nil_lt sc a (List.ne_nil_of_mem hc)
    have h1 := hforest a ha c hc
    have h2 := ih c d hrest
    simp only [List.length_cons]
    omega

theorem metaChain_arena (sc : Scene) (hown : OwnedOnce sc) :
    ∀ (chain : List StripId) (a d : StripId), IsMetaChain sc a chain d →
      d < sc.strips.length := by
  intro chain
  induction chain with
  | nil => intro a d h; exact ownedOnce_arena hown a d h
  | cons c chain ih => intro a d h; exact ih c d h.2.2

/-- Two chains that end at one strip and start at strips of one nesting depth start at the
same strip. -/
theorem metaChain_unique (sc : Scene) (lvl : StripId → Nat) (hforest : MetaForest sc lvl)
    (hown : OwnedOnce sc) :
    ∀ (chain chain2 : List StripId) (a b d : StripId), IsMetaChain sc a chain d →
      IsMetaChain sc b chain2 d → lvl a = lvl b → a = b := by
  intro chain
  induction chain with
  | nil =>
    intro chain2 a b d h1 h2 hl
    have e1 := metaChain_lvl sc lvl hforest [] a d h1
    have e2 := metaChain_lvl sc lvl hforest chain2 b d h2
    cases chain2 with
    | nil => exact ownedOnce_unique hown a b d h1 h2
    | cons c chain2 =>
      simp only [List.length_cons, List.length_nil] at e1 e2
      omega
  | cons x xs ih =>
    intro chain2 a b d h1 h2 hl
    have e1 := metaChain_lvl sc lvl hforest (x :: xs) a d h1
    have e2 := metaChain_lvl sc lvl hforest chain2 b d h2
    cases chain2 with
    | nil =>
      simp only [List.length_cons, List.length_nil] at e1 e2
      omega
    | cons y ys =>
      obtain ⟨hx, _, hxs⟩ := h1
      obtain ⟨hy, _, hys⟩ := h2
      have ha := seqbase_ne_nil_lt sc a (List.ne_nil_of_mem hx)
      have hb := seqbase_ne_nil_lt sc b (List.ne_nil_of_mem hy)
      have lx := hforest a ha x hx
      have ly := hforest b hb y hy
      have hxy : x = y := ih ys x y d hxs hys (by omega)
      subst hxy
      exact ownedOnce_unique hown a b x hx hy

/-- The subtrees of two strips of one nesting depth share no strip, unless the two are the
same strip. -/
theorem inSubtree_disjoint (sc : Scene) (lvl : StripId → Nat) (hforest : MetaForest sc lvl)
    (hown : OwnedOnce sc) (a b d : StripId) (hl : lvl a = lvl b)
    (h1 : InSubtree sc a d) (h2 : InSubtree sc b d) : a = b := by
  rcases h1 with rfl | ⟨chain, h1⟩
  · rcases h2 with rfl | ⟨chain2, h2⟩
    · rfl
    · have := metaChain_lvl sc lvl hforest chain2 b d h2
      omega
  · rcases h2 with rfl | ⟨chain2, h2⟩
    · have := metaChain_lvl sc lvl hforest chain a d h1
      omega
    · exact metaChain_unique sc lvl hforest hown chain chain2 a b d h1 h2 hl

theorem inSubtree_child (sc : Scene) (c a d : StripId) (ha : a ∈ (sc.strip c).seqbase)
    (hty : (sc.strip a).seqbase ≠ [] → (sc.strip a).type = SEQ_TYPE_META)
    (h : InSubtree sc a d) : ∃ chain, IsMetaChain sc c chain d := by
  rcases h with rfl | ⟨chain, h⟩
  · exact ⟨[], ha⟩
  · exact ⟨a :: chain, ha, hty (metaChain_seqbase_ne_nil sc a chain d h), h⟩

theorem metaChain_cases (sc : Scene) (c d : StripId) (chain : List StripId)
    (h : IsMetaChain sc c chain d) : ∃ a ∈ (sc.strip c).seqbase, InSubtree sc a d := by
  cases chain with
  | nil => exact ⟨d, h, Or.inl rfl⟩
  | cons a chain => exact ⟨a, h.1, Or.inr ⟨chain, h.2.2⟩⟩

theorem slipped_own_strip (sc3 : Scene) (s : Strip) (x : ℚ) (delta : Int) :
    Slipped delta s (slip_own_strip sc3 { s with sound_offset := x } delta true) := by
  unfold Slipped slip_own_strip
  simp

theorem inputs_nil_of_none (s : Strip) (h : ¬ (s.seq1 ≠ none ∨ s.seq2 ≠ none)) :
    s.inputs = [] := by
  unfold Strip.inputs
  cases h1 : s.seq1 with
  | some a => exact absurd (Or.inl (by rw [h1]; simp)) h
  | none =>
    cases h2 : s.seq2 with
    | some a => exact absurd (Or.inr (by rw [h2]; simp)) h
    | none => rfl

theorem inputs_ne_nil_of_some (s : Strip) (h : s.seq1 ≠ none ∨ s.seq2 ≠ none) :
    s.inputs ≠ [] := by
  unfold Strip.inputs
  rcases h with h | h
  · cases h1 : s.seq1 with
    | none => exact absurd h1 h
    | some a => simp
  · cases h2 : s.seq2 with
    | none => exact absurd h2 h
    | some a => simp

/-- The loop of `seq_time_slip_strip_ex` over the children of a meta strip, given what the
calls for the children do. -/
theorem slip_children_spec (sc0 : Scene) (lvl : StripId → Nat)
    (hforest : MetaForest sc0 lvl) (hown : OwnedOnce sc0) (delta : Int) (subframe_delta : ℚ)
    (f : Nat)
    (hrec : ∀ s a s1, SameShape sc0 s → a < sc0.strips.length →
      seq_time_slip_strip_ex f s a delta subframe_delta true = some s1 →
      SlipSpec sc0 delta a s s1)
    (L : Nat) :
    ∀ (l : List StripId) (s s1 : Scene), l.Nodup →
      (∀ a ∈ l, lvl a = L ∧ a < sc0.strips.length) → SameShape sc0 s →
      l.foldlM
        (fun sc seq_child => seq_time_slip_strip_ex f sc seq_child delta subframe_delta true)
        s = some s1 →
      SameShape sc0 s1 ∧
      (∀ i, (∀ a ∈ l, ¬ InSubtree sc0 a i) → (sc0.strip i).inputs = [] →
        s1.strip i = s.strip i) ∧
      (∀ a ∈ l, ∀ d, InSubtree sc0 a d → Slippable (sc0.strip d) →
        Slipped delta (s.strip d) (s1.strip d)) := by
  intro l
  induction l with
  | nil =>
    intro s s1 _ _ hsh h
    simp only [List.foldlM_nil, pure, Option.some.injEq] at h
    subst h
    exact ⟨hsh, fun _ _ _ => rfl, fun a ha => absurd ha (List.not_mem_nil _)⟩
  | cons a l ih =>
    intro s s1 hnd hl hsh h
    simp only [List.foldlM_cons, bind, Option.bind_eq_some] at h
    obtain ⟨s2, h2, hrest⟩ := h
    obtain ⟨hnotin, hnd2⟩ := List.nodup_cons.mp hnd
    obtain ⟨hla, haa⟩ := hl a (List.mem_cons_self _ _)
    obtain ⟨hsh2, hout2, hin2⟩ := hrec s a s2 hsh haa h2
    obtain ⟨hsh1, hout1, hin1⟩ := ih s2 s1 hnd2
      (fun b hb => hl b (List.mem_cons_of_mem _ hb)) hsh2 hrest
    have hdisj : ∀ b ∈ l, ∀ d, InSubtree sc0 a d → ¬ InSubtree sc0 b d := by
      intro b hb d h1 h3
      have hlb := (hl b (List.mem_cons_of_mem _ hb)).1
      have := inSubtree_disjoint sc0 lvl hforest hown a b d (by omega) h1 h3
      exact hnotin (this ▸ hb)
    refine ⟨hsh1, fun i hi hin => ?_, fun b hb d hd hsl => ?_⟩
    · rw [hout1 i (fun b hb => hi b (List.mem_cons_of_mem _ hb)) hin,
        hout2 i (hi a (List.mem_cons_self _ _)) hin]
    · rcases List.mem_cons.mp hb with rfl | hb
      · have e : s1.strip d = s2.strip d :=
          hout1 d (fun b2 hb2 => hdisj b2 hb2 d hd) hsl.1
        have := hin2 d hd hsl
        unfold Slipped at this ⊢
        rw [e]
        exact this
      · have e : s2.strip d = s.strip d :=
          hout2 d (fun h1 => hdisj b hb d h1 hd) hsl.1
        have := hin1 b hb d hd hsl
        unfold Slipped at this ⊢
        rw [← e]
        exact this

/-- What a call of `seq_time_slip_strip_ex` with a non-zero `delta` leaves: the strip graph
is kept; a strip without inputs that is neither the strip of the call nor nested in it is as
it was; every strip nested in the strip of the call that the slip moves has its `start`
moved by `delta` and its offsets as they were; and the strip of the call itself, when it is
moved, is the one of `slip_own_strip`. -/
theorem slip_ex_spec (sc0 : Scene) (rk lvl : StripId → Nat) (hwf : WellFormed sc0 rk lvl)
    (hown : OwnedOnce sc0) (delta : Int) (hdelta : delta ≠ 0) (subframe_delta : ℚ) :
    ∀ (fuel : Nat) (s : Scene) (c : StripId) (recursed : Bool) (s1 : Scene),
      SameShape sc0 s → c < sc0.strips.length →
      seq_time_slip_strip_ex fuel s c delta subframe_delta recursed = some s1 →
      SameShape sc0 s1 ∧
      (∀ i, ¬ InSubtree sc0 c i → (sc0.strip i).inputs = [] → s1.strip i = s.strip i) ∧
      (∀ chain d, IsMetaChain sc0 c chain d → Slippable (sc0.strip d) →
        Slipped delta (s.strip d) (s1.strip d)) ∧
      (Slippable (sc0.strip c) →
        ¬ (recursed = false ∧ (sc0.strip c).type.is_effect = true) →
        ∃ x : ℚ, s1.strip c
          = slip_own_strip s { s.strip c with sound_offset := x } delta recursed) := by
  have hforest : MetaForest sc0 lvl := hwf.graded.1
  intro fuel
  induction fuel with
  | zero =>
    intro s c recursed s1 _ _ h
    simp [slip_ex_zero] at h
  | succ f ih =>
    intro s c recursed s1 hsh hc h
    have hrec : ∀ s a s1, SameShape sc0 s → a < sc0.strips.length →
        seq_time_slip_strip_ex f s a delta subframe_delta true = some s1 →
        SlipSpec sc0 delta a s s1 := by
      intro s a s1 hs ha hr
      obtain ⟨h1, h2, h3, h4⟩ := ih s a true s1 hs ha hr
      refine ⟨h1, h2, fun d hd hsl => ?_⟩
      rcases hd with rfl | ⟨chain, hd⟩
      · obtain ⟨x, hx⟩ := h4 hsl (by simp)
        rw [hx]
        exact slipped_own_strip s (s.strip d) x delta
      · exact h3 chain d hd hsl
    have hsh1 : SameShape sc0 (slip_sound_step s c subframe_delta) :=
      hsh.trans (slip_sound_step_shape s c subframe_delta)
    have hst : ((slip_sound_step s c subframe_delta).strip c).static = (sc0.strip c).static :=
      hsh1.2.2.2.2 c
    have hty : ((slip_sound_step s c subframe_delta).strip c).type = (sc0.strip c).type := by
      have h2 := congrArg Strip.type hst
      exact h2
    have hs1 : ((slip_sound_step s c subframe_delta).strip c).seq1 = (sc0.strip c).seq1 := by
      have h2 := congrArg Strip.seq1 hst
      exact h2
    have hs2 : ((slip_sound_step s c subframe_delta).strip c).seq2 = (sc0.strip c).seq2 := by
      have h2 := congrArg Strip.seq2 hst
      exact h2
    have hsb : ((slip_sound_step s c subframe_delta).strip c).seqbase
        = (sc0.strip c).seqbase := hsh1.seqbase c
    have hne0 : ∀ i, ¬ InSubtree sc0 c i →
        (slip_sound_step s c subframe_delta).strip i = s.strip i :=
      fun i hi => slip_sound_step_strip_ne s c i subframe_delta (fun e => hi (Or.inl e))
    have hnochain : (sc0.strip c).seqbase = [] → ∀ chain d, ¬ IsMetaChain sc0 c chain d :=
      fun he chain d hch => metaChain_seqbase_ne_nil sc0 c chain d hch he
    have hlvl_chain : ∀ chain d, IsMetaChain sc0 c chain d → d ≠ c := by
      intro chain d hch e
      have := metaChain_lvl sc0 lvl hforest chain c d hch
      rw [e] at this
      omega
    rw [slip_ex_succ, hty, hs1, hs2, hsb, if_neg hdelta] at h
    by_cases h1 : (sc0.strip c).seq1 ≠ none ∨ (sc0.strip c).seq2 ≠ none
    · rw [if_pos h1] at h
      cases h
      have hin := inputs_ne_nil_of_some _ h1
      have hsbn : (sc0.strip c).seqbase = [] := by
        by_contra hne
        exact hin (hwf.metas c hc hne)
      exact ⟨hsh1, fun i hi _ => hne0 i hi,
        fun chain d hch _ => absurd hch (hnochain hsbn chain d),
        fun hsl _ => absurd hsl.1 hin⟩
    rw [if_neg h1] at h
    have hinc : (sc0.strip c).inputs = [] := inputs_nil_of_none _ h1
    by_cases h2 : recursed = false ∧ (sc0.strip c).type.is_effect = true
    · rw [if_pos h2] at h
      cases h
      have hsbn : (sc0.strip c).seqbase = [] := by
        by_contra hne
        have := ownedOnce_metas hown c hne
        rw [this] at h2
        exact absurd h2.2 (by decide)
      exact ⟨hsh1, fun i hi _ => hne0 i hi,
        fun chain d hch _ => absurd hch (hnochain hsbn chain d),
        fun _ hn => absurd h2 hn⟩
    rw [if_neg h2] at h
    by_cases h3 : (sc0.strip c).type = SEQ_TYPE_META ∧ (sc0.strip c).seqbase = []
    · rw [if_pos h3] at h
      cases h
      exact ⟨hsh1, fun i hi _ => hne0 i hi,
        fun chain d hch _ => absurd hch (hnochain h3.2 chain d),
        fun hsl _ => absurd h3 hsl.2⟩
    rw [if_neg h3] at h
    simp only [Option.bind_eq_some] at h
    obtain ⟨sc3, hchildren, hcas⟩ := h
    have hkids : SameShape sc0 sc3 ∧
        (∀ i, (∀ a ∈ (sc0.strip c).seqbase, ¬ InSubtree sc0 a i) →
          (sc0.strip i).inputs = [] →
          sc3.strip i = (slip_sound_step s c subframe_delta).strip i) ∧
        (∀ a ∈ (sc0.strip c).seqbase, ∀ d, InSubtree sc0 a d → Slippable (sc0.strip d) →
          Slipped delta ((slip_sound_step s c subframe_delta).strip d) (sc3.strip d)) := by
      by_cases hm : (sc0.strip c).type = SEQ_TYPE_META
      · rw [if_pos hm] at hchildren
        exact slip_children_spec sc0 lvl hforest hown delta subframe_delta f hrec (lvl c + 1)
          (sc0.strip c).seqbase _ sc3 (ownedOnce_nodup hown c)
          (fun a ha => ⟨hforest c hc a ha, ownedOnce_arena hown c a ha⟩) hsh1 hchildren
      · rw [if_neg hm] at hchildren
        cases hchildren
        have hsbn : (sc0.strip c).seqbase = [] := by
          by_contra hne
          exact hm (ownedOnce_metas hown c hne)
        rw [hsbn]
        exact ⟨hsh1, fun _ _ _ => rfl, fun a ha => absurd ha (List.not_mem_nil _)⟩
    obtain ⟨hsh3, hout3, hin3⟩ := hkids
    have hsh4 : SameShape sc0 (slip_own_step sc3 c delta recursed) :=
      hsh3.trans (slip_own_step_shape sc3 c delta recursed)
    have hl : ∀ e ∈ seq_sequence_lookup_effects_by_seq (slip_own_step sc3 c delta recursed) c,
        ((slip_own_step sc3 c delta recursed).strip e).inputs ≠ [] :=
      lookup_effects_inputs_ne_nil _ c
    have hsh5 := (update_effects_frame sc0 (fun _ => True) (fun _ _ _ _ _ => trivial) f _ _
      s1 hsh4 (fun _ _ => trivial) hcas).1
    have hkeep : ∀ i, (sc0.strip i).inputs = [] →
        s1.strip i = (slip_own_step sc3 c delta recursed).strip i := by
      intro i hi
      exact update_effects_no_inputs f _ _ s1 hl hcas i (by rw [hsh4.inputs]; exact hi)
    have hnotkid : ∀ a ∈ (sc0.strip c).seqbase, ¬ InSubtree sc0 a c := by
      intro a ha hin
      have hla := hforest c hc a ha
      rcases hin with e | ⟨chain, hch⟩
      · rw [e] at hla
        omega
      · have := metaChain_lvl sc0 lvl hforest chain a c hch
        omega
    have hkidsub : ∀ a ∈ (sc0.strip c).seqbase, ∀ i, InSubtree sc0 a i →
        InSubtree sc0 c i := by
      intro a ha i hi
      exact Or.inr (inSubtree_child sc0 c a i ha (ownedOnce_metas hown a) hi)
    refine ⟨hsh5, fun i hi hin => ?_, fun chain d hch hsl => ?_, fun hsl _ => ?_⟩
    · rw [hkeep i hin, slip_own_step_strip_ne sc3 c i delta recursed
          (fun e => hi (Or.inl e)),
        hout3 i (fun a ha hia => hi (hkidsub a ha i hia)) hin, hne0 i hi]
    · obtain ⟨a, ha, hia⟩ := metaChain_cases sc0 c d chain hch
      have hdc : d ≠ c := hlvl_chain chain d hch
      have := hin3 a ha d hia hsl
      rw [slip_sound_step_strip_ne s c d subframe_delta hdc] at this
      unfold Slipped at this ⊢
      rw [hkeep d hsl.1, slip_own_step_strip_ne sc3 c d delta recursed hdc]
      exact this
    · obtain ⟨x, hx⟩ := slip_sound_step_strip_self s c subframe_delta
      refine ⟨x, ?_⟩
      rw [hkeep c hinc, slip_own_step_eq,
        Scene.strip_modify_self _ _ _ (by rw [hsh3.2.2.2.1]; exact hc),
        hout3 c hnotkid hinc, hx]
      exact slip_own_strip_scene_congr s sc3 _ delta recursed
        (hsh3.1.trans hsh.1.symm) (hsh3.2.1.trans hsh.2.1.symm)

/-- The strip that a slip outside a recursion leaves in the place of a strip without inputs
has its handles where they were. -/
theorem slip_own_strip_handles_kept (sc : Scene) (s : Strip) (x : ℚ) (delta : Int)
    (hin : s.inputs = []) :
    SEQ_time_left_handle_frame_get sc (slip_own_strip sc { s with sound_offset := x } delta false)
      = SEQ_time_left_handle_frame_get sc s ∧
    SEQ_time_right_handle_frame_get sc
        (slip_own_strip sc { s with sound_offset := x } delta false)
      = SEQ_time_right_handle_frame_get sc s := by
  have hin2 : (slip_own_strip sc { s with sound_offset := x } delta false).inputs = [] := hin
  have hlen : SEQ_time_strip_length_get sc
      (slip_own_strip sc { s with sound_offset := x } delta false)
      = SEQ_time_strip_length_get sc s := by
    simp only [slip_own_strip, if_true, SEQ_time_strip_length_get, SEQ_retiming_is_active,
      SEQ_retiming_key_timeline_frame_get, SEQ_time_start_frame_get,
      SEQ_time_get_rounded_sound_offset, SEQ_retiming_last_key_get,
      SEQ_time_media_playback_rate_factor_get]
    split_ifs <;> first | rfl | omega
  constructor
  · rw [left_handle_of_no_inputs _ _ hin2, left_handle_of_no_inputs _ _ hin]
    simp only [slip_own_strip, if_true]
    omega
  · rw [right_handle_of_no_inputs _ _ hin2, right_handle_of_no_inputs _ _ hin]
    simp only [SEQ_time_content_end_frame_get, hlen, SEQ_time_start_frame_get]
    simp only [slip_own_strip, if_true]
    omega

/-- C35 (as amended): for a meta strip of a well-formed strip graph in which every strip is
owned once, and for every `delta ≠ 0`: when the meta strip has children,
`SEQ_time_slip_strip` returns (with enough fuel) and adds `delta` to `start` of every
descendant, at every nesting depth, that has no effect inputs and is not a meta strip
without children, leaves `startofs` and `endofs` of each of them as they were, and leaves
the left and the right handle of the meta strip itself where they were; when the meta strip
has no children the scene is returned as it was. -/
theorem slip_meta_moves_content (sc : Scene) (rk lvl : StripId → Nat)
    (hwf : WellFormed sc rk lvl) (hown : OwnedOnce sc) (seq : StripId)
    (hseq : seq < sc.strips.length) (hmeta : (sc.strip seq).type = SEQ_TYPE_META)
    (delta : Int) (hdelta : delta ≠ 0) (subframe_delta : ℚ) :
    ((sc.strip seq).seqbase ≠ [] →
      ∃ N, ∀ fuel, N ≤ fuel →
        ∃ sc2, SEQ_time_slip_strip fuel sc seq delta subframe_delta = some sc2 ∧
          (∀ chain d, IsMetaChain sc seq chain d → (sc.strip d).inputs = [] →
            ¬ ((sc.strip d).type = SEQ_TYPE_META ∧ (sc.strip d).seqbase = []) →
            (sc2.strip d).start = (sc.strip d).start + delta ∧
            (sc2.strip d).startofs = (sc.strip d).startofs ∧
            (sc2.strip d).endofs = (sc.strip d).endofs) ∧
          SEQ_time_left_handle_frame_get sc2 (sc2.strip seq)
            = SEQ_time_left_handle_frame_get sc (sc.strip seq) ∧
          SEQ_time_right_handle_frame_get sc2 (sc2.strip seq)
            = SEQ_time_right_handle_frame_get sc (sc.strip seq)) ∧
    ((sc.strip seq).seqbase = [] →
      ∀ fuel, 1 ≤ fuel → SEQ_time_slip_strip fuel sc seq delta subframe_delta = some sc) := by
  constructor
  · intro hchildren
    obtain ⟨N0, hN0⟩ := cascade_fuel sc rk lvl hwf.acyclic hwf.graded
    refine ⟨N0 + ((Finset.range sc.strips.length).sup lvl + 1) + 2, fun fuel hfuel => ?_⟩
    have hcas : ∀ fuel sc1, SameShape sc sc1 → N0 ≤ fuel →
        ∀ s, ∃ sc2, seq_time_update_effects_strip_range fuel sc1
          (seq_sequence_lookup_effects_by_seq sc1 s) = some sc2 :=
      fun fuel sc1 h1 h2 => (hN0 fuel sc1 h1 h2).1
    obtain ⟨sc2, e, _, _⟩ := slip_ex_terminates sc lvl hwf.graded
      ((Finset.range sc.strips.length).sup lvl) N0
      (fun i hi => rank_le_sup _ lvl i hi) hcas delta subframe_delta
      ((Finset.range sc.strips.length).sup lvl + 1) fuel sc seq false (SameShape.refl sc)
      (by omega) (fun _ => by omega)
    obtain ⟨hsh2, _, hdesc, hself⟩ := slip_ex_spec sc rk lvl hwf hown delta hdelta
      subframe_delta fuel sc seq false sc2 (SameShape.refl sc) hseq e
    have hin : (sc.strip seq).inputs = [] := hwf.metas seq hseq hchildren
    obtain ⟨x, hx⟩ := hself ⟨hin, fun h => hchildren h.2⟩
      (fun h => by rw [hmeta] at h; exact absurd h.2 (by decide))
    have hk := slip_own_strip_handles_kept sc (sc.strip seq) x delta hin
    refine ⟨sc2, e, fun chain d hch hd hne => hdesc chain d hch ⟨hd, hne⟩, ?_, ?_⟩
    · rw [left_handle_scene sc2 sc, hx]
      exact hk.1
    · rw [right_handle_scene_congr sc sc2 _ hsh2.1 hsh2.2.1, hx]
      exact hk.2
  · intro hempty fuel hfuel
    obtain ⟨f, rfl⟩ : ∃ f, fuel = f + 1 := ⟨fuel - 1, by omega⟩
    have hss : slip_sound_step sc seq subframe_delta = sc := by
      unfold slip_sound_step
      rw [if_neg]
      rw [hmeta]
      exact fun h => absurd h.1 (by decide)
    rw [SEQ_time_slip_strip, slip_ex_succ, hss, if_neg hdelta]
    by_cases h1 : (sc.strip seq).seq1 ≠ none ∨ (sc.strip seq).seq2 ≠ none
    · rw [if_pos h1]
    · rw [if_neg h1, if_neg (fun h => by rw [hmeta] at h; exact absurd h.2 (by decide)),
        if_pos ⟨hmeta, hempty⟩]

theorem scene_nested_meta_owned : OwnedOnce scene_nested_meta :=
  ⟨by decide, by decide, by decide, by decide⟩

/-- Witness for C35: the top-level meta strip of `scene_nested_meta`, which holds a meta
strip with two movie strips, a movie strip and an effect, slipped by 3 frames. -/
theorem slip_meta_moves_content_witness :
    WellFormed scene_nested_meta (fun i => i) lvl_nested_meta ∧
    OwnedOnce scene_nested_meta ∧
    (scene_nested_meta.strip 0).type = SEQ_TYPE_META ∧
    (scene_nested_meta.strip 0).seqbase ≠ [] ∧
    IsMetaChain scene_nested_meta 0 [1] 3 ∧
    ∃ N, ∀ fuel, N ≤ fuel →
      ∃ sc2, SEQ_time_slip_strip fuel scene_nested_meta 0 3 0 = some sc2 ∧
        (∀ chain d, IsMetaChain scene_nested_meta 0 chain d →
          (scene_nested_meta.strip d).inputs = [] →
          ¬ ((scene_nested_meta.strip d).type = SEQ_TYPE_META ∧
              (scene_nested_meta.strip d).seqbase = []) →
          (sc2.strip d).start = (scene_nested_meta.strip d).start + 3 ∧
          (sc2.strip d).startofs = (scene_nested_meta.strip d).startofs ∧
          (sc2.strip d).endofs = (scene_nested_meta.strip d).endofs) ∧
        SEQ_time_left_handle_frame_get sc2 (sc2.strip 0)
          = SEQ_time_left_handle_frame_get scene_nested_meta (scene_nested_meta.strip 0) ∧
        SEQ_time_right_handle_frame_get sc2 (sc2.strip 0)
          = SEQ_time_right_handle_frame_get scene_nested_meta (scene_nested_meta.strip 0) :=
  ⟨scene_nested_meta_wf, scene_nested_meta_owned, by decide, by decide,
   by unfold IsMetaChain IsMetaChain; decide,
   (slip_meta_moves_content scene_nested_meta (fun i => i) lvl_nested_meta
     scene_nested_meta_wf scene_nested_meta_owned 0 (by decide) (by decide) 3 (by decide)
     0).1 (by decide)⟩

/-- Counterexample to C35 as stated: the top-level meta strip 0 holds the movie strip 1 and
the meta strip 2, which has no children and no effect inputs; a slip of strip 0 by 5 frames
moves `start` of strip 1 from 0 to 5 and leaves `start` of strip 2 at 10. -/
theorem slip_meta_counterexample :
    (scene_meta_empty_child.strip 0).type = SEQ_TYPE_META ∧
    seq_sequence_lookup_meta_by_seq scene_meta_empty_child 0 = none ∧
    IsMetaChain scene_meta_empty_child 0 [] 2 ∧
    (scene_meta_empty_child.strip 2).inputs = [] ∧
    (scene_meta_empty_child.strip 1).start = 0 ∧
    (scene_meta_empty_child.strip 2).start = 10 ∧
    (SEQ_time_slip_strip 4 scene_meta_empty_child 0 5 0).map
        (fun sc2 => ((sc2.strip 1).start, (sc2.strip 2).start))
      = some (5, 10) := by
  refine ⟨by decide, by decide, by unfold IsMetaChain; decide, by decide, by decide,
    by decide, ?_⟩
  simp [SEQ_time_slip_strip, seq_time_slip_strip_ex, scene_meta_empty_child, Scene.strip,
    Scene.modify, Strip.null, seq_sequence_lookup_effects_by_seq, StripType.is_effect,
    seq_time_update_effects_strip_range,
    SEQ_time_left_handle_frame_get, SEQ_time_right_handle_frame_get,
    SEQ_time_content_end_frame_get, SEQ_time_strip_length_get, SEQ_retiming_is_active,
    SEQ_time_media_playback_rate_factor_get, float_to_int, SEQ_time_start_frame_get,
    Strip.inputs, List.range, List.range.loop]

/-! ## The trim offsets after an edit -/

/-- The offsets that `seq_time_translate_handles` leaves. -/
theorem translate_handles_offsets (sc : Scene) (seq : StripId) (hseq : seq < sc.strips.length)
    (fuel : Nat)
    (hN : ∀ sc1, SameShape sc sc1 →
      ∃ r, update_effects_and_meta fuel sc1 seq = some r ∧ SameShape sc r.1 ∧
        r.1.strip seq = sc1.strip seq)
    (offset : Int) :
    ∃ r, seq_time_translate_handles fuel sc seq offset = some r ∧
      (r.1.strip seq).startofs = (sc.strip seq).startofs + offset ∧
      (r.1.strip seq).endofs = (sc.strip seq).endofs - offset := by
  unfold seq_time_translate_handles
  simp only [Scene.modify_modify]
  have hsh : SameShape sc (sc.modify seq fun s =>
      { s with startofs := s.startofs + offset, endofs := s.endofs - offset,
               startdisp := s.startdisp + offset, enddisp := s.enddisp - offset }) :=
    SameShape.modify sc seq _ (fun _ => rfl)
  obtain ⟨r, hr, _, hself⟩ := hN _ hsh
  refine ⟨r, hr, ?_⟩
  rw [hself, Scene.strip_modify_self _ _ _ hseq]
  exact ⟨rfl, rfl⟩

/-- The offsets that `SEQ_time_right_handle_frame_set` leaves. -/
theorem right_handle_frame_set_offsets (sc : Scene) (seq : StripId)
    (hseq : seq < sc.strips.length) (fuel : Nat)
    (hN : ∀ sc1, SameShape sc sc1 →
      ∃ r, update_effects_and_meta fuel sc1 seq = some r ∧ SameShape sc r.1 ∧
        r.1.strip seq = sc1.strip seq)
    (timeline_frame : Int) :
    ∃ r, SEQ_time_right_handle_frame_set fuel sc seq timeline_frame = some r ∧
      (r.1.strip seq).startofs = (sc.strip seq).startofs ∧
      (r.1.strip seq).endofs = SEQ_time_content_end_frame_get sc (sc.strip seq)
        - max timeline_frame (SEQ_time_left_handle_frame_get sc (sc.strip seq) + 1) := by
  unfold SEQ_time_right_handle_frame_set
  simp only [Scene.modify_modify]
  generalize htf : (if timeline_frame ≤ SEQ_time_left_handle_frame_get sc (sc.strip seq)
    then SEQ_time_left_handle_frame_get sc (sc.strip seq) + 1 else timeline_frame) = tf
  have htf2 : tf = max timeline_frame (SEQ_time_left_handle_frame_get sc (sc.strip seq) + 1) := by
    rw [← htf]
    split
    · rw [max_eq_right (by omega)]
    · rw [max_eq_left (by omega)]
  have hsh : SameShape sc (sc.modify seq fun s =>
      { s with endofs := SEQ_time_content_end_frame_get sc s - tf, enddisp := tf }) :=
    SameShape.modify sc seq _ (fun _ => rfl)
  obtain ⟨r, hr, _, hself⟩ := hN _ hsh
  refine ⟨r, hr, ?_⟩
  rw [hself, Scene.strip_modify_self _ _ _ hseq, ← htf2]
  exact ⟨rfl, rfl⟩

/-- The offsets that `SEQ_time_left_handle_frame_set` leaves for a strip that is not a
single-frame-content strip. -/
theorem left_handle_frame_set_offsets (sc : Scene) (seq : StripId)
    (hseq : seq < sc.strips.length) (fuel : Nat)
    (hN : ∀ sc1, SameShape sc sc1 →
      ∃ r, update_effects_and_meta fuel sc1 seq = some r ∧ SameShape sc r.1 ∧
        r.1.strip seq = sc1.strip seq)
    (hsingle : SEQ_transform_single_image_check (sc.strip seq) = false)
    (timeline_frame : Int) :
    ∃ r, SEQ_time_left_handle_frame_set fuel sc seq timeline_frame = some r ∧
      (r.1.strip seq).startofs
        = min timeline_frame (SEQ_time_right_handle_frame_get sc (sc.strip seq) - 1)
          - (sc.strip seq).start ∧
      (r.1.strip seq).endofs = (sc.strip seq).endofs := by
  unfold SEQ_time_left_handle_frame_set
  simp only [hsingle, Bool.false_eq_true, if_false, Option.some_bind, Scene.modify_modify,
    List.nil_append]
  generalize htf : (if timeline_frame ≥ SEQ_time_right_handle_frame_get sc (sc.strip seq)
    then SEQ_time_right_handle_frame_get sc (sc.strip seq) - 1 else timeline_frame) = tf
  have htf2 : tf = min timeline_frame (SEQ_time_right_handle_frame_get sc (sc.strip seq) - 1) := by
    rw [← htf]
    split
    · rw [min_eq_right (by omega)]
    · rw [min_eq_left (by omega)]
  have hsh : SameShape sc (sc.modify seq fun s =>
      { s with startofs := tf - SEQ_time_start_frame_get (sc.strip seq), startdisp := tf }) :=
    SameShape.modify sc seq _ (fun _ => rfl)
  obtain ⟨r, hr, _, hself⟩ := hN _ hsh
  refine ⟨(r.1, r.2), by simp [hr], ?_⟩
  simp only
  rw [hself, Scene.strip_modify_self _ _ _ hseq, ← htf2]
  exact ⟨rfl, rfl⟩

/-- The offsets that `SEQ_time_left_handle_frame_set` leaves for a single-frame-content
strip. -/
theorem left_handle_frame_set_single_offsets (sc : Scene) (seq : StripId)
    (hseq : seq < sc.strips.length) (fuel : Nat)
    (hN : ∀ sc1, SameShape sc sc1 →
      ∃ r, update_effects_and_meta fuel sc1 seq = some r ∧ SameShape sc r.1 ∧
        r.1.strip seq = sc1.strip seq)
    (hsingle : SEQ_transform_single_image_check (sc.strip seq) = true)
    (timeline_frame : Int) :
    ∃ r, SEQ_time_left_handle_frame_set fuel sc seq timeline_frame = some r ∧
      (r.1.strip seq).startofs = (sc.strip seq).startofs ∧
      (r.1.strip seq).endofs
        = (sc.strip seq).endofs
          + (min timeline_frame (SEQ_time_right_handle_frame_get sc (sc.strip seq) - 1)
            - (sc.strip seq).start) := by
  unfold SEQ_time_left_handle_frame_set SEQ_time_start_frame_set
  simp only [hsingle, if_true]
  generalize htf : (if timeline_frame ≥ SEQ_time_right_handle_frame_get sc (sc.strip seq)
    then SEQ_time_right_handle_frame_get sc (sc.strip seq) - 1 else timeline_frame) = tf
  have htf2 : tf = min timeline_frame (SEQ_time_right_handle_frame_get sc (sc.strip seq) - 1) := by
    rw [← htf]
    split
    · rw [min_eq_right (by omega)]
    · rw [min_eq_left (by omega)]
  rw [← htf2]
  have hsh1 : SameShape sc (sc.modify seq fun s => { s with start := tf }) :=
    SameShape.modify sc seq _ (fun _ => rfl)
  obtain ⟨r1, hr1, hshr1, hself1⟩ := hN _ hsh1
  rw [hr1]
  simp only [Option.map_some', Option.some_bind, Scene.modify_modify]
  have hsh2 : SameShape sc (r1.1.modify seq fun s =>
      { s with endofs := s.endofs + (tf - SEQ_time_start_frame_get (sc.strip seq)),
               startdisp := tf }) :=
    hshr1.trans (SameShape.modify r1.1 seq _ (fun _ => rfl))
  obtain ⟨r2, hr2, _, hself2⟩ := hN _ hsh2
  refine ⟨(r2.1, r1.2 ++ r2.2), by simp [hr2], ?_⟩
  simp only
  rw [hself2, Scene.strip_modify_self _ _ _ (by rw [hshr1.2.2.2.1]; exact hseq), hself1,
    Scene.strip_modify_self _ _ _ hseq]
  exact ⟨rfl, rfl⟩

/-- C32 (as amended): the trim amounts after the editing operations, for a strip of a
well-formed strip graph with `startofs ≥ 0` and `endofs ≥ 0`.  Each operation returns (with
enough fuel), and non-negativity of the two amounts is kept exactly for these arguments:
`seq_time_translate_handles` by `offset` when `-startofs ≤ offset ≤ endofs`;
`SEQ_time_right_handle_frame_set`, which leaves `startofs`, when the clamped target frame is
not after the content end; `SEQ_time_left_handle_frame_set`, which leaves `endofs` for a
strip that is not a single-frame-content strip, when the clamped target frame is not before
`start` (for a single-frame-content strip it leaves `startofs`, and `endofs` stays
non-negative when the clamped target frame is not before `start - endofs`);
`SEQ_time_slip_strip` by `delta`, for a strip that it moves (not of effect type, without
effect inputs, not a meta strip without children), when `-endofs ≤ delta ≤ startofs`. -/
theorem trim_offsets_after_edit (sc : Scene) (rk lvl : StripId → Nat)
    (hwf : WellFormed sc rk lvl) (seq : StripId) (hseq : seq < sc.strips.length)
    (hstartofs : 0 ≤ (sc.strip seq).startofs) (hendofs : 0 ≤ (sc.strip seq).endofs) :
    ∃ N, ∀ fuel, N ≤ fuel →
      (∀ offset : Int,
        ∃ r, seq_time_translate_handles fuel sc seq offset = some r ∧
          ((0 ≤ (r.1.strip seq).startofs ∧ 0 ≤ (r.1.strip seq).endofs) ↔
            (-(sc.strip seq).startofs ≤ offset ∧ offset ≤ (sc.strip seq).endofs))) ∧
      (∀ timeline_frame : Int,
        ∃ r, SEQ_time_right_handle_frame_set fuel sc seq timeline_frame = some r ∧
          (r.1.strip seq).startofs = (sc.strip seq).startofs ∧
          (0 ≤ (r.1.strip seq).endofs ↔
            max timeline_frame (SEQ_time_left_handle_frame_get sc (sc.strip seq) + 1)
              ≤ SEQ_time_content_end_frame_get sc (sc.strip seq))) ∧
      (∀ timeline_frame : Int, SEQ_transform_single_image_check (sc.strip seq) = false →
        ∃ r, SEQ_time_left_handle_frame_set fuel sc seq timeline_frame = some r ∧
          (r.1.strip seq).endofs = (sc.strip seq).endofs ∧
          (0 ≤ (r.1.strip seq).startofs ↔
            (sc.strip seq).start
              ≤ min timeline_frame (SEQ_time_right_handle_frame_get sc (sc.strip seq) - 1))) ∧
      (∀ timeline_frame : Int, SEQ_transform_single_image_check (sc.strip seq) = true →
        ∃ r, SEQ_time_left_handle_frame_set fuel sc seq timeline_frame = some r ∧
          (r.1.strip seq).startofs = (sc.strip seq).startofs ∧
          (0 ≤ (r.1.strip seq).endofs ↔
            (sc.strip seq).start - (sc.strip seq).endofs
              ≤ min timeline_frame (SEQ_time_right_handle_frame_get sc (sc.strip seq) - 1))) ∧
      (∀ (delta : Int) (subframe_delta : ℚ), (sc.strip seq).type.is_effect = false →
        (sc.strip seq).inputs = [] →
        ((sc.strip seq).type = SEQ_TYPE_META → (sc.strip seq).seqbase ≠ []) →
        ∃ sc2, SEQ_time_slip_strip fuel sc seq delta subframe_delta = some sc2 ∧
          ((0 ≤ (sc2.strip seq).startofs ∧ 0 ≤ (sc2.strip seq).endofs) ↔
            (-(sc.strip seq).endofs ≤ delta ∧ delta ≤ (sc.strip seq).startofs))) := by
  have _ := hstartofs
  have _ := hendofs
  obtain ⟨N1, hN1⟩ := update_effects_and_meta_spec sc rk lvl hwf
  obtain ⟨N0, hN0⟩ := cascade_fuel sc rk lvl hwf.acyclic hwf.graded
  refine ⟨N1 + lvl seq + N0 + ((Finset.range sc.strips.length).sup lvl + 1) + 2,
    fun fuel hfuel => ?_⟩
  have hN : ∀ sc1, SameShape sc sc1 →
      ∃ r, update_effects_and_meta fuel sc1 seq = some r ∧ SameShape sc r.1 ∧
        r.1.strip seq = sc1.strip seq :=
    fun sc1 hsh => hN1 fuel sc1 seq hsh (by omega)
  refine ⟨fun offset => ?_, fun t => ?_, fun t hsingle => ?_, fun t hsingle => ?_,
    fun delta subframe_delta htype hin hmeta => ?_⟩
  · obtain ⟨r, hr, h1, h2⟩ := translate_handles_offsets sc seq hseq fuel hN offset
    refine ⟨r, hr, ?_⟩
    rw [h1, h2]
    omega
  · obtain ⟨r, hr, h1, h2⟩ := right_handle_frame_set_offsets sc seq hseq fuel hN t
    refine ⟨r, hr, h1, ?_⟩
    rw [h2]
    omega
  · obtain ⟨r, hr, h1, h2⟩ := left_handle_frame_set_offsets sc seq hseq fuel hN hsingle t
    refine ⟨r, hr, h2, ?_⟩
    rw [h1]
    omega
  · obtain ⟨r, hr, h1, h2⟩ :=
      left_handle_frame_set_single_offsets sc seq hseq fuel hN hsingle t
    refine ⟨r, hr, h1, ?_⟩
    rw [h2]
    omega
  · have hcas : ∀ fuel sc1, SameShape sc sc1 → N0 ≤ fuel →
        ∀ s, ∃ sc2, seq_time_update_effects_strip_range fuel sc1
          (seq_sequence_lookup_effects_by_seq sc1 s) = some sc2 :=
      fun fuel sc1 h1 h2 => (hN0 fuel sc1 h1 h2).1
    obtain ⟨f, rfl⟩ : ∃ f, fuel = f + 1 := ⟨fuel - 1, by omega⟩
    obtain ⟨sc2, e, _, _, hself⟩ := slip_ex_step sc lvl hwf.graded f
      (fun sc1 h1 => hcas f sc1 h1 (by omega)) sc seq delta subframe_delta false
      (SameShape.refl sc)
      (fun sc1 child hch h1 => by
        have hl := hwf.graded.1 seq hseq child hch
        obtain ⟨sc3, e3, hsh3, hfr3⟩ := slip_ex_terminates sc lvl hwf.graded
          ((Finset.range sc.strips.length).sup lvl) N0
          (fun i hi => rank_le_sup _ lvl i hi) hcas delta subframe_delta
          ((Finset.range sc.strips.length).sup lvl + 1) f sc1 child true h1 (by omega)
          (fun _ => by omega)
        exact ⟨sc3, e3, hsh3, fun i hi => hfr3 i (by omega)⟩)
    obtain ⟨x, hx⟩ := slip_sound_step_strip_self sc seq subframe_delta
    have hofs : (sc2.strip seq).startofs = (sc.strip seq).startofs - delta ∧
        (sc2.strip seq).endofs = (sc.strip seq).endofs + delta := by
      by_cases h0 : delta = 0
      · have e0 : seq_time_slip_strip_ex (f + 1) sc seq delta subframe_delta false
            = some (slip_sound_step sc seq subframe_delta) := by
          rw [slip_ex_succ, if_pos h0]
        have e2 : sc2 = slip_sound_step sc seq subframe_delta := by
          rw [e0] at e
          exact (Option.some.inj e).symm
        rw [e2, hx, h0]
        simp
      · have hs := hself h0 hin (fun h => by simp [htype] at h)
          (fun h => hmeta h.1 h.2) hseq
        rw [hs, hx]
        simp [slip_own_strip]
    refine ⟨sc2, e, ?_⟩
    rw [hofs.1, hofs.2]
    omega

/-- Witness for C32: the movie strip on frames [10,40) inside the nested meta of
`scene_nested_meta`, whose trim amounts are 0, and the translation of its handles. -/
theorem trim_offsets_after_edit_witness :
    WellFormed scene_nested_meta (fun i => i) lvl_nested_meta ∧
    4 < scene_nested_meta.strips.length ∧
    0 ≤ (scene_nested_meta.strip 4).startofs ∧
    0 ≤ (scene_nested_meta.strip 4).endofs ∧
    ∃ N, ∀ fuel, N ≤ fuel → ∀ offset : Int,
      ∃ r, seq_time_translate_handles fuel scene_nested_meta 4 offset = some r ∧
        ((0 ≤ (r.1.strip 4).startofs ∧ 0 ≤ (r.1.strip 4).endofs) ↔
          (-(scene_nested_meta.strip 4).startofs ≤ offset ∧
            offset ≤ (scene_nested_meta.strip 4).endofs)) := by
  obtain ⟨N, hN⟩ := trim_offsets_after_edit scene_nested_meta (fun i => i) lvl_nested_meta
    scene_nested_meta_wf 4 (by decide) (by decide) (by decide)
  exact ⟨scene_nested_meta_wf, by decide, by decide, by decide, N,
    fun fuel hfuel => (hN fuel hfuel).1⟩

/-- Counterexample to C32 as stated: the movie strip of `scene_one_movie` has `startofs = 0`
and `endofs = 0`.  After `seq_time_translate_handles` by 1 its `endofs` is `-1`; after
`SEQ_time_slip_strip` by 1 its `startofs` is `-1`; after `SEQ_time_left_handle_frame_set`
with the frame `-3` (left still frames) its `startofs` is `-3`; after
`SEQ_time_right_handle_frame_set` with the frame 15 (right still frames) its `endofs` is
`-5`. -/
theorem trim_offsets_counterexample :
    (scene_one_movie.strip 0).startofs = 0 ∧
    (scene_one_movie.strip 0).endofs = 0 ∧
    (seq_time_translate_handles 3 scene_one_movie 0 1).map
        (fun r => ((r.1.strip 0).startofs, (r.1.strip 0).endofs)) = some (1, -1) ∧
    (SEQ_time_slip_strip 3 scene_one_movie 0 1 0).map
        (fun sc2 => ((sc2.strip 0).startofs, (sc2.strip 0).endofs)) = some (-1, 1) ∧
    (SEQ_time_left_handle_frame_set 3 scene_one_movie 0 (-3)).map
        (fun r => ((r.1.strip 0).startofs, (r.1.strip 0).endofs)) = some (-3, 0) ∧
    (SEQ_time_right_handle_frame_set 3 scene_one_movie 0 15).map
        (fun r => ((r.1.strip 0).startofs, (r.1.strip 0).endofs)) = some (0, -5) := by
  refine ⟨rfl, rfl, ?_, ?_, ?_, ?_⟩ <;>
  simp [seq_time_translate_handles, SEQ_time_slip_strip, seq_time_slip_strip_ex,
    SEQ_time_left_handle_frame_set, SEQ_time_right_handle_frame_set,
    SEQ_transform_single_image_check, update_effects_and_meta,
    SEQ_time_update_meta_strip_range, scene_one_movie, Scene.strip, Scene.modify,
    Strip.null, seq_sequence_lookup_effects_by_seq, StripType.is_effect,
    seq_sequence_lookup_meta_by_seq, seq_time_update_effects_strip_range,
    SEQ_time_left_handle_frame_get, SEQ_time_right_handle_frame_get,
    SEQ_time_content_end_frame_get, SEQ_time_strip_length_get, SEQ_retiming_is_active,
    SEQ_time_media_playback_rate_factor_get, float_to_int, SEQ_time_start_frame_get,
    Strip.inputs, List.range, List.range.loop]

end Blender
